import Mathlib

/-!
# valac code generator (`vala/valac/generator.c`)

A shallow embedding of the code-generation core: the symbol graph handed over by the
front-end is a store of records addressed by pointers, the expression tree is an inductive
type whose nodes carry the writable decoration fields, and the functions of `generator.c`
are functions over them.  C pointers are indices into the store; `NULL` is `none`.
The emitter is a function to the text it writes on the C and header streams together with
the way the run ends, so that the text written before a diagnostic is kept.
-/

namespace Vala

/-! ## Pointers and plain data -/

/-- Pointer to a `ValaSymbol` of the store. -/
abbrev SymPtr := Nat
/-- Pointer to a `ValaClass` of the store. -/
abbrev ClassPtr := Nat
/-- Pointer to a `ValaMethod` of the store. -/
abbrev MethodPtr := Nat
/-- Pointer to a `ValaField` of the store. -/
abbrev FieldPtr := Nat
/-- Pointer to a `ValaProperty` of the store. -/
abbrev PropertyPtr := Nat
/-- Pointer to a `ValaNamespace` of the store. -/
abbrev NamespacePtr := Nat
/-- Pointer to a `ValaSourceFile` of the store. -/
abbrev SourceFilePtr := Nat
/-- Pointer to a `ValaStruct` of the store. -/
abbrev StructPtr := Nat
/-- Pointer to a `ValaEnum` of the store. -/
abbrev EnumPtr := Nat
/-- Pointer to a `ValaEnumValue` of the store. -/
abbrev EnumValuePtr := Nat
/-- Pointer to a `ValaConstant` of the store. -/
abbrev ConstantPtr := Nat

/-- Modelled from the spec: `ValaLocation` is declared in context.h, which is not among the
sources; §6 gives a location as `file:line:col`. -/
structure ValaLocation where
  filename : String
  lineno : Nat
  colno : Nat
  deriving DecidableEq, Repr

/-- Modelled from the spec: the tags of `ValaSymbolType` (context.h is not among the sources);
these are the eleven tags `generator.c` names, which are the ten of the §3 data model and
`VOID`. -/
inductive ValaSymbolType where
  | CLASS | STRUCT | ENUM | ENUM_VALUE | NAMESPACE | METHOD | FIELD | PROPERTY
  | LOCAL_VARIABLE | BLOCK | VOID
  deriving DecidableEq, Repr

/-- Modelled from the spec: `ValaModifierFlags` (context.h is not among the sources) is a set
of the six modifiers of §3; `modifiers & VALA_MODIFIER_X` is the field `X`, and `==` on flag
words is equality of the records. -/
structure ValaModifierFlags where
  PUBLIC : Bool := false
  PRIVATE : Bool := false
  STATIC : Bool := false
  ABSTRACT : Bool := false
  VIRTUAL : Bool := false
  OVERRIDE : Bool := false
  deriving DecidableEq, Repr

/-- Operator kinds of an operation expression (`VALA_OP_TYPE_*`). -/
inductive ValaOpType where
  | PLUS | MINUS | MUL | DIV | EQ | NE | LT | GT | LE | GE | NEG | AND | OR
  | BITWISE_AND | BITWISE_OR
  deriving DecidableEq, Repr

/-- A `ValaTypeReference`: the resolved type symbol, the array flag and the literal type name
(`NULL` for an inferred `var` type). -/
structure ValaTypeReference where
  symbol : Option SymPtr := none
  array_type : Bool := false
  type_name : Option String := none
  deriving DecidableEq, Repr

/-- A `GHashTable` from names to symbols, as an association list read by its first match. -/
abbrev GHashTable := List (String × SymPtr)

/-- The glib lookup: the value stored under `key`, or `NULL`. -/
def g_hash_table_lookup (table : GHashTable) (key : String) : Option SymPtr :=
  table.lookup key

/-! ## Expressions and statements -/

/-- The fields every `ValaExpression` has besides its variant: the source location, the
writable decoration the resolver fills in, and the ref/out markers of a use-site. -/
structure ExprInfo where
  location : Option ValaLocation := none
  static_type_symbol : Option SymPtr := none
  array_type : Bool := false
  field : Option FieldPtr := none
  property : Option PropertyPtr := none
  static_symbol : Option SymPtr := none
  ref_variable : Bool := false
  out_variable : Bool := false
  deriving DecidableEq, Repr

/-- A `ValaExpression`: one constructor per `VALA_EXPRESSION_TYPE_*` tag, with the members of
the matching union arm. -/
inductive ValaExpression where
  | ASSIGNMENT (i : ExprInfo) (left right : ValaExpression)
  | CAST (i : ExprInfo) (type : ValaTypeReference) (inner : ValaExpression)
  | ELEMENT_ACCESS (i : ExprInfo) (array index : ValaExpression)
  | INVOCATION (i : ExprInfo) (call : ValaExpression) (instance_ : Option ValaExpression)
      (argument_list : List ValaExpression)
  | IS (i : ExprInfo) (type : ValaTypeReference) (expr : ValaExpression)
  | MEMBER_ACCESS (i : ExprInfo) (left : ValaExpression) (right : String)
  | OBJECT_CREATION (i : ExprInfo) (type : ValaTypeReference)
      (named_argument_list : List (String × ValaExpression))
  | OPERATION (i : ExprInfo) (type : ValaOpType) (left : Option ValaExpression)
      (right : ValaExpression)
  | PARENTHESIZED (i : ExprInfo) (inner : ValaExpression)
  | POSTFIX (i : ExprInfo) (inner : ValaExpression) (cop : String)
  | LITERAL_BOOLEAN (i : ExprInfo) (num : Bool)
  | LITERAL_CHARACTER (i : ExprInfo) (str : String)
  | LITERAL_INTEGER (i : ExprInfo) (str : String)
  | LITERAL_NULL (i : ExprInfo)
  | LITERAL_STRING (i : ExprInfo) (str : String)
  | SIMPLE_NAME (i : ExprInfo) (str : String)
  | STRUCT_OR_ARRAY_INITIALIZER (i : ExprInfo) (list : List ValaExpression)
  | THIS_ACCESS (i : ExprInfo)
  deriving Repr

/-- The common fields of an expression node. -/
def ValaExpression.info : ValaExpression → ExprInfo
  | .ASSIGNMENT i _ _ => i
  | .CAST i _ _ => i
  | .ELEMENT_ACCESS i _ _ => i
  | .INVOCATION i _ _ _ => i
  | .IS i _ _ => i
  | .MEMBER_ACCESS i _ _ => i
  | .OBJECT_CREATION i _ _ => i
  | .OPERATION i _ _ _ => i
  | .PARENTHESIZED i _ => i
  | .POSTFIX i _ _ => i
  | .LITERAL_BOOLEAN i _ => i
  | .LITERAL_CHARACTER i _ => i
  | .LITERAL_INTEGER i _ => i
  | .LITERAL_NULL i => i
  | .LITERAL_STRING i _ => i
  | .SIMPLE_NAME i _ => i
  | .STRUCT_OR_ARRAY_INITIALIZER i _ => i
  | .THIS_ACCESS i => i

/-- Reads `expr->location`. -/
def ValaExpression.location (e : ValaExpression) : Option ValaLocation := e.info.location
/-- Reads `expr->static_type_symbol`. -/
def ValaExpression.static_type_symbol (e : ValaExpression) : Option SymPtr :=
  e.info.static_type_symbol
/-- Reads `expr->array_type`. -/
def ValaExpression.array_type (e : ValaExpression) : Bool := e.info.array_type
/-- Reads `expr->field`. -/
def ValaExpression.field (e : ValaExpression) : Option FieldPtr := e.info.field
/-- Reads `expr->property`. -/
def ValaExpression.property (e : ValaExpression) : Option PropertyPtr := e.info.property
/-- Reads `expr->static_symbol`. -/
def ValaExpression.static_symbol (e : ValaExpression) : Option SymPtr := e.info.static_symbol

/-- The declarator of a variable declaration: the name and the optional initializer. -/
structure ValaVariableDeclarator where
  name : String
  initializer : Option ValaExpression := none
  deriving Repr

/-- A `ValaVariableDeclaration`: the declared type and the declarator. -/
structure ValaVariableDeclaration where
  type : ValaTypeReference
  declarator : ValaVariableDeclarator
  deriving Repr

/-- The fields every `ValaStatement` has besides its variant: the source location and, for a
body, the symbol of the method it belongs to (`stmt->method`). -/
structure StmtInfo where
  location : Option ValaLocation := none
  method : Option SymPtr := none
  deriving DecidableEq, Repr

/-- A `ValaStatement`: one constructor per `VALA_STATEMENT_TYPE_*` tag; `OTHER` stands for any
tag the statement switch sends to its `default` arm. -/
inductive ValaStatement where
  | BLOCK (i : StmtInfo) (statements : List ValaStatement)
  | EXPRESSION (i : StmtInfo) (expr : ValaExpression)
  | VARIABLE_DECLARATION (i : StmtInfo) (variable_declaration : ValaVariableDeclaration)
  | WHILE (i : StmtInfo) (condition : ValaExpression) (loop : ValaStatement)
  | FOR (i : StmtInfo) (initializer : List ValaExpression) (condition : ValaExpression)
      (iterator : List ValaExpression) (loop : ValaStatement)
  | FOREACH (i : StmtInfo) (type : ValaTypeReference) (name : String)
      (container : ValaExpression) (loop : ValaStatement)
  | IF (i : StmtInfo) (condition : ValaExpression) (true_stmt : ValaStatement)
      (false_stmt : Option ValaStatement)
  | RETURN (i : StmtInfo) (expr : Option ValaExpression)
  | OTHER (i : StmtInfo)
  deriving Repr

/-- The common fields of a statement node. -/
def ValaStatement.info : ValaStatement → StmtInfo
  | .BLOCK i _ => i
  | .EXPRESSION i _ => i
  | .VARIABLE_DECLARATION i _ => i
  | .WHILE i _ _ => i
  | .FOR i _ _ _ _ => i
  | .FOREACH i _ _ _ _ => i
  | .IF i _ _ _ => i
  | .RETURN i _ => i
  | .OTHER i => i

/-- Reads `stmt->variable_declaration`; the union arm is there only for a variable
declaration statement. -/
def ValaStatement.variable_declaration : ValaStatement → Option ValaVariableDeclaration
  | .VARIABLE_DECLARATION _ vd => some vd
  | _ => none

/-! ## The symbol graph -/

/-- A `ValaSymbol`: the type tag, the nested symbol table, and the back-pointers to the
declarator (the one matching the tag is set). -/
structure ValaSymbol where
  type : ValaSymbolType
  symbol_table : GHashTable := []
  class_ : Option ClassPtr := none
  struct_ : Option StructPtr := none
  enum_ : Option EnumPtr := none
  enum_value : Option EnumValuePtr := none
  method : Option MethodPtr := none
  field : Option FieldPtr := none
  property : Option PropertyPtr := none
  stmt : Option ValaStatement := none
  typeref : Option ValaTypeReference := none
  deriving Repr

/-- A `ValaClass`: the base class is `NULL` for a root or imported class. -/
structure ValaClass where
  name : String := ""
  cname : String := ""
  lower_case_cname : String := ""
  upper_case_cname : String := ""
  base_class : Option ClassPtr := none
  symbol : SymPtr
  namespace_ : NamespacePtr
  fields : List FieldPtr := []
  methods : List MethodPtr := []
  properties : List PropertyPtr := []
  constants : List ConstantPtr := []
  has_private_fields : Bool := false
  init_method : Option MethodPtr := none
  class_init_method : Option MethodPtr := none
  deriving Repr

/-- A `ValaNamespace`; the name is `NULL` for the global namespace. -/
structure ValaNamespace where
  name : Option String := none
  lower_case_cname : String := ""
  upper_case_cname : String := ""
  symbol : SymPtr
  source_file : SourceFilePtr
  import_ : Bool := false
  include_filename : Option String := none
  classes : List ClassPtr := []
  structs : List StructPtr := []
  enums : List EnumPtr := []
  methods : List MethodPtr := []
  deriving Repr

/-- A `ValaSourceFile`; the using directives are namespace names, the dependant types are
symbols. -/
structure ValaSourceFile where
  filename : String := ""
  using_directives : List String := []
  root_namespace : Option NamespacePtr := none
  namespaces : List NamespacePtr := []
  dep_types : List SymPtr := []
  deriving Repr

/-- A formal parameter of a method. -/
structure ValaFormalParameter where
  name : String
  type : ValaTypeReference
  location : Option ValaLocation := none
  deriving Repr

/-- A `ValaMethod`. -/
structure ValaMethod where
  name : String := ""
  modifiers : ValaModifierFlags := {}
  return_type : ValaTypeReference := {}
  class_ : Option ClassPtr := none
  formal_parameters : List ValaFormalParameter := []
  body : Option ValaStatement := none
  location : Option ValaLocation := none
  returns_modified_pointer : Bool := false
  instance_last : Bool := false
  is_struct_method : Bool := false
  cname : Option String := none
  cparameters : Option String := none
  cdecl1 : Option String := none
  virtual_super_class : Option ClassPtr := none
  deriving Repr

/-- A `ValaField`; the declared type is that of its declaration statement. -/
structure ValaField where
  name : String := ""
  modifiers : ValaModifierFlags := {}
  class_ : Option ClassPtr := none
  namespace_ : Option NamespacePtr := none
  cname : Option String := none
  is_struct_field : Bool := false
  declaration_statement : ValaStatement
  deriving Repr

/-- A `ValaProperty`. -/
structure ValaProperty where
  name : String := ""
  return_type : ValaTypeReference := {}
  class_ : Option ClassPtr := none
  get_statement : Option ValaStatement := none
  set_statement : Option ValaStatement := none
  location : Option ValaLocation := none
  deriving Repr

/-- A `ValaConstant`: the declaration statement holds the type, the name and the value. -/
structure ValaConstant where
  declaration_statement : ValaStatement
  deriving Repr

/-- A `ValaStruct`: the shape of a class without inheritance; `reference_type` tells a pointer
type from a value type. -/
structure ValaStruct where
  name : String := ""
  cname : String := ""
  lower_case_cname : String := ""
  upper_case_cname : String := ""
  reference_type : Bool := false
  namespace_ : NamespacePtr := 0
  methods : List MethodPtr := []
  deriving Repr

/-- A `ValaEnumValue`, with its C name. -/
structure ValaEnumValue where
  name : String := ""
  cname : String := ""
  deriving Repr

/-- A `ValaEnum`, with its C name and its ordered values. -/
structure ValaEnum where
  name : String := ""
  cname : String := ""
  upper_case_cname : String := ""
  namespace_ : NamespacePtr := 0
  values : List EnumValuePtr := []
  deriving Repr

/-- The store: the objects of the symbol graph built by the front-end, each kind in its own
table; a pointer is an index into the table of its kind. -/
structure Store where
  symbols : List ValaSymbol := []
  classes : List ValaClass := []
  methods : List ValaMethod := []
  fields : List ValaField := []
  properties : List ValaProperty := []
  namespaces : List ValaNamespace := []
  source_files : List ValaSourceFile := []
  structs : List ValaStruct := []
  enums : List ValaEnum := []
  enum_values : List ValaEnumValue := []
  constants : List ValaConstant := []

/-- The `ValaContext`: the symbol of the root namespace. -/
structure ValaContext where
  root : SymPtr
  deriving DecidableEq, Repr

/-- The `ValaCodeGenerator`: the context, the class and the struct being generated and the
scope symbol of the body being generated. -/
structure ValaCodeGenerator where
  context : ValaContext
  class_ : Option ClassPtr := none
  struct_ : Option StructPtr := none
  sym : Option SymPtr := none
  deriving DecidableEq, Repr

/-! ## Diagnostics and outcomes -/

/-- The diagnostics of `generator.c`: one constructor per `err` call site, carrying the
arguments of its format string. -/
inductive Diagnostic where
  | InternalUnhandledKind (type : ValaSymbolType)
  | NoOverridableMethod (name : String)
  | InstanceInitStatic
  | InstanceInitArguments
  | ClassInitNotStatic
  | ClassInitArguments
  | MemberNotFound (name : String)
  | NonArrayIndexed
  | StructMemberNotFound (name : String)
  | EnumMemberNotFound (name : String)
  | NamespaceMemberNotFound (name : String)
  | BadMemberAccess (type : ValaSymbolType)
  | UsingNamespaceNotFound (name : String)
  | AmbiguousUsing (name : String)
  | UnresolvedSymbol (name : String)
  | ReturnsModifiedPointerShape
  | IsOnNonClass
  | InternalDependantType
  deriving DecidableEq, Repr

/-- The format string of the `err` call a diagnostic stands for. -/
def Diagnostic.format : Diagnostic → String
  | .InternalUnhandledKind _ => "internal error: unhandled symbol type %d"
  | .NoOverridableMethod _ => "error: no overridable method ´%s´ found"
  | .InstanceInitStatic => "error: instance initializer must not be static"
  | .InstanceInitArguments => "error: instance initializer must not have any arguments"
  | .ClassInitNotStatic => "error: class initializer must be static"
  | .ClassInitArguments => "error: class initializer must not have any arguments"
  | .MemberNotFound _ => "error: type member ´%s´ not found"
  | .NonArrayIndexed => "error: expression preceding indexer is not an array"
  | .StructMemberNotFound _ => "error: struct member ´%s´ not found"
  | .EnumMemberNotFound _ => "error: enum member ´%s´ not found"
  | .NamespaceMemberNotFound _ => "error: namespace member ´%s´ not found"
  | .BadMemberAccess _ => "error: specified symbol type %d can't be used for member access"
  | .UsingNamespaceNotFound _ => "error: namespace ´%s´ specified by using directive not found"
  | .AmbiguousUsing _ => "error: symbol ´%s´ ambiguous"
  | .UnresolvedSymbol _ => "error: symbol ´%s´ not found"
  | .ReturnsModifiedPointerShape =>
      "error: ReturnsModifiedPointer declared on a method with non-void return type"
  | .IsOnNonClass => "error: type check on non-class"
  | .InternalDependantType => "internal error: dependant type is neither class nor struct"

/-- How a run of generator code ends: it returns a value; or `err` reports a diagnostic at a
location and the process exits; or it dereferences `NULL`, a dangling pointer or a union arm
that is not there (undefined behaviour in C); or the fuel given to a walk runs out. -/
inductive Outcome (α : Type) where
  | ok (a : α)
  | exit (location : Option ValaLocation) (d : Diagnostic)
  | fault
  | out_of_fuel
  deriving DecidableEq, Repr

/-- Sequencing: only a run that returns goes on. -/
def Outcome.bind {α β : Type} (x : Outcome α) (f : α → Outcome β) : Outcome β :=
  match x with
  | .ok a => f a
  | .exit l d => .exit l d
  | .fault => .fault
  | .out_of_fuel => .out_of_fuel

/-- Outcomes are sequenced with `Outcome.bind`; `pure` is a run that returns. -/
instance : Monad Outcome where
  pure := Outcome.ok
  bind := Outcome.bind

/-- Modelled from the spec: `err` is declared in context.h, which is not among the sources.
§6: "diagnostics are written to stderr with the source location prefix. The process exits
non-zero on any diagnostic from the core"; §9: "Failures to resolve are immediate and
fatal". -/
def err {α : Type} (location : Option ValaLocation) (d : Diagnostic) : Outcome α :=
  .exit location d

/-- The value of an optional read; a missing one is a fault. -/
def Outcome.of_option {α : Type} : Option α → Outcome α
  | some a => .ok a
  | none => .fault

/-- Dereferences a `ValaSymbol *`. -/
def Store.symbol (h : Store) (p : Option SymPtr) : Outcome ValaSymbol :=
  Outcome.of_option (p.bind fun q => h.symbols[q]?)
/-- Dereferences a `ValaClass *`. -/
def Store.class_ (h : Store) (p : Option ClassPtr) : Outcome ValaClass :=
  Outcome.of_option (p.bind fun q => h.classes[q]?)
/-- Dereferences a `ValaMethod *`. -/
def Store.method (h : Store) (p : Option MethodPtr) : Outcome ValaMethod :=
  Outcome.of_option (p.bind fun q => h.methods[q]?)
/-- Dereferences a `ValaField *`. -/
def Store.field (h : Store) (p : Option FieldPtr) : Outcome ValaField :=
  Outcome.of_option (p.bind fun q => h.fields[q]?)
/-- Dereferences a `ValaProperty *`. -/
def Store.property (h : Store) (p : Option PropertyPtr) : Outcome ValaProperty :=
  Outcome.of_option (p.bind fun q => h.properties[q]?)
/-- Dereferences a `ValaNamespace *`. -/
def Store.namespace_ (h : Store) (p : Option NamespacePtr) : Outcome ValaNamespace :=
  Outcome.of_option (p.bind fun q => h.namespaces[q]?)
/-- Dereferences a `ValaSourceFile *`. -/
def Store.source_file (h : Store) (p : Option SourceFilePtr) : Outcome ValaSourceFile :=
  Outcome.of_option (p.bind fun q => h.source_files[q]?)
/-- Dereferences a `ValaConstant *`. -/
def Store.constant (h : Store) (p : Option ConstantPtr) : Outcome ValaConstant :=
  Outcome.of_option (p.bind fun q => h.constants[q]?)

/-! ## Inherited member lookup (generator.c 327-350) -/

/-- The function `get_inherited_member`: the recursion on the base class is bounded by
`fuel`. -/
def get_inherited_member (h : Store) : Nat → SymPtr → String → Option ValaLocation → Bool →
    Outcome (Option SymPtr)
  | 0, _, _, _, _ => .out_of_fuel
  | fuel + 1, type, name, location, break_on_failure => do
    let t ← h.symbol (some type)
    let sym := g_hash_table_lookup t.symbol_table name
    -- `sym != NULL` and not (`sym` is a method that carries Override)
    let returned : Bool ← (match sym with
      | none => pure false
      | some p => do
        let s ← h.symbol (some p)
        if s.type = .METHOD then do
          let m ← h.method s.method
          pure (!m.modifiers.OVERRIDE)
        else pure true)
    if returned then pure sym
    else do
      -- `type->type != VALA_SYMBOL_TYPE_CLASS || type->class->base_class == NULL`
      let base_class : Option ClassPtr ←
        (if t.type ≠ .CLASS then pure none
         else do
          let c ← h.class_ t.class_
          pure c.base_class)
      match base_class with
      | none => if break_on_failure then err location (.MemberNotFound name) else pure none
      | some b => do
        let bc ← h.class_ (some b)
        get_inherited_member h fuel bc.symbol name location break_on_failure

/-! ## The type resolver (generator.c 352-512) -/

/-- The block the resolver runs on a Field hit (385-388, 399-402, 493-496): bind `expr->field`
and flatten to the declared type of the field. -/
def flatten_field (h : Store) (i : ExprInfo) (s : ValaSymbol) : Outcome ExprInfo := do
  let f ← h.field s.field
  let vd ← Outcome.of_option f.declaration_statement.variable_declaration
  pure { i with field := s.field, array_type := vd.type.array_type,
                static_type_symbol := vd.type.symbol }

/-- The block the resolver runs on a Property hit (389-392, 497-500): bind `expr->property`
and flatten to the return type of the property. -/
def flatten_property (h : Store) (i : ExprInfo) (s : ValaSymbol) : Outcome ExprInfo := do
  let p ← h.property s.property
  pure { i with property := s.property, array_type := p.return_type.array_type,
                static_type_symbol := p.return_type.symbol }

/-- The loop over the using directives (475-489): `st` is the pair of
`expr->static_type_symbol` and `found`. -/
def using_directives_loop (g : ValaCodeGenerator) (h : Store) (location : Option ValaLocation)
    (str : String) : List String → Option SymPtr × Bool → Outcome (Option SymPtr × Bool)
  | [], st => pure st
  | l :: rest, st => do
    let root ← h.symbol (some g.context.root)
    let ns_symbol := g_hash_table_lookup root.symbol_table l
    if ns_symbol = none then err location (.UsingNamespaceNotFound l)
    else do
      let ns ← h.symbol ns_symbol
      let static_type_symbol := g_hash_table_lookup ns.symbol_table str
      if static_type_symbol ≠ none ∧ st.2 = true then err location (.AmbiguousUsing str)
      else
        using_directives_loop g h location str rest
          (static_type_symbol, st.2 || static_type_symbol.isSome)

/-- Lines 445-455 of the simple-name arm ("local variable"): the lookup in the table of the
current scope symbol. -/
def simple_name_local (g : ValaCodeGenerator) (h : Store) (i : ExprInfo) (str : String) :
    Outcome ExprInfo :=
  match g.sym with
  | none => pure i
  | some gs => do
    let scope ← h.symbol (some gs)
    match g_hash_table_lookup scope.symbol_table str with
    | none => pure i
    | some sym => do
      let s ← h.symbol (some sym)
      let typeref ← Outcome.of_option s.typeref
      pure { i with static_type_symbol := typeref.symbol, array_type := typeref.array_type }

/-- Lines 457-460 of the simple-name arm ("member of this"). -/
def simple_name_this (g : ValaCodeGenerator) (h : Store) (fuel : Nat) (i : ExprInfo)
    (str : String) : Outcome ExprInfo :=
  if i.static_type_symbol = none then do
    let c ← h.class_ g.class_
    let r ← get_inherited_member h fuel c.symbol str i.location false
    pure { i with static_type_symbol := r }
  else pure i

/-- Lines 462-465 of the simple-name arm ("member of the current namespace"). -/
def simple_name_namespace (g : ValaCodeGenerator) (h : Store) (i : ExprInfo) (str : String) :
    Outcome ExprInfo :=
  if i.static_type_symbol = none then do
    let c ← h.class_ g.class_
    let ns ← h.namespace_ (some c.namespace_)
    let nss ← h.symbol (some ns.symbol)
    pure { i with static_type_symbol := g_hash_table_lookup nss.symbol_table str }
  else pure i

/-- Lines 467-470 of the simple-name arm ("member of the root namespace"). -/
def simple_name_root (g : ValaCodeGenerator) (h : Store) (i : ExprInfo) (str : String) :
    Outcome ExprInfo :=
  if i.static_type_symbol = none then do
    let root ← h.symbol (some g.context.root)
    pure { i with static_type_symbol := g_hash_table_lookup root.symbol_table str }
  else pure i

/-- Lines 472-490 of the simple-name arm ("member of a namespace specified by a using
directive"). -/
def simple_name_using (g : ValaCodeGenerator) (h : Store) (i : ExprInfo) (str : String) :
    Outcome ExprInfo :=
  if i.static_type_symbol = none then do
    let c ← h.class_ g.class_
    let ns ← h.namespace_ (some c.namespace_)
    let source_file ← h.source_file (some ns.source_file)
    let st ← using_directives_loop g h i.location str source_file.using_directives
      (none, false)
    pure { i with static_type_symbol := st.1 }
  else pure i

/-- Lines 445-470 of the simple-name arm: the four lookups that come before the using
directives, in their order. -/
def simple_name_before_using (g : ValaCodeGenerator) (h : Store) (fuel : Nat) (i : ExprInfo)
    (str : String) : Outcome ExprInfo := do
  let i ← simple_name_local g h i str
  let i ← simple_name_this g h fuel i str
  let i ← simple_name_namespace g h i str
  simple_name_root g h i str

/-- Lines 445-490 of the simple-name arm: the five lookups in their order, entered with
`expr->static_type_symbol == NULL`. -/
def simple_name_lookup (g : ValaCodeGenerator) (h : Store) (fuel : Nat) (i : ExprInfo)
    (str : String) : Outcome ExprInfo := do
  let i ← simple_name_before_using g h fuel i str
  simple_name_using g h i str

/-- Lines 492-506 of the simple-name arm: a Field or Property hit is bound and flattened to its
type, and a name left without a symbol is reported. -/
def simple_name_finish (h : Store) (i : ExprInfo) (str : String) : Outcome ExprInfo := do
  let i ← (if i.static_type_symbol ≠ none then do
      let s ← h.symbol i.static_type_symbol
      if s.type = .FIELD then flatten_field h i s
      else if s.type = .PROPERTY then flatten_property h i s
      else pure i
    else pure i)
  if i.static_type_symbol = none then err i.location (.UnresolvedSymbol str)
  else pure i

/-- The `VALA_EXPRESSION_TYPE_SIMPLE_NAME` arm (444-507), entered with
`expr->static_type_symbol == NULL`; it returns the decorated header of the node. -/
def find_static_type_of_simple_name (g : ValaCodeGenerator) (h : Store) (fuel : Nat)
    (i : ExprInfo) (str : String) : Outcome ExprInfo := do
  let i ← simple_name_lookup g h fuel i str
  simple_name_finish h i str

/-- The `VALA_EXPRESSION_TYPE_MEMBER_ACCESS` arm after its left operand has been resolved
(382-418): `left` is the resolved operand; it returns the decorated header of the node. -/
def find_static_type_of_member_access (g : ValaCodeGenerator) (h : Store) (fuel : Nat)
    (i : ExprInfo) (left : ValaExpression) (right : String) : Outcome ExprInfo :=
  match left.static_type_symbol with
  | none =>
    -- the last arm evaluates `sym->type` for the message, with `sym == NULL`
    .fault
  | some sym => do
    let s ← h.symbol (some sym)
    if s.type = .CLASS then do
      let r ← get_inherited_member h fuel sym right left.location true
      let i1 : ExprInfo := { i with static_type_symbol := r }
      let m ← h.symbol r
      if m.type = .FIELD then flatten_field h i1 m
      else if m.type = .PROPERTY then flatten_property h i1 m
      else pure i1
    else if s.type = .STRUCT then do
      let r := g_hash_table_lookup s.symbol_table right
      if r = none then err left.location (.StructMemberNotFound right)
      else do
        let i1 : ExprInfo := { i with static_type_symbol := r }
        let m ← h.symbol r
        if m.type = .FIELD then flatten_field h i1 m
        else pure i1
    else if s.type = .ENUM then do
      let r := g_hash_table_lookup s.symbol_table right
      if r = none then err left.location (.EnumMemberNotFound right)
      else do
        let root ← h.symbol (some g.context.root)
        pure { i with static_symbol := r,
                      static_type_symbol := g_hash_table_lookup root.symbol_table "int" }
    else if s.type = .NAMESPACE then do
      let r := g_hash_table_lookup s.symbol_table right
      if r = none then err left.location (.NamespaceMemberNotFound right)
      else pure { i with static_type_symbol := r }
    else err left.location (.BadMemberAccess s.type)

/-- The `VALA_EXPRESSION_TYPE_THIS_ACCESS` arm (509): the value of
`generator->sym->stmt->method->method->class->symbol`. -/
def this_access_symbol (g : ValaCodeGenerator) (h : Store) : Outcome SymPtr := do
  let scope ← h.symbol g.sym
  let stmt ← Outcome.of_option scope.stmt
  let msym ← h.symbol stmt.info.method
  let m ← h.method msym.method
  let c ← h.class_ m.class_
  pure c.symbol

/-- The function `vala_code_generator_find_static_type_of_expression`: it returns the
expression with its decoration written, as the C function leaves it in place. -/
def vala_code_generator_find_static_type_of_expression (g : ValaCodeGenerator) (h : Store) (fuel : Nat) :
    ValaExpression → Outcome ValaExpression
  | .ASSIGNMENT i left right => pure (.ASSIGNMENT i left right)
  | .CAST i type inner =>
    if i.static_type_symbol ≠ none then pure (.CAST i type inner)
    else pure (.CAST { i with static_type_symbol := type.symbol } type inner)
  | .ELEMENT_ACCESS i array index =>
    if i.static_type_symbol ≠ none then pure (.ELEMENT_ACCESS i array index)
    else do
      let array ← vala_code_generator_find_static_type_of_expression g h fuel array
      if !array.array_type then err index.location .NonArrayIndexed
      else pure (.ELEMENT_ACCESS { i with static_type_symbol := array.static_type_symbol }
        array index)
  | .INVOCATION i call instance_ argument_list =>
    if i.static_type_symbol ≠ none then pure (.INVOCATION i call instance_ argument_list)
    else do
      let call ← vala_code_generator_find_static_type_of_expression g h fuel call
      let s ← h.symbol call.static_type_symbol
      let m ← h.method s.method
      pure (.INVOCATION { i with static_type_symbol := m.return_type.symbol } call instance_
        argument_list)
  | .IS i type expr =>
    if i.static_type_symbol ≠ none then pure (.IS i type expr)
    else do
      let root ← h.symbol (some g.context.root)
      pure (.IS { i with static_type_symbol := g_hash_table_lookup root.symbol_table "bool" }
        type expr)
  | .MEMBER_ACCESS i left right =>
    if i.static_type_symbol ≠ none then pure (.MEMBER_ACCESS i left right)
    else do
      let left ← vala_code_generator_find_static_type_of_expression g h fuel left
      let i ← find_static_type_of_member_access g h fuel i left right
      pure (.MEMBER_ACCESS i left right)
  | .OBJECT_CREATION i type named_argument_list =>
    if i.static_type_symbol ≠ none then pure (.OBJECT_CREATION i type named_argument_list)
    else pure (.OBJECT_CREATION { i with static_type_symbol := type.symbol } type
      named_argument_list)
  | .OPERATION i type left right =>
    if i.static_type_symbol ≠ none then pure (.OPERATION i type left right)
    else if type = .PLUS ∨ type = .MINUS then
      match left with
      | some left => do
        -- required for pointer arithmetic
        let left ← vala_code_generator_find_static_type_of_expression g h fuel left
        pure (.OPERATION { i with static_type_symbol := left.static_type_symbol } type
          (some left) right)
      | none => pure (.OPERATION i type none right)
    else pure (.OPERATION i type left right)
  | .PARENTHESIZED i inner =>
    if i.static_type_symbol ≠ none then pure (.PARENTHESIZED i inner)
    else do
      let inner ← vala_code_generator_find_static_type_of_expression g h fuel inner
      pure (.PARENTHESIZED { i with static_type_symbol := inner.static_type_symbol } inner)
  | .POSTFIX i inner cop => pure (.POSTFIX i inner cop)
  | .LITERAL_BOOLEAN i num => pure (.LITERAL_BOOLEAN i num)
  | .LITERAL_CHARACTER i str => pure (.LITERAL_CHARACTER i str)
  | .LITERAL_INTEGER i str => pure (.LITERAL_INTEGER i str)
  | .LITERAL_NULL i => pure (.LITERAL_NULL i)
  | .LITERAL_STRING i str =>
    if i.static_type_symbol ≠ none then pure (.LITERAL_STRING i str)
    else do
      let root ← h.symbol (some g.context.root)
      pure (.LITERAL_STRING
        { i with static_type_symbol := g_hash_table_lookup root.symbol_table "string" } str)
  | .SIMPLE_NAME i str =>
    if i.static_type_symbol ≠ none then pure (.SIMPLE_NAME i str)
    else do
      let i ← find_static_type_of_simple_name g h fuel i str
      pure (.SIMPLE_NAME i str)
  | .STRUCT_OR_ARRAY_INITIALIZER i list => pure (.STRUCT_OR_ARRAY_INITIALIZER i list)
  | .THIS_ACCESS i =>
    if i.static_type_symbol ≠ none then pure (.THIS_ACCESS i)
    else do
      let sym ← this_access_symbol g h
      pure (.THIS_ACCESS { i with static_type_symbol := some sym })

/-! ## Output streams and emission -/

/-- Dereferences a `ValaStruct *`. -/
def Store.struct_ (h : Store) (p : Option StructPtr) : Outcome ValaStruct :=
  Outcome.of_option (p.bind fun q => h.structs[q]?)
/-- Dereferences a `ValaEnum *`. -/
def Store.enum_ (h : Store) (p : Option EnumPtr) : Outcome ValaEnum :=
  Outcome.of_option (p.bind fun q => h.enums[q]?)
/-- Dereferences a `ValaEnumValue *`. -/
def Store.enum_value (h : Store) (p : Option EnumValuePtr) : Outcome ValaEnumValue :=
  Outcome.of_option (p.bind fun q => h.enum_values[q]?)

/-- The text written to the two output streams of the generator, `generator->c_file` and
`generator->h_file`. -/
structure Output where
  c_file : String := ""
  h_file : String := ""
  deriving DecidableEq, Repr

/-- One text after the other, on each stream. -/
def Output.append (a b : Output) : Output :=
  { c_file := a.c_file ++ b.c_file, h_file := a.h_file ++ b.h_file }

/-- Texts written one after the other are appended. -/
instance : Append Output := ⟨Output.append⟩

/-- A run of emitter code: the text it wrote, up to its end or up to the point where it
stopped, and how it ended. -/
structure Emit (α : Type) where
  written : Output
  outcome : Outcome α
  deriving Repr

/-- Sequencing of emitter code: the texts are appended, and only a run that returns goes on. -/
def Emit.bind {α β : Type} (x : Emit α) (f : α → Emit β) : Emit β :=
  match x.outcome with
  | .ok a => ⟨x.written ++ (f a).written, (f a).outcome⟩
  | .exit l d => ⟨x.written, .exit l d⟩
  | .fault => ⟨x.written, .fault⟩
  | .out_of_fuel => ⟨x.written, .out_of_fuel⟩

/-- Emitter code is sequenced with `Emit.bind`; `pure` writes nothing and returns. -/
instance : Monad Emit where
  pure a := ⟨{}, .ok a⟩
  bind := Emit.bind

/-- A step that writes nothing: a read of the store, a call of the resolver, a call of `err`. -/
def Emit.run {α : Type} (o : Outcome α) : Emit α := ⟨{}, o⟩

/-- The call `fprintf (generator->c_file, ...)` with its formatted text. -/
def fprintf_c_file (text : String) : Emit Unit := ⟨{ c_file := text }, .ok ()⟩

/-- The call `fprintf (generator->h_file, ...)` with its formatted text. -/
def fprintf_h_file (text : String) : Emit Unit := ⟨{ h_file := text }, .ok ()⟩

/-- The text a run wrote to `generator->c_file`. -/
def Emit.c_text {α : Type} (x : Emit α) : String := x.written.c_file

/-- The text a run wrote to `generator->h_file`. -/
def Emit.h_text {α : Type} (x : Emit α) : String := x.written.h_file

/-! ## C names of types (generator.c 59-94) -/

/-- The function `get_cname_for_type_reference`. -/
def get_cname_for_type_reference (h : Store) (type : ValaTypeReference) (constant : Bool)
    (location : Option ValaLocation) : Outcome String := do
  let symbol ← h.symbol type.symbol
  match symbol.type with
  | .CLASS => do
    let class_ ← h.class_ symbol.class_
    pure (class_.cname ++ " *" ++ (if type.array_type then "*" else ""))
  | .STRUCT => do
    let struct_ ← h.struct_ symbol.struct_
    if constant && type.array_type then
      pure ("const " ++ struct_.cname ++ " " ++ (if struct_.reference_type then "*" else ""))
    else
      pure ((if constant then "const " else "") ++ struct_.cname ++ " " ++
        (if struct_.reference_type then "*" else "") ++ (if type.array_type then "*" else ""))
  | .ENUM => do
    let enum_ ← h.enum_ symbol.enum_
    pure (enum_.cname ++ " ")
  | .VOID => pure "void"
  | t => err location (.InternalUnhandledKind t)

/-- The function `get_cname_for_static_expression_type`. -/
def get_cname_for_static_expression_type (h : Store) (expr : ValaExpression)
    (location : Option ValaLocation) : Outcome String := do
  let symbol ← h.symbol expr.static_type_symbol
  match symbol.type with
  | .CLASS => do
    let class_ ← h.class_ symbol.class_
    pure (class_.cname ++ " *" ++ (if expr.array_type then "*" else ""))
  | .STRUCT => do
    let struct_ ← h.struct_ symbol.struct_
    pure (struct_.cname ++ " " ++ (if struct_.reference_type then "*" else "") ++
      (if expr.array_type then "*" else ""))
  | .VOID => pure "void"
  | t => err location (.InternalUnhandledKind t)

/-! ## The expression emitter (generator.c 267-325, 514-855)

The functions of the emitter call each other through `vala_code_generator_process_expression`;
each arm takes that function as its argument `process_expression`, and returns the expression
as the C function leaves it in place. -/

/-- The switch of `vala_code_generator_process_operation_expression` (276-322): the C operator
of an operator kind. -/
def cop (type : ValaOpType) : String :=
  match type with
  | .PLUS => "+"
  | .MINUS => "-"
  | .MUL => "*"
  | .DIV => "/"
  | .EQ => "=="
  | .NE => "!="
  | .LT => "<"
  | .GT => ">"
  | .LE => "<="
  | .GE => ">="
  | .NEG => "!"
  | .AND => "&&"
  | .BITWISE_AND => "&"
  | .OR => "||"
  | .BITWISE_OR => "|"

/-- The function `vala_code_generator_process_operation_expression`. -/
def vala_code_generator_process_operation_expression
    (process_expression : ValaExpression → Emit ValaExpression) :
    ValaExpression → Emit ValaExpression
  | .OPERATION i type left right => do
    let left ← (match left with
      | some l => do
        let l ← process_expression l
        pure (some l)
      | none => pure none)
    fprintf_c_file (" " ++ cop type ++ " ")
    let right ← process_expression right
    pure (.OPERATION i type left right)
  | _ => Emit.run .fault

/-- The function `vala_code_generator_process_assignment`. -/
def vala_code_generator_process_assignment (g : ValaCodeGenerator) (h : Store) (fuel : Nat)
    (process_expression : ValaExpression → Emit ValaExpression) :
    ValaExpression → Emit ValaExpression
  | .ASSIGNMENT i left right => do
    let left ← Emit.run (vala_code_generator_find_static_type_of_expression g h fuel left)
    if left.property ≠ none then do
      fprintf_c_file "g_object_set ("
      let left ← (match left with
        | .SIMPLE_NAME j str => do
          fprintf_c_file "self"
          pure (.SIMPLE_NAME j str)
        | .MEMBER_ACCESS j l r => do
          let l ← process_expression l
          pure (.MEMBER_ACCESS j l r)
        | e => pure e)
      let property ← Emit.run (h.property left.property)
      fprintf_c_file (", \"" ++ property.name ++ "\", ")
      let right ← process_expression right
      fprintf_c_file ", NULL);"
      pure (.ASSIGNMENT i left right)
    else do
      let left ← process_expression left
      fprintf_c_file " = "
      let right ← process_expression right
      pure (.ASSIGNMENT i left right)
  | _ => Emit.run .fault

/-- The loop that emits a list of expressions separated by `", "` (593-600, 784-791, 908-915):
`first` is the flag of the loop, returned as the loop leaves it. -/
def expression_list_loop (process_expression : ValaExpression → Emit ValaExpression) :
    Bool → List ValaExpression → Emit (List ValaExpression × Bool)
  | first, [] => pure ([], first)
  | first, e :: rest => do
    if !first then fprintf_c_file ", "
    let e ← process_expression e
    let r ← expression_list_loop process_expression false rest
    pure (e :: r.1, r.2)

/-- Lines 552-556 of the invocation arm: the instance of a member-access callee is its left
operand. -/
def invocation_instance (call : ValaExpression) (instance_ : Option ValaExpression) :
    Option ValaExpression :=
  match call with
  | .MEMBER_ACCESS _ left _ => some left
  | _ => instance_

/-- The instance of a member-access callee and the left operand of the callee are one node: what
is written to the instance is written to the operand. -/
def set_member_access_left (call : ValaExpression) (instance_ : Option ValaExpression) :
    ValaExpression :=
  match call, instance_ with
  | .MEMBER_ACCESS j _ r, some l => .MEMBER_ACCESS j l r
  | c, _ => c

/-- Lines 558-569 of the invocation arm: the check and the text that come before the callee of
a method declared `ReturnsModifiedPointer`; `i` is the header of the invocation. -/
def invocation_modified_pointer (h : Store)
    (process_expression : ValaExpression → Emit ValaExpression) (i : ExprInfo)
    (method : ValaMethod) (instance_ : Option ValaExpression) :
    Emit (Option ValaExpression) :=
  if method.returns_modified_pointer then do
    let type ← Emit.run (h.symbol i.static_type_symbol)
    if type.type ≠ .VOID then
      Emit.run (err method.location .ReturnsModifiedPointerShape)
    else do
      let instance_ ← (match instance_ with
        | some inst => do
          let inst ← process_expression inst
          pure (some inst)
        | none => do
          fprintf_c_file "self"
          pure none)
      fprintf_c_file " = "
      pure instance_
  else pure instance_

/-- The test `!method->is_struct_method && <symbol> != method->class->symbol` of lines 575, 579,
583 and 587. -/
def upcast_needed (h : Store) (method : ValaMethod) (symbol : Outcome (Option SymPtr)) :
    Outcome Bool :=
  if method.is_struct_method then pure false
  else do
    let s ← symbol
    let class_ ← h.class_ method.class_
    pure (s ≠ some class_.symbol)

/-- The text `NS_UPPER CLASS_UPPER (` of lines 576 and 584: the opening of the upcast to the
class that declares the method. -/
def upcast_open (h : Store) (method : ValaMethod) : Outcome String := do
  let class_ ← h.class_ method.class_
  let ns ← h.namespace_ (some class_.namespace_)
  pure (ns.upper_case_cname ++ class_.upper_case_cname ++ "(")

/-- Lines 574-590 of the invocation arm: the instance as first argument. -/
def invocation_first_instance (g : ValaCodeGenerator) (h : Store)
    (process_expression : ValaExpression → Emit ValaExpression) (method : ValaMethod)
    (instance_ : Option ValaExpression) : Emit (Option ValaExpression) :=
  match instance_ with
  | some inst => do
    let wrap ← Emit.run (upcast_needed h method (pure inst.static_type_symbol))
    if wrap then do
      let text ← Emit.run (upcast_open h method)
      fprintf_c_file text
    let inst ← process_expression inst
    let wrap ← Emit.run (upcast_needed h method (pure inst.static_type_symbol))
    if wrap then fprintf_c_file ")"
    pure (some inst)
  | none => do
    let current : Outcome (Option SymPtr) := do
      let class_ ← h.class_ g.class_
      pure (some class_.symbol)
    let wrap ← Emit.run (upcast_needed h method current)
    if wrap then do
      let text ← Emit.run (upcast_open h method)
      fprintf_c_file text
    fprintf_c_file "self"
    let wrap ← Emit.run (upcast_needed h method current)
    if wrap then fprintf_c_file ")"
    pure none

/-- Lines 572-611 of the invocation arm: the parenthesised argument list. -/
def invocation_arguments (g : ValaCodeGenerator) (h : Store)
    (process_expression : ValaExpression → Emit ValaExpression) (method : ValaMethod)
    (instance_ : Option ValaExpression) (argument_list : List ValaExpression) :
    Emit (Option ValaExpression × List ValaExpression) := do
  fprintf_c_file " ("
  let a ← (if !method.instance_last && !method.modifiers.STATIC then do
      let inst ← invocation_first_instance g h process_expression method instance_
      pure (inst, false)
    else pure (instance_, true))
  let l ← expression_list_loop process_expression a.2 argument_list
  let instance_ ← (if method.instance_last && !method.modifiers.STATIC then do
      if !l.2 then fprintf_c_file ", "
      match a.1 with
      | some inst => do
        let inst ← process_expression inst
        pure (some inst)
      | none => do
        fprintf_c_file "self"
        pure none
    else pure a.1)
  fprintf_c_file ")"
  pure (instance_, l.1)

/-- The function `vala_code_generator_process_invocation`. -/
def vala_code_generator_process_invocation (g : ValaCodeGenerator) (h : Store) (fuel : Nat)
    (process_expression : ValaExpression → Emit ValaExpression) :
    ValaExpression → Emit ValaExpression
  | .INVOCATION i call instance_ argument_list => do
    let call ← Emit.run (vala_code_generator_find_static_type_of_expression g h fuel call)
    let symbol ← Emit.run (h.symbol call.static_type_symbol)
    let instance_ := invocation_instance call instance_
    let method ← Emit.run (h.method symbol.method)
    let instance_ ← invocation_modified_pointer h process_expression i method instance_
    let call ← process_expression (set_member_access_left call instance_)
    let instance_ := invocation_instance call instance_
    let r ← invocation_arguments g h process_expression method instance_ argument_list
    pure (.INVOCATION i (set_member_access_left call r.1) r.1 r.2)
  | _ => Emit.run .fault

/-- The function `vala_code_generator_process_literal`. -/
def vala_code_generator_process_literal : ValaExpression → Emit ValaExpression
  | .LITERAL_BOOLEAN i num => do
    fprintf_c_file (if num then "TRUE" else "FALSE")
    pure (.LITERAL_BOOLEAN i num)
  | .LITERAL_NULL i => do
    fprintf_c_file "NULL"
    pure (.LITERAL_NULL i)
  | .LITERAL_CHARACTER i str => do
    fprintf_c_file str
    pure (.LITERAL_CHARACTER i str)
  | .LITERAL_INTEGER i str => do
    fprintf_c_file str
    pure (.LITERAL_INTEGER i str)
  | .LITERAL_STRING i str => do
    fprintf_c_file str
    pure (.LITERAL_STRING i str)
  | _ => Emit.run .fault

/-- The function `vala_code_generator_process_cast`. -/
def vala_code_generator_process_cast (h : Store)
    (process_expression : ValaExpression → Emit ValaExpression) :
    ValaExpression → Emit ValaExpression
  | .CAST i type inner => do
    let symbol ← Emit.run (h.symbol type.symbol)
    if symbol.type = .CLASS then do
      let cl ← Emit.run (h.class_ symbol.class_)
      let ns ← Emit.run (h.namespace_ (some cl.namespace_))
      fprintf_c_file (ns.upper_case_cname ++ cl.upper_case_cname ++ " (")
      let inner ← process_expression inner
      fprintf_c_file ")"
      pure (.CAST i type inner)
    else do
      let cname ← Emit.run (get_cname_for_type_reference h type false i.location)
      fprintf_c_file ("(" ++ cname ++ ") ")
      let inner ← process_expression inner
      pure (.CAST i type inner)
  | _ => Emit.run .fault

/-- The function `vala_code_generator_process_is`. -/
def vala_code_generator_process_is (h : Store)
    (process_expression : ValaExpression → Emit ValaExpression) :
    ValaExpression → Emit ValaExpression
  | .IS i type expr => do
    let symbol ← Emit.run (h.symbol type.symbol)
    if symbol.type = .CLASS then do
      let cl ← Emit.run (h.class_ symbol.class_)
      let ns ← Emit.run (h.namespace_ (some cl.namespace_))
      fprintf_c_file (ns.upper_case_cname ++ "IS_" ++ cl.upper_case_cname ++ " (")
      let expr ← process_expression expr
      fprintf_c_file ")"
      pure (.IS i type expr)
    else Emit.run (err i.location .IsOnNonClass)
  | _ => Emit.run .fault

/-- The function `vala_code_generator_process_element_access`. -/
def vala_code_generator_process_element_access
    (process_expression : ValaExpression → Emit ValaExpression) :
    ValaExpression → Emit ValaExpression
  | .ELEMENT_ACCESS i array index => do
    let array ← process_expression array
    fprintf_c_file "["
    let index ← process_expression index
    fprintf_c_file "]"
    pure (.ELEMENT_ACCESS i array index)
  | _ => Emit.run .fault

/-- The function `vala_code_generator_process_member_access`. -/
def vala_code_generator_process_member_access (h : Store)
    (process_expression : ValaExpression → Emit ValaExpression) :
    ValaExpression → Emit ValaExpression
  | .MEMBER_ACCESS i left right => do
    let sym ← Emit.run (h.symbol i.static_type_symbol)
    if sym.type = .METHOD then do
      let method ← Emit.run (h.method sym.method)
      let cname ← Emit.run (Outcome.of_option method.cname)
      fprintf_c_file cname
      pure (.MEMBER_ACCESS i left right)
    else do
      let enum_value : Bool ← (match i.static_symbol with
        | none => pure false
        | some p => do
          let s ← Emit.run (h.symbol (some p))
          pure (decide (s.type = .ENUM_VALUE)))
      if enum_value then do
        let s ← Emit.run (h.symbol i.static_symbol)
        let value ← Emit.run (h.enum_value s.enum_value)
        fprintf_c_file value.cname
        pure (.MEMBER_ACCESS i left right)
      else if i.property ≠ none then do
        let property ← Emit.run (h.property i.property)
        let class_ ← Emit.run (h.class_ property.class_)
        let ns ← Emit.run (h.namespace_ (some class_.namespace_))
        fprintf_c_file (ns.lower_case_cname ++ class_.lower_case_cname ++ "_get_" ++
          property.name ++ " (")
        let left ← process_expression left
        fprintf_c_file ")"
        pure (.MEMBER_ACCESS i left right)
      else
        match i.field with
        | some fp => do
          let field ← Emit.run (h.field (some fp))
          if !field.is_struct_field then do
            let class_ ← Emit.run (h.class_ field.class_)
            let ns ← Emit.run (h.namespace_ (some class_.namespace_))
            fprintf_c_file (ns.upper_case_cname ++ class_.upper_case_cname ++ "(")
          let left ← process_expression left
          if !field.is_struct_field then fprintf_c_file ")"
          fprintf_c_file ("->" ++ right)
          pure (.MEMBER_ACCESS i left right)
        | none => do
          let left ← process_expression left
          pure (.MEMBER_ACCESS i left right)
  | _ => Emit.run .fault

/-- The loop over the named arguments of an object creation (700-704). -/
def named_argument_list_loop (process_expression : ValaExpression → Emit ValaExpression) :
    List (String × ValaExpression) → Emit (List (String × ValaExpression))
  | [] => pure []
  | (name, expression) :: rest => do
    fprintf_c_file (", \"" ++ name ++ "\", ")
    let expression ← process_expression expression
    let rest ← named_argument_list_loop process_expression rest
    pure ((name, expression) :: rest)

/-- The function `vala_code_generator_process_object_creation_expression`. -/
def vala_code_generator_process_object_creation_expression (h : Store)
    (process_expression : ValaExpression → Emit ValaExpression) :
    ValaExpression → Emit ValaExpression
  | .OBJECT_CREATION i type named_argument_list => do
    let symbol ← Emit.run (h.symbol type.symbol)
    let class_ ← Emit.run (h.class_ symbol.class_)
    let ns ← Emit.run (h.namespace_ (some class_.namespace_))
    fprintf_c_file ("g_object_new (" ++ ns.upper_case_cname ++ "TYPE_" ++
      class_.upper_case_cname)
    let named_argument_list ← named_argument_list_loop process_expression named_argument_list
    fprintf_c_file ", NULL)"
    pure (.OBJECT_CREATION i type named_argument_list)
  | _ => Emit.run .fault

/-- The function `vala_code_generator_process_parenthesized_expression`. -/
def vala_code_generator_process_parenthesized_expression
    (process_expression : ValaExpression → Emit ValaExpression) :
    ValaExpression → Emit ValaExpression
  | .PARENTHESIZED i inner => do
    fprintf_c_file "("
    let inner ← process_expression inner
    fprintf_c_file ")"
    pure (.PARENTHESIZED i inner)
  | _ => Emit.run .fault

/-- The function `vala_code_generator_process_postfix_expression`. -/
def vala_code_generator_process_postfix_expression
    (process_expression : ValaExpression → Emit ValaExpression) :
    ValaExpression → Emit ValaExpression
  | .POSTFIX i inner cop => do
    let inner ← process_expression inner
    fprintf_c_file cop
    pure (.POSTFIX i inner cop)
  | _ => Emit.run .fault

/-- The switch at the end of `vala_code_generator_process_simple_name` (766-773). -/
def simple_name_default (h : Store) (i : ExprInfo) (str : String) : Emit Unit := do
  let symbol ← Emit.run (h.symbol i.static_type_symbol)
  if symbol.type = .METHOD then do
    let method ← Emit.run (h.method symbol.method)
    let cname ← Emit.run (Outcome.of_option method.cname)
    fprintf_c_file cname
  else fprintf_c_file str

/-- Lines 731-773 of `vala_code_generator_process_simple_name`: the text of the name after the
ref/out marker. -/
def simple_name_body (h : Store) (i : ExprInfo) (str : String) : Emit Unit :=
  match i.field with
  | some fp => do
    let field ← Emit.run (h.field (some fp))
    match field.class_ with
    | some cp => do
      let class_ ← Emit.run (h.class_ (some cp))
      let ns ← Emit.run (h.namespace_ (some class_.namespace_))
      let ns_upper := ns.upper_case_cname
      let class_upper := class_.upper_case_cname
      if field.modifiers.STATIC && field.modifiers.PRIVATE then fprintf_c_file str
      else if field.modifiers.STATIC then
        fprintf_c_file (ns_upper ++ class_upper ++ "_GET_CLASS(self)->" ++ str)
      else if field.modifiers.PRIVATE then fprintf_c_file ("self->priv->" ++ str)
      else if field.modifiers.PUBLIC then
        fprintf_c_file (ns_upper ++ class_upper ++ "(self)->" ++ str)
      else pure ()
    | none =>
      match field.namespace_ with
      | some np => do
        let ns ← Emit.run (h.namespace_ (some np))
        match field.cname with
        | some cname => fprintf_c_file cname
        | none => fprintf_c_file (ns.lower_case_cname ++ str)
      | none => simple_name_default h i str
  | none =>
    if i.property ≠ none then do
      let property ← Emit.run (h.property i.property)
      let class_ ← Emit.run (h.class_ property.class_)
      let ns ← Emit.run (h.namespace_ (some class_.namespace_))
      fprintf_c_file (ns.lower_case_cname ++ class_.lower_case_cname ++ "_get_" ++
        property.name ++ " (self)")
    else simple_name_default h i str

/-- The function `vala_code_generator_process_simple_name`. -/
def vala_code_generator_process_simple_name (h : Store) : ValaExpression → Emit ValaExpression
  | .SIMPLE_NAME i str => do
    if i.ref_variable || i.out_variable then fprintf_c_file "&"
    simple_name_body h i str
    pure (.SIMPLE_NAME i str)
  | _ => Emit.run .fault

/-- The function `vala_code_generator_process_struct_or_array_initializer`. -/
def vala_code_generator_process_struct_or_array_initializer
    (process_expression : ValaExpression → Emit ValaExpression) :
    ValaExpression → Emit ValaExpression
  | .STRUCT_OR_ARRAY_INITIALIZER i list => do
    fprintf_c_file "\x7b "
    let l ← expression_list_loop process_expression true list
    fprintf_c_file " \x7d"
    pure (.STRUCT_OR_ARRAY_INITIALIZER i l.1)
  | _ => Emit.run .fault

/-- The function `vala_code_generator_process_this_access`. -/
def vala_code_generator_process_this_access (expr : ValaExpression) : Emit ValaExpression := do
  fprintf_c_file "self"
  pure expr

/-- The switch of `vala_code_generator_process_expression` (807-854), on a resolved
expression. -/
def process_expression_switch (g : ValaCodeGenerator) (h : Store) (fuel : Nat)
    (process_expression : ValaExpression → Emit ValaExpression) (expr : ValaExpression) :
    Emit ValaExpression :=
  match expr with
  | .ASSIGNMENT _ _ _ => vala_code_generator_process_assignment g h fuel process_expression expr
  | .CAST _ _ _ => vala_code_generator_process_cast h process_expression expr
  | .ELEMENT_ACCESS _ _ _ => vala_code_generator_process_element_access process_expression expr
  | .INVOCATION _ _ _ _ =>
    vala_code_generator_process_invocation g h fuel process_expression expr
  | .IS _ _ _ => vala_code_generator_process_is h process_expression expr
  | .MEMBER_ACCESS _ _ _ => vala_code_generator_process_member_access h process_expression expr
  | .OBJECT_CREATION _ _ _ =>
    vala_code_generator_process_object_creation_expression h process_expression expr
  | .OPERATION _ _ _ _ =>
    vala_code_generator_process_operation_expression process_expression expr
  | .PARENTHESIZED _ _ =>
    vala_code_generator_process_parenthesized_expression process_expression expr
  | .POSTFIX _ _ _ => vala_code_generator_process_postfix_expression process_expression expr
  | .LITERAL_BOOLEAN _ _ => vala_code_generator_process_literal expr
  | .LITERAL_CHARACTER _ _ => vala_code_generator_process_literal expr
  | .LITERAL_INTEGER _ _ => vala_code_generator_process_literal expr
  | .LITERAL_NULL _ => vala_code_generator_process_literal expr
  | .LITERAL_STRING _ _ => vala_code_generator_process_literal expr
  | .SIMPLE_NAME _ _ => vala_code_generator_process_simple_name h expr
  | .STRUCT_OR_ARRAY_INITIALIZER _ _ =>
    vala_code_generator_process_struct_or_array_initializer process_expression expr
  | .THIS_ACCESS _ => vala_code_generator_process_this_access expr

/-- The function `vala_code_generator_process_expression`: the resolver, then the switch;
`depth` bounds the nesting of the calls. -/
def vala_code_generator_process_expression (g : ValaCodeGenerator) (h : Store) (fuel : Nat) :
    Nat → ValaExpression → Emit ValaExpression
  | 0, _ => Emit.run .out_of_fuel
  | depth + 1, expr => do
    let expr ← Emit.run (vala_code_generator_find_static_type_of_expression g h fuel expr)
    process_expression_switch g h fuel (vala_code_generator_process_expression g h fuel depth)
      expr

/-! ## The statement emitter (generator.c 857-1038)

Statements declare local variables in the scope symbol of the body, so the functions of the
statement emitter take the store and return it with the new symbols. -/

/-- Modelled from the spec: `vala_symbol_new` is declared in context.h, which is not among the
sources. §3: a Symbol is a "tagged reference to a declaration (or a synthetic local
variable)"; the call allocates a fresh symbol of the given kind with every other field
`NULL`. -/
def vala_symbol_new (h : Store) (type : ValaSymbolType) : Store × SymPtr :=
  ({ h with symbols := h.symbols ++ [{ type := type }] }, h.symbols.length)

/-- The glib insert: `key` is bound to `value`, replacing an earlier binding of `key`. -/
def g_hash_table_insert (table : GHashTable) (key : String) (value : SymPtr) : GHashTable :=
  (key, value) :: table.filter fun kv => kv.1 != key

/-- Lines 881-883 and 969-971: a fresh LocalVariable symbol is inserted under `name` in the
symbol table of `generator->sym`, and carries the type reference. -/
def declare_local_variable (g : ValaCodeGenerator) (h : Store) (name : String)
    (type : ValaTypeReference) : Outcome Store := do
  let n := vala_symbol_new h .LOCAL_VARIABLE
  let scope_ptr ← Outcome.of_option g.sym
  let scope ← n.1.symbol (some scope_ptr)
  let table := g_hash_table_insert scope.symbol_table name n.2
  let h1 : Store :=
    { n.1 with symbols := n.1.symbols.set scope_ptr { scope with symbol_table := table } }
  let sym ← h1.symbol (some n.2)
  pure { h1 with symbols := h1.symbols.set n.2 { sym with typeref := some type } }

/-- The function `vala_code_generator_process_variable_declaration`. -/
def vala_code_generator_process_variable_declaration (g : ValaCodeGenerator) (fuel : Nat)
    (process_expression : Store → ValaExpression → Emit ValaExpression) :
    ValaStatement → Store → Emit (ValaStatement × Store)
  | .VARIABLE_DECLARATION i d, h => do
    let r ← (if d.type.type_name = none then do
        let expr ← Emit.run (Outcome.of_option d.declarator.initializer)
        let expr ← Emit.run (vala_code_generator_find_static_type_of_expression g h fuel expr)
        pure ({ d.type with symbol := expr.static_type_symbol }, some expr)
      else pure (d.type, d.declarator.initializer))
    let decl_string ← Emit.run (get_cname_for_type_reference h r.1 false i.location)
    fprintf_c_file ("\t" ++ decl_string ++ d.declarator.name)
    let expr ← (match r.2 with
      | some e => do
        fprintf_c_file " = "
        let e ← process_expression h e
        pure (some e)
      | none => pure none)
    fprintf_c_file ";\n"
    let h ← Emit.run (declare_local_variable g h d.declarator.name r.1)
    pure (.VARIABLE_DECLARATION i
      { type := r.1, declarator := { name := d.declarator.name, initializer := expr } }, h)
  | _, _ => Emit.run .fault

/-- The loop of `vala_code_generator_process_block` (895-897). -/
def statement_list_loop
    (process_statement : ValaStatement → Store → Emit (ValaStatement × Store)) :
    List ValaStatement → Store → Emit (List ValaStatement × Store)
  | [], h => pure ([], h)
  | s :: rest, h => do
    let s ← process_statement s h
    let r ← statement_list_loop process_statement rest s.2
    pure (s.1 :: r.1, r.2)

/-- The function `vala_code_generator_process_block`. -/
def vala_code_generator_process_block
    (process_statement : ValaStatement → Store → Emit (ValaStatement × Store)) :
    ValaStatement → Store → Emit (ValaStatement × Store)
  | .BLOCK i statements, h => do
    fprintf_c_file "\x7b\n"
    let r ← statement_list_loop process_statement statements h
    fprintf_c_file "\x7d\n"
    pure (.BLOCK i r.1, r.2)
  | _, _ => Emit.run .fault

/-- The function `vala_code_generator_process_statement_expression_list`. -/
def vala_code_generator_process_statement_expression_list
    (process_expression : ValaExpression → Emit ValaExpression) (list : List ValaExpression) :
    Emit (List ValaExpression) := do
  let l ← expression_list_loop process_expression true list
  pure l.1

/-- The function `vala_code_generator_process_while_statement`. -/
def vala_code_generator_process_while_statement
    (process_expression : Store → ValaExpression → Emit ValaExpression)
    (process_statement : ValaStatement → Store → Emit (ValaStatement × Store)) :
    ValaStatement → Store → Emit (ValaStatement × Store)
  | .WHILE i condition loop, h => do
    fprintf_c_file "\twhile ("
    let condition ← process_expression h condition
    fprintf_c_file ")\n"
    let loop ← process_statement loop h
    pure (.WHILE i condition loop.1, loop.2)
  | _, _ => Emit.run .fault

/-- The function `vala_code_generator_process_for_statement`. -/
def vala_code_generator_process_for_statement
    (process_expression : Store → ValaExpression → Emit ValaExpression)
    (process_statement : ValaStatement → Store → Emit (ValaStatement × Store)) :
    ValaStatement → Store → Emit (ValaStatement × Store)
  | .FOR i initializer condition iterator loop, h => do
    fprintf_c_file "\tfor ("
    let initializer ←
      vala_code_generator_process_statement_expression_list (process_expression h) initializer
    fprintf_c_file "; "
    let condition ← process_expression h condition
    fprintf_c_file "; "
    let iterator ←
      vala_code_generator_process_statement_expression_list (process_expression h) iterator
    fprintf_c_file ")\n"
    let loop ← process_statement loop h
    pure (.FOR i initializer condition iterator loop.1, loop.2)
  | _, _ => Emit.run .fault

/-- Lines 945-967 of the foreach arm: the declaration of the iterator, the head of the C loop
and the declaration of the loop variable, for a resolved container. -/
def foreach_head (h : Store) (process_expression : Store → ValaExpression → Emit ValaExpression)
    (i : StmtInfo) (type : ValaTypeReference) (name : String) (container : ValaExpression) :
    Emit ValaExpression :=
  if container.array_type then do
    let cname ← Emit.run (get_cname_for_static_expression_type h container i.location)
    fprintf_c_file ("\t" ++ cname ++ name ++ "_it;\n")
    fprintf_c_file "\tfor ("
    fprintf_c_file (name ++ "_it = ")
    let container ← process_expression h container
    fprintf_c_file "; "
    fprintf_c_file ("*" ++ name ++ "_it != NULL")
    fprintf_c_file "; "
    fprintf_c_file (name ++ "_it++")
    fprintf_c_file ") \x7b\n"
    let cname ← Emit.run (get_cname_for_type_reference h type false i.location)
    fprintf_c_file ("\t\t" ++ cname ++ name ++ " = *" ++ name ++ "_it;\n")
    pure container
  else do
    fprintf_c_file ("\tGList *" ++ name ++ "_it;\n")
    fprintf_c_file "\tfor ("
    fprintf_c_file (name ++ "_it = ")
    let container ← process_expression h container
    fprintf_c_file "; "
    fprintf_c_file (name ++ "_it != NULL")
    fprintf_c_file "; "
    fprintf_c_file (name ++ "_it = " ++ name ++ "_it->next")
    fprintf_c_file ") \x7b\n"
    let cname ← Emit.run (get_cname_for_type_reference h type false i.location)
    fprintf_c_file ("\t" ++ cname ++ name ++ " = " ++ name ++ "_it->data;\n")
    pure container

/-- The function `vala_code_generator_process_foreach_statement`. -/
def vala_code_generator_process_foreach_statement (g : ValaCodeGenerator) (fuel : Nat)
    (process_expression : Store → ValaExpression → Emit ValaExpression)
    (process_statement : ValaStatement → Store → Emit (ValaStatement × Store)) :
    ValaStatement → Store → Emit (ValaStatement × Store)
  | .FOREACH i type name container loop, h => do
    let container ←
      Emit.run (vala_code_generator_find_static_type_of_expression g h fuel container)
    let container ← foreach_head h process_expression i type name container
    let h ← Emit.run (declare_local_variable g h name type)
    let loop ← process_statement loop h
    fprintf_c_file "\x7d\n"
    pure (.FOREACH i type name container loop.1, loop.2)
  | _, _ => Emit.run .fault

/-- The function `vala_code_generator_process_if_statement`. -/
def vala_code_generator_process_if_statement
    (process_expression : Store → ValaExpression → Emit ValaExpression)
    (process_statement : ValaStatement → Store → Emit (ValaStatement × Store)) :
    ValaStatement → Store → Emit (ValaStatement × Store)
  | .IF i condition true_stmt false_stmt, h => do
    fprintf_c_file "\tif ("
    let condition ← process_expression h condition
    fprintf_c_file ")\n"
    let t ← process_statement true_stmt h
    match false_stmt with
    | some f => do
      fprintf_c_file "\telse "
      let f ← process_statement f t.2
      pure (.IF i condition t.1 (some f.1), f.2)
    | none => pure (.IF i condition t.1 none, t.2)
  | _, _ => Emit.run .fault

/-- The function `vala_code_generator_process_return_statement`. -/
def vala_code_generator_process_return_statement
    (process_expression : Store → ValaExpression → Emit ValaExpression) :
    ValaStatement → Store → Emit (ValaStatement × Store)
  | .RETURN i expr, h => do
    fprintf_c_file "\treturn "
    let expr ← (match expr with
      | some e => do
        let e ← process_expression h e
        pure (some e)
      | none => pure none)
    fprintf_c_file ";\n"
    pure (.RETURN i expr, h)
  | _, _ => Emit.run .fault

/-- The function `vala_code_generator_process_statement`; `depth` bounds the nesting of the
calls, those of the expression emitter included. -/
def vala_code_generator_process_statement (g : ValaCodeGenerator) (fuel : Nat) :
    Nat → ValaStatement → Store → Emit (ValaStatement × Store)
  | 0, _, _ => Emit.run .out_of_fuel
  | depth + 1, stmt, h =>
    let process_expression := fun (s : Store) (e : ValaExpression) =>
      vala_code_generator_process_expression g s fuel depth e
    let process_statement := fun (s : ValaStatement) (t : Store) =>
      vala_code_generator_process_statement g fuel depth s t
    match stmt with
    | .BLOCK _ _ => vala_code_generator_process_block process_statement stmt h
    | .EXPRESSION i expr => do
      fprintf_c_file "\t"
      let expr ← process_expression h expr
      fprintf_c_file ";\n"
      pure (.EXPRESSION i expr, h)
    | .WHILE _ _ _ =>
      vala_code_generator_process_while_statement process_expression process_statement stmt h
    | .FOR _ _ _ _ _ =>
      vala_code_generator_process_for_statement process_expression process_statement stmt h
    | .FOREACH _ _ _ _ _ =>
      vala_code_generator_process_foreach_statement g fuel process_expression
        process_statement stmt h
    | .IF _ _ _ _ =>
      vala_code_generator_process_if_statement process_expression process_statement stmt h
    | .RETURN _ _ => vala_code_generator_process_return_statement process_expression stmt h
    | .VARIABLE_DECLARATION _ _ =>
      vala_code_generator_process_variable_declaration g fuel process_expression stmt h
    | .OTHER i => do
      fprintf_c_file "\t;\n"
      pure (.OTHER i, h)

/-- The text of the initializer of a declaration, as the emitter `pe` writes it after ` = `;
nothing when the declaration has no initializer. -/
def initializer_text (pe : ValaExpression → Emit ValaExpression) :
    Option ValaExpression → String
  | none => ""
  | some e => " = " ++ (pe e).c_text

/-! ## The declaration emitter: the first pass (generator.c 96-265, 1040-1053, 1465-1582, 1668-1684)

The first pass writes the C names into the method records and the initializers and the
private-field flag into the class records, so its functions take the store and return it. -/

/-- The loop `for (l = list; l != NULL; l = l->next)` over a glib list: `body` is the body of
the loop, applied to `l->data` and to the state the loop works on. -/
def g_list_for {α σ : Type} (body : α → σ → Emit σ) : List α → σ → Emit σ
  | [], s => pure s
  | data :: next, s => do
    let s ← body data s
    g_list_for body next s

/-- The write of a method record through its pointer. -/
def Store.set_method (h : Store) (p : MethodPtr) (m : ValaMethod) : Store :=
  { h with methods := h.methods.set p m }

/-- The write of a class record through its pointer. -/
def Store.set_class (h : Store) (p : ClassPtr) (c : ValaClass) : Store :=
  { h with classes := h.classes.set p c }

/-- The loop of lines 131-136 over the methods of one ancestor; the result tells whether the
loop was left by `break`, that is `vml != NULL`. -/
def overridable_method_loop (h : Store) (name : String) : List MethodPtr → Outcome Bool
  | [] => pure false
  | vp :: vml => do
    let vmethod ← h.method (some vp)
    if vmethod.name = name ∧ (vmethod.modifiers.ABSTRACT ∨ vmethod.modifiers.VIRTUAL) then
      pure true
    else overridable_method_loop h name vml

/-- The `while (super_class != NULL)` loop of lines 129-141, one unit of fuel for each
ancestor visited; the result is the value of `super_class` after the loop. -/
def virtual_super_class_loop (h : Store) (name : String) :
    Nat → Option ClassPtr → Outcome (Option ClassPtr)
  | _, none => pure none
  | 0, some _ => .out_of_fuel
  | fuel + 1, some sp => do
    let super_class ← h.class_ (some sp)
    let found ← overridable_method_loop h name super_class.methods
    if found then pure (some sp)
    else virtual_super_class_loop h name fuel super_class.base_class

/-- Lines 126-150: the instance parameter of a method, with the method record after the write
of `virtual_super_class`. -/
def methods1_instance_parameter (h : Store) (fuel : Nat) (class_ : ValaClass)
    (method : ValaMethod) : Outcome (ValaMethod × List String) :=
  if !method.modifiers.STATIC then
    if method.modifiers.OVERRIDE then do
      let super_class ← virtual_super_class_loop h method.name fuel class_.base_class
      if super_class = none then err method.location (.NoOverridableMethod method.name)
      else do
        let method : ValaMethod := { method with virtual_super_class := super_class }
        let virtual_super_class ← h.class_ method.virtual_super_class
        pure (method, [virtual_super_class.cname ++ " *base"])
    else pure (method, [class_.cname ++ " *self"])
  else pure (method, [])

/-- The loop of lines 152-157 (and 240-245): one string for each formal parameter, the C name
of its type followed by its name. -/
def formal_parameters_loop (h : Store) : List ValaFormalParameter → Outcome (List String)
  | [] => pure []
  | param :: pl => do
    let cname ← get_cname_for_type_reference h param.type false param.location
    let rest ← formal_parameters_loop h pl
    pure ((cname ++ param.name) :: rest)

/-- Lines 159-169 (and 247-257): the value of `method->cparameters` for a parameter list. -/
def join_parameter_list : List String → String
  | [] => ""
  | data :: next => next.foldl (fun cparameters s => cparameters ++ ", " ++ s) data

/-- Lines 117-119 (and 229-231): the method record after the write of `cname`, which is made
only when no C name is set. -/
def methods1_cname (ns_lower lower_case : String) (method : ValaMethod) : ValaMethod :=
  if method.cname = none then
    { method with cname := some (ns_lower ++ lower_case ++ "_" ++ method.name) }
  else method

/-- Lines 171-176 (and 259-264): `cdecl1`, and the forward declaration of a method that is
not public. -/
def methods1_cdecl1 (method : ValaMethod) (method_return_type_cname : String) :
    Emit ValaMethod :=
  if method.modifiers.PUBLIC then
    pure { method with cdecl1 := some method_return_type_cname }
  else do
    let method : ValaMethod :=
      { method with cdecl1 := some ("static " ++ method_return_type_cname) }
    let cdecl1 ← Emit.run (Outcome.of_option method.cdecl1)
    let cname ← Emit.run (Outcome.of_option method.cname)
    let cparameters ← Emit.run (Outcome.of_option method.cparameters)
    fprintf_c_file (cdecl1 ++ " " ++ cname ++ " (" ++ cparameters ++ ");\n")
    pure method

/-- Lines 178-194: the shape of the initializers, and the class record after the write of
`init_method` or `class_init_method`. -/
def methods1_initializers (class_ : ValaClass) (mp : MethodPtr) (method : ValaMethod) :
    Outcome ValaClass :=
  if method.name = "init" then
    if method.modifiers.STATIC then err method.location .InstanceInitStatic
    else if !method.formal_parameters.isEmpty then err method.location .InstanceInitArguments
    else pure { class_ with init_method := some mp }
  else if method.name = "class_init" then
    if !method.modifiers.STATIC then err method.location .ClassInitNotStatic
    else if !method.formal_parameters.isEmpty then err method.location .ClassInitArguments
    else pure { class_ with class_init_method := some mp }
  else pure class_

/-- One turn of the loop of `vala_code_generator_process_methods1` (lines 113-195) on the
method `mp` of the class `cp`. -/
def process_methods1_method (fuel : Nat) (cp : ClassPtr) (mp : MethodPtr) (h : Store) :
    Emit Store := do
  let class_ ← Emit.run (h.class_ (some cp))
  let namespace_ ← Emit.run (h.namespace_ (some class_.namespace_))
  let method ← Emit.run (h.method (some mp))
  let method_return_type_cname ←
    Emit.run (get_cname_for_type_reference h method.return_type false method.location)
  let method := methods1_cname namespace_.lower_case_cname class_.lower_case_cname method
  if namespace_.import_ then pure (h.set_method mp method)
  else do
    let r ← Emit.run (methods1_instance_parameter h fuel class_ method)
    let params ← Emit.run (formal_parameters_loop h r.1.formal_parameters)
    let method : ValaMethod :=
      { r.1 with cparameters := some (join_parameter_list (r.2 ++ params)) }
    let method ← methods1_cdecl1 method method_return_type_cname
    let class_ ← Emit.run (methods1_initializers class_ mp method)
    pure ((h.set_method mp method).set_class cp class_)

/-- The function `vala_code_generator_process_methods1`; `fuel` bounds the walk up the base
classes of an overriding method. -/
def vala_code_generator_process_methods1 (fuel : Nat) (cp : ClassPtr) (h : Store) :
    Emit Store := do
  let class_ ← Emit.run (h.class_ (some cp))
  let _ ← Emit.run (h.namespace_ (some class_.namespace_))
  let h ← g_list_for (process_methods1_method fuel cp) class_.methods h
  fprintf_c_file "\n"
  pure h

/-- The function `vala_code_generator_process_ns_method`. -/
def vala_code_generator_process_ns_method (np : NamespacePtr) (mp : MethodPtr) (h : Store) :
    Emit Store := do
  let method ← Emit.run (h.method (some mp))
  if method.cname = none then do
    let namespace_ ← Emit.run (h.namespace_ (some np))
    pure (h.set_method mp
      { method with cname := some (namespace_.lower_case_cname ++ method.name) })
  else pure h

/-- One turn of the loop of `vala_code_generator_process_struct_methods1` (lines 225-263) on
the method `mp` of the struct `sp`. -/
def process_struct_methods1_method (sp : StructPtr) (mp : MethodPtr) (h : Store) :
    Emit Store := do
  let struct_ ← Emit.run (h.struct_ (some sp))
  let namespace_ ← Emit.run (h.namespace_ (some struct_.namespace_))
  let method ← Emit.run (h.method (some mp))
  let method_return_type_cname ←
    Emit.run (get_cname_for_type_reference h method.return_type false method.location)
  let method := methods1_cname namespace_.lower_case_cname struct_.lower_case_cname method
  let first : List String :=
    if !method.modifiers.STATIC then [struct_.cname ++ " *self"] else []
  let params ← Emit.run (formal_parameters_loop h method.formal_parameters)
  let method : ValaMethod :=
    { method with cparameters := some (join_parameter_list (first ++ params)) }
  let method ← methods1_cdecl1 method method_return_type_cname
  pure (h.set_method mp method)

/-- The function `vala_code_generator_process_struct_methods1`. -/
def vala_code_generator_process_struct_methods1 (sp : StructPtr) (h : Store) : Emit Store := do
  let struct_ ← Emit.run (h.struct_ (some sp))
  let _ ← Emit.run (h.namespace_ (some struct_.namespace_))
  let h ← g_list_for (process_struct_methods1_method sp) struct_.methods h
  fprintf_c_file "\n"
  pure h

/-- The loop of `get_fields_by_flag`: the fields whose modifier word is `flag`, each one
prepended to `ret`. -/
def get_fields_by_flag_loop (h : Store) (flag : ValaModifierFlags) :
    List FieldPtr → List FieldPtr → Outcome (List FieldPtr)
  | [], ret => pure ret
  | fp :: l, ret => do
    let field ← h.field (some fp)
    if field.modifiers = flag then get_fields_by_flag_loop h flag l (fp :: ret)
    else get_fields_by_flag_loop h flag l ret

/-- The function `get_fields_by_flag`. -/
def get_fields_by_flag (h : Store) (class_ : ValaClass) (flag : ValaModifierFlags) :
    Outcome (List FieldPtr) := do
  let ret ← get_fields_by_flag_loop h flag class_.fields []
  pure ret.reverse

/-- The line of a field in a struct of fields (lines 1510-1512, 1526-1529): `lead`, the C name
of the declared type and the name of the declarator. -/
def field_line (h : Store) (lead : String) (fp : FieldPtr) : Emit Unit := do
  let field ← Emit.run (h.field (some fp))
  let declaration ← Emit.run (Outcome.of_option field.declaration_statement.variable_declaration)
  let cname ← Emit.run
    (get_cname_for_type_reference h declaration.type false field.declaration_statement.info.location)
  fprintf_c_file (lead ++ cname ++ declaration.declarator.name ++ ";\n")

/-- One turn of the loop of lines 1507-1513 over the private fields: the turn sets
`class->has_private_fields` and writes the line of the field. -/
def private_field (cp : ClassPtr) (fp : FieldPtr) (h : Store) : Emit Store := do
  let class_ ← Emit.run (h.class_ (some cp))
  let h := h.set_class cp { class_ with has_private_fields := true }
  field_line h "\t" fp
  pure h

/-- Lines 1504-1519 of `vala_code_generator_process_class1`: the private structure. -/
def class1_private_structure (cp : ClassPtr) (h : Store) : Emit Store := do
  let class_ ← Emit.run (h.class_ (some cp))
  fprintf_c_file ("struct _" ++ class_.cname ++ "Private \x7b\n")
  let l ← Emit.run (get_fields_by_flag h class_ { PRIVATE := true })
  let h ← g_list_for (private_field cp) l h
  let class_ ← Emit.run (h.class_ (some cp))
  if !class_.has_private_fields then fprintf_c_file "\tint dummy;\n" else pure ()
  fprintf_c_file "\x7d;\n"
  fprintf_c_file "\n"
  pure h

/-- Lines 1484-1499 of `vala_code_generator_process_class1`: the type macros and the type
definitions in the header. -/
def class1_type_macros (class_ : ValaClass) (namespace_ : ValaNamespace) : Emit Unit := do
  let camel_case := class_.cname
  let ns_lower := namespace_.lower_case_cname
  let ns_upper := namespace_.upper_case_cname
  let lower_case := class_.lower_case_cname
  let upper_case := class_.upper_case_cname
  fprintf_h_file ("#define " ++ ns_upper ++ "TYPE_" ++ upper_case ++ "\t(" ++ ns_lower ++
    lower_case ++ "_get_type ())\n")
  fprintf_h_file ("#define " ++ ns_upper ++ upper_case ++
    "(obj)\t(G_TYPE_CHECK_INSTANCE_CAST ((obj), " ++ ns_upper ++ "TYPE_" ++ upper_case ++
    ", " ++ camel_case ++ "))\n")
  fprintf_h_file ("#define " ++ ns_upper ++ upper_case ++
    "_CLASS(klass)\t(G_TYPE_CHECK_CLASS_CAST ((klass), " ++ ns_upper ++ "TYPE_" ++ upper_case ++
    ", " ++ camel_case ++ "Class))\n")
  fprintf_h_file ("#define " ++ ns_upper ++ "IS_" ++ upper_case ++
    "(obj)\t(G_TYPE_CHECK_INSTANCE_TYPE ((obj), " ++ ns_upper ++ "TYPE_" ++ upper_case ++ "))\n")
  fprintf_h_file ("#define " ++ ns_upper ++ "IS_" ++ upper_case ++
    "_CLASS(klass)\t(G_TYPE_CHECK_CLASS_TYPE ((klass), " ++ ns_upper ++ "TYPE_" ++ upper_case ++
    "))\n")
  fprintf_h_file ("#define " ++ ns_upper ++ upper_case ++
    "_GET_CLASS(obj)\t(G_TYPE_INSTANCE_GET_CLASS ((obj), " ++ ns_upper ++ "TYPE_" ++
    upper_case ++ ", " ++ camel_case ++ "Class))\n")
  fprintf_h_file "\n"
  fprintf_h_file ("#ifndef _TYPE_" ++ ns_upper ++ upper_case ++ "\n")
  fprintf_h_file ("#define _TYPE_" ++ ns_upper ++ upper_case ++ "\n")
  fprintf_h_file ("typedef struct _" ++ camel_case ++ " " ++ camel_case ++ ";\n")
  fprintf_h_file ("typedef struct _" ++ camel_case ++ "Class " ++ camel_case ++ "Class;\n")
  fprintf_h_file "#endif\n"
  fprintf_h_file ("typedef struct _" ++ camel_case ++ "Private " ++ camel_case ++ "Private;\n")
  fprintf_h_file "\n"

/-- The function `vala_code_generator_process_class1`. -/
def vala_code_generator_process_class1 (g : ValaCodeGenerator) (fuel : Nat) (cp : ClassPtr)
    (h : Store) : Emit (ValaCodeGenerator × Store) := do
  let class_ ← Emit.run (h.class_ (some cp))
  let namespace_ ← Emit.run (h.namespace_ (some class_.namespace_))
  let g : ValaCodeGenerator := { g with class_ := some cp }
  class1_type_macros class_ namespace_
  let h ← vala_code_generator_process_methods1 fuel cp h
  let h ← class1_private_structure cp h
  fprintf_c_file ("#define " ++ namespace_.upper_case_cname ++ class_.upper_case_cname ++
    "_GET_PRIVATE(o) (G_TYPE_INSTANCE_GET_PRIVATE ((o), " ++ namespace_.upper_case_cname ++
    "TYPE_" ++ class_.upper_case_cname ++ ", " ++ class_.cname ++ "Private))\n\n")
  let l ← Emit.run (get_fields_by_flag h class_ { PRIVATE := true, STATIC := true })
  g_list_for (fun fp _ => field_line h "static " fp) l ()
  fprintf_c_file "\n"
  pure (g, h)

/-- The function `vala_code_generator_process_struct1`. -/
def vala_code_generator_process_struct1 (g : ValaCodeGenerator) (sp : StructPtr) (h : Store) :
    Emit (ValaCodeGenerator × Store) := do
  let struct_ ← Emit.run (h.struct_ (some sp))
  let _ ← Emit.run (h.namespace_ (some struct_.namespace_))
  let g : ValaCodeGenerator := { g with struct_ := some sp }
  fprintf_h_file ("typedef struct _" ++ struct_.cname ++ " " ++ struct_.cname ++ ";\n")
  fprintf_h_file "\n"
  let h ← vala_code_generator_process_struct_methods1 sp h
  pure (g, h)

/-- One turn of the loop of `vala_code_generator_process_enum1` over the values. -/
def enum1_value (h : Store) (vp : EnumValuePtr) : Emit Unit := do
  let val ← Emit.run (h.enum_value (some vp))
  fprintf_h_file ("\t" ++ val.cname ++ ",\n")

/-- The function `vala_code_generator_process_enum1`. -/
def vala_code_generator_process_enum1 (ep : EnumPtr) (h : Store) : Emit Unit := do
  let enum_ ← Emit.run (h.enum_ (some ep))
  let _ ← Emit.run (h.namespace_ (some enum_.namespace_))
  fprintf_h_file "typedef enum \x7b\n"
  g_list_for (fun vp _ => enum1_value h vp) enum_.values ()
  fprintf_h_file ("\x7d " ++ enum_.cname ++ ";\n")
  fprintf_h_file "\n"

/-- The function `vala_code_generator_process_namespace1`. -/
def vala_code_generator_process_namespace1 (g : ValaCodeGenerator) (fuel : Nat)
    (np : NamespacePtr) (h : Store) : Emit (ValaCodeGenerator × Store) := do
  let namespace_ ← Emit.run (h.namespace_ (some np))
  let s ← g_list_for (fun cp s => vala_code_generator_process_class1 s.1 fuel cp s.2)
    namespace_.classes (g, h)
  let s ← g_list_for (fun sp s => vala_code_generator_process_struct1 s.1 sp s.2)
    namespace_.structs s
  g_list_for (fun ep _ => vala_code_generator_process_enum1 ep s.2) namespace_.enums ()
  let h ← g_list_for (vala_code_generator_process_ns_method np) namespace_.methods s.2
  pure (s.1, h)

/-! ## The declaration emitter: the methods of the second pass (generator.c 1118-1202, 1375-1388, 1430-1463) -/

/-- Lines 1125-1127 of `vala_code_generator_process_methods2`: the prototype in the header. -/
def methods2_prototype (method : ValaMethod) : Emit Unit :=
  if method.modifiers.PUBLIC ∧ ¬ method.modifiers.OVERRIDE then do
    let cdecl1 ← Emit.run (Outcome.of_option method.cdecl1)
    let cname ← Emit.run (Outcome.of_option method.cname)
    let cparameters ← Emit.run (Outcome.of_option method.cparameters)
    fprintf_h_file (cdecl1 ++ " " ++ cname ++ " (" ++ cparameters ++ ");\n")
  else pure ()

/-- Lines 1130-1136: the head of the function that holds the body. -/
def methods2_body_head (class_ : ValaClass) (namespace_ : ValaNamespace) (method : ValaMethod) :
    Emit Unit := do
  let cdecl1 ← Emit.run (Outcome.of_option method.cdecl1)
  if ¬ (method.modifiers.VIRTUAL ∨ method.modifiers.OVERRIDE) then do
    fprintf_c_file (cdecl1 ++ "\n")
    let cname ← Emit.run (Outcome.of_option method.cname)
    let cparameters ← Emit.run (Outcome.of_option method.cparameters)
    fprintf_c_file (cname ++ " (" ++ cparameters ++ ")\n")
  else do
    fprintf_c_file ("static " ++ cdecl1 ++ "\n")
    let cparameters ← Emit.run (Outcome.of_option method.cparameters)
    fprintf_c_file (namespace_.lower_case_cname ++ class_.lower_case_cname ++ "_real_" ++
      method.name ++ " (" ++ cparameters ++ ")\n")

/-- The loop of lines 1149-1155: each formal parameter is declared as a local variable of the
scope of the body. -/
def formal_parameters_scope_loop (g : ValaCodeGenerator) :
    List ValaFormalParameter → Store → Outcome Store
  | [], h => pure h
  | param :: pl, h => do
    let h ← declare_local_variable g h param.name param.type
    formal_parameters_scope_loop g pl h

/-- Lines 1143-1155: the fresh Block symbol of a body becomes `generator->sym`, with the body
as its statement and the formal parameters as its local variables. -/
def method_body_scope (g : ValaCodeGenerator) (h : Store) (body : ValaStatement)
    (formal_parameters : List ValaFormalParameter) : Outcome (ValaCodeGenerator × Store) := do
  let n := vala_symbol_new h .BLOCK
  let g : ValaCodeGenerator := { g with sym := some n.2 }
  let sym ← n.1.symbol g.sym
  let h : Store := { n.1 with symbols := n.1.symbols.set n.2 { sym with stmt := some body } }
  let h ← formal_parameters_scope_loop g formal_parameters h
  pure (g, h)

/-- Lines 1129-1162: the function that holds the body of a method; the statements of the body
are decorated in place, so the method record takes the body the block emitter returns. -/
def methods2_body (g : ValaCodeGenerator) (fuel depth : Nat) (class_ : ValaClass)
    (namespace_ : ValaNamespace) (mp : MethodPtr) (method : ValaMethod) (h : Store) :
    Emit (ValaCodeGenerator × Store) :=
  match method.body with
  | some body =>
    if !method.modifiers.ABSTRACT then do
      methods2_body_head class_ namespace_ method
      if method.modifiers.OVERRIDE then do
        fprintf_c_file "\x7b\n"
        fprintf_c_file ("\t" ++ class_.cname ++ " *self = " ++ namespace_.upper_case_cname ++
          class_.upper_case_cname ++ "(base);\n")
      else pure ()
      let s ← Emit.run (method_body_scope g h body method.formal_parameters)
      let r ← vala_code_generator_process_block
        (vala_code_generator_process_statement s.1 fuel depth) body s.2
      if method.modifiers.OVERRIDE then fprintf_c_file "\x7d\n" else pure ()
      pure (s.1, r.2.set_method mp { method with body := some r.1 })
    else pure (g, h)
  | none => pure (g, h)

/-- Lines 1166-1187: the function of an abstract or virtual method that calls through the
class structure. -/
def methods2_dispatcher (h : Store) (class_ : ValaClass) (namespace_ : ValaNamespace)
    (method : ValaMethod) : Emit Unit :=
  if method.modifiers.ABSTRACT ∨ method.modifiers.VIRTUAL then do
    let cdecl1 ← Emit.run (Outcome.of_option method.cdecl1)
    fprintf_c_file (cdecl1 ++ "\n")
    let cname ← Emit.run (Outcome.of_option method.cname)
    let cparameters ← Emit.run (Outcome.of_option method.cparameters)
    fprintf_c_file (cname ++ " (" ++ cparameters ++ ")\n")
    fprintf_c_file "\x7b\n"
    fprintf_c_file "\t"
    let symbol ← Emit.run (h.symbol method.return_type.symbol)
    if symbol.type ≠ .VOID then fprintf_c_file "return " else pure ()
    fprintf_c_file (namespace_.upper_case_cname ++ class_.upper_case_cname ++
      "_GET_CLASS (self)->" ++ method.name ++ " (self")
    g_list_for (fun (param : ValaFormalParameter) _ => fprintf_c_file (", " ++ param.name))
      method.formal_parameters ()
    fprintf_c_file ");\n"
    fprintf_c_file "\x7d\n"
    fprintf_c_file "\n"
  else pure ()

/-- Lines 1189-1201: the C `main` of a static method `main` that returns `int` and takes two
parameters. -/
def methods2_main (method : ValaMethod) : Emit Unit :=
  if method.modifiers.STATIC ∧ method.name = "main" then do
    let type_name ← Emit.run (Outcome.of_option method.return_type.type_name)
    if type_name = "int" then
      if method.formal_parameters.length = 2 then do
        fprintf_c_file "int\n"
        fprintf_c_file "main (int argc, char **argv)\n"
        fprintf_c_file "\x7b\n"
        fprintf_c_file "\tg_type_init ();\n"
        let cname ← Emit.run (Outcome.of_option method.cname)
        fprintf_c_file ("\treturn " ++ cname ++ " (argc, argv);\n")
        fprintf_c_file "\x7d\n"
        fprintf_c_file "\n"
      else pure ()
    else pure ()
  else pure ()

/-- One turn of the first loop of `vala_code_generator_process_methods2` (lines 1118-1202) on
the method `mp` of the class `cp`. -/
def process_methods2_method (fuel depth : Nat) (cp : ClassPtr) (mp : MethodPtr)
    (s : ValaCodeGenerator × Store) : Emit (ValaCodeGenerator × Store) := do
  let class_ ← Emit.run (s.2.class_ (some cp))
  let namespace_ ← Emit.run (s.2.namespace_ (some class_.namespace_))
  let method ← Emit.run (s.2.method (some mp))
  if method.name = "init" ∨ method.name = "class_init" then pure s
  else do
    methods2_prototype method
    let s ← methods2_body s.1 fuel depth class_ namespace_ mp method s.2
    fprintf_c_file "\n"
    methods2_dispatcher s.2 class_ namespace_ method
    methods2_main method
    pure s

/-- The first loop of `vala_code_generator_process_methods2` (lines 1118-1202), over
`class->methods`. -/
def process_methods2_loop (fuel depth : Nat) (cp : ClassPtr) (s : ValaCodeGenerator × Store) :
    Emit (ValaCodeGenerator × Store) := do
  let class_ ← Emit.run (s.2.class_ (some cp))
  g_list_for (process_methods2_method fuel depth cp) class_.methods s

/-- One turn of the loop of lines 1376-1388 in the class initializer: the line that stores
the implementation of a virtual or overriding method in the class structure. -/
def class_init_chain_line (h : Store) (class_ : ValaClass) (namespace_ : ValaNamespace)
    (mp : MethodPtr) : Emit Unit := do
  let method ← Emit.run (h.method (some mp))
  if method.modifiers.VIRTUAL ∨ method.modifiers.OVERRIDE then do
    fprintf_c_file "\t"
    if method.modifiers.OVERRIDE then do
      let virtual_super_class ← Emit.run (h.class_ method.virtual_super_class)
      let super_namespace ← Emit.run (h.namespace_ (some virtual_super_class.namespace_))
      fprintf_c_file (super_namespace.upper_case_cname ++ virtual_super_class.upper_case_cname ++
        "_CLASS (klass)")
    else fprintf_c_file "klass"
    fprintf_c_file ("->" ++ method.name ++ " = " ++ namespace_.lower_case_cname ++
      class_.lower_case_cname ++ "_real_" ++ method.name ++ ";\n")
  else pure ()

/-- The loop of lines 1376-1388 over `class->methods`. -/
def class_init_chain_loop (h : Store) (class_ : ValaClass) (namespace_ : ValaNamespace) :
    Emit Unit :=
  g_list_for (fun mp _ => class_init_chain_line h class_ namespace_ mp) class_.methods ()

/-- One turn of the loop of `vala_code_generator_process_virtual_method_pointers` on the
method `mp`, with the value of `first` before and after the turn. -/
def virtual_method_pointer (h : Store) (mp : MethodPtr) (first : Bool) : Emit Bool := do
  let method ← Emit.run (h.method (some mp))
  if ¬ (method.modifiers.ABSTRACT ∨ method.modifiers.VIRTUAL) then pure first
  else do
    let first ← (if first then do
        fprintf_h_file "\n"
        fprintf_h_file "\t/* virtual methods */\n"
        pure first
      else pure false)
    let cname ← Emit.run
      (get_cname_for_type_reference h method.return_type false method.location)
    let cparameters ← Emit.run (Outcome.of_option method.cparameters)
    fprintf_h_file ("\t" ++ cname ++ "(*" ++ method.name ++ ") (" ++ cparameters ++ ");\n")
    pure first

/-- The function `vala_code_generator_process_virtual_method_pointers`. -/
def vala_code_generator_process_virtual_method_pointers (h : Store) (cp : ClassPtr) :
    Emit Unit := do
  let class_ ← Emit.run (h.class_ (some cp))
  let _ ← Emit.run (h.namespace_ (some class_.namespace_))
  let _ ← g_list_for (virtual_method_pointer h) class_.methods true
  pure ()

/-! ## The declaration emitter: properties, constructors and classes of the second pass (generator.c 1055-1098, 1203-1427, 1584-1693)

The second pass decorates the statements and expressions it emits in place, so its functions
take the store and return it with the decorated bodies. -/

/-- The glib `g_ascii_strup`: the string with its ASCII lower-case letters in upper case. -/
def g_ascii_strup (str : String) : String := String.mk (str.data.map Char.toUpper)

/-- The write of a property record through its pointer. -/
def Store.set_property (h : Store) (p : PropertyPtr) (q : ValaProperty) : Store :=
  { h with properties := h.properties.set p q }

/-- The write of a field record through its pointer. -/
def Store.set_field (h : Store) (p : FieldPtr) (f : ValaField) : Store :=
  { h with fields := h.fields.set p f }

/-- The write of a constant record through its pointer. -/
def Store.set_constant (h : Store) (p : ConstantPtr) (k : ValaConstant) : Store :=
  { h with constants := h.constants.set p k }

/-- Lines 1225-1226, 1236-1237, 1341-1342 and 1420-1421: a fresh Block symbol becomes
`generator->sym`, with `stmt` as its statement. -/
def new_block_scope (g : ValaCodeGenerator) (h : Store) (stmt : Option ValaStatement) :
    Outcome (ValaCodeGenerator × Store) := do
  let n := vala_symbol_new h .BLOCK
  let g : ValaCodeGenerator := { g with sym := some n.2 }
  let sym ← n.1.symbol g.sym
  pure (g, { n.1 with symbols := n.1.symbols.set n.2 { sym with stmt := stmt } })

/-- One turn of the loop of `vala_code_generator_process_constants` (lines 1074-1097); the
`g_assert` on the value of an inferred type aborts the run. -/
def process_constant (g : ValaCodeGenerator) (fuel depth : Nat) (kp : ConstantPtr)
    (h : Store) : Emit Store := do
  let constant ← Emit.run (h.constant (some kp))
  match constant.declaration_statement with
  | .VARIABLE_DECLARATION i d => do
    let r ← (if d.type.type_name = none then do
        let expr ← Emit.run (Outcome.of_option d.declarator.initializer)
        let expr ← Emit.run (vala_code_generator_find_static_type_of_expression g h fuel expr)
        pure ({ d.type with symbol := expr.static_type_symbol }, some expr)
      else pure (d.type, d.declarator.initializer))
    let decl_string ← Emit.run (get_cname_for_type_reference h r.1 true i.location)
    fprintf_c_file (decl_string ++ d.declarator.name ++ (if r.1.array_type then "[]" else ""))
    let expr ← (match r.2 with
      | some e => do
        fprintf_c_file " = "
        let e ← vala_code_generator_process_expression g h fuel depth e
        pure (some e)
      | none => pure none)
    fprintf_c_file ";\n"
    fprintf_c_file "\n"
    let stmt : ValaStatement := .VARIABLE_DECLARATION i
      { type := r.1, declarator := { name := d.declarator.name, initializer := expr } }
    pure (h.set_constant kp { declaration_statement := stmt })
  | _ => Emit.run .fault

/-- The function `vala_code_generator_process_constants`. -/
def vala_code_generator_process_constants (g : ValaCodeGenerator) (fuel depth : Nat)
    (cp : ClassPtr) (h : Store) : Emit Store := do
  let class_ ← Emit.run (h.class_ (some cp))
  let _ ← Emit.run (h.namespace_ (some class_.namespace_))
  g_list_for (process_constant g fuel depth) class_.constants h

/-- One turn of the loop of lines 1210-1213: the enumerator of a property. -/
def property_enumerator (h : Store) (class_ : ValaClass) (namespace_ : ValaNamespace)
    (pp : PropertyPtr) : Emit Unit := do
  let prop ← Emit.run (h.property (some pp))
  fprintf_c_file ("\t" ++ namespace_.upper_case_cname ++ class_.upper_case_cname ++ "_" ++
    g_ascii_strup prop.name ++ ",\n")

/-- Lines 1207-1214: the enumeration of the property ids. -/
def property_enum (h : Store) (class_ : ValaClass) (namespace_ : ValaNamespace) : Emit Unit := do
  fprintf_c_file "enum \x7b\n"
  fprintf_c_file ("\t" ++ namespace_.upper_case_cname ++ class_.upper_case_cname ++
    "_DUMMY_PROPERTY,\n")
  g_list_for (fun pp _ => property_enumerator h class_ namespace_ pp) class_.properties ()
  fprintf_c_file "\x7d;\n"

/-- Lines 1220-1230: the accessor function of the get statement of a property. -/
def property_getter (fuel depth : Nat) (class_ : ValaClass) (namespace_ : ValaNamespace)
    (pp : PropertyPtr) (s : ValaCodeGenerator × Store) : Emit (ValaCodeGenerator × Store) := do
  let prop ← Emit.run (s.2.property (some pp))
  match prop.get_statement with
  | none => pure s
  | some get_statement => do
    let cname ← Emit.run (get_cname_for_type_reference s.2 prop.return_type false prop.location)
    fprintf_h_file (cname ++ " " ++ namespace_.lower_case_cname ++ class_.lower_case_cname ++
      "_get_" ++ prop.name ++ " (" ++ class_.cname ++ " *self);\n")
    let cname ← Emit.run (get_cname_for_type_reference s.2 prop.return_type false prop.location)
    fprintf_c_file (cname ++ "\n")
    fprintf_c_file (namespace_.lower_case_cname ++ class_.lower_case_cname ++ "_get_" ++
      prop.name ++ " (" ++ class_.cname ++ " *self)\n")
    let s1 ← Emit.run (new_block_scope s.1 s.2 (some get_statement))
    let r ← vala_code_generator_process_statement s1.1 fuel depth get_statement s1.2
    pure (s1.1, r.2.set_property pp { prop with get_statement := some r.1 })

/-- Lines 1232-1245: the accessor function of the set statement of a property, with the local
variable `value` of the type of the property. -/
def property_setter (fuel depth : Nat) (class_ : ValaClass) (namespace_ : ValaNamespace)
    (pp : PropertyPtr) (s : ValaCodeGenerator × Store) : Emit (ValaCodeGenerator × Store) := do
  let prop ← Emit.run (s.2.property (some pp))
  match prop.set_statement with
  | none => pure s
  | some set_statement => do
    let cname ← Emit.run (get_cname_for_type_reference s.2 prop.return_type false prop.location)
    fprintf_h_file ("void " ++ namespace_.lower_case_cname ++ class_.lower_case_cname ++
      "_set_" ++ prop.name ++ " (" ++ class_.cname ++ " *self, " ++ cname ++ "value);\n")
    fprintf_c_file "void\n"
    let cname ← Emit.run (get_cname_for_type_reference s.2 prop.return_type false prop.location)
    fprintf_c_file (namespace_.lower_case_cname ++ class_.lower_case_cname ++ "_set_" ++
      prop.name ++ " (" ++ class_.cname ++ " *self, " ++ cname ++ "value)\n")
    let s1 ← Emit.run (new_block_scope s.1 s.2 (some set_statement))
    let h ← Emit.run (declare_local_variable s1.1 s1.2 "value" prop.return_type)
    let r ← vala_code_generator_process_statement s1.1 fuel depth set_statement h
    pure (s1.1, r.2.set_property pp { prop with set_statement := some r.1 })

/-- One turn of the loop of lines 1217-1246: the getter and the setter of a property. -/
def property_accessors (fuel depth : Nat) (class_ : ValaClass) (namespace_ : ValaNamespace)
    (pp : PropertyPtr) (s : ValaCodeGenerator × Store) : Emit (ValaCodeGenerator × Store) := do
  let s ← property_getter fuel depth class_ namespace_ pp s
  property_setter fuel depth class_ namespace_ pp s

/-- Lines 1261-1271: the `g_value_set_` function `get_property` calls for a property. -/
def get_property_g_value_set (h : Store) (prop : ValaProperty) : Emit Unit := do
  let type_name ← Emit.run (Outcome.of_option prop.return_type.type_name)
  if type_name = "string" then fprintf_c_file "\t\tg_value_set_string"
  else do
    let symbol ← Emit.run (h.symbol prop.return_type.symbol)
    if symbol.type = .ENUM ∨ type_name = "int" then fprintf_c_file "\t\tg_value_set_int"
    else if type_name = "bool" then fprintf_c_file "\t\tg_value_set_boolean"
    else if symbol.type = .CLASS then fprintf_c_file "\t\tg_value_set_object"
    else fprintf_c_file "\t\tg_value_set_pointer"

/-- One turn of the loop of lines 1254-1274: the case of a property in `get_property`. -/
def get_property_case (h : Store) (class_ : ValaClass) (namespace_ : ValaNamespace)
    (pp : PropertyPtr) : Emit Unit := do
  let prop ← Emit.run (h.property (some pp))
  if prop.get_statement.isNone then pure ()
  else do
    fprintf_c_file ("\tcase " ++ namespace_.upper_case_cname ++ class_.upper_case_cname ++
      "_" ++ g_ascii_strup prop.name ++ ":\n")
    get_property_g_value_set h prop
    fprintf_c_file (" (value, " ++ namespace_.lower_case_cname ++ class_.lower_case_cname ++
      "_get_" ++ prop.name ++ " (self));\n")
    fprintf_c_file "\t\tbreak;\n"

/-- Lines 1248-1280: the function `get_property` of a class. -/
def get_property_dispatcher (h : Store) (class_ : ValaClass) (namespace_ : ValaNamespace) :
    Emit Unit := do
  fprintf_c_file "static void\n"
  fprintf_c_file (namespace_.lower_case_cname ++ class_.lower_case_cname ++
    "_get_property (GObject *object, guint property_id, GValue *value, GParamSpec *pspec)\n")
  fprintf_c_file "\x7b\n"
  fprintf_c_file ("\t" ++ class_.cname ++ " *self = (" ++ class_.cname ++ " *) object;\n")
  fprintf_c_file "\tswitch (property_id) \x7b\n"
  g_list_for (fun pp _ => get_property_case h class_ namespace_ pp) class_.properties ()
  fprintf_c_file "\tdefault:\n"
  fprintf_c_file "\t\tG_OBJECT_WARN_INVALID_PROPERTY_ID(object,property_id,pspec);\n"
  fprintf_c_file "\t\tbreak;\n"
  fprintf_c_file "\t\x7d\n"
  fprintf_c_file "\x7d\n"

/-- Lines 1295-1305: the `g_value_get_` call `set_property` makes for a property. -/
def set_property_g_value_get (h : Store) (prop : ValaProperty) : Emit Unit := do
  let type_name ← Emit.run (Outcome.of_option prop.return_type.type_name)
  if type_name = "string" then fprintf_c_file "g_value_dup_string (value)"
  else do
    let symbol ← Emit.run (h.symbol prop.return_type.symbol)
    if symbol.type = .ENUM ∨ type_name = "int" then fprintf_c_file "g_value_get_int (value)"
    else if type_name = "bool" then fprintf_c_file "g_value_get_boolean (value)"
    else if symbol.type = .CLASS then fprintf_c_file "g_value_get_object (value)"
    else fprintf_c_file "g_value_get_pointer (value)"

/-- One turn of the loop of lines 1287-1308: the case of a property in `set_property`. -/
def set_property_case (h : Store) (class_ : ValaClass) (namespace_ : ValaNamespace)
    (pp : PropertyPtr) : Emit Unit := do
  let prop ← Emit.run (h.property (some pp))
  if prop.set_statement.isNone then pure ()
  else do
    fprintf_c_file ("\tcase " ++ namespace_.upper_case_cname ++ class_.upper_case_cname ++
      "_" ++ g_ascii_strup prop.name ++ ":\n")
    fprintf_c_file ("\t" ++ namespace_.lower_case_cname ++ class_.lower_case_cname ++
      "_set_" ++ prop.name ++ " (self, ")
    set_property_g_value_get h prop
    fprintf_c_file ");\n"
    fprintf_c_file "\t\tbreak;\n"

/-- Lines 1282-1313: the function `set_property` of a class. -/
def set_property_dispatcher (h : Store) (class_ : ValaClass) (namespace_ : ValaNamespace) :
    Emit Unit := do
  fprintf_c_file "static void\n"
  fprintf_c_file (namespace_.lower_case_cname ++ class_.lower_case_cname ++
    "_set_property (GObject *object, guint property_id, const GValue *value, " ++
    "GParamSpec *pspec)\n")
  fprintf_c_file "\x7b\n"
  fprintf_c_file ("\t" ++ class_.cname ++ " *self = (" ++ class_.cname ++ " *) object;\n")
  fprintf_c_file "\tswitch (property_id) \x7b\n"
  g_list_for (fun pp _ => set_property_case h class_ namespace_ pp) class_.properties ()
  fprintf_c_file "\tdefault:\n"
  fprintf_c_file "\t\tG_OBJECT_WARN_INVALID_PROPERTY_ID(object,property_id,pspec);\n"
  fprintf_c_file "\t\tbreak;\n"
  fprintf_c_file "\t\x7d\n"
  fprintf_c_file "\x7d\n"

/-- Lines 1205-1314: the part of `vala_code_generator_process_methods2` on the properties of
a class that has some. -/
def methods2_properties (fuel depth : Nat) (class_ : ValaClass) (namespace_ : ValaNamespace)
    (s : ValaCodeGenerator × Store) : Emit (ValaCodeGenerator × Store) := do
  property_enum s.2 class_ namespace_
  let s ← g_list_for (property_accessors fuel depth class_ namespace_) class_.properties s
  get_property_dispatcher s.2 class_ namespace_
  set_property_dispatcher s.2 class_ namespace_
  pure s

/-- The declaration statement of a field or constant with the decorated initializer written
back. -/
def ValaStatement.with_initializer (stmt : ValaStatement) (expr : ValaExpression) :
    ValaStatement :=
  match stmt with
  | .VARIABLE_DECLARATION i d =>
    .VARIABLE_DECLARATION i
      { type := d.type, declarator := { name := d.declarator.name, initializer := some expr } }
  | s => s

/-- One turn of the loop of lines 1325-1338: the assignment of its initializer to an instance
field. -/
def init_field (g : ValaCodeGenerator) (fuel depth : Nat) (fp : FieldPtr) (h : Store) :
    Emit Store := do
  let field ← Emit.run (h.field (some fp))
  let declaration ← Emit.run (Outcome.of_option field.declaration_statement.variable_declaration)
  match declaration.declarator.initializer with
  | none => pure h
  | some expr =>
    if field.modifiers.STATIC then pure h
    else do
      if field.modifiers.PUBLIC then
        fprintf_c_file ("\tself->" ++ declaration.declarator.name ++ " = ")
      else if field.modifiers.PRIVATE then
        fprintf_c_file ("\tself->priv->" ++ declaration.declarator.name ++ " = ")
      else pure ()
      let expr ← vala_code_generator_process_expression g h fuel depth expr
      fprintf_c_file ";\n"
      pure (h.set_field fp { field with
        declaration_statement := field.declaration_statement.with_initializer expr })

/-- Lines 1340-1345 and 1419-1424: the block of an initializer method is emitted in a fresh
scope. -/
def initializer_body (g : ValaCodeGenerator) (fuel depth : Nat) (method : Option MethodPtr)
    (h : Store) : Emit (ValaCodeGenerator × Store) :=
  match method with
  | none => pure (g, h)
  | some mp => do
    let init_method ← Emit.run (h.method (some mp))
    let s ← Emit.run (new_block_scope g h init_method.body)
    let body ← Emit.run (Outcome.of_option init_method.body)
    let r ← vala_code_generator_process_block
      (vala_code_generator_process_statement s.1 fuel depth) body s.2
    pure (s.1, r.2.set_method mp { init_method with body := some r.1 })

/-- Lines 1316-1347: the instance initializer `_init` of a class. -/
def methods2_init (fuel depth : Nat) (cp : ClassPtr) (s : ValaCodeGenerator × Store) :
    Emit (ValaCodeGenerator × Store) := do
  let class_ ← Emit.run (s.2.class_ (some cp))
  let namespace_ ← Emit.run (s.2.namespace_ (some class_.namespace_))
  fprintf_c_file "static void\n"
  let name ← Emit.run (Outcome.of_option namespace_.name)
  fprintf_c_file (namespace_.lower_case_cname ++ class_.lower_case_cname ++ "_init (" ++
    name ++ class_.name ++ " *self)\n")
  fprintf_c_file "\x7b\n"
  if class_.has_private_fields then
    fprintf_c_file ("\tself->priv = " ++ namespace_.upper_case_cname ++
      class_.upper_case_cname ++ "_GET_PRIVATE (self);\n")
  else pure ()
  let h ← g_list_for (init_field s.1 fuel depth) class_.fields s.2
  let s ← initializer_body s.1 fuel depth class_.init_method h
  fprintf_c_file "\x7d\n"
  fprintf_c_file "\n"
  pure s

/-- One turn of the loop of lines 1357-1371: the assignment of its initializer to a public
static field. -/
def class_init_field (g : ValaCodeGenerator) (fuel depth : Nat) (fp : FieldPtr) (h : Store) :
    Emit Store := do
  let field ← Emit.run (h.field (some fp))
  let declaration ← Emit.run (Outcome.of_option field.declaration_statement.variable_declaration)
  match declaration.declarator.initializer with
  | none => pure h
  | some expr =>
    if !field.modifiers.STATIC then pure h
    else if !field.modifiers.PUBLIC && field.modifiers.PRIVATE then pure h
    else do
      if field.modifiers.PUBLIC then
        fprintf_c_file ("\tklass->" ++ declaration.declarator.name ++ " = ")
      else pure ()
      let expr ← vala_code_generator_process_expression g h fuel depth expr
      fprintf_c_file ";\n"
      pure (h.set_field fp { field with
        declaration_statement := field.declaration_statement.with_initializer expr })

/-- Lines 1395-1411: the `g_param_spec_` call that describes a property. -/
def class_init_param_spec (h : Store) (prop : ValaProperty) : Emit Unit := do
  let type_name ← Emit.run (Outcome.of_option prop.return_type.type_name)
  if type_name = "string" then do
    fprintf_c_file "g_param_spec_string"
    fprintf_c_file (" (\"" ++ prop.name ++
      "\", \"foo\", \"bar\", NULL, G_PARAM_CONSTRUCT_ONLY | G_PARAM_READWRITE)")
  else do
    let symbol ← Emit.run (h.symbol prop.return_type.symbol)
    if symbol.type = .ENUM ∨ type_name = "int" then do
      fprintf_c_file "g_param_spec_int"
      fprintf_c_file (" (\"" ++ prop.name ++ "\", \"foo\", \"bar\", G_MININT, G_MAXINT, 0, " ++
        "G_PARAM_CONSTRUCT_ONLY | G_PARAM_READWRITE)")
    else if type_name = "bool" then do
      fprintf_c_file "g_param_spec_boolean"
      fprintf_c_file (" (\"" ++ prop.name ++
        "\", \"foo\", \"bar\", FALSE, G_PARAM_CONSTRUCT_ONLY | G_PARAM_READWRITE)")
    else if symbol.type = .CLASS then do
      fprintf_c_file "g_param_spec_object"
      let class_ ← Emit.run (h.class_ symbol.class_)
      let namespace_ ← Emit.run (h.namespace_ (some class_.namespace_))
      fprintf_c_file (" (\"" ++ prop.name ++ "\", \"foo\", \"bar\", " ++
        namespace_.upper_case_cname ++ "TYPE_" ++ class_.upper_case_cname ++
        ", G_PARAM_CONSTRUCT_ONLY | G_PARAM_READWRITE)")
    else do
      fprintf_c_file "g_param_spec_pointer"
      fprintf_c_file (" (\"" ++ prop.name ++
        "\", \"foo\", \"bar\", G_PARAM_CONSTRUCT_ONLY | G_PARAM_READWRITE)")

/-- One turn of the loop of lines 1393-1415: the installation of a property. -/
def class_init_install_property (h : Store) (class_ : ValaClass) (namespace_ : ValaNamespace)
    (pp : PropertyPtr) : Emit Unit := do
  let prop ← Emit.run (h.property (some pp))
  fprintf_c_file ("\tg_object_class_install_property (G_OBJECT_CLASS(klass), " ++
    namespace_.upper_case_cname ++ class_.upper_case_cname ++ "_" ++
    g_ascii_strup prop.name ++ ", ")
  class_init_param_spec h prop
  fprintf_c_file ");\n"

/-- Lines 1390-1417: the part of the class initializer on the properties of a class that has
some. -/
def class_init_properties (h : Store) (class_ : ValaClass) (namespace_ : ValaNamespace) :
    Emit Unit := do
  fprintf_c_file ("\tG_OBJECT_CLASS(klass)->set_property = " ++ namespace_.lower_case_cname ++
    class_.lower_case_cname ++ "_set_property;\n")
  fprintf_c_file ("\tG_OBJECT_CLASS(klass)->get_property = " ++ namespace_.lower_case_cname ++
    class_.lower_case_cname ++ "_get_property;\n")
  g_list_for (fun pp _ => class_init_install_property h class_ namespace_ pp)
    class_.properties ()

/-- Lines 1349-1427: the class initializer `_class_init` of a class. -/
def methods2_class_init (fuel depth : Nat) (cp : ClassPtr) (s : ValaCodeGenerator × Store) :
    Emit (ValaCodeGenerator × Store) := do
  let class_ ← Emit.run (s.2.class_ (some cp))
  let namespace_ ← Emit.run (s.2.namespace_ (some class_.namespace_))
  fprintf_c_file "static void\n"
  let name ← Emit.run (Outcome.of_option namespace_.name)
  fprintf_c_file (namespace_.lower_case_cname ++ class_.lower_case_cname ++ "_class_init (" ++
    name ++ class_.name ++ "Class *klass)\n")
  fprintf_c_file "\x7b\n"
  if class_.has_private_fields then
    fprintf_c_file ("\tg_type_class_add_private (klass, sizeof (" ++ name ++ class_.name ++
      "Private));\n")
  else pure ()
  let h ← g_list_for (class_init_field s.1 fuel depth) class_.fields s.2
  class_init_chain_loop h class_ namespace_
  if class_.properties ≠ [] then class_init_properties h class_ namespace_ else pure ()
  let s ← initializer_body s.1 fuel depth class_.class_init_method h
  fprintf_c_file "\x7d\n"
  fprintf_c_file "\n"
  pure s

/-- The function `vala_code_generator_process_methods2`. -/
def vala_code_generator_process_methods2 (fuel depth : Nat) (cp : ClassPtr)
    (s : ValaCodeGenerator × Store) : Emit (ValaCodeGenerator × Store) := do
  let class_ ← Emit.run (s.2.class_ (some cp))
  let namespace_ ← Emit.run (s.2.namespace_ (some class_.namespace_))
  let s ← process_methods2_loop fuel depth cp s
  fprintf_h_file "\n"
  let s ← (if class_.properties ≠ [] then methods2_properties fuel depth class_ namespace_ s
    else pure s)
  let s ← methods2_init fuel depth cp s
  methods2_class_init fuel depth cp s

/-- The line of a field in a structure of the header (lines 1608-1611 and 1622-1625): a tab,
the C name of the declared type and the name of the declarator. -/
def header_field_line (h : Store) (fp : FieldPtr) : Emit Unit := do
  let field ← Emit.run (h.field (some fp))
  let declaration ← Emit.run (Outcome.of_option field.declaration_statement.variable_declaration)
  let cname ← Emit.run
    (get_cname_for_type_reference h declaration.type false field.declaration_statement.info.location)
  fprintf_h_file ("\t" ++ cname ++ declaration.declarator.name ++ ";\n")

/-- Lines 1602-1635 of `vala_code_generator_process_class2`: the instance structure, the
class structure and the declaration of `_get_type` in the header. -/
def class2_structs (h : Store) (cp : ClassPtr) (class_ : ValaClass)
    (namespace_ : ValaNamespace) (camel_case : String) : Emit Unit := do
  fprintf_h_file ("struct _" ++ camel_case ++ " \x7b\n")
  let base_class ← Emit.run (h.class_ class_.base_class)
  fprintf_h_file ("\t" ++ base_class.cname ++ " parent;\n")
  fprintf_h_file ("\t" ++ camel_case ++ "Private *priv;\n")
  let l ← Emit.run (get_fields_by_flag h class_ { PUBLIC := true })
  g_list_for (fun fp _ => header_field_line h fp) l ()
  fprintf_h_file "\x7d;\n"
  fprintf_h_file "\n"
  fprintf_h_file ("struct _" ++ camel_case ++ "Class \x7b\n")
  fprintf_h_file ("\t" ++ base_class.cname ++ "Class parent;\n")
  let l ← Emit.run (get_fields_by_flag h class_ { PUBLIC := true, STATIC := true })
  g_list_for (fun fp _ => header_field_line h fp) l ()
  vala_code_generator_process_virtual_method_pointers h cp
  fprintf_h_file "\x7d;\n"
  fprintf_h_file "\n"
  fprintf_h_file ("GType " ++ namespace_.lower_case_cname ++ class_.lower_case_cname ++
    "_get_type () G_GNUC_CONST;\n")
  fprintf_h_file "\n"

/-- Lines 1641-1665 of `vala_code_generator_process_class2`: the type initialization function
`_get_type`. -/
def class2_get_type (h : Store) (class_ : ValaClass) (namespace_ : ValaNamespace)
    (camel_case : String) : Emit Unit := do
  fprintf_c_file "GType\n"
  fprintf_c_file (namespace_.lower_case_cname ++ class_.lower_case_cname ++ "_get_type ()\n")
  fprintf_c_file "\x7b\n"
  fprintf_c_file "\tstatic GType g_define_type_id = 0;\n"
  fprintf_c_file "\tif (G_UNLIKELY (g_define_type_id == 0)) \x7b\n"
  fprintf_c_file "\t\tstatic const GTypeInfo g_define_type_info = \x7b\n"
  fprintf_c_file ("\t\t\tsizeof (" ++ camel_case ++ "Class),\n")
  fprintf_c_file "\t\t\t(GBaseInitFunc) NULL,\n"
  fprintf_c_file "\t\t\t(GBaseFinalizeFunc) NULL,\n"
  fprintf_c_file ("\t\t\t(GClassInitFunc) " ++ namespace_.lower_case_cname ++
    class_.lower_case_cname ++ "_class_init,\n")
  fprintf_c_file "\t\t\t(GClassFinalizeFunc) NULL,\n"
  fprintf_c_file "\t\t\tNULL, /* class_data */\n"
  fprintf_c_file ("\t\t\tsizeof (" ++ camel_case ++ "),\n")
  fprintf_c_file "\t\t\t0, /* n_preallocs */\n"
  fprintf_c_file ("\t\t\t(GInstanceInitFunc) " ++ namespace_.lower_case_cname ++
    class_.lower_case_cname ++ "_init,\n")
  fprintf_c_file "\t\t\x7d;\n"
  let base_class ← Emit.run (h.class_ class_.base_class)
  let base_namespace ← Emit.run (h.namespace_ (some base_class.namespace_))
  fprintf_c_file ("\t\tg_define_type_id = g_type_register_static (" ++
    base_namespace.upper_case_cname ++ "TYPE_" ++ base_class.upper_case_cname ++ ", \"" ++
    camel_case ++ "\", &g_define_type_info, 0);\n")
  fprintf_c_file "\t\x7d\n"
  fprintf_c_file "\treturn g_define_type_id;\n"
  fprintf_c_file "\x7d\n"
  fprintf_c_file "\n"

/-- The function `vala_code_generator_process_class2`. -/
def vala_code_generator_process_class2 (g : ValaCodeGenerator) (fuel depth : Nat)
    (cp : ClassPtr) (h : Store) : Emit (ValaCodeGenerator × Store) := do
  let class_ ← Emit.run (h.class_ (some cp))
  let namespace_ ← Emit.run (h.namespace_ (some class_.namespace_))
  let g : ValaCodeGenerator := { g with class_ := some cp }
  let name ← Emit.run (Outcome.of_option namespace_.name)
  let camel_case := name ++ class_.name
  class2_structs h cp class_ namespace_ camel_case
  let h ← vala_code_generator_process_constants g fuel depth cp h
  let s ← vala_code_generator_process_methods2 fuel depth cp (g, h)
  class2_get_type s.2 class_ namespace_ camel_case
  pure s

/-- The function `vala_code_generator_process_namespace2`. -/
def vala_code_generator_process_namespace2 (g : ValaCodeGenerator) (fuel depth : Nat)
    (np : NamespacePtr) (h : Store) : Emit (ValaCodeGenerator × Store) := do
  let namespace_ ← Emit.run (h.namespace_ (some np))
  g_list_for (fun cp s => vala_code_generator_process_class2 s.1 fuel depth cp s.2)
    namespace_.classes (g, h)

/-! ## The driver: the dependant types and the source file (generator.c 43-57, 1695-1863)

A C string is modelled by the string of its characters, a `char` by a character. -/

/-- The glib `g_path_get_basename`: the last component of a file name, without the slashes
that end it; `.` for the empty name and `/` for a name made of slashes. -/
def g_path_get_basename (file_name : String) : String :=
  if file_name.data = [] then "."
  else
    let stripped := (file_name.data.reverse.dropWhile fun c => c = '/').reverse
    if stripped = [] then "/"
    else String.mk (stripped.reverse.takeWhile fun c => c ≠ '/').reverse

/-- The glib `g_ascii_isalnum`: the ASCII letters and digits. -/
def g_ascii_isalnum (c : Char) : Bool := c.isAlphanum

/-- The C `toupper`, in the "C" locale a program starts in. -/
def toupper (c : Char) : Char := c.toUpper

/-- The function `filename_to_define`. -/
def filename_to_define (filename : String) : String :=
  String.mk ((g_path_get_basename filename).data.map fun p =>
    if g_ascii_isalnum p then toupper p else '_')

/-- Lines 1745-1746 and 1754-1755: the copy of a file name gets its `'\0'`
`strlen (".vala")` characters before its end; for a shorter name the write is outside the
copy. -/
def cut_vala_extension (filename : String) : Outcome String :=
  if filename.length < ".vala".length then .fault
  else pure (String.mk (filename.data.take (filename.length - ".vala".length)))

/-- The stream a `FILE *` argument stands for. -/
inductive FILE where
  | c_file
  | h_file
  deriving DecidableEq, Repr

/-- The call `fprintf (f, ...)` with its formatted text. -/
def fprintf (f : FILE) (text : String) : Emit Unit :=
  match f with
  | .c_file => fprintf_c_file text
  | .h_file => fprintf_h_file text

/-- Lines 1700-1709 of `vala_code_generator_process_dep_type`: the namespace of a dependant
type, which is a class, a struct or an enum. -/
def dep_type_namespace (h : Store) (dep_type : SymPtr) : Outcome ValaNamespace := do
  let sym ← h.symbol (some dep_type)
  let np : NamespacePtr ← (
    if sym.type = .CLASS then do
      let class_ ← h.class_ sym.class_
      pure class_.namespace_
    else if sym.type = .STRUCT then do
      let struct_ ← h.struct_ sym.struct_
      pure struct_.namespace_
    else if sym.type = .ENUM then do
      let enum_ ← h.enum_ sym.enum_
      pure enum_.namespace_
    else err none .InternalDependantType)
  h.namespace_ (some np)

/-- The function `vala_code_generator_process_dep_type`; `dep_files` holds the source files
included so far.  A namespace whose source file pointer is outside the table of source files
is one without a source file. -/
def vala_code_generator_process_dep_type (h : Store) (f : FILE) (dep_type : SymPtr)
    (dep_files : List SourceFilePtr) : Emit (List SourceFilePtr) := do
  let namespace_ ← Emit.run (dep_type_namespace h dep_type)
  if namespace_.name = none ∨ namespace_.name = some "" then pure dep_files
  else if namespace_.import_ then do
    match namespace_.include_filename with
    | some include_filename => fprintf f ("#include <" ++ include_filename ++ ">\n")
    | none => pure ()
    pure dep_files
  else
    match h.source_files[namespace_.source_file]? with
    | none => pure dep_files
    | some dep_file =>
      if namespace_.source_file ∈ dep_files then pure dep_files
      else do
        let dep_basename ← Emit.run (cut_vala_extension dep_file.filename)
        fprintf f ("#include <" ++ dep_basename ++ ".h>\n")
        pure (namespace_.source_file :: dep_files)

/-- One turn of the loop of lines 1814-1819: the base class of a class of the file, if it has
one, is a dependant type of the header. -/
def base_class_dep (h : Store) (cp : ClassPtr) (dep_files : List SourceFilePtr) :
    Emit (List SourceFilePtr) := do
  let c ← Emit.run (h.class_ (some cp))
  match c.base_class with
  | none => pure dep_files
  | some bp => do
    let base_class ← Emit.run (h.class_ (some bp))
    vala_code_generator_process_dep_type h .h_file base_class.symbol dep_files

/-- One turn of the loop of lines 1808-1820 over the namespaces of the file: the classes of a
namespace that is not imported. -/
def namespace_base_class_deps (h : Store) (np : NamespacePtr)
    (dep_files : List SourceFilePtr) : Emit (List SourceFilePtr) := do
  let ns ← Emit.run (h.namespace_ (some np))
  if ns.import_ then pure dep_files
  else g_list_for (base_class_dep h) ns.classes dep_files

/-- One turn of the loop of lines 1822-1833 over the dependant types of the file. -/
def dep_type_turn (h : Store) (dep_type : SymPtr) (dep_files : List SourceFilePtr) :
    Emit (List SourceFilePtr) := do
  let sym ← Emit.run (h.symbol (some dep_type))
  let imported : Bool ← Emit.run (
    if sym.type = .CLASS then do
      let class_ ← h.class_ sym.class_
      let namespace_ ← h.namespace_ (some class_.namespace_)
      pure namespace_.import_
    else pure false)
  let dep_files ← (
    if sym.type = .CLASS ∧ imported = false then do
      let class_ ← Emit.run (h.class_ sym.class_)
      let namespace_ ← Emit.run (h.namespace_ (some class_.namespace_))
      fprintf_h_file ("#ifndef _TYPE_" ++ namespace_.upper_case_cname ++
        class_.upper_case_cname ++ "\n")
      fprintf_h_file ("#define _TYPE_" ++ namespace_.upper_case_cname ++
        class_.upper_case_cname ++ "\n")
      fprintf_h_file ("typedef struct _" ++ class_.cname ++ " " ++ class_.cname ++ ";\n")
      fprintf_h_file ("typedef struct _" ++ class_.cname ++ "Class " ++ class_.cname ++
        "Class;\n")
      fprintf_h_file "#endif\n"
      pure dep_files
    else if sym.type = .ENUM then
      vala_code_generator_process_dep_type h .h_file dep_type dep_files
    else pure dep_files)
  vala_code_generator_process_dep_type h .c_file dep_type dep_files

/-- Lines 1806-1834 of `vala_code_generator_process_source_file`: the include directives of
the dependant types. -/
def source_file_includes (h : Store) (source_file : ValaSourceFile) :
    Emit (List SourceFilePtr) := do
  let dep_files ← g_list_for (namespace_base_class_deps h) source_file.namespaces []
  let dep_files ← g_list_for (dep_type_turn h) source_file.dep_types dep_files
  fprintf_h_file "\n"
  pure dep_files

/-- The names of the two files `vala_code_generator_process_source_file` opens. -/
structure OutputFiles where
  c_filename : String
  h_filename : String
  deriving DecidableEq, Repr

/-- Lines 1790-1850 of `vala_code_generator_process_source_file`: the first pass over the
namespaces of the file, the include directives and the second pass over the namespaces that
are not imported. -/
def source_file_declarations (g : ValaCodeGenerator) (fuel depth : Nat)
    (source_file : ValaSourceFile) (h : Store) : Emit (ValaCodeGenerator × Store) := do
  let root_namespace ← Emit.run (Outcome.of_option source_file.root_namespace)
  let s ← vala_code_generator_process_namespace1 g fuel root_namespace h
  let s ← g_list_for (fun ns s => vala_code_generator_process_namespace1 s.1 fuel ns s.2)
    source_file.namespaces s
  fprintf_h_file "G_END_DECLS\n"
  fprintf_h_file "\n"
  let _ ← source_file_includes s.2 source_file
  fprintf_h_file "G_BEGIN_DECLS\n"
  fprintf_h_file "\n"
  let s ← vala_code_generator_process_namespace2 s.1 fuel depth root_namespace s.2
  g_list_for (fun np s => do
      let ns ← Emit.run (s.2.namespace_ (some np))
      if !ns.import_ then vala_code_generator_process_namespace2 s.1 fuel depth np s.2
      else pure s)
    source_file.namespaces s

/-- The function `vala_code_generator_process_source_file`; the two `fopen` calls are taken
to succeed, and the run returns the names of the files it has written. -/
def vala_code_generator_process_source_file (g : ValaCodeGenerator) (fuel depth : Nat)
    (sfp : SourceFilePtr) (h : Store) : Emit (OutputFiles × ValaCodeGenerator × Store) := do
  let source_file ← Emit.run (h.source_file (some sfp))
  let basename ← Emit.run (cut_vala_extension source_file.filename)
  let c_filename := basename ++ ".c"
  let h_filename := basename ++ ".h"
  let header_define := filename_to_define h_filename
  fprintf_h_file ("#ifndef __" ++ header_define ++ "__\n")
  fprintf_h_file ("#define __" ++ header_define ++ "__\n")
  fprintf_h_file "\n"
  fprintf_h_file "#include <stdio.h>\n"
  fprintf_h_file "#include <glib-object.h>\n"
  fprintf_h_file "\n"
  fprintf_h_file "G_BEGIN_DECLS\n"
  fprintf_h_file "\n"
  fprintf_c_file ("#include \"" ++ g_path_get_basename h_filename ++ "\"\n")
  fprintf_c_file "\n"
  let s ← source_file_declarations g fuel depth source_file h
  fprintf_h_file "G_END_DECLS\n"
  fprintf_h_file "\n"
  fprintf_h_file ("#endif /* __" ++ header_define ++ "__ */\n")
  pure ({ c_filename := c_filename, h_filename := h_filename }, s.1, s.2)

/-! ## Well-formed stores, the base-class chain and the lookup order -/

/-- The run returned. -/
def Outcome.is_ok {α : Type} : Outcome α → Bool
  | .ok _ => true
  | _ => false

/-- A type reference is resolved: its symbol is set and is in the store. -/
def Store.typeref_ok (h : Store) (t : ValaTypeReference) : Bool :=
  (h.symbol t.symbol).is_ok

/-- A symbol of the store is well formed: its table entries point to symbols of the store, the
back-pointer its tag announces is in the store, and a local variable has a resolved type
reference. -/
def Store.symbol_ok (h : Store) (s : ValaSymbol) : Bool :=
  s.symbol_table.all (fun kv => (h.symbol (some kv.2)).is_ok) &&
  (match s.type with
   | .CLASS => (h.class_ s.class_).is_ok
   | .METHOD => (h.method s.method).is_ok
   | .FIELD => (h.field s.field).is_ok
   | .PROPERTY => (h.property s.property).is_ok
   | .LOCAL_VARIABLE =>
     (match s.typeref with
      | some t => h.typeref_ok t
      | none => false)
   | _ => true)

/-- A field of the store is well formed: its declaration statement is a variable declaration
with a resolved type. -/
def Store.field_ok (h : Store) (f : ValaField) : Bool :=
  match f.declaration_statement.variable_declaration with
  | some vd => h.typeref_ok vd.type
  | none => false

/-- A class of the store is well formed: its symbol, its namespace and its base class (when
it has one) are in the store. -/
def Store.class_ok (h : Store) (c : ValaClass) : Bool :=
  (h.symbol (some c.symbol)).is_ok && (h.namespace_ (some c.namespace_)).is_ok &&
  (match c.base_class with
   | none => true
   | some b => (h.class_ (some b)).is_ok)

/-- A namespace of the store is well formed: its symbol and its source file are in the
store. -/
def Store.namespace_ok (h : Store) (n : ValaNamespace) : Bool :=
  (h.symbol (some n.symbol)).is_ok && (h.source_file (some n.source_file)).is_ok

/-- The store is as the front-end hands it over (§1: "a fully parsed, name-bound program"):
no dangling pointer, every symbol with the back-pointer of its tag, and the return types of
methods and properties and the declared types of fields and locals resolved. -/
def Store.well_formed (h : Store) : Bool :=
  h.symbols.all h.symbol_ok && h.classes.all h.class_ok && h.namespaces.all h.namespace_ok &&
  h.methods.all (fun m => h.typeref_ok m.return_type) && h.fields.all h.field_ok &&
  h.properties.all (fun p => h.typeref_ok p.return_type)

/-- The base-class chain of a type symbol: the symbol itself, then the symbols of its
successive base classes, up to the first symbol that is not a class or has no base class.
A symbol has such a chain exactly when its base-class chain is finite. -/
inductive ClassChain (h : Store) : SymPtr → List SymPtr → Prop where
  | last (type : SymPtr) (t : ValaSymbol) (ht : h.symbol (some type) = .ok t)
      (hend : t.type ≠ .CLASS ∨ ∃ c, h.class_ t.class_ = .ok c ∧ c.base_class = none) :
      ClassChain h type [type]
  | step (type : SymPtr) (t : ValaSymbol) (c : ValaClass) (b : ClassPtr) (bc : ValaClass)
      (rest : List SymPtr) (ht : h.symbol (some type) = .ok t) (hcl : t.type = .CLASS)
      (hc : h.class_ t.class_ = .ok c) (hb : c.base_class = some b)
      (hbc : h.class_ (some b) = .ok bc) (hrest : ClassChain h bc.symbol rest) :
      ClassChain h type (type :: rest)

/-- The symbol is a Method that carries the Override modifier. -/
def Store.is_override_method (h : Store) (p : SymPtr) : Bool :=
  match h.symbol (some p) with
  | .ok s =>
    s.type = .METHOD &&
      (match h.method s.method with
       | .ok m => m.modifiers.OVERRIDE
       | _ => false)
  | _ => false

/-- The entry of one class for a name, when there is one and it is not a method carrying
Override (§4.1.1: "look up the name; if the hit is a Method with the Override modifier, skip
it"). -/
def Store.own_member (h : Store) (type : SymPtr) (name : String) : Option SymPtr :=
  match h.symbol (some type) with
  | .ok t => (g_hash_table_lookup t.symbol_table name).filter fun p => !h.is_override_method p
  | _ => none

/-- The member the first class of a chain with a non-overriding entry for the name gives
(§4.1.1: "Return the first non-overriding hit"). -/
def Store.nearest_member (h : Store) (name : String) (chain : List SymPtr) : Option SymPtr :=
  chain.findSome? fun type => h.own_member type name

/-- What `get_inherited_member` does when the class at hand gives no member (341-349). -/
def gim_continue (h : Store) (fuel : Nat) (t : ValaSymbol) (name : String)
    (location : Option ValaLocation) (break_on_failure : Bool) : Outcome (Option SymPtr) :=
  (if t.type ≠ .CLASS then (pure none : Outcome (Option ClassPtr))
   else (h.class_ t.class_).bind fun c => pure c.base_class).bind fun base_class =>
    match base_class with
    | none => if break_on_failure then err location (.MemberNotFound name) else pure none
    | some b => (h.class_ (some b)).bind fun bc =>
        get_inherited_member h fuel bc.symbol name location break_on_failure

/-- Whether `get_inherited_member` returns the entry it found (332-339). -/
def gim_returned (h : Store) (sym : Option SymPtr) : Outcome Bool :=
  match sym with
  | none => pure false
  | some p => (h.symbol (some p)).bind fun s =>
      if s.type = .METHOD then (h.method s.method).bind fun m => pure (!m.modifiers.OVERRIDE)
      else pure true

/-- The first hit for a simple name after the block scope, in the order of §4.1: the members
inherited by the current class, the current namespace, the root namespace. -/
def first_outer_hit (h : Store) (chain : List SymPtr) (namespace_table root_table : GHashTable)
    (str : String) : Option SymPtr :=
  (h.nearest_member str chain).orElse fun _ =>
    (g_hash_table_lookup namespace_table str).orElse fun _ =>
      g_hash_table_lookup root_table str

/-- The lexical environment a simple name is looked up in (§3 invariant 6): the table of the
block scope (empty when no scope symbol is set), the base-class chain of the current class,
the table of its namespace, the table of the root namespace and the using directives of the
source file. -/
structure LexicalEnv where
  scope_table : GHashTable
  chain : List SymPtr
  namespace_table : GHashTable
  root_table : GHashTable
  using_directives : List String

/-- The environment is the one the generator and the store give: `generator->sym` is `NULL` or a
symbol with the scope table; `generator->class` is a class with the finite chain, in a namespace
with the namespace table, of a source file with the using directives; the root symbol has the
root table. -/
structure LexicalEnv.describes (env : LexicalEnv) (g : ValaCodeGenerator) (h : Store) :
    Prop where
  scope : (g.sym = none ∧ env.scope_table = []) ∨
    ∃ s, h.symbol g.sym = .ok s ∧ s.symbol_table = env.scope_table
  current_class : ∃ c ns nss sf, h.class_ g.class_ = .ok c ∧
    ClassChain h c.symbol env.chain ∧
    h.namespace_ (some c.namespace_) = .ok ns ∧
    h.symbol (some ns.symbol) = .ok nss ∧ nss.symbol_table = env.namespace_table ∧
    h.source_file (some ns.source_file) = .ok sf ∧
    sf.using_directives = env.using_directives
  root : ∃ r, h.symbol (some g.context.root) = .ok r ∧ r.symbol_table = env.root_table

/-- The using directives up to the first one that names no symbol of the root table. -/
def known_directives (root_table : GHashTable) (using_directives : List String) : List String :=
  using_directives.takeWhile fun d => (g_hash_table_lookup root_table d).isSome

/-- The entries that the namespaces named by a list of using directives have for a name, in
the order of the directives. -/
def using_hits (h : Store) (root_table : GHashTable) (str : String)
    (using_directives : List String) : List SymPtr :=
  using_directives.filterMap fun d =>
    match g_hash_table_lookup root_table d with
    | some ns_symbol =>
      (match h.symbol (some ns_symbol) with
       | .ok ns => g_hash_table_lookup ns.symbol_table str
       | _ => none)
    | none => none

/-- The resolver leaves these expressions without a type symbol by design (§4.1): the bare
literals other than strings, assignments, postfix expressions, initializers, operations other
than binary `+` and `-`, and the expressions that take their type from such an operand. -/
def type_free : ValaExpression → Bool
  | .ASSIGNMENT _ _ _ => true
  | .POSTFIX _ _ _ => true
  | .LITERAL_BOOLEAN _ _ => true
  | .LITERAL_CHARACTER _ _ => true
  | .LITERAL_INTEGER _ _ => true
  | .LITERAL_NULL _ => true
  | .STRUCT_OR_ARRAY_INITIALIZER _ _ => true
  | .OPERATION _ type left _ =>
    if type = .PLUS ∨ type = .MINUS then
      (match left with
       | some l => type_free l
       | none => true)
    else true
  | .PARENTHESIZED _ inner => type_free inner
  | .ELEMENT_ACCESS _ array _ => type_free array
  | _ => false

/-- The root namespace carries the built-in types `int`, `bool` and `string` (§6: "a root
namespace carrying the built-in primitives"). -/
def builtins_defined (g : ValaCodeGenerator) (h : Store) : Bool :=
  match h.symbol (some g.context.root) with
  | .ok root =>
    (g_hash_table_lookup root.symbol_table "int").isSome &&
    (g_hash_table_lookup root.symbol_table "bool").isSome &&
    (g_hash_table_lookup root.symbol_table "string").isSome
  | _ => false

/-- The Cast and Object-creation nodes the resolver visits carry a resolved target type. -/
def target_types_resolved : ValaExpression → Bool
  | .CAST _ type _ => type.symbol.isSome
  | .OBJECT_CREATION _ type _ => type.symbol.isSome
  | .ELEMENT_ACCESS _ array _ => target_types_resolved array
  | .INVOCATION _ call _ _ => target_types_resolved call
  | .MEMBER_ACCESS _ left _ => target_types_resolved left
  | .OPERATION _ _ left _ =>
    (match left with
     | some l => target_types_resolved l
     | none => true)
  | .PARENTHESIZED _ inner => target_types_resolved inner
  | _ => true

/-- The header of a use-site with its ref/out markers set to `r` and `o`. -/
def ExprInfo.with_markers (i : ExprInfo) (r o : Bool) : ExprInfo :=
  { i with ref_variable := r, out_variable := o }

/-- The header of a use-site without its ref/out markers. -/
def ExprInfo.unmarked (i : ExprInfo) : ExprInfo := i.with_markers false false

/-- The texts of a list, each one after the separator `sep`. -/
def continued (sep : String) : List String → String
  | [] => ""
  | a :: rest => sep ++ a ++ continued sep rest

/-- The texts of a list separated by `sep`, with no leading and no trailing separator: the
words of the specification for an argument list. -/
def separated (sep : String) : List String → String
  | [] => ""
  | a :: rest => a ++ continued sep rest

/-! ## Notions for the claims on the declaration emitter -/

/-- The part of a method record the front-end wrote: the record without the fields the
generator writes in the first pass. -/
def ValaMethod.declared (m : ValaMethod) : ValaMethod :=
  { m with cname := none, cparameters := none, cdecl1 := none, virtual_super_class := none }

/-- The part of a class record the front-end wrote: the record without the fields the
generator writes in the first pass. -/
def ValaClass.declared (c : ValaClass) : ValaClass :=
  { c with has_private_fields := false, init_method := none, class_init_method := none }

/-- The method record `m'` is `m` after writes of the first pass: the declared part is the
same, a C name that was set is kept, and parameters and a declaration head that were set are
still set. -/
def ValaMethod.first_pass_le (m m' : ValaMethod) : Prop :=
  m'.declared = m.declared ∧ (m.cname ≠ none → m'.cname = m.cname) ∧
    (m.cparameters ≠ none → m'.cparameters ≠ none) ∧ (m.cdecl1 ≠ none → m'.cdecl1 ≠ none)

/-- The class record `c'` is `c` after writes of the first pass: the declared part is the
same, and a private-field flag that was set is still set. -/
def ValaClass.first_pass_le (c c' : ValaClass) : Prop :=
  c'.declared = c.declared ∧ (c.has_private_fields = true → c'.has_private_fields = true)

/-- The store `h'` is `h` after writes of the first pass: the same objects, the class and
method records changed only in the fields the first pass writes. -/
def Store.first_pass_le (h h' : Store) : Prop :=
  { h' with classes := h.classes, methods := h.methods } = h ∧
    h'.classes.length = h.classes.length ∧ h'.methods.length = h.methods.length ∧
    (∀ (p : ClassPtr) (c c' : ValaClass), h.classes[p]? = some c → h'.classes[p]? = some c' →
      c.first_pass_le c') ∧
    (∀ (p : MethodPtr) (m m' : ValaMethod), h.methods[p]? = some m →
      h'.methods[p]? = some m' → m.first_pass_le m')

/-- The class `c` declares a method named `name` that carries Abstract or Virtual. -/
def Store.declares_overridable (h : Store) (c : ValaClass) (name : String) : Prop :=
  ∃ vp ∈ c.methods, ∃ vm : ValaMethod, h.method (some vp) = .ok vm ∧ vm.name = name ∧
    (vm.modifiers.ABSTRACT = true ∨ vm.modifiers.VIRTUAL = true)

/-- The chain of classes that starts at `p` and goes from each class to its base class, up to
a class that has none; a class has such a chain exactly when its base-class chain is
finite. -/
inductive BaseClassChain (h : Store) : Option ClassPtr → List (ClassPtr × ValaClass) → Prop where
  | root : BaseClassChain h none []
  | step (p : ClassPtr) (c : ValaClass) (rest : List (ClassPtr × ValaClass))
      (hc : h.class_ (some p) = .ok c) (hrest : BaseClassChain h c.base_class rest) :
      BaseClassChain h (some p) ((p, c) :: rest)

/-- A method carries at most one of Abstract, Virtual and Override (invariant 2 of the data
model). -/
def ValaModifierFlags.one_dispatch_kind (m : ValaModifierFlags) : Prop :=
  (m.ABSTRACT = true → m.VIRTUAL = false ∧ m.OVERRIDE = false) ∧
    (m.VIRTUAL = true → m.OVERRIDE = false)

/-- A field is private and not static. -/
def ValaField.private_instance (f : ValaField) : Bool :=
  f.modifiers.PRIVATE && !f.modifiers.STATIC

/-- The modifier word of a field is made of an access modifier, Public or Private, and of
Static. -/
def ValaModifierFlags.of_field (m : ValaModifierFlags) : Prop :=
  m.ABSTRACT = false ∧ m.VIRTUAL = false ∧ m.OVERRIDE = false ∧
    (m.PUBLIC = false ∨ m.PRIVATE = false)

/-- The texts of a list, one after the other. -/
def concatenated : List String → String
  | [] => ""
  | a :: rest => a ++ concatenated rest

/-- The methods of the store `h'` have the C names they have in the store `h`. -/
def Store.same_cnames (h h' : Store) : Prop :=
  ∀ p : MethodPtr, (h'.methods[p]?).map ValaMethod.cname = (h.methods[p]?).map ValaMethod.cname

/-- The method record has its C name and, unless `imported`, its C parameters and its
declaration head. -/
def ValaMethod.names_set (m : ValaMethod) (imported : Bool) : Prop :=
  m.cname ≠ none ∧ (imported = false → m.cparameters ≠ none ∧ m.cdecl1 ≠ none)

/-- The method `mp`, seen as a method of the class `cp`, has its names: its C name and, when
the namespace of the class is not imported, its C parameters and its declaration head. -/
def Store.method_named (s : Store) (cp : ClassPtr) (mp : MethodPtr) : Prop :=
  ∃ (m : ValaMethod) (c : ValaClass) (ns : ValaNamespace),
    s.method (some mp) = .ok m ∧ s.class_ (some cp) = .ok c ∧
    s.namespace_ (some c.namespace_) = .ok ns ∧ m.names_set ns.import_

/-- Every method of the class `cp` has its names. -/
def Store.class_named (s : Store) (cp : ClassPtr) : Prop :=
  ∀ c : ValaClass, s.class_ (some cp) = .ok c → ∀ mp ∈ c.methods, s.method_named cp mp

/-- Every method of the struct `sp` has its C name, its C parameters and its declaration
head. -/
def Store.struct_named (s : Store) (sp : StructPtr) : Prop :=
  ∀ st : ValaStruct, s.struct_ (some sp) = .ok st → ∀ mp ∈ st.methods,
    ∃ m : ValaMethod, s.method (some mp) = .ok m ∧ m.names_set false

/-- The method `mp` has its C name. -/
def Store.free_named (s : Store) (mp : MethodPtr) : Prop :=
  ∃ m : ValaMethod, s.method (some mp) = .ok m ∧ m.cname ≠ none

/-- The class `cp` has its private-field flag set if one of its fields has the modifier word
Private. -/
def Store.private_flag_set (s : Store) (cp : ClassPtr) : Prop :=
  ∀ c : ValaClass, s.class_ (some cp) = .ok c →
    (∃ fp ∈ c.fields, ∃ f : ValaField, s.field (some fp) = .ok f ∧
      f.modifiers = { PRIVATE := true }) →
    c.has_private_fields = true

/-! ## Notions for the claims on properties -/

/-- The kinds of value of a property: the `K` of `g_value_set_K`, `g_value_get_K` and
`g_param_spec_K`. -/
inductive GValueKind where
  | string
  | int
  | boolean
  | object
  | pointer
  deriving DecidableEq, Repr

/-- The name of a kind, as it stands in the names of the glib functions. -/
def GValueKind.name : GValueKind → String
  | .string => "string"
  | .int => "int"
  | .boolean => "boolean"
  | .object => "object"
  | .pointer => "pointer"

/-- The kind of value of a property as the specification words it, from the name of the
return type and the kind of its symbol: "string ⇒ string, enum or int ⇒ int, bool ⇒ boolean,
class ⇒ object, otherwise ⇒ pointer", the first rule that applies. -/
def property_value_kind (type_name : String) (type : ValaSymbolType) : GValueKind :=
  if type_name = "string" then .string
  else if type = .ENUM ∨ type_name = "int" then .int
  else if type_name = "bool" then .boolean
  else if type = .CLASS then .object
  else .pointer

/-- The call of `set_property` that reads a value of a kind: strings are duplicated. -/
def GValueKind.reader (k : GValueKind) : String :=
  if k = .string then "g_value_dup_string (value)" else "g_value_get_" ++ k.name ++ " (value)"

/-! ## Notions for the claims on the include directives -/

/-- A piece of text the include part of a source file writes: the stream it is written to;
the source file of the program whose header it includes, if it is such an include; and the
text. -/
structure IncludeChunk where
  f : FILE
  file : Option SourceFilePtr
  text : String

/-- The text the pieces put on a stream, one after the other. -/
def chunks_text (f : FILE) (chunks : List IncludeChunk) : String :=
  concatenated ((chunks.filter fun k => k.f = f).map fun k => k.text)

/-- What a piece is: the include of the header of a source file of the program, named after
the file without the five characters of its extension; or the include of the include file of
an imported namespace; or a line of the type definitions of a class that is not imported; or
the empty line that ends the part. -/
def IncludeChunk.described (h : Store) (k : IncludeChunk) : Prop :=
  match k.file with
  | some file => ∃ (sf : ValaSourceFile) (base : String), h.source_files[file]? = some sf ∧
      cut_vala_extension sf.filename = .ok base ∧ k.text = "#include <" ++ base ++ ".h>\n"
  | none =>
    (∃ (ns : ValaNamespace) (name : String), ns ∈ h.namespaces ∧ ns.import_ = true ∧
      ns.include_filename = some name ∧ k.text = "#include <" ++ name ++ ">\n") ∨
    (∃ (c : ValaClass) (ns : ValaNamespace), k.f = .h_file ∧
      (k.text = "#ifndef _TYPE_" ++ ns.upper_case_cname ++ c.upper_case_cname ++ "\n" ∨
        k.text = "#define _TYPE_" ++ ns.upper_case_cname ++ c.upper_case_cname ++ "\n" ∨
        k.text = "typedef struct _" ++ c.cname ++ " " ++ c.cname ++ ";\n" ∨
        k.text = "typedef struct _" ++ c.cname ++ "Class " ++ c.cname ++ "Class;\n" ∨
        k.text = "#endif\n")) ∨
    (k.f = .h_file ∧ k.text = "\n")

/-- The source files whose headers the pieces include, in the order of the pieces. -/
def included_files (chunks : List IncludeChunk) : List SourceFilePtr :=
  chunks.filterMap fun k => k.file

/-- A step of the include part that starts with the files `d` included so far: if it returns
the files `d'`, it has written pieces that are as described, that include the header of no
file of `d` and of no file twice, and `d'` is `d` with the files of the pieces put in
front. -/
def IncludeRun (h : Store) (x : Emit (List SourceFilePtr)) (d : List SourceFilePtr) : Prop :=
  ∀ d', x.outcome = .ok d' → ∃ chunks : List IncludeChunk,
    x.c_text = chunks_text .c_file chunks ∧ x.h_text = chunks_text .h_file chunks ∧
    d' = (included_files chunks).reverse ++ d ∧ (included_files chunks).Nodup ∧
    (∀ file ∈ included_files chunks, file ∉ d) ∧ ∀ k ∈ chunks, k.described h

/-! ## Notions for the claims on the scope of a body -/

/-- The symbol tables of the store `h'` bind every name the tables of the store `h` bind:
every symbol of `h` is a symbol of `h'`, and a name its table binds in `h` is bound by its
table in `h'`. -/
def Store.tables_grow (h h' : Store) : Prop :=
  ∀ (p : SymPtr) (s : ValaSymbol), h.symbol (some p) = .ok s →
    ∃ s' : ValaSymbol, h'.symbol (some p) = .ok s' ∧
      ∀ name : String, g_hash_table_lookup s.symbol_table name ≠ none →
        g_hash_table_lookup s'.symbol_table name ≠ none

/-- A body with a nested block: `{ { int y; } return y; }`. -/
def nested_body : ValaStatement :=
  .BLOCK {} [
    .BLOCK {} [.VARIABLE_DECLARATION {}
      { type := { symbol := some 1, type_name := some "int" }, declarator := { name := "y" } }],
    .RETURN {} (some (.SIMPLE_NAME {} "y"))]

/-! ## A sample program -/

/-- The symbol graph of a small program: the root namespace with `int`, `bool`, `string` and
the namespaces `N`, `A`, `B`, `C`; in `N` the class `Base` (virtual method `f`, field `x` of
type `int`, property `name` of type `string`) and the class `Derived : Base` (override method
`f`) and the free method `helper`; `A` and `C` each define `n`, `B` defines nothing; a body
scope with the local `x` of type `string[]`.  The source file of `N` has the given using
directives. -/
def sample_store (using_directives : List String) : Store where
  symbols := [
    { type := .NAMESPACE,
      symbol_table := [("int", 1), ("bool", 2), ("string", 3), ("N", 4), ("A", 10), ("B", 11),
        ("C", 12)] },
    { type := .STRUCT },
    { type := .STRUCT },
    { type := .STRUCT },
    { type := .NAMESPACE, symbol_table := [("Base", 5), ("Derived", 6), ("helper", 15)] },
    { type := .CLASS, class_ := some 0, symbol_table := [("f", 7), ("x", 8), ("name", 16)] },
    { type := .CLASS, class_ := some 1, symbol_table := [("f", 9)] },
    { type := .METHOD, method := some 0 },
    { type := .FIELD, field := some 0 },
    { type := .METHOD, method := some 1 },
    { type := .NAMESPACE, symbol_table := [("n", 13)] },
    { type := .NAMESPACE },
    { type := .NAMESPACE, symbol_table := [("n", 14)] },
    { type := .STRUCT },
    { type := .STRUCT },
    { type := .METHOD, method := some 2 },
    { type := .PROPERTY, property := some 0 },
    { type := .BLOCK, symbol_table := [("x", 18)], stmt := some (.BLOCK { method := some 9 } []) },
    { type := .LOCAL_VARIABLE, typeref := some { symbol := some 3, array_type := true } },
    { type := .VOID } ]
  classes := [
    { name := "Base", symbol := 5, namespace_ := 0 },
    { name := "Derived", symbol := 6, namespace_ := 0, base_class := some 0 } ]
  methods := [
    { name := "f", modifiers := { PUBLIC := true, VIRTUAL := true },
      return_type := { symbol := some 1 }, class_ := some 0 },
    { name := "f", modifiers := { PUBLIC := true, OVERRIDE := true },
      return_type := { symbol := some 1 }, class_ := some 1 },
    { name := "helper", modifiers := { PUBLIC := true, STATIC := true },
      return_type := { symbol := some 3 } } ]
  fields := [
    { name := "x", modifiers := { PUBLIC := true }, class_ := some 0,
      declaration_statement :=
        .VARIABLE_DECLARATION {} { type := { symbol := some 1 }, declarator := { name := "x" } } } ]
  properties := [
    { name := "name", return_type := { symbol := some 3 }, class_ := some 0 } ]
  namespaces := [ { name := some "N", symbol := 4, source_file := 0 } ]
  source_files := [ { filename := "n.vala", using_directives := using_directives } ]

/-- The generator while it emits a body of `Derived` of the sample program. -/
def sample_generator : ValaCodeGenerator :=
  { context := { root := 0 }, class_ := some 1, sym := some 17 }

/-- The lexical environment of a body of `Derived` of the sample program. -/
def sample_env (using_directives : List String) : LexicalEnv :=
  { scope_table := [("x", 18)], chain := [6, 5],
    namespace_table := [("Base", 5), ("Derived", 6), ("helper", 15)],
    root_table := [("int", 1), ("bool", 2), ("string", 3), ("N", 4), ("A", 10), ("B", 11),
      ("C", 12)],
    using_directives := using_directives }

/-- An unresolved simple name. -/
def simple_name (str : String) : ValaExpression := .SIMPLE_NAME {} str

/-! ## A second sample program, with its C names -/

/-- The symbol graph of a program after the C names have been assigned: the root namespace
with `int`, `bool`, `string`, `void`, the reference struct `List` and the namespace `Demo`; in
`Demo` the class `Shape` (fields `count`, `secret`, `total`, `hidden`, property `title`,
methods `draw`, `grow`, `append`, `shrink`, `create`), the class `Circle : Shape` (method
`spin`), the enum `Color` with the value `RED` and the struct `Point` with the field `px`; a
body scope of `Circle.spin` with the locals `xs : string[]`, `s : Shape`, `c : Circle`,
`l : List` and `p : Point`. -/
def demo_store : Store where
  symbols := [
    { type := .NAMESPACE,
      symbol_table := [("int", 1), ("bool", 2), ("string", 3), ("void", 4), ("Demo", 5),
        ("List", 24)] },
    { type := .STRUCT, struct_ := some 0 },
    { type := .STRUCT, struct_ := some 1 },
    { type := .STRUCT, struct_ := some 2 },
    { type := .VOID },
    { type := .NAMESPACE,
      symbol_table := [("Shape", 6), ("Circle", 7), ("Color", 8), ("Point", 26)] },
    { type := .CLASS, class_ := some 0,
      symbol_table := [("count", 9), ("secret", 10), ("total", 11), ("hidden", 12),
        ("title", 13), ("draw", 14), ("grow", 15), ("append", 16), ("shrink", 25),
        ("create", 29)] },
    { type := .CLASS, class_ := some 1, symbol_table := [("spin", 17)] },
    { type := .ENUM, enum_ := some 0, symbol_table := [("RED", 18)] },
    { type := .FIELD, field := some 0 },
    { type := .FIELD, field := some 1 },
    { type := .FIELD, field := some 2 },
    { type := .FIELD, field := some 3 },
    { type := .PROPERTY, property := some 0 },
    { type := .METHOD, method := some 0 },
    { type := .METHOD, method := some 1 },
    { type := .METHOD, method := some 2 },
    { type := .METHOD, method := some 3 },
    { type := .ENUM_VALUE, enum_value := some 0 },
    { type := .BLOCK,
      symbol_table := [("xs", 20), ("s", 21), ("c", 22), ("l", 23), ("p", 28)],
      stmt := some (.BLOCK { method := some 17 } []) },
    { type := .LOCAL_VARIABLE, typeref := some { symbol := some 3, array_type := true } },
    { type := .LOCAL_VARIABLE, typeref := some { symbol := some 6 } },
    { type := .LOCAL_VARIABLE, typeref := some { symbol := some 7 } },
    { type := .LOCAL_VARIABLE, typeref := some { symbol := some 24 } },
    { type := .STRUCT, struct_ := some 3 },
    { type := .METHOD, method := some 4 },
    { type := .STRUCT, struct_ := some 4, symbol_table := [("px", 27)] },
    { type := .FIELD, field := some 4 },
    { type := .LOCAL_VARIABLE, typeref := some { symbol := some 26 } },
    { type := .METHOD, method := some 5 } ]
  classes := [
    { name := "Shape", cname := "DemoShape", lower_case_cname := "shape",
      upper_case_cname := "SHAPE", symbol := 6, namespace_ := 0 },
    { name := "Circle", cname := "DemoCircle", lower_case_cname := "circle",
      upper_case_cname := "CIRCLE", symbol := 7, namespace_ := 0, base_class := some 0 } ]
  methods := [
    { name := "draw", modifiers := { PUBLIC := true }, return_type := { symbol := some 4 },
      class_ := some 0, cname := some "demo_shape_draw" },
    { name := "grow", modifiers := { PUBLIC := true }, return_type := { symbol := some 4 },
      class_ := some 0, returns_modified_pointer := true, cname := some "demo_shape_grow" },
    { name := "append", modifiers := { PUBLIC := true }, return_type := { symbol := some 4 },
      class_ := some 0, instance_last := true, cname := some "demo_shape_append" },
    { name := "spin", modifiers := { PUBLIC := true }, return_type := { symbol := some 4 },
      class_ := some 1, cname := some "demo_circle_spin" },
    { name := "shrink", modifiers := { PUBLIC := true }, return_type := { symbol := some 1 },
      class_ := some 0, returns_modified_pointer := true,
      location := some { filename := "demo.vala", lineno := 12, colno := 3 },
      cname := some "demo_shape_shrink" },
    { name := "create", modifiers := { PUBLIC := true, STATIC := true },
      return_type := { symbol := some 6 }, class_ := some 0,
      cname := some "demo_shape_create" } ]
  fields := [
    { name := "count", modifiers := { PUBLIC := true }, class_ := some 0,
      declaration_statement := .VARIABLE_DECLARATION {}
        { type := { symbol := some 1 }, declarator := { name := "count" } } },
    { name := "secret", modifiers := { PRIVATE := true }, class_ := some 0,
      declaration_statement := .VARIABLE_DECLARATION {}
        { type := { symbol := some 1 }, declarator := { name := "secret" } } },
    { name := "total", modifiers := { PUBLIC := true, STATIC := true }, class_ := some 0,
      declaration_statement := .VARIABLE_DECLARATION {}
        { type := { symbol := some 1 }, declarator := { name := "total" } } },
    { name := "hidden", modifiers := { PRIVATE := true, STATIC := true }, class_ := some 0,
      declaration_statement := .VARIABLE_DECLARATION {}
        { type := { symbol := some 1 }, declarator := { name := "hidden" } } },
    { name := "px", modifiers := { PUBLIC := true }, is_struct_field := true,
      declaration_statement := .VARIABLE_DECLARATION {}
        { type := { symbol := some 1 }, declarator := { name := "px" } } } ]
  properties := [
    { name := "title", return_type := { symbol := some 3 }, class_ := some 0 } ]
  namespaces := [
    { name := some "Demo", lower_case_cname := "demo_", upper_case_cname := "DEMO_",
      symbol := 5, source_file := 0 } ]
  source_files := [ { filename := "demo.vala", using_directives := [] } ]
  structs := [
    { name := "int", cname := "int" },
    { name := "bool", cname := "gboolean" },
    { name := "string", cname := "char", reference_type := true },
    { name := "List", cname := "GList", reference_type := true },
    { name := "Point", cname := "DemoPoint", reference_type := true } ]
  enums := [ { name := "Color", cname := "DemoColor", upper_case_cname := "COLOR", values := [0] } ]
  enum_values := [ { name := "RED", cname := "DEMO_COLOR_RED" } ]

/-- The generator while it emits the body of `Circle.spin` of the second sample program. -/
def demo_generator : ValaCodeGenerator :=
  { context := { root := 0 }, class_ := some 1, sym := some 19 }

/-- The text the expression emitter writes for an expression of the body of `Circle.spin`. -/
def demo_text (e : ValaExpression) : String :=
  (vala_code_generator_process_expression demo_generator demo_store 3 4 e).c_text

/-! ## A third sample program, before the first pass -/

/-- The symbol graph of the second sample program as the front-end leaves it, with the
members listed in their classes and no C name assigned to a method: in `Demo` the class
`Shape` with the methods `draw` (public abstract), `grow` (public virtual, one parameter
`int n`), `init`, and `create` (public static), the class `Circle : Shape` with the methods
`draw` (public override) and `spin` (no modifier), the struct `Point` with the method `norm`,
the enum `Color` and the free method `helper`; in the imported namespace `Lib` the class
`Widget` with the method `show` (public override). -/
def decl_store : Store :=
  { demo_store with
    classes := [
      { name := "Shape", cname := "DemoShape", lower_case_cname := "shape",
        upper_case_cname := "SHAPE", symbol := 6, namespace_ := 0, fields := [0, 1, 2, 3],
        methods := [0, 1, 2, 5], properties := [0] },
      { name := "Circle", cname := "DemoCircle", lower_case_cname := "circle",
        upper_case_cname := "CIRCLE", symbol := 7, namespace_ := 0, base_class := some 0,
        methods := [3, 4] },
      { name := "Widget", cname := "LibWidget", lower_case_cname := "widget",
        upper_case_cname := "WIDGET", symbol := 6, namespace_ := 1, methods := [8] } ]
    methods := [
      { name := "draw", modifiers := { PUBLIC := true, ABSTRACT := true },
        return_type := { symbol := some 4 }, class_ := some 0 },
      { name := "grow", modifiers := { PUBLIC := true, VIRTUAL := true },
        return_type := { symbol := some 1 }, class_ := some 0,
        formal_parameters := [{ name := "n", type := { symbol := some 1 } }],
        body := some (.BLOCK { method := some 15 }
          [.RETURN {} (some (.SIMPLE_NAME {} "n"))]) },
      { name := "init", return_type := { symbol := some 4 }, class_ := some 0,
        body := some (.BLOCK {} []) },
      { name := "draw", modifiers := { PUBLIC := true, OVERRIDE := true },
        return_type := { symbol := some 4 }, class_ := some 1,
        body := some (.BLOCK { method := some 17 } []) },
      { name := "spin", return_type := { symbol := some 4 }, class_ := some 1,
        formal_parameters := [{ name := "turns", type := { symbol := some 1 } },
          { name := "label", type := { symbol := some 3 } }],
        body := some (.BLOCK { method := some 17 } []) },
      { name := "create", modifiers := { PUBLIC := true, STATIC := true },
        return_type := { symbol := some 6 }, class_ := some 0,
        body := some (.BLOCK { method := some 29 } []) },
      { name := "norm", modifiers := { PUBLIC := true }, return_type := { symbol := some 1 },
        is_struct_method := true },
      { name := "helper", modifiers := { PUBLIC := true, STATIC := true },
        return_type := { symbol := some 4 } },
      { name := "show", modifiers := { PUBLIC := true, OVERRIDE := true }, return_type := { symbol := some 4 },
        class_ := some 2 } ]
    namespaces := [
      { name := some "Demo", lower_case_cname := "demo_", upper_case_cname := "DEMO_",
        symbol := 5, source_file := 0, classes := [0, 1], structs := [4], enums := [0],
        methods := [7] },
      { name := some "Lib", lower_case_cname := "lib_", upper_case_cname := "LIB_",
        symbol := 5, source_file := 0, import_ := true, classes := [2] } ]
    structs := [
      { name := "int", cname := "int" },
      { name := "bool", cname := "gboolean" },
      { name := "string", cname := "char", reference_type := true },
      { name := "List", cname := "GList", reference_type := true },
      { name := "Point", cname := "DemoPoint", lower_case_cname := "point",
        upper_case_cname := "POINT", reference_type := true, methods := [6] } ] }

/-- The generator before the passes over the third sample program. -/
def decl_generator : ValaCodeGenerator := { context := { root := 0 } }

/-- The third sample program after the first pass over its namespace `Demo`. -/
def named_store : Store :=
  match (vala_code_generator_process_namespace1 decl_generator 3 0 decl_store).outcome with
  | .ok s => s.2
  | _ => decl_store

/-- The third sample program with the method `grow` of `Shape` private and virtual. -/
def private_virtual_store : Store :=
  { decl_store with
    methods := decl_store.methods.set 1
      { name := "grow", modifiers := { PRIVATE := true, VIRTUAL := true },
        return_type := { symbol := some 1 }, class_ := some 0,
        formal_parameters := [{ name := "n", type := { symbol := some 1 } }],
        body := some (.BLOCK { method := some 15 }
          [.RETURN {} (some (.SIMPLE_NAME {} "n"))]) } }

/-! ## A fourth sample program, for the second pass and the driver -/

/-- The class `App.Empty` of the fourth sample program: no members, the base class
`GLib.Object`. -/
def unit_empty : ValaClass :=
  { name := "Empty", cname := "AppEmpty", lower_case_cname := "empty",
    upper_case_cname := "EMPTY", symbol := 8, namespace_ := 1, base_class := some 2 }

/-- The class `App.Person` of the fourth sample program, with its six properties. -/
def unit_person : ValaClass :=
  { name := "Person", cname := "AppPerson", lower_case_cname := "person",
    upper_case_cname := "PERSON", symbol := 9, namespace_ := 1, base_class := some 2,
    properties := [0, 1, 2, 3, 4, 5] }

/-- The namespace `App` of the fourth sample program. -/
def unit_app : ValaNamespace :=
  { name := some "App", lower_case_cname := "app_", upper_case_cname := "APP_", symbol := 5,
    source_file := 0, classes := [0, 1] }

/-- The properties of `App.Person`: `name`, `age`, `mode`, `friend`, `adult` and `data`. -/
def unit_properties : List ValaProperty := [
  { name := "name", return_type := { symbol := some 3, type_name := some "string" },
    class_ := some 1,
    get_statement := some (.BLOCK {} [.RETURN {} (some (.LITERAL_STRING {} "\"x\""))]),
    set_statement := some (.BLOCK {} []) },
  { name := "age", return_type := { symbol := some 1, type_name := some "int" },
    class_ := some 1,
    get_statement := some (.BLOCK {} [.RETURN {} (some (.LITERAL_INTEGER {} "7"))]) },
  { name := "mode", return_type := { symbol := some 11, type_name := some "Mode" },
    class_ := some 1, set_statement := some (.BLOCK {} []) },
  { name := "friend", return_type := { symbol := some 9, type_name := some "Person" },
    class_ := some 1, get_statement := some (.BLOCK {} []),
    set_statement := some (.BLOCK {} []) },
  { name := "adult", return_type := { symbol := some 2, type_name := some "bool" },
    class_ := some 1, get_statement := some (.BLOCK {} []) },
  { name := "data", return_type := { symbol := some 4, type_name := some "void" },
    class_ := some 1, get_statement := some (.BLOCK {} []),
    set_statement := some (.BLOCK {} []) } ]

/-- The source file `src/app.vala` of the fourth sample program: the namespace `App`, and the
dependant types `Lib.Tool`, `Lib.Mode` and, twice, `GLib.Object`. -/
def unit_app_file : ValaSourceFile :=
  { filename := "src/app.vala", root_namespace := some 0, namespaces := [1],
    dep_types := [12, 11, 10, 10] }

/-- The namespace `Lib` of the fourth sample program, of the source file `src/lib.vala`. -/
def unit_lib : ValaNamespace :=
  { name := some "Lib", lower_case_cname := "lib_", upper_case_cname := "LIB_", symbol := 7,
    source_file := 1, classes := [3, 4], enums := [0] }

/-- The symbol graph of a program of two source files: `src/app.vala` with the namespace `App`
and its classes `Empty : GLib.Object`, without members, and `Person : GLib.Object`, with the
properties `name : string` (get and set), `age : int` (get), `mode : Lib.Mode` (set),
`friend : Person` (get and set), `adult : bool` (get) and `data : void` (get and set);
`src/lib.vala` with the namespace `Lib`, its enum `Mode` and its classes `Tool` and `Base`;
and the imported namespace `GLib` with the class `Object` and the include file
`glib-object.h`.  The dependant types of `src/app.vala` are `Lib.Tool`, `Lib.Mode` and, twice,
`GLib.Object`. -/
def unit_store : Store where
  symbols := [
    { type := .NAMESPACE,
      symbol_table := [("int", 1), ("bool", 2), ("string", 3), ("void", 4), ("App", 5),
        ("GLib", 6), ("Lib", 7)] },
    { type := .STRUCT, struct_ := some 0 },
    { type := .STRUCT, struct_ := some 1 },
    { type := .STRUCT, struct_ := some 2 },
    { type := .VOID },
    { type := .NAMESPACE, symbol_table := [("Empty", 8), ("Person", 9)] },
    { type := .NAMESPACE, symbol_table := [("Object", 10)] },
    { type := .NAMESPACE, symbol_table := [("Mode", 11), ("Tool", 12), ("Base", 13)] },
    { type := .CLASS, class_ := some 0 },
    { type := .CLASS, class_ := some 1,
      symbol_table := [("name", 14), ("age", 15), ("mode", 16), ("friend", 17), ("adult", 18),
        ("data", 19)] },
    { type := .CLASS, class_ := some 2 },
    { type := .ENUM, enum_ := some 0 },
    { type := .CLASS, class_ := some 3 },
    { type := .CLASS, class_ := some 4 },
    { type := .PROPERTY, property := some 0 },
    { type := .PROPERTY, property := some 1 },
    { type := .PROPERTY, property := some 2 },
    { type := .PROPERTY, property := some 3 },
    { type := .PROPERTY, property := some 4 },
    { type := .PROPERTY, property := some 5 } ]
  classes := [
    unit_empty,
    unit_person,
    { name := "Object", cname := "GObject", lower_case_cname := "object",
      upper_case_cname := "OBJECT", symbol := 10, namespace_ := 2 },
    { name := "Tool", cname := "LibTool", lower_case_cname := "tool",
      upper_case_cname := "TOOL", symbol := 12, namespace_ := 3, base_class := some 2 },
    { name := "Base", cname := "LibBase", lower_case_cname := "base",
      upper_case_cname := "BASE", symbol := 13, namespace_ := 3, base_class := some 2 } ]
  properties := unit_properties
  namespaces := [
    { symbol := 0, source_file := 0 },
    unit_app,
    { name := some "GLib", lower_case_cname := "g_", upper_case_cname := "G_", symbol := 6,
      source_file := 2, import_ := true, include_filename := some "glib-object.h",
      classes := [2] },
    unit_lib ]
  source_files := [
    unit_app_file,
    { filename := "src/lib.vala", root_namespace := some 0, namespaces := [3] } ]
  structs := [
    { name := "int", cname := "int" },
    { name := "bool", cname := "gboolean" },
    { name := "string", cname := "char", reference_type := true } ]
  enums := [ { name := "Mode", cname := "LibMode", upper_case_cname := "MODE", namespace_ := 3 } ]

/-- The generator before the passes over a program whose root namespace has the symbol 0. -/
def unit_generator : ValaCodeGenerator := { context := { root := 0 } }

/-- A program of one source file `tool.gs`, whose extension is not `.vala`, with an empty
global namespace. -/
def script_store : Store where
  symbols := [{ type := .NAMESPACE }]
  namespaces := [{ symbol := 0, source_file := 0 }]
  source_files := [{ filename := "tool.gs", root_namespace := some 0 }]

/-! ## Lemmas on outcomes and stores -/

/-- In an outcome `pure` is `ok`. -/
@[simp] theorem Outcome.pure_eq {α : Type} (a : α) : (pure a : Outcome α) = .ok a := rfl

/-- The monadic bind of outcomes is `Outcome.bind`. -/
@[simp] theorem Outcome.bind_eq {α β : Type} (x : Outcome α) (f : α → Outcome β) :
    (x >>= f) = x.bind f := rfl

/-- A run that returned goes on with its value. -/
@[simp] theorem Outcome.ok_bind {α β : Type} (a : α) (f : α → Outcome β) :
    (Outcome.ok a).bind f = f a := rfl

/-- A diagnostic ends the run. -/
@[simp] theorem Outcome.exit_bind {α β : Type} (l : Option ValaLocation) (d : Diagnostic)
    (f : α → Outcome β) : (Outcome.exit l d).bind f = .exit l d := rfl

/-- A fault ends the run. -/
@[simp] theorem Outcome.fault_bind {α β : Type} (f : α → Outcome β) :
    (Outcome.fault).bind f = .fault := rfl

/-- Running out of fuel ends the run. -/
@[simp] theorem Outcome.out_of_fuel_bind {α β : Type} (f : α → Outcome β) :
    (Outcome.out_of_fuel).bind f = .out_of_fuel := rfl

/-- A run is ok exactly when it returned a value. -/
theorem Outcome.is_ok_iff {α : Type} (x : Outcome α) : x.is_ok = true ↔ ∃ a, x = .ok a := by
  cases x <;> simp [Outcome.is_ok]

/-- A sequence returns exactly when both of its parts return. -/
theorem Outcome.bind_eq_ok {α β : Type} (x : Outcome α) (f : α → Outcome β) (b : β) :
    x.bind f = .ok b ↔ ∃ a, x = .ok a ∧ f a = .ok b := by
  cases x <;> simp [Outcome.bind]

/-- A sequence reports a diagnostic exactly when its first part does, or its first part
returns and its second part does. -/
theorem Outcome.bind_eq_exit {α β : Type} (x : Outcome α) (f : α → Outcome β)
    (l : Option ValaLocation) (d : Diagnostic) :
    x.bind f = .exit l d ↔ x = .exit l d ∨ ∃ a, x = .ok a ∧ f a = .exit l d := by
  cases x <;> simp [Outcome.bind]

/-- A dereferenced symbol is a symbol of the store. -/
theorem Store.symbol_mem (h : Store) (p : Option SymPtr) (s : ValaSymbol)
    (hs : h.symbol p = .ok s) : s ∈ h.symbols := by
  cases p with
  | none => simp [Store.symbol, Outcome.of_option] at hs
  | some q =>
    simp only [Store.symbol, Option.bind] at hs
    cases hq : h.symbols[q]? with
    | none => simp [hq, Outcome.of_option] at hs
    | some s2 =>
      simp [hq, Outcome.of_option] at hs
      subst hs
      exact List.getElem?_mem hq

/-- A dereferenced class is a class of the store. -/
theorem Store.class_mem (h : Store) (p : Option ClassPtr) (c : ValaClass)
    (hc : h.class_ p = .ok c) : c ∈ h.classes := by
  cases p with
  | none => simp [Store.class_, Outcome.of_option] at hc
  | some q =>
    simp only [Store.class_, Option.bind] at hc
    cases hq : h.classes[q]? with
    | none => simp [hq, Outcome.of_option] at hc
    | some s2 =>
      simp [hq, Outcome.of_option] at hc
      subst hc
      exact List.getElem?_mem hq

/-- A dereferenced namespace is a namespace of the store. -/
theorem Store.namespace_mem (h : Store) (p : Option NamespacePtr) (n : ValaNamespace)
    (hn : h.namespace_ p = .ok n) : n ∈ h.namespaces := by
  cases p with
  | none => simp [Store.namespace_, Outcome.of_option] at hn
  | some q =>
    simp only [Store.namespace_, Option.bind] at hn
    cases hq : h.namespaces[q]? with
    | none => simp [hq, Outcome.of_option] at hn
    | some s2 =>
      simp [hq, Outcome.of_option] at hn
      subst hn
      exact List.getElem?_mem hq

/-- In a well-formed store every symbol reached is well formed. -/
theorem Store.symbol_ok_of (h : Store) (hwf : h.well_formed = true) (p : Option SymPtr)
    (s : ValaSymbol) (hs : h.symbol p = .ok s) : h.symbol_ok s = true := by
  have hmem := h.symbol_mem p s hs
  simp only [Store.well_formed, Bool.and_eq_true, List.all_eq_true] at hwf
  exact hwf.1.1.1.1.1 s hmem

/-- In a well-formed store every class reached is well formed. -/
theorem Store.class_ok_of (h : Store) (hwf : h.well_formed = true) (p : Option ClassPtr)
    (c : ValaClass) (hc : h.class_ p = .ok c) : h.class_ok c = true := by
  have hmem := h.class_mem p c hc
  simp only [Store.well_formed, Bool.and_eq_true, List.all_eq_true] at hwf
  exact hwf.1.1.1.1.2 c hmem

/-- In a well-formed store every namespace reached is well formed. -/
theorem Store.namespace_ok_of (h : Store) (hwf : h.well_formed = true)
    (p : Option NamespacePtr) (n : ValaNamespace) (hn : h.namespace_ p = .ok n) :
    h.namespace_ok n = true := by
  have hmem := h.namespace_mem p n hn
  simp only [Store.well_formed, Bool.and_eq_true, List.all_eq_true] at hwf
  exact hwf.1.1.1.2 n hmem

/-- In a well-formed store a table entry of a symbol of the store points to a symbol. -/
theorem Store.entry_ok (h : Store) (hwf : h.well_formed = true) (p : Option SymPtr)
    (t : ValaSymbol) (ht : h.symbol p = .ok t) (name : String) (q : SymPtr)
    (hq : g_hash_table_lookup t.symbol_table name = some q) :
    ∃ s, h.symbol (some q) = .ok s := by
  have hok := h.symbol_ok_of hwf p t ht
  simp only [Store.symbol_ok, Bool.and_eq_true, List.all_eq_true] at hok
  have hmem : (name, q) ∈ t.symbol_table := by
    simp only [g_hash_table_lookup] at hq
    have := List.lookup_eq_some_iff.mp hq
    obtain ⟨l1, l2, h1, _⟩ := this
    rw [h1]; simp
  exact (Outcome.is_ok_iff _).mp (hok.1 _ hmem)

/-- A type reference is resolved exactly when its symbol is set and in the store. -/
theorem Store.typeref_ok_iff (h : Store) (t : ValaTypeReference) :
    h.typeref_ok t = true ↔ ∃ p s, t.symbol = some p ∧ h.symbol (some p) = .ok s := by
  unfold Store.typeref_ok
  rw [Outcome.is_ok_iff]
  cases hp : t.symbol with
  | none => simp [Store.symbol, Outcome.of_option]
  | some p => simp

/-- A dereferenced pointer gives an object of its table. -/
theorem Outcome.of_option_getElem {α : Type} (l : List α) (p : Option Nat) (a : α)
    (ha : Outcome.of_option (p.bind fun q => l[q]?) = .ok a) : a ∈ l := by
  cases p with
  | none => simp [Outcome.of_option] at ha
  | some q =>
    simp only [Option.bind] at ha
    cases hq : l[q]? with
    | none => simp [hq, Outcome.of_option] at ha
    | some b =>
      simp [hq, Outcome.of_option] at ha
      subst ha
      exact List.getElem?_mem hq

/-- In a well-formed store a method has a resolved return type. -/
theorem Store.method_resolved (h : Store) (hwf : h.well_formed = true) (p : Option MethodPtr)
    (m : ValaMethod) (hm : h.method p = .ok m) : h.typeref_ok m.return_type = true := by
  have hmem := Outcome.of_option_getElem h.methods p m hm
  simp only [Store.well_formed, Bool.and_eq_true, List.all_eq_true] at hwf
  exact hwf.1.1.2 m hmem

/-- In a well-formed store a field is declared with a resolved type. -/
theorem Store.field_resolved (h : Store) (hwf : h.well_formed = true) (p : Option FieldPtr)
    (f : ValaField) (hf : h.field p = .ok f) :
    ∃ vd, f.declaration_statement.variable_declaration = some vd ∧
      h.typeref_ok vd.type = true := by
  have hmem := Outcome.of_option_getElem h.fields p f hf
  simp only [Store.well_formed, Bool.and_eq_true, List.all_eq_true] at hwf
  have hok := hwf.1.2 f hmem
  simp only [Store.field_ok] at hok
  cases hvd : f.declaration_statement.variable_declaration with
  | some vd => exact ⟨vd, rfl, by simpa [hvd] using hok⟩
  | none => simp [hvd] at hok

/-- In a well-formed store a property has a resolved type. -/
theorem Store.property_resolved (h : Store) (hwf : h.well_formed = true)
    (p : Option PropertyPtr) (q : ValaProperty) (hq : h.property p = .ok q) :
    h.typeref_ok q.return_type = true := by
  have hmem := Outcome.of_option_getElem h.properties p q hq
  simp only [Store.well_formed, Bool.and_eq_true, List.all_eq_true] at hwf
  exact hwf.2 q hmem

/-- In a well-formed store a Method symbol has its method, with a resolved return type. -/
theorem Store.method_ok_of (h : Store) (hwf : h.well_formed = true) (p : Option SymPtr)
    (s : ValaSymbol) (hs : h.symbol p = .ok s) (hm : s.type = .METHOD) :
    ∃ m, h.method s.method = .ok m ∧ h.typeref_ok m.return_type = true := by
  have hok := h.symbol_ok_of hwf p s hs
  simp only [Store.symbol_ok, Bool.and_eq_true, hm] at hok
  obtain ⟨m, hmm⟩ := (Outcome.is_ok_iff _).mp hok.2
  exact ⟨m, hmm, h.method_resolved hwf _ m hmm⟩

/-- In a well-formed store a Field symbol has its field, declared with a resolved type. -/
theorem Store.field_ok_of (h : Store) (hwf : h.well_formed = true) (p : Option SymPtr)
    (s : ValaSymbol) (hs : h.symbol p = .ok s) (hm : s.type = .FIELD) :
    ∃ f vd, h.field s.field = .ok f ∧ f.declaration_statement.variable_declaration = some vd ∧
      h.typeref_ok vd.type = true := by
  have hok := h.symbol_ok_of hwf p s hs
  simp only [Store.symbol_ok, Bool.and_eq_true, hm] at hok
  obtain ⟨f, hf⟩ := (Outcome.is_ok_iff _).mp hok.2
  obtain ⟨vd, hvd, hr⟩ := h.field_resolved hwf _ f hf
  exact ⟨f, vd, hf, hvd, hr⟩

/-- In a well-formed store a Property symbol has its property, with a resolved type. -/
theorem Store.property_ok_of (h : Store) (hwf : h.well_formed = true) (p : Option SymPtr)
    (s : ValaSymbol) (hs : h.symbol p = .ok s) (hm : s.type = .PROPERTY) :
    ∃ q, h.property s.property = .ok q ∧ h.typeref_ok q.return_type = true := by
  have hok := h.symbol_ok_of hwf p s hs
  simp only [Store.symbol_ok, Bool.and_eq_true, hm] at hok
  obtain ⟨q, hq⟩ := (Outcome.is_ok_iff _).mp hok.2
  exact ⟨q, hq, h.property_resolved hwf _ q hq⟩

/-- In a well-formed store a local variable symbol has a resolved type reference. -/
theorem Store.local_ok_of (h : Store) (hwf : h.well_formed = true) (p : Option SymPtr)
    (s : ValaSymbol) (hs : h.symbol p = .ok s) (hm : s.type = .LOCAL_VARIABLE) :
    ∃ t, s.typeref = some t ∧ h.typeref_ok t = true := by
  have hok := h.symbol_ok_of hwf p s hs
  simp only [Store.symbol_ok, Bool.and_eq_true, hm] at hok
  cases ht : s.typeref with
  | some t => exact ⟨t, rfl, by simpa [ht] using hok.2⟩
  | none => simp [ht] at hok

/-! ## Lemmas on the inherited member lookup -/

/-- One call of `get_inherited_member` with fuel left, in its three parts. -/
theorem gim_unfold (h : Store) (fuel : Nat) (type : SymPtr) (name : String)
    (location : Option ValaLocation) (b : Bool) :
    get_inherited_member h (fuel + 1) type name location b =
      (h.symbol (some type)).bind fun t =>
        (gim_returned h (g_hash_table_lookup t.symbol_table name)).bind fun returned =>
          if returned then .ok (g_hash_table_lookup t.symbol_table name)
          else gim_continue h fuel t name location b := by
  rw [get_inherited_member]
  rfl

/-- One step of the walk: the class at hand gives its own member, or the walk goes on. -/
theorem gim_own (h : Store) (hwf : h.well_formed = true) (type : SymPtr) (t : ValaSymbol)
    (ht : h.symbol (some type) = .ok t) (fuel : Nat) (name : String)
    (location : Option ValaLocation) (b : Bool) :
    get_inherited_member h (fuel + 1) type name location b =
      match h.own_member type name with
      | some p => .ok (some p)
      | none => gim_continue h fuel t name location b := by
  rw [gim_unfold]
  simp only [ht, Outcome.ok_bind, Store.own_member]
  generalize gim_continue h fuel t name location b = k
  cases hl : g_hash_table_lookup t.symbol_table name with
  | none => simp [gim_returned]
  | some p =>
    obtain ⟨s, hs⟩ := h.entry_ok hwf (some type) t ht name p hl
    by_cases hm : s.type = .METHOD
    · obtain ⟨m, hmm, _⟩ := h.method_ok_of hwf (some p) s hs hm
      cases hov : m.modifiers.OVERRIDE <;>
        simp [gim_returned, hs, hm, hmm, hov, Option.filter, Store.is_override_method]
    · simp [gim_returned, hs, hm, Option.filter, Store.is_override_method]

/-- The walk over a finite chain, with fuel for every class of it, gives the nearest member of
the chain, and a miss at its end. -/
theorem gim_chain (h : Store) (hwf : h.well_formed = true) (name : String)
    (location : Option ValaLocation) (b : Bool) (type : SymPtr) (chain : List SymPtr)
    (hc : ClassChain h type chain) :
    ∀ fuel, chain.length ≤ fuel →
      get_inherited_member h fuel type name location b =
        match h.nearest_member name chain with
        | some p => .ok (some p)
        | none => if b then .exit location (.MemberNotFound name) else .ok none := by
  induction hc with
  | last type t ht hend =>
    intro fuel hf
    obtain ⟨k, rfl⟩ : ∃ k, fuel = k + 1 := ⟨fuel - 1, by simp at hf; omega⟩
    rw [gim_own h hwf type t ht]
    simp only [Store.nearest_member, List.findSome?_cons, List.findSome?_nil]
    cases h.own_member type name with
    | some p => rfl
    | none =>
      rcases hend with hne | ⟨c, hc, hb⟩
      · simp [gim_continue, hne, err]
      · by_cases hcl : t.type = .CLASS
        · simp [gim_continue, hcl, hc, hb, err]
        · simp [gim_continue, hcl, err]
  | step type t c b2 bc rest ht hcl hc hb hbc hrest ih =>
    intro fuel hf
    obtain ⟨k, rfl⟩ : ∃ k, fuel = k + 1 := ⟨fuel - 1, by simp at hf; omega⟩
    rw [gim_own h hwf type t ht]
    simp only [Store.nearest_member, List.findSome?_cons]
    cases h.own_member type name with
    | some p => rfl
    | none =>
      have := ih k (by simpa using hf)
      simp [gim_continue, hcl, hc, hb, hbc, this, Store.nearest_member]

/-- A member of a chain is an entry that is not a method carrying Override. -/
theorem Store.nearest_member_not_override (h : Store) (name : String) (chain : List SymPtr)
    (p : SymPtr) (hp : h.nearest_member name chain = some p) :
    h.is_override_method p = false := by
  simp only [Store.nearest_member] at hp
  obtain ⟨type, _, hown⟩ := List.exists_of_findSome?_eq_some hp
  simp only [Store.own_member] at hown
  cases ht : h.symbol (some type) with
  | ok t =>
    simp only [ht, Option.filter_eq_some] at hown
    simpa using hown.2
  | exit l d => simp [ht] at hown
  | fault => simp [ht] at hown
  | out_of_fuel => simp [ht] at hown

/-- The base-class chain of the class `Derived` of the sample program. -/
theorem sample_chain (ds : List String) : ClassChain (sample_store ds) 6 [6, 5] :=
  ClassChain.step 6 _ _ _ _ [5] rfl rfl rfl rfl rfl
    (ClassChain.last 5 _ rfl (Or.inr ⟨_, rfl, rfl⟩))

/-! ## Claims on the inherited member lookup -/

/-- C1: for a class symbol whose base-class chain is finite (`chain`, walked with fuel for
each of its classes) and every member name, `get_inherited_member` returns the symbol-table
entry of the nearest class of the chain (the receiver first) whose entry exists and is not a
Method carrying Override; whatever it returns is that entry, and is no Override method. -/
theorem get_inherited_member_nearest (h : Store) (hwf : h.well_formed = true) (type : SymPtr)
    (chain : List SymPtr) (hc : ClassChain h type chain) (fuel : Nat)
    (hf : chain.length ≤ fuel) (name : String) (location : Option ValaLocation)
    (break_on_failure : Bool) :
    (∀ p, h.nearest_member name chain = some p →
      get_inherited_member h fuel type name location break_on_failure = .ok (some p)) ∧
    (∀ p, get_inherited_member h fuel type name location break_on_failure = .ok (some p) →
      h.nearest_member name chain = some p ∧ h.is_override_method p = false) := by
  have key := gim_chain h hwf name location break_on_failure type chain hc fuel hf
  constructor
  · intro p hp
    rw [key, hp]
  · intro p hp
    rw [key] at hp
    cases hn : h.nearest_member name chain with
    | none => cases break_on_failure <;> simp [hn] at hp
    | some q =>
      simp only [hn, Outcome.ok.injEq, Option.some.injEq] at hp
      subst hp
      exact ⟨rfl, h.nearest_member_not_override name chain q hn⟩

/-- Witness of C1: in the sample program `f` looked up from `Derived` is the virtual `f` of
`Base` (symbol 7), not the override of `Derived` (symbol 9). -/
theorem get_inherited_member_nearest_witness :
    get_inherited_member (sample_store []) 2 6 "f" none true = .ok (some 7) ∧
      (sample_store []).is_override_method 9 = true ∧
      (sample_store []).is_override_method 7 = false :=
  ⟨(get_inherited_member_nearest (sample_store []) (by decide) 6 [6, 5] (sample_chain [])
      2 (by decide) "f" none true).1 7 (by decide), by decide, by decide⟩

/-- C2: over a finite class chain in which no class has a non-Override entry for the name,
`get_inherited_member` returns no symbol; it reports a diagnostic if and only if
`break_on_failure` is set, and that diagnostic is MemberNotFound for the name at the location
it was given; with `break_on_failure` unset it returns `NULL` and reports nothing. -/
theorem get_inherited_member_miss (h : Store) (hwf : h.well_formed = true) (type : SymPtr)
    (chain : List SymPtr) (hc : ClassChain h type chain) (fuel : Nat)
    (hf : chain.length ≤ fuel) (name : String) (location : Option ValaLocation)
    (break_on_failure : Bool) (hmiss : ∀ t ∈ chain, h.own_member t name = none) :
    (∀ p, get_inherited_member h fuel type name location break_on_failure ≠ .ok (some p)) ∧
    ((∃ l d, get_inherited_member h fuel type name location break_on_failure = .exit l d) ↔
      break_on_failure = true) ∧
    (break_on_failure = true →
      get_inherited_member h fuel type name location break_on_failure =
        .exit location (.MemberNotFound name)) ∧
    (break_on_failure = false →
      get_inherited_member h fuel type name location break_on_failure = .ok none) := by
  have key := gim_chain h hwf name location break_on_failure type chain hc fuel hf
  have hn : h.nearest_member name chain = none := by
    simp only [Store.nearest_member, List.findSome?_eq_none_iff]
    exact hmiss
  rw [hn] at key
  rw [key]
  cases break_on_failure <;> simp

/-- Witness of C2: `zz` is a member of no class of the chain of `Derived`. -/
theorem get_inherited_member_miss_witness :
    get_inherited_member (sample_store []) 2 6 "zz" none true =
        .exit none (.MemberNotFound "zz") ∧
      get_inherited_member (sample_store []) 2 6 "zz" none false = .ok none :=
  ⟨(get_inherited_member_miss (sample_store []) (by decide) 6 [6, 5] (sample_chain [])
      2 (by decide) "zz" none true (by decide)).2.2.1 rfl,
   (get_inherited_member_miss (sample_store []) (by decide) 6 [6, 5] (sample_chain [])
      2 (by decide) "zz" none false (by decide)).2.2.2 rfl⟩

/-! ## Lemmas on the simple-name arm -/

/-- The sample environment is the one of the sample generator and store. -/
theorem sample_env_describes (ds : List String) :
    (sample_env ds).describes sample_generator (sample_store ds) :=
  ⟨Or.inr ⟨_, rfl, rfl⟩, ⟨_, _, _, _, rfl, sample_chain ds, rfl, rfl, rfl, rfl, rfl⟩,
    ⟨_, rfl, rfl⟩⟩

/-- A local variable in scope decides the lookup. -/
theorem simple_name_local_hit (g : ValaCodeGenerator) (h : Store) (env : LexicalEnv)
    (henv : env.describes g h) (i : ExprInfo) (str : String) (l : SymPtr) (ls : ValaSymbol)
    (tr : ValaTypeReference) (hl : g_hash_table_lookup env.scope_table str = some l)
    (hls : h.symbol (some l) = .ok ls) (htr : ls.typeref = some tr) :
    simple_name_local g h i str =
      .ok { i with static_type_symbol := tr.symbol, array_type := tr.array_type } := by
  rcases henv.scope with ⟨_, he⟩ | ⟨s, hs, he⟩
  · rw [he] at hl; simp [g_hash_table_lookup] at hl
  · cases hg : g.sym with
    | none => rw [hg] at hs; simp [Store.symbol, Outcome.of_option] at hs
    | some gs =>
      rw [hg] at hs
      simp [simple_name_local, hg, hs, he, hl, hls, htr, Outcome.of_option]

/-- Without a local variable of that name the scope step changes nothing. -/
theorem simple_name_local_miss (g : ValaCodeGenerator) (h : Store) (env : LexicalEnv)
    (henv : env.describes g h) (i : ExprInfo) (str : String)
    (hl : g_hash_table_lookup env.scope_table str = none) :
    simple_name_local g h i str = .ok i := by
  rcases henv.scope with ⟨hg, _⟩ | ⟨s, hs, he⟩
  · simp [simple_name_local, hg]
  · cases hg : g.sym with
    | none => simp [simple_name_local, hg]
    | some gs =>
      rw [hg] at hs
      simp [simple_name_local, hg, hs, he, hl]

/-- Once a symbol is set the later lookups are skipped. -/
theorem simple_name_skip (g : ValaCodeGenerator) (h : Store) (fuel : Nat) (i : ExprInfo)
    (str : String) (hi : i.static_type_symbol ≠ none) :
    simple_name_this g h fuel i str = .ok i ∧ simple_name_namespace g h i str = .ok i ∧
      simple_name_root g h i str = .ok i ∧ simple_name_using g h i str = .ok i := by
  simp [simple_name_this, simple_name_namespace, simple_name_root, simple_name_using, hi]

/-- Without a local variable of that name, the lookups before the using directives give the
first hit among the class chain, the current namespace and the root namespace. -/
theorem simple_name_before_using_eq (g : ValaCodeGenerator) (h : Store)
    (hwf : h.well_formed = true) (env : LexicalEnv) (henv : env.describes g h) (fuel : Nat)
    (hf : env.chain.length ≤ fuel) (i : ExprInfo) (hi : i.static_type_symbol = none)
    (str : String) (hl : g_hash_table_lookup env.scope_table str = none) :
    simple_name_before_using g h fuel i str =
      .ok { i with static_type_symbol :=
        first_outer_hit h env.chain env.namespace_table env.root_table str } := by
  obtain ⟨c, ns, nss, sf, hc, hchain, hns, hnss, hnst, hsf, hds⟩ := henv.current_class
  obtain ⟨r, hr, hrt⟩ := henv.root
  have hgim := gim_chain h hwf str i.location false c.symbol env.chain hchain fuel hf
  simp only [simple_name_before_using, Outcome.bind_eq,
    simple_name_local_miss g h env henv i str hl, Outcome.ok_bind]
  simp only [simple_name_this, hi, if_true, hc, Outcome.bind_eq, Outcome.ok_bind, hgim]
  cases hn : h.nearest_member str env.chain with
  | some p =>
    simp [simple_name_namespace, simple_name_root, first_outer_hit, hn]
  | none =>
    simp only [Bool.false_eq_true, if_false, Outcome.ok_bind, Outcome.pure_eq,
      simple_name_namespace, if_true, hc, hns, hnss, Outcome.bind_eq, hnst]
    cases hnl : g_hash_table_lookup env.namespace_table str with
    | some p => simp [simple_name_root, first_outer_hit, hn, hnl]
    | none => simp [simple_name_root, first_outer_hit, hn, hnl, hr, hrt]


/-- The resolver on a simple name that is not yet resolved runs the simple-name arm. -/
theorem find_static_type_simple_name_eq (g : ValaCodeGenerator) (h : Store) (fuel : Nat)
    (i : ExprInfo) (str : String) (hi : i.static_type_symbol = none) :
    vala_code_generator_find_static_type_of_expression g h fuel (.SIMPLE_NAME i str) =
      (find_static_type_of_simple_name g h fuel i str).bind fun j => .ok (.SIMPLE_NAME j str) := by
  rw [vala_code_generator_find_static_type_of_expression]
  simp [hi]

/-- The simple-name arm is its lookups followed by its last step. -/
theorem find_static_type_of_simple_name_eq (g : ValaCodeGenerator) (h : Store) (fuel : Nat)
    (i : ExprInfo) (str : String) :
    find_static_type_of_simple_name g h fuel i str =
      ((simple_name_before_using g h fuel i str).bind fun j =>
        simple_name_using g h j str).bind fun j => simple_name_finish h j str := rfl

/-- A hit that is neither a Field nor a Property is kept as it is. -/
theorem simple_name_finish_plain (h : Store) (i : ExprInfo) (str : String) (m : SymPtr)
    (s : ValaSymbol) (hi : i.static_type_symbol = some m) (hs : h.symbol (some m) = .ok s)
    (hf : s.type ≠ .FIELD) (hp : s.type ≠ .PROPERTY) :
    simple_name_finish h i str = .ok i := by
  simp [simple_name_finish, hi, hs, hf, hp]

/-- A Field hit is bound and flattened to its declared type. -/
theorem simple_name_finish_field (h : Store) (i : ExprInfo) (str : String) (m : SymPtr)
    (s : ValaSymbol) (f : ValaField) (vd : ValaVariableDeclaration)
    (hi : i.static_type_symbol = some m) (hs : h.symbol (some m) = .ok s)
    (hf : s.type = .FIELD) (hfd : h.field s.field = .ok f)
    (hvd : f.declaration_statement.variable_declaration = some vd)
    (ht : vd.type.symbol ≠ none) :
    simple_name_finish h i str =
      .ok { i with field := s.field, array_type := vd.type.array_type,
                   static_type_symbol := vd.type.symbol } := by
  simp [simple_name_finish, hi, hs, hf, flatten_field, hfd, hvd, Outcome.of_option, ht]

/-- A Property hit is bound and flattened to its return type. -/
theorem simple_name_finish_property (h : Store) (i : ExprInfo) (str : String) (m : SymPtr)
    (s : ValaSymbol) (p : ValaProperty)
    (hi : i.static_type_symbol = some m) (hs : h.symbol (some m) = .ok s)
    (hf : s.type = .PROPERTY) (hpd : h.property s.property = .ok p)
    (ht : p.return_type.symbol ≠ none) :
    simple_name_finish h i str =
      .ok { i with property := s.property, array_type := p.return_type.array_type,
                   static_type_symbol := p.return_type.symbol } := by
  simp [simple_name_finish, hi, hs, hf, flatten_property, hpd, ht]

/-- A name left without a symbol is reported. -/
theorem simple_name_finish_none (h : Store) (i : ExprInfo) (str : String)
    (hi : i.static_type_symbol = none) :
    simple_name_finish h i str = .exit i.location (.UnresolvedSymbol str) := by
  simp [simple_name_finish, hi, err]

/-- In a well-formed store a hit always ends with a symbol set. -/
theorem simple_name_finish_ok (h : Store) (hwf : h.well_formed = true) (i : ExprInfo)
    (str : String) (m : SymPtr) (s : ValaSymbol) (hi : i.static_type_symbol = some m)
    (hs : h.symbol (some m) = .ok s) :
    ∃ j, simple_name_finish h i str = .ok j ∧ j.static_type_symbol ≠ none := by
  by_cases hf : s.type = .FIELD
  · obtain ⟨f, vd, hfd, hvd, hok⟩ := h.field_ok_of hwf (some m) s hs hf
    obtain ⟨p, _, hp, _⟩ := (h.typeref_ok_iff vd.type).mp hok
    exact ⟨_, simple_name_finish_field h i str m s f vd hi hs hf hfd hvd (by simp [hp]),
      by simp [hp]⟩
  · by_cases hp : s.type = .PROPERTY
    · obtain ⟨q, hq, hok⟩ := h.property_ok_of hwf (some m) s hs hp
      obtain ⟨p, _, hpp, _⟩ := (h.typeref_ok_iff q.return_type).mp hok
      exact ⟨_, simple_name_finish_property h i str m s q hi hs hp hq (by simp [hpp]),
        by simp [hpp]⟩
    · exact ⟨i, simple_name_finish_plain h i str m s hi hs hf hp, by simp [hi]⟩

/-! ## Claims on the simple-name arm -/

/-- C3: a simple name that is not yet resolved takes the first hit in the order block scope,
members inherited by the current class, namespace of the current class, root namespace.  A
local variable of the scope with declared type `T` decides the lookup, whatever the class, the
namespaces and the using directives hold: the node gets `T` and the array flag of the local and
nothing else of it changes, so `expr.field` stays as it was.  Without a local of that name the
lookup takes the first hit among the class chain, the current namespace and the root
namespace. -/
theorem simple_name_lookup_order (g : ValaCodeGenerator) (h : Store)
    (hwf : h.well_formed = true) (env : LexicalEnv) (henv : env.describes g h) (fuel : Nat)
    (hf : env.chain.length ≤ fuel) (i : ExprInfo) (hi : i.static_type_symbol = none)
    (str : String) :
    (∀ l ls tr T tT, g_hash_table_lookup env.scope_table str = some l →
      h.symbol (some l) = .ok ls → ls.typeref = some tr → tr.symbol = some T →
      h.symbol (some T) = .ok tT → tT.type ≠ .FIELD → tT.type ≠ .PROPERTY →
      simple_name_lookup g h fuel i str =
        .ok { i with static_type_symbol := some T, array_type := tr.array_type } ∧
      vala_code_generator_find_static_type_of_expression g h fuel (.SIMPLE_NAME i str) =
        .ok (.SIMPLE_NAME { i with static_type_symbol := some T, array_type := tr.array_type }
          str)) ∧
    (g_hash_table_lookup env.scope_table str = none →
      ∀ m, first_outer_hit h env.chain env.namespace_table env.root_table str = some m →
        simple_name_lookup g h fuel i str = .ok { i with static_type_symbol := some m }) := by
  constructor
  · intro l ls tr T tT hl hls htr hT htT hnf hnp
    have hloc := simple_name_local_hit g h env henv i str l ls tr hl hls htr
    rw [hT] at hloc
    have hlook : simple_name_lookup g h fuel i str =
        .ok { i with static_type_symbol := some T, array_type := tr.array_type } := by
      simp [simple_name_lookup, simple_name_before_using, hloc, simple_name_this,
        simple_name_namespace, simple_name_root, simple_name_using]
    refine ⟨hlook, ?_⟩
    rw [find_static_type_simple_name_eq g h fuel i str hi]
    have : find_static_type_of_simple_name g h fuel i str =
        (simple_name_lookup g h fuel i str).bind fun j => simple_name_finish h j str := rfl
    rw [this, hlook, Outcome.ok_bind,
      simple_name_finish_plain h _ str T tT rfl htT hnf hnp, Outcome.ok_bind]
  · intro hl m hm
    have hb := simple_name_before_using_eq g h hwf env henv fuel hf i hi str hl
    rw [hm] at hb
    simp [simple_name_lookup, hb, simple_name_using]

/-- Witness of C3: in the sample program `x` is both a local of type `string[]` and a field of
`Base`; the name gets `string` (symbol 3) and the array flag, and no field is bound. -/
theorem simple_name_lookup_order_witness :
    vala_code_generator_find_static_type_of_expression sample_generator (sample_store []) 2 (simple_name "x") =
      .ok (.SIMPLE_NAME { static_type_symbol := some 3, array_type := true, field := none } "x") ∧
    (sample_store []).own_member 5 "x" = some 8 :=
  ⟨((simple_name_lookup_order sample_generator (sample_store []) (by decide) (sample_env [])
      (sample_env_describes []) 2 (by decide) {} rfl "x").1 18 _ _ 3 _ rfl rfl rfl rfl rfl
      (by decide) (by decide)).2, by decide⟩

/-! ## Lemmas on the using-directive loop -/

/-- One turn of the loop over the using directives, for a directive that names a namespace. -/
theorem using_directives_loop_cons (g : ValaCodeGenerator) (h : Store) (root ns : ValaSymbol)
    (hr : h.symbol (some g.context.root) = .ok root) (location : Option ValaLocation)
    (str d : String) (rest : List String) (st : Option SymPtr × Bool) (p : SymPtr)
    (hd : g_hash_table_lookup root.symbol_table d = some p) (hns : h.symbol (some p) = .ok ns) :
    using_directives_loop g h location str (d :: rest) st =
      if g_hash_table_lookup ns.symbol_table str ≠ none ∧ st.2 = true then
        .exit location (.AmbiguousUsing str)
      else using_directives_loop g h location str rest
        (g_hash_table_lookup ns.symbol_table str,
          st.2 || (g_hash_table_lookup ns.symbol_table str).isSome) := by
  rw [using_directives_loop]
  simp [hr, hd, hns, err]

/-- One turn of the loop over the using directives, for a directive that names nothing. -/
theorem using_directives_loop_unknown (g : ValaCodeGenerator) (h : Store) (root : ValaSymbol)
    (hr : h.symbol (some g.context.root) = .ok root) (location : Option ValaLocation)
    (str d : String) (rest : List String) (st : Option SymPtr × Bool)
    (hd : g_hash_table_lookup root.symbol_table d = none) :
    using_directives_loop g h location str (d :: rest) st =
      .exit location (.UsingNamespaceNotFound d) := by
  rw [using_directives_loop]
  simp [hr, hd, err]

/-- The loop reports an ambiguity exactly when, among the directives before the first unknown
one, a second namespace defines the name (a first one, when a hit was recorded before). -/
theorem using_directives_loop_ambiguous (g : ValaCodeGenerator) (h : Store)
    (hwf : h.well_formed = true) (root : ValaSymbol)
    (hr : h.symbol (some g.context.root) = .ok root) (location : Option ValaLocation)
    (str : String) (ds : List String) :
    ∀ st : Option SymPtr × Bool,
      (∃ l n, using_directives_loop g h location str ds st = .exit l (.AmbiguousUsing n)) ↔
        (if st.2 = true then 1 else 2) ≤
          (using_hits h root.symbol_table str (known_directives root.symbol_table ds)).length := by
  induction ds with
  | nil =>
    intro st
    simp only [using_directives_loop, known_directives, using_hits, List.takeWhile_nil,
      List.filterMap_nil, List.length_nil, Outcome.pure_eq]
    constructor
    · rintro ⟨l, n, hx⟩
      cases hx
    · intro hx
      split at hx <;> omega
  | cons d rest ih =>
    intro st
    cases hd : g_hash_table_lookup root.symbol_table d with
    | none =>
      rw [using_directives_loop_unknown g h root hr location str d rest st hd]
      simp only [known_directives, List.takeWhile_cons, hd, Option.isSome_none,
        Bool.false_eq_true, if_false, using_hits, List.filterMap_nil, List.length_nil]
      constructor
      · rintro ⟨l, n, hx⟩
        cases hx
      · intro hx
        split at hx <;> omega
    | some p =>
      obtain ⟨ns, hns⟩ := h.entry_ok hwf (some g.context.root) root hr d p hd
      rw [using_directives_loop_cons g h root ns hr location str d rest st p hd hns]
      have hk : known_directives root.symbol_table (d :: rest) =
          d :: known_directives root.symbol_table rest := by
        simp [known_directives, List.takeWhile_cons, hd]
      rw [hk]
      cases he : g_hash_table_lookup ns.symbol_table str with
      | none =>
        have hu : using_hits h root.symbol_table str
            (d :: known_directives root.symbol_table rest) =
            using_hits h root.symbol_table str (known_directives root.symbol_table rest) := by
          simp [using_hits, List.filterMap_cons, hd, hns, he]
        rw [hu]
        simpa using ih (none, st.2)
      | some q =>
        have hu : using_hits h root.symbol_table str
            (d :: known_directives root.symbol_table rest) =
            q :: using_hits h root.symbol_table str
              (known_directives root.symbol_table rest) := by
          simp [using_hits, List.filterMap_cons, hd, hns, he]
        rw [hu]
        cases hfound : st.2 with
        | true => simp
        | false =>
          have := ih (some q, true)
          simpa using this

/-- When every directive names a namespace and none of them defines the name, the loop ends
without a symbol and without a diagnostic. -/
theorem using_directives_loop_none (g : ValaCodeGenerator) (h : Store)
    (hwf : h.well_formed = true) (root : ValaSymbol)
    (hr : h.symbol (some g.context.root) = .ok root) (location : Option ValaLocation)
    (str : String) (ds : List String) :
    ∀ found : Bool, (∀ d ∈ ds, g_hash_table_lookup root.symbol_table d ≠ none) →
      using_hits h root.symbol_table str ds = [] →
      using_directives_loop g h location str ds (none, found) = .ok (none, found) := by
  induction ds with
  | nil => intro found _ _; rfl
  | cons d rest ih =>
    intro found hall hno
    have hd0 := hall d (by simp)
    cases hd : g_hash_table_lookup root.symbol_table d with
    | none => exact absurd hd hd0
    | some p =>
      obtain ⟨ns, hns⟩ := h.entry_ok hwf (some g.context.root) root hr d p hd
      rw [using_directives_loop_cons g h root ns hr location str d rest _ p hd hns]
      cases he : g_hash_table_lookup ns.symbol_table str with
      | some q => simp [using_hits, List.filterMap_cons, hd, hns, he] at hno
      | none =>
        have hno2 : using_hits h root.symbol_table str rest = [] := by
          simpa [using_hits, List.filterMap_cons, hd, hns, he] using hno
        simpa using ih found (fun d hd => hall d (by simp [hd])) hno2

/-- The last step of the simple-name arm reports nothing but an unresolved symbol. -/
theorem simple_name_finish_exit (h : Store) (i : ExprInfo) (str : String)
    (l : Option ValaLocation) (d : Diagnostic) (hx : simple_name_finish h i str = .exit l d) :
    d = .UnresolvedSymbol str := by
  unfold simple_name_finish at hx
  simp only [Outcome.bind_eq, Outcome.bind_eq_exit, Outcome.pure_eq] at hx
  rcases hx with hx | ⟨j, _, hx⟩
  · split at hx
    · simp only [Outcome.bind_eq_exit] at hx
      rcases hx with hx | ⟨s, _, hx⟩
      · cases hsym : i.static_type_symbol <;>
          simp [Store.symbol, Outcome.of_option, hsym] at hx
        split at hx <;> simp at hx
      · split at hx
        · simp only [flatten_field, Outcome.bind_eq, Outcome.bind_eq_exit, Outcome.pure_eq] at hx
          rcases hx with hx | ⟨f, _, hx⟩
          · cases hf : s.field <;> simp [Store.field, Outcome.of_option, hf] at hx
            split at hx <;> simp at hx
          · rcases hx with hx | ⟨vd, _, hx⟩
            · cases hv : f.declaration_statement.variable_declaration <;>
                simp [Outcome.of_option, hv] at hx
            · cases hx
        · split at hx
          · simp only [flatten_property, Outcome.bind_eq, Outcome.bind_eq_exit,
              Outcome.pure_eq] at hx
            rcases hx with hx | ⟨f, _, hx⟩
            · cases hf : s.property <;> simp [Store.property, Outcome.of_option, hf] at hx
              split at hx <;> simp at hx
            · cases hx
          · cases hx
    · cases hx
  · split at hx
    · simp only [err, Outcome.exit.injEq] at hx
      exact hx.2.symm
    · cases hx

/-- The using-directive step, entered without a symbol, runs the loop over the directives of
the source file. -/
theorem simple_name_using_eq (g : ValaCodeGenerator) (h : Store) (env : LexicalEnv)
    (henv : env.describes g h) (i : ExprInfo) (hi : i.static_type_symbol = none)
    (str : String) :
    simple_name_using g h i str =
      (using_directives_loop g h i.location str env.using_directives (none, false)).bind
        fun st => .ok { i with static_type_symbol := st.1 } := by
  obtain ⟨c, ns, nss, sf, hc, _, hns, _, _, hsf, hds⟩ := henv.current_class
  simp [simple_name_using, hi, hc, hns, hsf, hds]

/-- An own member of a class is an entry of its table. -/
theorem Store.own_member_entry (h : Store) (type : SymPtr) (name : String) (m : SymPtr)
    (hm : h.own_member type name = some m) :
    ∃ t, h.symbol (some type) = .ok t ∧ g_hash_table_lookup t.symbol_table name = some m := by
  simp only [Store.own_member] at hm
  cases ht : h.symbol (some type) with
  | ok t =>
    simp only [ht, Option.filter_eq_some] at hm
    exact ⟨t, rfl, hm.1⟩
  | exit l d => simp [ht] at hm
  | fault => simp [ht] at hm
  | out_of_fuel => simp [ht] at hm

/-- In a well-formed store the first hit outside the block scope is a symbol of the store. -/
theorem first_outer_hit_symbol (g : ValaCodeGenerator) (h : Store)
    (hwf : h.well_formed = true) (env : LexicalEnv) (henv : env.describes g h) (str : String)
    (m : SymPtr)
    (hm : first_outer_hit h env.chain env.namespace_table env.root_table str = some m) :
    ∃ s, h.symbol (some m) = .ok s := by
  obtain ⟨c, ns, nss, sf, hc, _, hns, hnss, hnst, hsf, hds⟩ := henv.current_class
  obtain ⟨r, hr, hrt⟩ := henv.root
  simp only [first_outer_hit] at hm
  cases hn : h.nearest_member str env.chain with
  | some p =>
    simp only [hn, Option.orElse, Option.some.injEq] at hm
    subst hm
    simp only [Store.nearest_member] at hn
    obtain ⟨type, _, hown⟩ := List.exists_of_findSome?_eq_some hn
    obtain ⟨t, ht, hl⟩ := h.own_member_entry type str p hown
    exact h.entry_ok hwf (some type) t ht str p hl
  | none =>
    simp only [hn, Option.orElse] at hm
    cases hnl : g_hash_table_lookup env.namespace_table str with
    | some p =>
      simp only [hnl, Option.some.injEq] at hm
      subst hm
      rw [← hnst] at hnl
      exact h.entry_ok hwf (some ns.symbol) nss hnss str p hnl
    | none =>
      simp only [hnl] at hm
      rw [← hrt] at hm
      exact h.entry_ok hwf (some g.context.root) r hr str m hm

/-! ## Claims on the using directives and on unresolved names -/

/-- C4 (the code at the failing input): in the sample program with the using directives `A`,
`B`, the name `n` has no hit in the block scope, the class chain, the current namespace and
the root namespace, and exactly one using-directive namespace (`A`, entry 13) defines it; the
resolver reports UnresolvedSymbol, because the turn of the loop for `B` overwrites the hit.
With the directives in the order `B`, `A` the same name resolves to entry 13. -/
theorem using_directive_hit_lost :
    g_hash_table_lookup (sample_env ["A", "B"]).scope_table "n" = none ∧
    first_outer_hit (sample_store ["A", "B"]) (sample_env ["A", "B"]).chain
      (sample_env ["A", "B"]).namespace_table (sample_env ["A", "B"]).root_table "n" = none ∧
    using_hits (sample_store ["A", "B"]) (sample_env ["A", "B"]).root_table "n" ["A", "B"] =
      [13] ∧
    vala_code_generator_find_static_type_of_expression sample_generator (sample_store ["A", "B"]) 2
      (simple_name "n") = .exit none (.UnresolvedSymbol "n") ∧
    vala_code_generator_find_static_type_of_expression sample_generator (sample_store ["B", "A"]) 2
      (simple_name "n") = .ok (.SIMPLE_NAME { static_type_symbol := some 13 } "n") :=
  ⟨by decide, by decide, by decide, rfl, rfl⟩

/-- C5 (as stated, refuted): in the sample program with the using directives `A`, `X`, `C`,
where no namespace `X` exists, the name `n` reaches the using-directive step and two of the
using-directive namespaces (`A` and `C`) define it, yet the resolver does not report
AmbiguousUsing: it stops at `X` with the diagnostic of an unknown using directive. -/
theorem ambiguous_using_counterexample :
    simple_name_before_using sample_generator (sample_store ["A", "X", "C"]) 2 {} "n" =
      .ok {} ∧
    using_hits (sample_store ["A", "X", "C"]) (sample_env ["A", "X", "C"]).root_table "n"
      ["A", "X", "C"] = [13, 14] ∧
    vala_code_generator_find_static_type_of_expression sample_generator (sample_store ["A", "X", "C"]) 2
      (simple_name "n") = .exit none (.UsingNamespaceNotFound "X") ∧
    ¬ ((∃ l n, vala_code_generator_find_static_type_of_expression sample_generator (sample_store ["A", "X", "C"]) 2
          (simple_name "n") = .exit l (.AmbiguousUsing n)) ↔
        2 ≤ (using_hits (sample_store ["A", "X", "C"]) (sample_env ["A", "X", "C"]).root_table
          "n" ["A", "X", "C"]).length) := by
  refine ⟨rfl, by decide, rfl, ?_⟩
  intro hiff
  obtain ⟨l, n, hx⟩ := hiff.mpr (by decide)
  have hr : vala_code_generator_find_static_type_of_expression sample_generator (sample_store ["A", "X", "C"]) 2
      (simple_name "n") = .exit none (.UsingNamespaceNotFound "X") := rfl
  rw [hr] at hx
  cases hx

/-- C5 (amended): for a simple name that reaches the using-directive step (the lookups before
it end without a symbol), the resolver reports AmbiguousUsing if and only if two or more of
the namespaces named by the using directives that come before the first directive naming no
namespace define the name. -/
theorem ambiguous_using_iff (g : ValaCodeGenerator) (h : Store) (hwf : h.well_formed = true)
    (env : LexicalEnv) (henv : env.describes g h) (fuel : Nat) (i i4 : ExprInfo)
    (hi : i.static_type_symbol = none) (str : String)
    (hreach : simple_name_before_using g h fuel i str = .ok i4)
    (h4 : i4.static_type_symbol = none) :
    (∃ l n, vala_code_generator_find_static_type_of_expression g h fuel (.SIMPLE_NAME i str) =
        .exit l (.AmbiguousUsing n)) ↔
      2 ≤ (using_hits h env.root_table str
        (known_directives env.root_table env.using_directives)).length := by
  obtain ⟨r, hr, hrt⟩ := henv.root
  have hloop := using_directives_loop_ambiguous g h hwf r hr i4.location str
    env.using_directives (none, false)
  rw [hrt] at hloop
  simp only [Bool.false_eq_true, if_false] at hloop
  rw [← hloop, find_static_type_simple_name_eq g h fuel i str hi,
    find_static_type_of_simple_name_eq, hreach, Outcome.ok_bind,
    simple_name_using_eq g h env henv i4 h4 str]
  constructor
  · rintro ⟨l, n, hx⟩
    rw [Outcome.bind_eq_exit] at hx
    rcases hx with hx | ⟨j, _, hx⟩
    · rw [Outcome.bind_eq_exit] at hx
      rcases hx with hx | ⟨j2, _, hx⟩
      · rw [Outcome.bind_eq_exit] at hx
        rcases hx with hx | ⟨st, _, hx⟩
        · exact ⟨l, n, hx⟩
        · cases hx
      · have := simple_name_finish_exit h _ str l _ hx
        cases this
    · cases hx
  · rintro ⟨l, n, hx⟩
    exact ⟨l, n, by simp [hx]⟩

/-- Witness of C5 (amended): with the using directives `A`, `C` the name `n` is ambiguous. -/
theorem ambiguous_using_iff_witness :
    ∃ l n, vala_code_generator_find_static_type_of_expression sample_generator (sample_store ["A", "C"]) 2
      (.SIMPLE_NAME {} "n") = .exit l (.AmbiguousUsing n) :=
  (ambiguous_using_iff sample_generator (sample_store ["A", "C"]) (by decide)
    (sample_env ["A", "C"]) (sample_env_describes ["A", "C"]) 2 {} {} rfl "n" rfl rfl).mpr
    (by decide)

/-- C6 (as stated, refuted): in the sample program with the single using directive `X`, where
no namespace `X` exists, the name `zz` has no hit in the block scope, the class chain, the
current namespace, the root namespace and any using-directive namespace, yet the resolver
does not report UnresolvedSymbol: it reports the unknown using directive. -/
theorem unresolved_symbol_counterexample :
    g_hash_table_lookup (sample_env ["X"]).scope_table "zz" = none ∧
    first_outer_hit (sample_store ["X"]) (sample_env ["X"]).chain
      (sample_env ["X"]).namespace_table (sample_env ["X"]).root_table "zz" = none ∧
    using_hits (sample_store ["X"]) (sample_env ["X"]).root_table "zz" ["X"] = [] ∧
    vala_code_generator_find_static_type_of_expression sample_generator (sample_store ["X"]) 2
      (simple_name "zz") = .exit none (.UsingNamespaceNotFound "X") ∧
    vala_code_generator_find_static_type_of_expression sample_generator (sample_store ["X"]) 2
      (simple_name "zz") ≠ .exit (simple_name "zz").location (.UnresolvedSymbol "zz") := by
  refine ⟨by decide, by decide, by decide, rfl, ?_⟩
  have hr : vala_code_generator_find_static_type_of_expression sample_generator (sample_store ["X"]) 2
      (simple_name "zz") = .exit none (.UsingNamespaceNotFound "X") := rfl
  rw [hr]
  intro hx
  cases hx

/-- C6 (amended): a simple name that is not yet resolved, has no hit in the block scope, the
class chain, the current namespace and the root namespace, and whose using directives all
name namespaces none of which defines it, is reported as UnresolvedSymbol at the location of
the expression; and, the block scope holding local variables only, the resolver reports
UnresolvedSymbol only when the name has no hit in the block scope, the class chain, the
current namespace and the root namespace. -/
theorem unresolved_symbol_reported (g : ValaCodeGenerator) (h : Store)
    (hwf : h.well_formed = true) (env : LexicalEnv) (henv : env.describes g h) (fuel : Nat)
    (hf : env.chain.length ≤ fuel) (i : ExprInfo) (hi : i.static_type_symbol = none)
    (str : String) :
    (g_hash_table_lookup env.scope_table str = none →
      first_outer_hit h env.chain env.namespace_table env.root_table str = none →
      (∀ d ∈ env.using_directives, g_hash_table_lookup env.root_table d ≠ none) →
      using_hits h env.root_table str env.using_directives = [] →
      vala_code_generator_find_static_type_of_expression g h fuel (.SIMPLE_NAME i str) =
        .exit i.location (.UnresolvedSymbol str)) ∧
    ((∀ p ls, g_hash_table_lookup env.scope_table str = some p → h.symbol (some p) = .ok ls →
        ls.type = .LOCAL_VARIABLE) →
      (∃ l n, vala_code_generator_find_static_type_of_expression g h fuel (.SIMPLE_NAME i str) =
        .exit l (.UnresolvedSymbol n)) →
      g_hash_table_lookup env.scope_table str = none ∧
        first_outer_hit h env.chain env.namespace_table env.root_table str = none) := by
  have hres := find_static_type_simple_name_eq g h fuel i str hi
  rw [find_static_type_of_simple_name_eq] at hres
  constructor
  · intro hl hout hall hno
    obtain ⟨r, hr, hrt⟩ := henv.root
    have hb := simple_name_before_using_eq g h hwf env henv fuel hf i hi str hl
    rw [hout] at hb
    rw [← hrt] at hall hno
    have hloop := using_directives_loop_none g h hwf r hr i.location str env.using_directives
      false hall hno
    rw [hres, hb, Outcome.ok_bind, simple_name_using_eq g h env henv _ rfl str]
    simp only [hloop, Outcome.ok_bind]
    rw [simple_name_finish_none h _ str rfl]
    rfl
  · intro hlocals hx
    -- a hit in one of the four places ends the resolver with a symbol
    have hhit : ∀ j : ExprInfo, ∀ m s, simple_name_before_using g h fuel i str = .ok j →
        j.static_type_symbol = some m → h.symbol (some m) = .ok s → False := by
      intro j m s hj hm hs
      obtain ⟨k, hk, _⟩ := simple_name_finish_ok h hwf j str m s hm hs
      have hu := (simple_name_skip g h fuel j str (by simp [hm])).2.2.2
      rw [hres, hj, Outcome.ok_bind, hu, Outcome.ok_bind, hk, Outcome.ok_bind] at hx
      obtain ⟨l, n, hx⟩ := hx
      cases hx
    cases hl : g_hash_table_lookup env.scope_table str with
    | some p =>
      exfalso
      have hsc : ∃ sc, h.symbol g.sym = .ok sc ∧ sc.symbol_table = env.scope_table := by
        rcases henv.scope with ⟨_, he⟩ | hsc
        · rw [he] at hl; simp [g_hash_table_lookup] at hl
        · exact hsc
      obtain ⟨sc, hsc, hst⟩ := hsc
      obtain ⟨ls, hls⟩ := h.entry_ok hwf g.sym sc hsc str p (by rw [hst]; exact hl)
      obtain ⟨tr, htr, hok⟩ := h.local_ok_of hwf (some p) ls hls (hlocals p ls hl hls)
      obtain ⟨T, tT, hT, htT⟩ := (h.typeref_ok_iff tr).mp hok
      have hloc := simple_name_local_hit g h env henv i str p ls tr hl hls htr
      have hb : simple_name_before_using g h fuel i str =
          .ok { i with static_type_symbol := tr.symbol, array_type := tr.array_type } := by
        simp [simple_name_before_using, hloc, simple_name_this, simple_name_namespace,
          simple_name_root, hT]
      exact hhit _ T tT hb hT htT
    | none =>
      refine ⟨rfl, ?_⟩
      cases hout : first_outer_hit h env.chain env.namespace_table env.root_table str with
      | none => rfl
      | some m =>
        exfalso
        have hb := simple_name_before_using_eq g h hwf env henv fuel hf i hi str hl
        rw [hout] at hb
        obtain ⟨s, hs⟩ := first_outer_hit_symbol g h hwf env henv str m hout
        exact hhit _ m s hb rfl hs

/-- Witness of C6 (amended): with the using directives `A`, `B` the name `zz`, defined
nowhere, is reported as unresolved. -/
theorem unresolved_symbol_reported_witness :
    vala_code_generator_find_static_type_of_expression sample_generator (sample_store ["A", "B"]) 2
      (.SIMPLE_NAME {} "zz") = .exit none (.UnresolvedSymbol "zz") :=
  (unresolved_symbol_reported sample_generator (sample_store ["A", "B"]) (by decide)
    (sample_env ["A", "B"]) (sample_env_describes ["A", "B"]) 2 (by decide) {} rfl "zz").1
    (by decide) (by decide) (by decide) (by decide)

/-! ## Lemmas on the resolver -/

/-- An expression whose type symbol is set is returned as it is. -/
theorem find_static_type_resolved (g : ValaCodeGenerator) (h : Store) (fuel : Nat)
    (e : ValaExpression) (he : e.static_type_symbol ≠ none) :
    vala_code_generator_find_static_type_of_expression g h fuel e = .ok e := by
  cases e with
  | OPERATION i type left right =>
    cases left <;>
      simp_all [vala_code_generator_find_static_type_of_expression, ValaExpression.static_type_symbol,
        ValaExpression.info]
  | _ =>
    simp_all [vala_code_generator_find_static_type_of_expression, ValaExpression.static_type_symbol,
      ValaExpression.info]

/-- The field block writes the same values whatever the header it starts from. -/
theorem flatten_field_eq (h : Store) (i j : ExprInfo) (s : ValaSymbol)
    (hx : flatten_field h i s = .ok j) :
    ∀ k : ExprInfo, flatten_field h k s =
      .ok { k with field := j.field, array_type := j.array_type,
                   static_type_symbol := j.static_type_symbol } := by
  intro k
  simp only [flatten_field, Outcome.bind_eq, Outcome.pure_eq] at hx ⊢
  cases hf : h.field s.field with
  | ok f =>
    simp only [hf, Outcome.ok_bind] at hx ⊢
    cases hv : Outcome.of_option f.declaration_statement.variable_declaration with
    | ok vd =>
      simp only [hv, Outcome.ok_bind, Outcome.ok.injEq] at hx ⊢
      subst hx
      rfl
    | exit l d => simp [hv] at hx
    | fault => simp [hv] at hx
    | out_of_fuel => simp [hv] at hx
  | exit l d => simp [hf] at hx
  | fault => simp [hf] at hx
  | out_of_fuel => simp [hf] at hx

/-- The property block writes the same values whatever the header it starts from. -/
theorem flatten_property_eq (h : Store) (i j : ExprInfo) (s : ValaSymbol)
    (hx : flatten_property h i s = .ok j) :
    ∀ k : ExprInfo, flatten_property h k s =
      .ok { k with property := j.property, array_type := j.array_type,
                   static_type_symbol := j.static_type_symbol } := by
  intro k
  simp only [flatten_property, Outcome.bind_eq, Outcome.pure_eq] at hx ⊢
  cases hf : h.property s.property with
  | ok f =>
    simp only [hf, Outcome.ok_bind, Outcome.ok.injEq] at hx ⊢
    subst hx
    rfl
  | exit l d => simp [hf] at hx
  | fault => simp [hf] at hx
  | out_of_fuel => simp [hf] at hx

/-- The member-access arm leaves a header it has decorated as it is. -/
theorem find_static_type_of_member_access_idem (g : ValaCodeGenerator) (h : Store)
    (fuel : Nat) (i j : ExprInfo) (left : ValaExpression) (right : String)
    (hx : find_static_type_of_member_access g h fuel i left right = .ok j) :
    find_static_type_of_member_access g h fuel j left right = .ok j := by
  unfold find_static_type_of_member_access at hx ⊢
  cases hl : left.static_type_symbol with
  | none => simp [hl] at hx
  | some sym =>
    simp only [hl, Outcome.bind_eq, Outcome.pure_eq] at hx ⊢
    cases hs : h.symbol (some sym) with
    | ok s =>
      simp only [hs, Outcome.ok_bind] at hx ⊢
      by_cases hc : s.type = .CLASS
      · simp only [hc, if_true] at hx ⊢
        cases hg : get_inherited_member h fuel sym right left.location true with
        | ok r =>
          simp only [hg, Outcome.ok_bind] at hx ⊢
          cases hm : h.symbol r with
          | ok m =>
            simp only [hm, Outcome.ok_bind] at hx ⊢
            by_cases hf : m.type = .FIELD
            · simp only [hf, if_true] at hx ⊢
              rw [flatten_field_eq h _ j m hx]
            · simp only [hf, if_false] at hx ⊢
              by_cases hp : m.type = .PROPERTY
              · simp only [hp, if_true] at hx ⊢
                rw [flatten_property_eq h _ j m hx]
              · simp only [hp, if_false, Outcome.ok.injEq] at hx ⊢
                subst hx
                rfl
          | exit l d => simp [hm] at hx
          | fault => simp [hm] at hx
          | out_of_fuel => simp [hm] at hx
        | exit l d => simp [hg] at hx
        | fault => simp [hg] at hx
        | out_of_fuel => simp [hg] at hx
      · simp only [hc, if_false] at hx ⊢
        by_cases hst : s.type = .STRUCT
        · simp only [hst, if_true] at hx ⊢
          by_cases hn : g_hash_table_lookup s.symbol_table right = none
          · simp [hn, err] at hx
          · simp only [hn, if_false] at hx ⊢
            cases hm : h.symbol (g_hash_table_lookup s.symbol_table right) with
            | ok m =>
              simp only [hm, Outcome.ok_bind] at hx ⊢
              by_cases hf : m.type = .FIELD
              · simp only [hf, if_true] at hx ⊢
                rw [flatten_field_eq h _ j m hx]
              · simp only [hf, if_false, Outcome.ok.injEq] at hx ⊢
                subst hx
                rfl
            | exit l d => simp [hm] at hx
            | fault => simp [hm] at hx
            | out_of_fuel => simp [hm] at hx
        · simp only [hst, if_false] at hx ⊢
          by_cases hen : s.type = .ENUM
          · simp only [hen, if_true] at hx ⊢
            by_cases hn : g_hash_table_lookup s.symbol_table right = none
            · simp [hn, err] at hx
            · simp only [hn, if_false] at hx ⊢
              cases hr : h.symbol (some g.context.root) with
              | ok root =>
                simp only [hr, Outcome.ok_bind, Outcome.ok.injEq] at hx ⊢
                subst hx
                rfl
              | exit l d => simp [hr] at hx
              | fault => simp [hr] at hx
              | out_of_fuel => simp [hr] at hx
          · simp only [hen, if_false] at hx ⊢
            by_cases hna : s.type = .NAMESPACE
            · simp only [hna, if_true] at hx ⊢
              by_cases hn : g_hash_table_lookup s.symbol_table right = none
              · simp [hn, err] at hx
              · simp only [hn, if_false, Outcome.ok.injEq] at hx ⊢
                subst hx
                rfl
            · simp [hna, err] at hx
    | exit l d => simp [hs] at hx
    | fault => simp [hs] at hx
    | out_of_fuel => simp [hs] at hx

/-- The element-access arm (366-372). -/
theorem find_static_type_element_access_eq (g : ValaCodeGenerator) (h : Store) (fuel : Nat)
    (i : ExprInfo) (array index : ValaExpression) (hi : i.static_type_symbol = none) :
    vala_code_generator_find_static_type_of_expression g h fuel (.ELEMENT_ACCESS i array index) =
      (vala_code_generator_find_static_type_of_expression g h fuel array).bind fun a =>
        if a.array_type = false then .exit index.location .NonArrayIndexed
        else .ok (.ELEMENT_ACCESS { i with static_type_symbol := a.static_type_symbol } a
          index) := by
  rw [vala_code_generator_find_static_type_of_expression]
  simp [hi, err]

/-- The invocation arm (373-376). -/
theorem find_static_type_invocation_eq (g : ValaCodeGenerator) (h : Store) (fuel : Nat)
    (i : ExprInfo) (call : ValaExpression) (instance_ : Option ValaExpression)
    (argument_list : List ValaExpression) (hi : i.static_type_symbol = none) :
    vala_code_generator_find_static_type_of_expression g h fuel (.INVOCATION i call instance_ argument_list) =
      (vala_code_generator_find_static_type_of_expression g h fuel call).bind fun c =>
        (h.symbol c.static_type_symbol).bind fun s =>
          (h.method s.method).bind fun m =>
            .ok (.INVOCATION { i with static_type_symbol := m.return_type.symbol } c instance_
              argument_list) := by
  rw [vala_code_generator_find_static_type_of_expression]
  simp [hi]

/-- The member-access arm (380-419). -/
theorem find_static_type_member_access_eq (g : ValaCodeGenerator) (h : Store) (fuel : Nat)
    (i : ExprInfo) (left : ValaExpression) (right : String)
    (hi : i.static_type_symbol = none) :
    vala_code_generator_find_static_type_of_expression g h fuel (.MEMBER_ACCESS i left right) =
      (vala_code_generator_find_static_type_of_expression g h fuel left).bind fun l =>
        (find_static_type_of_member_access g h fuel i l right).bind fun j =>
          .ok (.MEMBER_ACCESS j l right) := by
  rw [vala_code_generator_find_static_type_of_expression]
  simp [hi]

/-- The operation arm for binary `+` and `-` (425-432). -/
theorem find_static_type_operation_eq (g : ValaCodeGenerator) (h : Store) (fuel : Nat)
    (i : ExprInfo) (type : ValaOpType) (left right : ValaExpression)
    (hi : i.static_type_symbol = none) (ht : type = .PLUS ∨ type = .MINUS) :
    vala_code_generator_find_static_type_of_expression g h fuel (.OPERATION i type (some left) right) =
      (vala_code_generator_find_static_type_of_expression g h fuel left).bind fun l =>
        .ok (.OPERATION { i with static_type_symbol := l.static_type_symbol } type (some l)
          right) := by
  rw [vala_code_generator_find_static_type_of_expression]
  simp [hi, ht]

/-- The operation arm for the other operators and for a missing left operand (423-434). -/
theorem find_static_type_operation_other (g : ValaCodeGenerator) (h : Store) (fuel : Nat)
    (i : ExprInfo) (type : ValaOpType) (left : Option ValaExpression) (right : ValaExpression)
    (ht : ¬ (type = .PLUS ∨ type = .MINUS) ∨ left = none) :
    vala_code_generator_find_static_type_of_expression g h fuel (.OPERATION i type left right) =
      .ok (.OPERATION i type left right) := by
  cases left with
  | none =>
    rw [vala_code_generator_find_static_type_of_expression]
    by_cases hi : i.static_type_symbol = none <;> simp [hi]
  | some l =>
    have ht2 : ¬ (type = .PLUS ∨ type = .MINUS) := by
      rcases ht with ht | ht
      · exact ht
      · cases ht
    rw [vala_code_generator_find_static_type_of_expression]
    by_cases hi : i.static_type_symbol = none <;> simp [hi, ht2]

/-- The parenthesized arm (435-438). -/
theorem find_static_type_parenthesized_eq (g : ValaCodeGenerator) (h : Store) (fuel : Nat)
    (i : ExprInfo) (inner : ValaExpression) (hi : i.static_type_symbol = none) :
    vala_code_generator_find_static_type_of_expression g h fuel (.PARENTHESIZED i inner) =
      (vala_code_generator_find_static_type_of_expression g h fuel inner).bind fun e =>
        .ok (.PARENTHESIZED { i with static_type_symbol := e.static_type_symbol } e) := by
  rw [vala_code_generator_find_static_type_of_expression]
  simp [hi]

/-- A resolved expression is returned as it is, also the second time. -/
theorem find_static_type_idem_resolved (g : ValaCodeGenerator) (h : Store) (fuel : Nat)
    (e e' : ValaExpression) (hs : e.static_type_symbol ≠ none)
    (he : vala_code_generator_find_static_type_of_expression g h fuel e = .ok e') :
    vala_code_generator_find_static_type_of_expression g h fuel e' = .ok e' := by
  rw [find_static_type_resolved g h fuel e hs] at he
  cases he
  exact find_static_type_resolved g h fuel e hs

/-- The simple-name arm ends with a symbol set whenever it returns. -/
theorem find_static_type_of_simple_name_some (g : ValaCodeGenerator) (h : Store) (fuel : Nat)
    (i j : ExprInfo) (str : String)
    (hj : find_static_type_of_simple_name g h fuel i str = .ok j) :
    j.static_type_symbol ≠ none := by
  rw [find_static_type_of_simple_name_eq, Outcome.bind_eq_ok] at hj
  obtain ⟨k, _, hk⟩ := hj
  unfold simple_name_finish at hk
  simp only [Outcome.bind_eq, Outcome.bind_eq_ok, Outcome.pure_eq] at hk
  obtain ⟨k2, _, hk⟩ := hk
  by_cases hn : k2.static_type_symbol = none
  · simp [hn, err] at hk
  · simp only [hn, if_false, Outcome.ok.injEq] at hk
    subst hk
    exact hn

/-- Idempotence of the resolver, by recursion on the expression. -/
theorem find_static_type_idem (g : ValaCodeGenerator) (h : Store) (fuel : Nat) :
    ∀ e e' : ValaExpression, vala_code_generator_find_static_type_of_expression g h fuel e = .ok e' →
      vala_code_generator_find_static_type_of_expression g h fuel e' = .ok e'
  | .ASSIGNMENT i l r, e', he => by
    rw [vala_code_generator_find_static_type_of_expression] at he
    cases he
    rw [vala_code_generator_find_static_type_of_expression]
    rfl
  | .CAST i t inner, e', he => by
    by_cases hi : i.static_type_symbol = none
    · rw [vala_code_generator_find_static_type_of_expression] at he
      simp [hi] at he
      subst he
      rw [vala_code_generator_find_static_type_of_expression]
      split <;> rfl
    · exact find_static_type_idem_resolved g h fuel (.CAST i t inner) e' hi he
  | .ELEMENT_ACCESS i a idx, e', he => by
    by_cases hi : i.static_type_symbol = none
    · rw [find_static_type_element_access_eq g h fuel i a idx hi, Outcome.bind_eq_ok] at he
      obtain ⟨a', ha, he⟩ := he
      have ih := find_static_type_idem g h fuel a a' ha
      cases hat : a'.array_type with
      | false => simp [hat] at he
      | true =>
        simp only [hat, Bool.true_eq_false, if_false, Outcome.ok.injEq] at he
        subst he
        by_cases hs : a'.static_type_symbol = none
        · rw [find_static_type_element_access_eq g h fuel
            { i with static_type_symbol := a'.static_type_symbol } a' idx hs, ih]
          simp [hat]
        · exact find_static_type_resolved g h fuel
            (.ELEMENT_ACCESS { i with static_type_symbol := a'.static_type_symbol } a' idx) hs
    · exact find_static_type_idem_resolved g h fuel (.ELEMENT_ACCESS i a idx) e' hi he
  | .INVOCATION i c inst args, e', he => by
    by_cases hi : i.static_type_symbol = none
    · rw [find_static_type_invocation_eq g h fuel i c inst args hi, Outcome.bind_eq_ok] at he
      obtain ⟨c', hc, he⟩ := he
      have ih := find_static_type_idem g h fuel c c' hc
      rw [Outcome.bind_eq_ok] at he
      obtain ⟨s, hs, he⟩ := he
      rw [Outcome.bind_eq_ok] at he
      obtain ⟨m, hm, he⟩ := he
      simp only [Outcome.ok.injEq] at he
      subst he
      by_cases hr : m.return_type.symbol = none
      · rw [find_static_type_invocation_eq g h fuel
          { i with static_type_symbol := m.return_type.symbol } c' inst args hr, ih]
        simp [hs, hm]
      · exact find_static_type_resolved g h fuel
          (.INVOCATION { i with static_type_symbol := m.return_type.symbol } c' inst args) hr
    · exact find_static_type_idem_resolved g h fuel (.INVOCATION i c inst args) e' hi he
  | .IS i t x, e', he => by
    by_cases hi : i.static_type_symbol = none
    · rw [vala_code_generator_find_static_type_of_expression] at he
      simp only [hi, ne_eq, not_true_eq_false, if_false, Outcome.bind_eq, Outcome.pure_eq,
        Outcome.bind_eq_ok] at he
      obtain ⟨root, hr, he⟩ := he
      simp only [Outcome.ok.injEq] at he
      subst he
      rw [vala_code_generator_find_static_type_of_expression]
      split
      · rfl
      · simp [hr]
    · exact find_static_type_idem_resolved g h fuel (.IS i t x) e' hi he
  | .MEMBER_ACCESS i l r, e', he => by
    by_cases hi : i.static_type_symbol = none
    · rw [find_static_type_member_access_eq g h fuel i l r hi, Outcome.bind_eq_ok] at he
      obtain ⟨l', hl, he⟩ := he
      have ih := find_static_type_idem g h fuel l l' hl
      rw [Outcome.bind_eq_ok] at he
      obtain ⟨j, hj, he⟩ := he
      simp only [Outcome.ok.injEq] at he
      subst he
      by_cases hs : j.static_type_symbol = none
      · rw [find_static_type_member_access_eq g h fuel j l' r hs, ih]
        simp [find_static_type_of_member_access_idem g h fuel i j l' r hj]
      · exact find_static_type_resolved g h fuel (.MEMBER_ACCESS j l' r) hs
    · exact find_static_type_idem_resolved g h fuel (.MEMBER_ACCESS i l r) e' hi he
  | .OBJECT_CREATION i t args, e', he => by
    by_cases hi : i.static_type_symbol = none
    · rw [vala_code_generator_find_static_type_of_expression] at he
      simp [hi] at he
      subst he
      rw [vala_code_generator_find_static_type_of_expression]
      split <;> rfl
    · exact find_static_type_idem_resolved g h fuel (.OBJECT_CREATION i t args) e' hi he
  | .OPERATION i t none r, e', he => by
    rw [find_static_type_operation_other g h fuel i t none r (Or.inr rfl)] at he
    cases he
    exact find_static_type_operation_other g h fuel i t none r (Or.inr rfl)
  | .OPERATION i t (some l) r, e', he => by
    by_cases ht : t = .PLUS ∨ t = .MINUS
    · by_cases hi : i.static_type_symbol = none
      · rw [find_static_type_operation_eq g h fuel i t l r hi ht, Outcome.bind_eq_ok] at he
        obtain ⟨l', hl, he⟩ := he
        have ih := find_static_type_idem g h fuel l l' hl
        simp only [Outcome.ok.injEq] at he
        subst he
        by_cases hs : l'.static_type_symbol = none
        · rw [find_static_type_operation_eq g h fuel
            { i with static_type_symbol := l'.static_type_symbol } t l' r hs ht, ih]
          rfl
        · exact find_static_type_resolved g h fuel
            (.OPERATION { i with static_type_symbol := l'.static_type_symbol } t (some l') r) hs
      · exact find_static_type_idem_resolved g h fuel (.OPERATION i t (some l) r) e' hi he
    · rw [find_static_type_operation_other g h fuel i t _ r (Or.inl ht)] at he
      cases he
      exact find_static_type_operation_other g h fuel i t _ r (Or.inl ht)
  | .PARENTHESIZED i x, e', he => by
    by_cases hi : i.static_type_symbol = none
    · rw [find_static_type_parenthesized_eq g h fuel i x hi, Outcome.bind_eq_ok] at he
      obtain ⟨x', hx, he⟩ := he
      have ih := find_static_type_idem g h fuel x x' hx
      simp only [Outcome.ok.injEq] at he
      subst he
      by_cases hs : x'.static_type_symbol = none
      · rw [find_static_type_parenthesized_eq g h fuel
          { i with static_type_symbol := x'.static_type_symbol } x' hs, ih]
        rfl
      · exact find_static_type_resolved g h fuel
          (.PARENTHESIZED { i with static_type_symbol := x'.static_type_symbol } x') hs
    · exact find_static_type_idem_resolved g h fuel (.PARENTHESIZED i x) e' hi he
  | .POSTFIX i x c, e', he => by
    rw [vala_code_generator_find_static_type_of_expression] at he
    cases he
    rw [vala_code_generator_find_static_type_of_expression]
    rfl
  | .LITERAL_BOOLEAN i n, e', he => by
    rw [vala_code_generator_find_static_type_of_expression] at he
    cases he
    rw [vala_code_generator_find_static_type_of_expression]
    rfl
  | .LITERAL_CHARACTER i n, e', he => by
    rw [vala_code_generator_find_static_type_of_expression] at he
    cases he
    rw [vala_code_generator_find_static_type_of_expression]
    rfl
  | .LITERAL_INTEGER i n, e', he => by
    rw [vala_code_generator_find_static_type_of_expression] at he
    cases he
    rw [vala_code_generator_find_static_type_of_expression]
    rfl
  | .LITERAL_NULL i, e', he => by
    rw [vala_code_generator_find_static_type_of_expression] at he
    cases he
    rw [vala_code_generator_find_static_type_of_expression]
    rfl
  | .LITERAL_STRING i str, e', he => by
    by_cases hi : i.static_type_symbol = none
    · rw [vala_code_generator_find_static_type_of_expression] at he
      simp only [hi, ne_eq, not_true_eq_false, if_false, Outcome.bind_eq, Outcome.pure_eq,
        Outcome.bind_eq_ok] at he
      obtain ⟨root, hr, he⟩ := he
      simp only [Outcome.ok.injEq] at he
      subst he
      rw [vala_code_generator_find_static_type_of_expression]
      split
      · rfl
      · simp [hr]
    · exact find_static_type_idem_resolved g h fuel (.LITERAL_STRING i str) e' hi he
  | .SIMPLE_NAME i str, e', he => by
    by_cases hi : i.static_type_symbol = none
    · rw [find_static_type_simple_name_eq g h fuel i str hi, Outcome.bind_eq_ok] at he
      obtain ⟨j, hj, he⟩ := he
      simp only [Outcome.ok.injEq] at he
      subst he
      exact find_static_type_resolved g h fuel (.SIMPLE_NAME j str)
        (find_static_type_of_simple_name_some g h fuel i j str hj)
    · exact find_static_type_idem_resolved g h fuel (.SIMPLE_NAME i str) e' hi he
  | .STRUCT_OR_ARRAY_INITIALIZER i l, e', he => by
    rw [vala_code_generator_find_static_type_of_expression] at he
    cases he
    rw [vala_code_generator_find_static_type_of_expression]
    rfl
  | .THIS_ACCESS i, e', he => by
    by_cases hi : i.static_type_symbol = none
    · rw [vala_code_generator_find_static_type_of_expression] at he
      simp only [hi, ne_eq, not_true_eq_false, if_false, Outcome.bind_eq, Outcome.pure_eq,
        Outcome.bind_eq_ok] at he
      obtain ⟨sym, _, he⟩ := he
      simp only [Outcome.ok.injEq] at he
      subst he
      exact find_static_type_resolved g h fuel
        (.THIS_ACCESS { i with static_type_symbol := some sym }) (by
          simp [ValaExpression.static_type_symbol, ValaExpression.info])
    · exact find_static_type_idem_resolved g h fuel (.THIS_ACCESS i) e' hi he

/-! ## Claims on the resolver as a whole -/

/-- C7: the resolver is idempotent.  In a fixed environment (generator, store, fuel), when a
first application returns the tree `e'`, a second application returns `e'` again, so the
decoration (`static_type_symbol`, `array_type`, `field`, `property`, `static_symbol`) of every
node is exactly as the first application left it; and an expression whose
`static_type_symbol` is already set is returned unmodified. -/
theorem resolver_idempotent (g : ValaCodeGenerator) (h : Store) (fuel : Nat)
    (e e' : ValaExpression) (he : vala_code_generator_find_static_type_of_expression g h fuel e = .ok e') :
    vala_code_generator_find_static_type_of_expression g h fuel e' = .ok e' ∧
    (∀ x : ValaExpression, x.static_type_symbol ≠ none →
      vala_code_generator_find_static_type_of_expression g h fuel x = .ok x) :=
  ⟨find_static_type_idem g h fuel e e' he, fun x hx => find_static_type_resolved g h fuel x hx⟩

/-- Witness of C7: `(this.x)` in a body of `Derived` of the sample program, resolved once,
is left as it is by a second application. -/
theorem resolver_idempotent_witness :
    vala_code_generator_find_static_type_of_expression sample_generator (sample_store []) 2
      (.PARENTHESIZED { static_type_symbol := some 1 }
        (.MEMBER_ACCESS { static_type_symbol := some 1, field := some 0 }
          (.THIS_ACCESS { static_type_symbol := some 6 }) "x")) =
      .ok (.PARENTHESIZED { static_type_symbol := some 1 }
        (.MEMBER_ACCESS { static_type_symbol := some 1, field := some 0 }
          (.THIS_ACCESS { static_type_symbol := some 6 }) "x")) :=
  (resolver_idempotent sample_generator (sample_store []) 2
    (.PARENTHESIZED {} (.MEMBER_ACCESS {} (.THIS_ACCESS {}) "x")) _ rfl).1

/-- In a well-formed store the field block ends with a symbol set. -/
theorem flatten_field_some (h : Store) (hwf : h.well_formed = true) (i j : ExprInfo)
    (s : ValaSymbol) (hx : flatten_field h i s = .ok j) : j.static_type_symbol ≠ none := by
  simp only [flatten_field, Outcome.bind_eq, Outcome.pure_eq, Outcome.bind_eq_ok] at hx
  obtain ⟨f, hf, vd, hvd, hx⟩ := hx
  obtain ⟨vd2, hvd2, hok⟩ := h.field_resolved hwf _ f hf
  rw [hvd2] at hvd
  simp only [Outcome.of_option, Outcome.ok.injEq] at hvd
  subst hvd
  obtain ⟨p, _, hp, _⟩ := (h.typeref_ok_iff vd2.type).mp hok
  simp only [Outcome.ok.injEq] at hx
  subst hx
  simp [hp]

/-- In a well-formed store the property block ends with a symbol set. -/
theorem flatten_property_some (h : Store) (hwf : h.well_formed = true) (i j : ExprInfo)
    (s : ValaSymbol) (hx : flatten_property h i s = .ok j) : j.static_type_symbol ≠ none := by
  simp only [flatten_property, Outcome.bind_eq, Outcome.pure_eq, Outcome.bind_eq_ok] at hx
  obtain ⟨q, hq, hx⟩ := hx
  have hok := h.property_resolved hwf _ q hq
  obtain ⟨p, _, hp, _⟩ := (h.typeref_ok_iff q.return_type).mp hok
  simp only [Outcome.ok.injEq] at hx
  subst hx
  simp [hp]

/-- A dereferenced symbol pointer was not `NULL`. -/
theorem Store.symbol_some (h : Store) (p : Option SymPtr) (s : ValaSymbol)
    (hs : h.symbol p = .ok s) : p ≠ none := by
  intro hp
  subst hp
  simp [Store.symbol, Outcome.of_option] at hs

/-- With the built-in types in the root namespace of a well-formed store, the member-access
arm ends with a symbol set whenever it returns. -/
theorem find_static_type_of_member_access_some (g : ValaCodeGenerator) (h : Store)
    (hwf : h.well_formed = true) (hb : builtins_defined g h = true) (fuel : Nat)
    (i j : ExprInfo) (left : ValaExpression) (right : String)
    (hx : find_static_type_of_member_access g h fuel i left right = .ok j) :
    j.static_type_symbol ≠ none := by
  unfold find_static_type_of_member_access at hx
  cases hl : left.static_type_symbol with
  | none => simp [hl] at hx
  | some sym =>
    simp only [hl, Outcome.bind_eq, Outcome.pure_eq, Outcome.bind_eq_ok] at hx
    obtain ⟨s, hs, hx⟩ := hx
    by_cases hc : s.type = .CLASS
    · simp only [hc, if_true, Outcome.bind_eq_ok] at hx
      obtain ⟨r, hg, m, hm, hx⟩ := hx
      by_cases hf : m.type = .FIELD
      · simp only [hf, if_true] at hx
        exact flatten_field_some h hwf _ j m hx
      · simp only [hf, if_false] at hx
        by_cases hp : m.type = .PROPERTY
        · simp only [hp, if_true] at hx
          exact flatten_property_some h hwf _ j m hx
        · simp only [hp, if_false, Outcome.ok.injEq] at hx
          subst hx
          exact h.symbol_some r m hm
    · simp only [hc, if_false] at hx
      by_cases hst : s.type = .STRUCT
      · simp only [hst, if_true] at hx
        by_cases hn : g_hash_table_lookup s.symbol_table right = none
        · simp [hn, err] at hx
        · simp only [hn, if_false, Outcome.bind_eq_ok] at hx
          obtain ⟨m, hm, hx⟩ := hx
          by_cases hf : m.type = .FIELD
          · simp only [hf, if_true] at hx
            exact flatten_field_some h hwf _ j m hx
          · simp only [hf, if_false, Outcome.ok.injEq] at hx
            subst hx
            exact hn
      · simp only [hst, if_false] at hx
        by_cases hen : s.type = .ENUM
        · simp only [hen, if_true] at hx
          by_cases hn : g_hash_table_lookup s.symbol_table right = none
          · simp [hn, err] at hx
          · simp only [hn, if_false, Outcome.bind_eq_ok] at hx
            obtain ⟨root, hr, hx⟩ := hx
            simp only [Outcome.ok.injEq] at hx
            subst hx
            simp only [builtins_defined, hr, Bool.and_eq_true, Option.isSome_iff_ne_none] at hb
            exact hb.1.1
        · simp only [hen, if_false] at hx
          by_cases hna : s.type = .NAMESPACE
          · simp only [hna, if_true] at hx
            by_cases hn : g_hash_table_lookup s.symbol_table right = none
            · simp [hn, err] at hx
            · simp only [hn, if_false, Outcome.ok.injEq] at hx
              subst hx
              exact hn
          · simp [hna, err] at hx

/-- With the built-in types in the root namespace of a well-formed store and resolved target
types, an expression the resolver returns has its type symbol set or is one of those the
resolver leaves without a type. -/
theorem find_static_type_some (g : ValaCodeGenerator) (h : Store)
    (hwf : h.well_formed = true) (hb : builtins_defined g h = true) (fuel : Nat) :
    ∀ e e' : ValaExpression, target_types_resolved e = true →
      vala_code_generator_find_static_type_of_expression g h fuel e = .ok e' →
      e'.static_type_symbol ≠ none ∨ type_free e' = true
  | .ASSIGNMENT i l r, e', _, he => by
    rw [vala_code_generator_find_static_type_of_expression] at he
    cases he
    exact Or.inr rfl
  | .CAST i t inner, e', ht, he => by
    rw [vala_code_generator_find_static_type_of_expression] at he
    by_cases hi : i.static_type_symbol = none
    · simp [hi] at he
      subst he
      left
      simpa [target_types_resolved, Option.isSome_iff_ne_none, ValaExpression.static_type_symbol,
        ValaExpression.info] using ht
    · simp [hi] at he
      subst he
      exact Or.inl hi
  | .ELEMENT_ACCESS i a idx, e', ht, he => by
    by_cases hi : i.static_type_symbol = none
    · rw [find_static_type_element_access_eq g h fuel i a idx hi, Outcome.bind_eq_ok] at he
      obtain ⟨a', ha, he⟩ := he
      have ih := find_static_type_some g h hwf hb fuel a a' ht ha
      cases hat : a'.array_type with
      | false => simp [hat] at he
      | true =>
        simp only [hat, Bool.true_eq_false, if_false, Outcome.ok.injEq] at he
        subst he
        exact ih
    · rw [find_static_type_resolved g h fuel (.ELEMENT_ACCESS i a idx) hi] at he
      cases he
      exact Or.inl hi
  | .INVOCATION i c inst args, e', ht, he => by
    by_cases hi : i.static_type_symbol = none
    · rw [find_static_type_invocation_eq g h fuel i c inst args hi, Outcome.bind_eq_ok] at he
      obtain ⟨c', _, he⟩ := he
      rw [Outcome.bind_eq_ok] at he
      obtain ⟨s, _, he⟩ := he
      rw [Outcome.bind_eq_ok] at he
      obtain ⟨m, hm, he⟩ := he
      simp only [Outcome.ok.injEq] at he
      subst he
      obtain ⟨p, _, hp, _⟩ := (h.typeref_ok_iff m.return_type).mp (h.method_resolved hwf _ m hm)
      left
      simp [ValaExpression.static_type_symbol, ValaExpression.info, hp]
    · rw [find_static_type_resolved g h fuel (.INVOCATION i c inst args) hi] at he
      cases he
      exact Or.inl hi
  | .IS i t x, e', _, he => by
    by_cases hi : i.static_type_symbol = none
    · rw [vala_code_generator_find_static_type_of_expression] at he
      simp only [hi, ne_eq, not_true_eq_false, if_false, Outcome.bind_eq, Outcome.pure_eq,
        Outcome.bind_eq_ok] at he
      obtain ⟨root, hr, he⟩ := he
      simp only [Outcome.ok.injEq] at he
      subst he
      simp only [builtins_defined, hr, Bool.and_eq_true, Option.isSome_iff_ne_none] at hb
      exact Or.inl hb.1.2
    · rw [find_static_type_resolved g h fuel (.IS i t x) hi] at he
      cases he
      exact Or.inl hi
  | .MEMBER_ACCESS i l r, e', _, he => by
    by_cases hi : i.static_type_symbol = none
    · rw [find_static_type_member_access_eq g h fuel i l r hi, Outcome.bind_eq_ok] at he
      obtain ⟨l', _, he⟩ := he
      rw [Outcome.bind_eq_ok] at he
      obtain ⟨j, hj, he⟩ := he
      simp only [Outcome.ok.injEq] at he
      subst he
      exact Or.inl (find_static_type_of_member_access_some g h hwf hb fuel i j l' r hj)
    · rw [find_static_type_resolved g h fuel (.MEMBER_ACCESS i l r) hi] at he
      cases he
      exact Or.inl hi
  | .OBJECT_CREATION i t args, e', ht, he => by
    rw [vala_code_generator_find_static_type_of_expression] at he
    by_cases hi : i.static_type_symbol = none
    · simp [hi] at he
      subst he
      left
      simpa [target_types_resolved, Option.isSome_iff_ne_none, ValaExpression.static_type_symbol,
        ValaExpression.info] using ht
    · simp [hi] at he
      subst he
      exact Or.inl hi
  | .OPERATION i t none r, e', _, he => by
    rw [find_static_type_operation_other g h fuel i t none r (Or.inr rfl)] at he
    cases he
    right
    simp [type_free]
  | .OPERATION i t (some l) r, e', ht, he => by
    by_cases hpm : t = .PLUS ∨ t = .MINUS
    · by_cases hi : i.static_type_symbol = none
      · rw [find_static_type_operation_eq g h fuel i t l r hi hpm, Outcome.bind_eq_ok] at he
        obtain ⟨l', hl, he⟩ := he
        have ih := find_static_type_some g h hwf hb fuel l l' ht hl
        simp only [Outcome.ok.injEq] at he
        subst he
        rcases ih with ih | ih
        · exact Or.inl ih
        · right
          simp [type_free, hpm, ih]
      · rw [find_static_type_resolved g h fuel (.OPERATION i t (some l) r) hi] at he
        cases he
        exact Or.inl hi
    · rw [find_static_type_operation_other g h fuel i t _ r (Or.inl hpm)] at he
      cases he
      right
      simp [type_free, hpm]
  | .PARENTHESIZED i x, e', ht, he => by
    by_cases hi : i.static_type_symbol = none
    · rw [find_static_type_parenthesized_eq g h fuel i x hi, Outcome.bind_eq_ok] at he
      obtain ⟨x', hx, he⟩ := he
      have ih := find_static_type_some g h hwf hb fuel x x' ht hx
      simp only [Outcome.ok.injEq] at he
      subst he
      exact ih
    · rw [find_static_type_resolved g h fuel (.PARENTHESIZED i x) hi] at he
      cases he
      exact Or.inl hi
  | .POSTFIX i x c, e', _, he => by
    rw [vala_code_generator_find_static_type_of_expression] at he
    cases he
    exact Or.inr rfl
  | .LITERAL_BOOLEAN i n, e', _, he => by
    rw [vala_code_generator_find_static_type_of_expression] at he
    cases he
    exact Or.inr rfl
  | .LITERAL_CHARACTER i n, e', _, he => by
    rw [vala_code_generator_find_static_type_of_expression] at he
    cases he
    exact Or.inr rfl
  | .LITERAL_INTEGER i n, e', _, he => by
    rw [vala_code_generator_find_static_type_of_expression] at he
    cases he
    exact Or.inr rfl
  | .LITERAL_NULL i, e', _, he => by
    rw [vala_code_generator_find_static_type_of_expression] at he
    cases he
    exact Or.inr rfl
  | .LITERAL_STRING i str, e', _, he => by
    by_cases hi : i.static_type_symbol = none
    · rw [vala_code_generator_find_static_type_of_expression] at he
      simp only [hi, ne_eq, not_true_eq_false, if_false, Outcome.bind_eq, Outcome.pure_eq,
        Outcome.bind_eq_ok] at he
      obtain ⟨root, hr, he⟩ := he
      simp only [Outcome.ok.injEq] at he
      subst he
      simp only [builtins_defined, hr, Bool.and_eq_true, Option.isSome_iff_ne_none] at hb
      exact Or.inl hb.2
    · rw [find_static_type_resolved g h fuel (.LITERAL_STRING i str) hi] at he
      cases he
      exact Or.inl hi
  | .SIMPLE_NAME i str, e', _, he => by
    by_cases hi : i.static_type_symbol = none
    · rw [find_static_type_simple_name_eq g h fuel i str hi, Outcome.bind_eq_ok] at he
      obtain ⟨j, hj, he⟩ := he
      simp only [Outcome.ok.injEq] at he
      subst he
      exact Or.inl (find_static_type_of_simple_name_some g h fuel i j str hj)
    · rw [find_static_type_resolved g h fuel (.SIMPLE_NAME i str) hi] at he
      cases he
      exact Or.inl hi
  | .STRUCT_OR_ARRAY_INITIALIZER i l, e', _, he => by
    rw [vala_code_generator_find_static_type_of_expression] at he
    cases he
    exact Or.inr rfl
  | .THIS_ACCESS i, e', _, he => by
    by_cases hi : i.static_type_symbol = none
    · rw [vala_code_generator_find_static_type_of_expression] at he
      simp only [hi, ne_eq, not_true_eq_false, if_false, Outcome.bind_eq, Outcome.pure_eq,
        Outcome.bind_eq_ok] at he
      obtain ⟨sym, _, he⟩ := he
      simp only [Outcome.ok.injEq] at he
      subst he
      left
      simp [ValaExpression.static_type_symbol, ValaExpression.info]
    · rw [find_static_type_resolved g h fuel (.THIS_ACCESS i) hi] at he
      cases he
      exact Or.inl hi

/-- C8 (as stated, refuted): on the assignment `x = 1` in a body of `Derived` of the sample
program the resolver completes without a diagnostic and leaves `static_type_symbol` unset,
although an assignment is none of the four literal kinds. -/
theorem resolver_type_counterexample :
    vala_code_generator_find_static_type_of_expression sample_generator (sample_store []) 2
      (.ASSIGNMENT {} (simple_name "x") (.LITERAL_INTEGER {} "1")) =
      .ok (.ASSIGNMENT {} (simple_name "x") (.LITERAL_INTEGER {} "1")) ∧
    (ValaExpression.ASSIGNMENT {} (simple_name "x")
      (.LITERAL_INTEGER {} "1")).static_type_symbol = none :=
  ⟨rfl, rfl⟩

/-- C8 (amended): in a well-formed store whose root namespace defines `int`, `bool` and
`string`, for every expression whose Cast and Object-creation target types are resolved and on
which the resolver completes without a diagnostic, `static_type_symbol` is non-null afterwards
unless the expression is an integer, character, null or bool literal, an assignment, a postfix
expression, a struct-or-array initializer, an operation other than binary `+` and `-`, or a
parenthesized expression, element access or binary `+`/`-` whose operand is such an
expression. -/
theorem resolver_sets_type (g : ValaCodeGenerator) (h : Store) (hwf : h.well_formed = true)
    (hb : builtins_defined g h = true) (fuel : Nat) (e e' : ValaExpression)
    (ht : target_types_resolved e = true)
    (he : vala_code_generator_find_static_type_of_expression g h fuel e = .ok e') :
    e'.static_type_symbol ≠ none ∨ type_free e' = true :=
  find_static_type_some g h hwf hb fuel e e' ht he

/-- Witness of C8 (amended): the invocation `f ()` in a body of `Derived` of the sample program
gets the return type `int` (symbol 1) of `f`. -/
theorem resolver_sets_type_witness :
    (ValaExpression.INVOCATION { static_type_symbol := some 1 }
        (.SIMPLE_NAME { static_type_symbol := some 7 } "f") none []).static_type_symbol ≠ none ∨
      type_free (ValaExpression.INVOCATION { static_type_symbol := some 1 }
        (.SIMPLE_NAME { static_type_symbol := some 7 } "f") none []) = true :=
  resolver_sets_type sample_generator (sample_store []) (by decide) (by decide) 2
    (.INVOCATION {} (simple_name "f") none []) _ rfl rfl

/-! ## Lemmas on diagnostics and locations -/

/-- A read of an optional value reports no diagnostic. -/
theorem Outcome.of_option_ne_exit {α : Type} (x : Option α) (l : Option ValaLocation)
    (d : Diagnostic) : Outcome.of_option x ≠ .exit l d := by
  cases x <;> simp [Outcome.of_option]

/-- The field block reports no diagnostic. -/
theorem flatten_field_ne_exit (h : Store) (i : ExprInfo) (s : ValaSymbol)
    (l : Option ValaLocation) (d : Diagnostic) : flatten_field h i s ≠ .exit l d := by
  intro hx
  simp only [flatten_field, Outcome.bind_eq, Outcome.pure_eq, Outcome.bind_eq_exit] at hx
  rcases hx with hx | ⟨f, _, hx⟩
  · exact Outcome.of_option_ne_exit _ l d hx
  · rcases hx with hx | ⟨vd, _, hx⟩
    · exact Outcome.of_option_ne_exit _ l d hx
    · cases hx

/-- The property block reports no diagnostic. -/
theorem flatten_property_ne_exit (h : Store) (i : ExprInfo) (s : ValaSymbol)
    (l : Option ValaLocation) (d : Diagnostic) : flatten_property h i s ≠ .exit l d := by
  intro hx
  simp only [flatten_property, Outcome.bind_eq, Outcome.pure_eq, Outcome.bind_eq_exit] at hx
  rcases hx with hx | ⟨f, _, hx⟩
  · exact Outcome.of_option_ne_exit _ l d hx
  · cases hx

/-- The inherited member lookup reports nothing but a member that is not found. -/
theorem get_inherited_member_exit (h : Store) (name : String) (location : Option ValaLocation)
    (b : Bool) (l : Option ValaLocation) (d : Diagnostic) :
    ∀ (fuel : Nat) (type : SymPtr),
      get_inherited_member h fuel type name location b = .exit l d →
      d = .MemberNotFound name
  | 0, _, hx => by
    rw [get_inherited_member] at hx
    cases hx
  | fuel + 1, type, hx => by
    rw [gim_unfold, Outcome.bind_eq_exit] at hx
    rcases hx with hx | ⟨t, _, hx⟩
    · exact absurd hx (Outcome.of_option_ne_exit _ l d)
    · rw [Outcome.bind_eq_exit] at hx
      rcases hx with hx | ⟨r, _, hx⟩
      · exfalso
        unfold gim_returned at hx
        split at hx
        · cases hx
        · rw [Outcome.bind_eq_exit] at hx
          rcases hx with hx | ⟨s, _, hx⟩
          · exact Outcome.of_option_ne_exit _ l d hx
          · split at hx
            · rw [Outcome.bind_eq_exit] at hx
              rcases hx with hx | ⟨m, _, hx⟩
              · exact Outcome.of_option_ne_exit _ l d hx
              · cases hx
            · cases hx
      · cases r with
        | true => simp at hx
        | false =>
          simp only [Bool.false_eq_true, if_false, gim_continue, Outcome.bind_eq_exit] at hx
          rcases hx with hx | ⟨bc, _, hx⟩
          · exfalso
            split at hx
            · cases hx
            · rw [Outcome.bind_eq_exit] at hx
              rcases hx with hx | ⟨c, _, hx⟩
              · exact Outcome.of_option_ne_exit _ l d hx
              · cases hx
          · cases bc with
            | none =>
              cases b with
              | true =>
                simp only [if_true, err, Outcome.exit.injEq] at hx
                exact hx.2.symm
              | false => simp at hx
            | some p =>
              simp only [Outcome.bind_eq_exit] at hx
              rcases hx with hx | ⟨c, _, hx⟩
              · exact absurd hx (Outcome.of_option_ne_exit _ l d)
              · exact get_inherited_member_exit h name location b l d fuel _ hx

/-- The field block keeps the location. -/
theorem flatten_field_location (h : Store) (i j : ExprInfo) (s : ValaSymbol)
    (hx : flatten_field h i s = .ok j) : j.location = i.location := by
  have := flatten_field_eq h i j s hx i
  rw [hx] at this
  simp only [Outcome.ok.injEq] at this
  rw [this]

/-- The property block keeps the location. -/
theorem flatten_property_location (h : Store) (i j : ExprInfo) (s : ValaSymbol)
    (hx : flatten_property h i s = .ok j) : j.location = i.location := by
  have := flatten_property_eq h i j s hx i
  rw [hx] at this
  simp only [Outcome.ok.injEq] at this
  rw [this]

/-- The member-access arm keeps the location of the node. -/
theorem find_static_type_of_member_access_location (g : ValaCodeGenerator) (h : Store)
    (fuel : Nat) (i j : ExprInfo) (left : ValaExpression) (right : String)
    (hx : find_static_type_of_member_access g h fuel i left right = .ok j) :
    j.location = i.location := by
  unfold find_static_type_of_member_access at hx
  cases hl : left.static_type_symbol with
  | none => simp [hl] at hx
  | some sym =>
    simp only [hl, Outcome.bind_eq, Outcome.pure_eq, Outcome.bind_eq_ok] at hx
    obtain ⟨s, hs, hx⟩ := hx
    by_cases hc : s.type = .CLASS
    · simp only [hc, if_true, Outcome.bind_eq_ok] at hx
      obtain ⟨r, hg, m, hm, hx⟩ := hx
      by_cases hf : m.type = .FIELD
      · simp only [hf, if_true] at hx
        exact flatten_field_location h _ j m hx
      · simp only [hf, if_false] at hx
        by_cases hp : m.type = .PROPERTY
        · simp only [hp, if_true] at hx
          exact flatten_property_location h _ j m hx
        · simp only [hp, if_false, Outcome.ok.injEq] at hx
          subst hx
          rfl
    · simp only [hc, if_false] at hx
      by_cases hst : s.type = .STRUCT
      · simp only [hst, if_true] at hx
        by_cases hn : g_hash_table_lookup s.symbol_table right = none
        · simp [hn, err] at hx
        · simp only [hn, if_false, Outcome.bind_eq_ok] at hx
          obtain ⟨m, hm, hx⟩ := hx
          by_cases hf : m.type = .FIELD
          · simp only [hf, if_true] at hx
            exact flatten_field_location h _ j m hx
          · simp only [hf, if_false, Outcome.ok.injEq] at hx
            subst hx
            rfl
      · simp only [hst, if_false] at hx
        by_cases hen : s.type = .ENUM
        · simp only [hen, if_true] at hx
          by_cases hn : g_hash_table_lookup s.symbol_table right = none
          · simp [hn, err] at hx
          · simp only [hn, if_false, Outcome.bind_eq_ok] at hx
            obtain ⟨root, hr, hx⟩ := hx
            simp only [Outcome.ok.injEq] at hx
            subst hx
            rfl
        · simp only [hen, if_false] at hx
          by_cases hna : s.type = .NAMESPACE
          · simp only [hna, if_true] at hx
            by_cases hn : g_hash_table_lookup s.symbol_table right = none
            · simp [hn, err] at hx
            · simp only [hn, if_false, Outcome.ok.injEq] at hx
              subst hx
              rfl
          · simp [hna, err] at hx

/-- The scope step keeps the location. -/
theorem simple_name_local_location (g : ValaCodeGenerator) (h : Store) (i j : ExprInfo)
    (str : String) (hx : simple_name_local g h i str = .ok j) : j.location = i.location := by
  unfold simple_name_local at hx
  split at hx
  · cases hx; rfl
  · simp only [Outcome.bind_eq, Outcome.pure_eq, Outcome.bind_eq_ok] at hx
    obtain ⟨scope, _, hx⟩ := hx
    split at hx
    · cases hx; rfl
    · simp only [Outcome.bind_eq_ok] at hx
      obtain ⟨s, _, tr, _, hx⟩ := hx
      cases hx
      rfl

/-- The class step keeps the location. -/
theorem simple_name_this_location (g : ValaCodeGenerator) (h : Store) (fuel : Nat)
    (i j : ExprInfo) (str : String) (hx : simple_name_this g h fuel i str = .ok j) :
    j.location = i.location := by
  unfold simple_name_this at hx
  split at hx
  · simp only [Outcome.bind_eq, Outcome.pure_eq, Outcome.bind_eq_ok] at hx
    obtain ⟨c, _, r, _, hx⟩ := hx
    cases hx
    rfl
  · cases hx; rfl

/-- The namespace step keeps the location. -/
theorem simple_name_namespace_location (g : ValaCodeGenerator) (h : Store)
    (i j : ExprInfo) (str : String) (hx : simple_name_namespace g h i str = .ok j) :
    j.location = i.location := by
  unfold simple_name_namespace at hx
  split at hx
  · simp only [Outcome.bind_eq, Outcome.pure_eq, Outcome.bind_eq_ok] at hx
    obtain ⟨c, _, ns, _, nss, _, hx⟩ := hx
    cases hx
    rfl
  · cases hx; rfl

/-- The root step keeps the location. -/
theorem simple_name_root_location (g : ValaCodeGenerator) (h : Store)
    (i j : ExprInfo) (str : String) (hx : simple_name_root g h i str = .ok j) :
    j.location = i.location := by
  unfold simple_name_root at hx
  split at hx
  · simp only [Outcome.bind_eq, Outcome.pure_eq, Outcome.bind_eq_ok] at hx
    obtain ⟨r, _, hx⟩ := hx
    cases hx
    rfl
  · cases hx; rfl

/-- The using-directive step keeps the location. -/
theorem simple_name_using_location (g : ValaCodeGenerator) (h : Store)
    (i j : ExprInfo) (str : String) (hx : simple_name_using g h i str = .ok j) :
    j.location = i.location := by
  unfold simple_name_using at hx
  split at hx
  · simp only [Outcome.bind_eq, Outcome.pure_eq, Outcome.bind_eq_ok] at hx
    obtain ⟨c, _, ns, _, sf, _, st, _, hx⟩ := hx
    cases hx
    rfl
  · cases hx; rfl

/-- The last step of the simple-name arm keeps the location. -/
theorem simple_name_finish_location (h : Store) (i j : ExprInfo) (str : String)
    (hx : simple_name_finish h i str = .ok j) : j.location = i.location := by
  unfold simple_name_finish at hx
  simp only [Outcome.bind_eq, Outcome.pure_eq, Outcome.bind_eq_ok] at hx
  obtain ⟨k, hk, hx⟩ := hx
  have hkj : j = k := by
    split at hx
    · cases hx
    · cases hx; rfl
  subst hkj
  split at hk
  · simp only [Outcome.bind_eq_ok] at hk
    obtain ⟨s, _, hk⟩ := hk
    split at hk
    · exact flatten_field_location h i j s hk
    · split at hk
      · exact flatten_property_location h i j s hk
      · cases hk; rfl
  · cases hk; rfl

/-- The simple-name arm keeps the location of the node. -/
theorem find_static_type_of_simple_name_location (g : ValaCodeGenerator) (h : Store)
    (fuel : Nat) (i j : ExprInfo) (str : String)
    (hx : find_static_type_of_simple_name g h fuel i str = .ok j) :
    j.location = i.location := by
  rw [find_static_type_of_simple_name_eq] at hx
  simp only [Outcome.bind_eq_ok, simple_name_before_using, Outcome.bind_eq] at hx
  obtain ⟨i5, ⟨i4, ⟨i1, h1, i2, h2, i3, h3, h4⟩, h5⟩, h6⟩ := hx
  rw [simple_name_finish_location h i5 j str h6, simple_name_using_location g h i4 i5 str h5,
    simple_name_root_location g h i3 i4 str h4, simple_name_namespace_location g h i2 i3 str h3,
    simple_name_this_location g h fuel i1 i2 str h2, simple_name_local_location g h i i1 str h1]

/-- The resolver keeps the location of the expression. -/
theorem find_static_type_location (g : ValaCodeGenerator) (h : Store) (fuel : Nat)
    (e e' : ValaExpression) (he : vala_code_generator_find_static_type_of_expression g h fuel e = .ok e') :
    e'.location = e.location := by
  by_cases hs : e.static_type_symbol = none
  · cases e with
    | ASSIGNMENT i l r => rw [vala_code_generator_find_static_type_of_expression] at he; cases he; rfl
    | CAST i t x =>
      rw [vala_code_generator_find_static_type_of_expression] at he
      split at he <;> (cases he; rfl)
    | ELEMENT_ACCESS i a idx =>
      rw [find_static_type_element_access_eq g h fuel i a idx hs, Outcome.bind_eq_ok] at he
      obtain ⟨a', _, he⟩ := he
      split at he
      · cases he
      · cases he; rfl
    | INVOCATION i c inst args =>
      rw [find_static_type_invocation_eq g h fuel i c inst args hs] at he
      simp only [Outcome.bind_eq_ok] at he
      obtain ⟨c', _, s, _, m, _, he⟩ := he
      cases he; rfl
    | IS i t x =>
      rw [vala_code_generator_find_static_type_of_expression] at he
      split at he
      · cases he; rfl
      · simp only [Outcome.bind_eq, Outcome.pure_eq, Outcome.bind_eq_ok] at he
        obtain ⟨r, _, he⟩ := he
        cases he; rfl
    | MEMBER_ACCESS i l r =>
      rw [find_static_type_member_access_eq g h fuel i l r hs] at he
      simp only [Outcome.bind_eq_ok] at he
      obtain ⟨l', _, j, hj, he⟩ := he
      cases he
      exact find_static_type_of_member_access_location g h fuel i j l' r hj
    | OBJECT_CREATION i t args =>
      rw [vala_code_generator_find_static_type_of_expression] at he
      split at he <;> (cases he; rfl)
    | OPERATION i t l r =>
      cases l with
      | none =>
        rw [find_static_type_operation_other g h fuel i t none r (Or.inr rfl)] at he
        cases he; rfl
      | some l =>
        by_cases ht : t = .PLUS ∨ t = .MINUS
        · rw [find_static_type_operation_eq g h fuel i t l r hs ht, Outcome.bind_eq_ok] at he
          obtain ⟨l', _, he⟩ := he
          cases he; rfl
        · rw [find_static_type_operation_other g h fuel i t _ r (Or.inl ht)] at he
          cases he; rfl
    | PARENTHESIZED i x =>
      rw [find_static_type_parenthesized_eq g h fuel i x hs, Outcome.bind_eq_ok] at he
      obtain ⟨x', _, he⟩ := he
      cases he; rfl
    | POSTFIX i x c => rw [vala_code_generator_find_static_type_of_expression] at he; cases he; rfl
    | LITERAL_BOOLEAN i n => rw [vala_code_generator_find_static_type_of_expression] at he; cases he; rfl
    | LITERAL_CHARACTER i n => rw [vala_code_generator_find_static_type_of_expression] at he; cases he; rfl
    | LITERAL_INTEGER i n => rw [vala_code_generator_find_static_type_of_expression] at he; cases he; rfl
    | LITERAL_NULL i => rw [vala_code_generator_find_static_type_of_expression] at he; cases he; rfl
    | LITERAL_STRING i str =>
      rw [vala_code_generator_find_static_type_of_expression] at he
      split at he
      · cases he; rfl
      · simp only [Outcome.bind_eq, Outcome.pure_eq, Outcome.bind_eq_ok] at he
        obtain ⟨r, _, he⟩ := he
        cases he; rfl
    | SIMPLE_NAME i str =>
      rw [find_static_type_simple_name_eq g h fuel i str hs, Outcome.bind_eq_ok] at he
      obtain ⟨j, hj, he⟩ := he
      cases he
      exact find_static_type_of_simple_name_location g h fuel i j str hj
    | STRUCT_OR_ARRAY_INITIALIZER i l =>
      rw [vala_code_generator_find_static_type_of_expression] at he; cases he; rfl
    | THIS_ACCESS i =>
      rw [vala_code_generator_find_static_type_of_expression] at he
      split at he
      · cases he; rfl
      · simp only [Outcome.bind_eq, Outcome.pure_eq, Outcome.bind_eq_ok] at he
        obtain ⟨r, _, he⟩ := he
        cases he; rfl
  · rw [find_static_type_resolved g h fuel e hs] at he
    cases he
    rfl

/-! ## Claims on member access and on Field and Property hits -/

/-- C9: in a well-formed store, for a node that is not yet resolved, whenever the lookup of a
simple name (lines 445-490) ends at a Field symbol, or a member access on a class instance
finds a Field symbol by the inherited lookup, or a member access on a struct instance finds a Field symbol in the table of the struct,
the resolver binds `expr.field` to the field of that symbol, sets `static_type_symbol` to the
symbol of the declared type of the field and `array_type` to the array flag of that type
reference; for a Property symbol hit by a simple name or by a member access on a class, it
binds `expr.property` and takes symbol and array flag from the return type. -/
theorem field_and_property_binding (g : ValaCodeGenerator) (h : Store)
    (hwf : h.well_formed = true) (fuel : Nat) (i : ExprInfo)
    (hi : i.static_type_symbol = none) (m : SymPtr) (s : ValaSymbol)
    (hs : h.symbol (some m) = .ok s) :
    (∀ str i5, simple_name_lookup g h fuel i str = .ok i5 → i5.static_type_symbol = some m →
      (s.type = .FIELD → ∃ f vd, h.field s.field = .ok f ∧
        f.declaration_statement.variable_declaration = some vd ∧
        vala_code_generator_find_static_type_of_expression g h fuel (.SIMPLE_NAME i str) =
          .ok (.SIMPLE_NAME { i5 with field := s.field, array_type := vd.type.array_type,
                                      static_type_symbol := vd.type.symbol } str)) ∧
      (s.type = .PROPERTY → ∃ p, h.property s.property = .ok p ∧
        vala_code_generator_find_static_type_of_expression g h fuel (.SIMPLE_NAME i str) =
          .ok (.SIMPLE_NAME { i5 with property := s.property,
                                      array_type := p.return_type.array_type,
                                      static_type_symbol := p.return_type.symbol } str))) ∧
    (∀ left right left' c cs, vala_code_generator_find_static_type_of_expression g h fuel left = .ok left' →
      left'.static_type_symbol = some c → h.symbol (some c) = .ok cs →
      (cs.type = .CLASS →
        get_inherited_member h fuel c right left'.location true = .ok (some m) →
        (s.type = .FIELD → ∃ f vd, h.field s.field = .ok f ∧
          f.declaration_statement.variable_declaration = some vd ∧
          vala_code_generator_find_static_type_of_expression g h fuel (.MEMBER_ACCESS i left right) =
            .ok (.MEMBER_ACCESS { i with field := s.field, array_type := vd.type.array_type,
                                         static_type_symbol := vd.type.symbol } left' right)) ∧
        (s.type = .PROPERTY → ∃ p, h.property s.property = .ok p ∧
          vala_code_generator_find_static_type_of_expression g h fuel (.MEMBER_ACCESS i left right) =
            .ok (.MEMBER_ACCESS { i with property := s.property,
                                         array_type := p.return_type.array_type,
                                         static_type_symbol := p.return_type.symbol }
              left' right))) ∧
      (cs.type = .STRUCT → g_hash_table_lookup cs.symbol_table right = some m →
        s.type = .FIELD → ∃ f vd, h.field s.field = .ok f ∧
          f.declaration_statement.variable_declaration = some vd ∧
          vala_code_generator_find_static_type_of_expression g h fuel (.MEMBER_ACCESS i left right) =
            .ok (.MEMBER_ACCESS { i with field := s.field, array_type := vd.type.array_type,
                                         static_type_symbol := vd.type.symbol } left' right))) := by
  constructor
  · intro str i5 hlook h5
    have hres : vala_code_generator_find_static_type_of_expression g h fuel (.SIMPLE_NAME i str) =
        (simple_name_finish h i5 str).bind fun j => .ok (.SIMPLE_NAME j str) := by
      rw [find_static_type_simple_name_eq g h fuel i str hi]
      have : find_static_type_of_simple_name g h fuel i str =
          (simple_name_lookup g h fuel i str).bind fun j => simple_name_finish h j str := rfl
      rw [this, hlook, Outcome.ok_bind]
    constructor
    · intro hf
      obtain ⟨f, vd, hfd, hvd, hok⟩ := h.field_ok_of hwf (some m) s hs hf
      obtain ⟨p, _, hp, _⟩ := (h.typeref_ok_iff vd.type).mp hok
      refine ⟨f, vd, hfd, hvd, ?_⟩
      rw [hres, simple_name_finish_field h i5 str m s f vd h5 hs hf hfd hvd (by simp [hp]),
        Outcome.ok_bind]
    · intro hpr
      obtain ⟨q, hq, hok⟩ := h.property_ok_of hwf (some m) s hs hpr
      obtain ⟨p, _, hp, _⟩ := (h.typeref_ok_iff q.return_type).mp hok
      refine ⟨q, hq, ?_⟩
      rw [hres, simple_name_finish_property h i5 str m s q h5 hs hpr hq (by simp [hp]),
        Outcome.ok_bind]
  · intro left right left' c cs hl hc hcs
    have hres := find_static_type_member_access_eq g h fuel i left right hi
    rw [hl, Outcome.ok_bind] at hres
    constructor
    · intro hcl hg
      constructor
      · intro hf
        obtain ⟨f, vd, hfd, hvd, _⟩ := h.field_ok_of hwf (some m) s hs hf
        refine ⟨f, vd, hfd, hvd, ?_⟩
        rw [hres]
        simp [find_static_type_of_member_access, hc, hcs, hcl, hg, hs, hf, flatten_field, hfd,
          hvd, Outcome.of_option]
      · intro hpr
        obtain ⟨q, hq, _⟩ := h.property_ok_of hwf (some m) s hs hpr
        refine ⟨q, hq, ?_⟩
        rw [hres]
        simp [find_static_type_of_member_access, hc, hcs, hcl, hg, hs, hpr, flatten_property, hq]
    · intro hst hlk hf
      obtain ⟨f, vd, hfd, hvd, _⟩ := h.field_ok_of hwf (some m) s hs hf
      refine ⟨f, vd, hfd, hvd, ?_⟩
      rw [hres]
      simp [find_static_type_of_member_access, hc, hcs, hst, hlk, hs, hf, flatten_field, hfd,
        hvd, Outcome.of_option]

/-- Witness of C9: `this.x` in a body of `Derived` of the sample program binds the field `x`
of `Base` (field 0) and gets its declared type `int` (symbol 1). -/
theorem field_and_property_binding_witness :
    ∃ f vd, (sample_store []).field (some 0) = .ok f ∧
      f.declaration_statement.variable_declaration = some vd ∧
      vala_code_generator_find_static_type_of_expression sample_generator (sample_store []) 2
        (.MEMBER_ACCESS {} (.THIS_ACCESS {}) "x") =
        .ok (.MEMBER_ACCESS { field := some 0, array_type := vd.type.array_type,
                              static_type_symbol := vd.type.symbol }
          (.THIS_ACCESS { static_type_symbol := some 6 }) "x") :=
  ((((field_and_property_binding sample_generator (sample_store []) (by decide) 2 {} rfl 8 _
    rfl).2 (.THIS_ACCESS {}) "x" _ 6 _ rfl rfl rfl).1 rfl rfl).1 rfl)

/-- C10: for a member access `left.right` that is not yet resolved and whose left operand
resolves to a type symbol of a kind other than Class, Struct, Enum and Namespace, the resolver
reports BadMemberAccess, with that kind, at the location of the left operand; for a left
operand of one of these four kinds it does not report BadMemberAccess. -/
theorem bad_member_access (g : ValaCodeGenerator) (h : Store) (fuel : Nat) (i : ExprInfo)
    (left left' : ValaExpression) (right : String) (sym : SymPtr) (s : ValaSymbol)
    (hi : i.static_type_symbol = none)
    (hl : vala_code_generator_find_static_type_of_expression g h fuel left = .ok left')
    (hsym : left'.static_type_symbol = some sym) (hs : h.symbol (some sym) = .ok s) :
    (s.type ≠ .CLASS → s.type ≠ .STRUCT → s.type ≠ .ENUM → s.type ≠ .NAMESPACE →
      vala_code_generator_find_static_type_of_expression g h fuel (.MEMBER_ACCESS i left right) =
        .exit left.location (.BadMemberAccess s.type)) ∧
    ((s.type = .CLASS ∨ s.type = .STRUCT ∨ s.type = .ENUM ∨ s.type = .NAMESPACE) →
      ∀ l t, vala_code_generator_find_static_type_of_expression g h fuel (.MEMBER_ACCESS i left right) ≠
        .exit l (.BadMemberAccess t)) := by
  have hres := find_static_type_member_access_eq g h fuel i left right hi
  rw [hl, Outcome.ok_bind] at hres
  have hloc := find_static_type_location g h fuel left left' hl
  constructor
  · intro h1 h2 h3 h4
    rw [hres, ← hloc]
    simp [find_static_type_of_member_access, hsym, hs, h1, h2, h3, h4, err]
  · intro hk l t hx
    rw [hres, Outcome.bind_eq_exit] at hx
    rcases hx with hx | ⟨j, _, hx⟩
    · unfold find_static_type_of_member_access at hx
      simp only [hsym, Outcome.bind_eq, Outcome.pure_eq, hs, Outcome.ok_bind] at hx
      by_cases hc : s.type = .CLASS
      · simp only [hc, if_true, Outcome.bind_eq_exit] at hx
        rcases hx with hx | ⟨r, _, hx⟩
        · have := get_inherited_member_exit h right left'.location true l _ fuel sym hx
          cases this
        · rcases hx with hx | ⟨m, _, hx⟩
          · exact Outcome.of_option_ne_exit _ l _ hx
          · split at hx
            · exact flatten_field_ne_exit h _ m l _ hx
            · split at hx
              · exact flatten_property_ne_exit h _ m l _ hx
              · cases hx
      · simp only [hc, if_false] at hx
        by_cases hst : s.type = .STRUCT
        · simp only [hst, if_true] at hx
          split at hx
          · cases hx
          · rw [Outcome.bind_eq_exit] at hx
            rcases hx with hx | ⟨m, _, hx⟩
            · exact Outcome.of_option_ne_exit _ l _ hx
            · split at hx
              · exact flatten_field_ne_exit h _ m l _ hx
              · cases hx
        · simp only [hst, if_false] at hx
          by_cases hen : s.type = .ENUM
          · simp only [hen, if_true] at hx
            split at hx
            · cases hx
            · rw [Outcome.bind_eq_exit] at hx
              rcases hx with hx | ⟨m, _, hx⟩
              · exact Outcome.of_option_ne_exit _ l _ hx
              · cases hx
          · simp only [hen, if_false] at hx
            by_cases hna : s.type = .NAMESPACE
            · simp only [hna, if_true] at hx
              split at hx <;> cases hx
            · rcases hk with hk | hk | hk | hk
              · exact hc hk
              · exact hst hk
              · exact hen hk
              · exact hna hk
    · cases hx

/-- Witness of C10: in a body of `Derived` of the sample program `f.zz`, whose left operand
is the method `f`, is reported as a bad member access on a Method symbol. -/
theorem bad_member_access_witness :
    vala_code_generator_find_static_type_of_expression sample_generator (sample_store []) 2
      (.MEMBER_ACCESS {} (simple_name "f") "zz") = .exit none (.BadMemberAccess .METHOD) :=
  (bad_member_access sample_generator (sample_store []) 2 {} (simple_name "f") _ "zz" 7 _
    rfl rfl rfl rfl).1 (by decide) (by decide) (by decide) (by decide)

/-! ## Claims on element access -/

/-- C11: for an element access `a[i]` that is not yet resolved and whose operand resolves to
`a`, the resolver reports NonArrayIndexed if and only if the `array_type` flag of `a` is
unset, and it reports it at the location of the index; when the flag is set the resolver
returns the element access with the resolved operand and with the `static_type_symbol` of
`a`. -/
theorem element_access_requires_array (g : ValaCodeGenerator) (h : Store) (fuel : Nat)
    (i : ExprInfo) (array index a : ValaExpression) (hi : i.static_type_symbol = none)
    (ha : vala_code_generator_find_static_type_of_expression g h fuel array = .ok a) :
    ((∃ l, vala_code_generator_find_static_type_of_expression g h fuel
        (.ELEMENT_ACCESS i array index) = .exit l .NonArrayIndexed) ↔ a.array_type = false) ∧
    (a.array_type = false →
      vala_code_generator_find_static_type_of_expression g h fuel
        (.ELEMENT_ACCESS i array index) = .exit index.location .NonArrayIndexed) ∧
    (a.array_type = true →
      ∃ e, vala_code_generator_find_static_type_of_expression g h fuel
          (.ELEMENT_ACCESS i array index) = .ok e ∧
        e = .ELEMENT_ACCESS { i with static_type_symbol := a.static_type_symbol } a index ∧
        e.static_type_symbol = a.static_type_symbol) := by
  have hres := find_static_type_element_access_eq g h fuel i array index hi
  rw [ha, Outcome.ok_bind] at hres
  rw [hres]
  cases hat : a.array_type
  · simp
  · simp
    rfl

/-- Witness of C11: in a body of `Derived` of the sample program, where `x` is a local of type
`string[]`, the element access `x[0]` gets the symbol of `string`. -/
theorem element_access_requires_array_witness :
    ∃ e, vala_code_generator_find_static_type_of_expression sample_generator (sample_store [])
        2 (.ELEMENT_ACCESS {} (simple_name "x") (.LITERAL_INTEGER {} "0")) = .ok e ∧
      e = .ELEMENT_ACCESS { static_type_symbol := some 3 }
        (.SIMPLE_NAME { static_type_symbol := some 3, array_type := true } "x")
        (.LITERAL_INTEGER {} "0") ∧
      e.static_type_symbol = some 3 :=
  (element_access_requires_array sample_generator (sample_store []) 2 {} (simple_name "x")
    (.LITERAL_INTEGER {} "0") _ rfl rfl).2.2 rfl

/-! ## Lemmas on emission -/

/-- The text of two runs in sequence, on the C stream. -/
theorem Output.append_c_file (a b : Output) : (a ++ b).c_file = a.c_file ++ b.c_file := rfl

/-- Nothing written, then a text. -/
theorem Output.empty_append (w : Output) : ({} : Output) ++ w = w := by
  cases w
  show Output.append _ _ = _
  simp [Output.append]

/-- In the emitter `pure` writes nothing. -/
theorem Emit.ret_eq {α : Type} (a : α) : (pure a : Emit α) = ⟨{}, .ok a⟩ := rfl

/-- In the emitter `>>=` is `Emit.bind`. -/
theorem Emit.seq_eq {α β : Type} (x : Emit α) (f : α → Emit β) : x >>= f = x.bind f := rfl

/-- A silent step that returns hands its value on. -/
theorem Emit.run_ok_bind {α β : Type} (a : α) (f : α → Emit β) :
    (Emit.run (.ok a)).bind f = f a := by
  cases hf : f a with
  | mk w o =>
    simp only [Emit.bind, Emit.run, hf]
    rw [Output.empty_append]

/-- The text of a sequence whose first part returns. -/
theorem Emit.c_text_bind {α β : Type} (x : Emit α) (f : α → Emit β) (a : α)
    (hx : x.outcome = .ok a) : (x.bind f).c_text = x.c_text ++ (f a).c_text := by
  simp [Emit.bind, hx, Emit.c_text, Output.append_c_file]

/-- The outcome of a sequence whose first part returns. -/
theorem Emit.outcome_bind {α β : Type} (x : Emit α) (f : α → Emit β) (a : α)
    (hx : x.outcome = .ok a) : (x.bind f).outcome = (f a).outcome := by
  simp [Emit.bind, hx]

/-- A sequence whose first part does not return stops there. -/
theorem Emit.bind_stop {α β : Type} (x : Emit α) (f : α → Emit β)
    (hx : x.outcome.is_ok = false) :
    (x.bind f).c_text = x.c_text ∧ (x.bind f).outcome.is_ok = false ∧
      ∀ l d, (x.bind f).outcome = .exit l d ↔ x.outcome = .exit l d := by
  cases x with
  | mk w o => cases o <;> simp_all [Emit.bind, Emit.c_text, Outcome.is_ok]

/-- The text of a sequence that starts with a write. -/
theorem Emit.c_text_fprintf_bind {β : Type} (s : String) (f : Unit → Emit β) :
    ((fprintf_c_file s).bind f).c_text = s ++ (f ()).c_text := rfl

/-- The outcome of a sequence that starts with a write. -/
theorem Emit.outcome_fprintf_bind {β : Type} (s : String) (f : Unit → Emit β) :
    ((fprintf_c_file s).bind f).outcome = (f ()).outcome := rfl

/-- The text of `pure`. -/
theorem Emit.c_text_pure {α : Type} (a : α) : (pure a : Emit α).c_text = "" := rfl

/-- The outcome of `pure`. -/
theorem Emit.outcome_pure {α : Type} (a : α) : (pure a : Emit α).outcome = .ok a := rfl

/-- A silent step writes nothing. -/
theorem Emit.c_text_run {α : Type} (o : Outcome α) : (Emit.run o).c_text = "" := rfl

/-- The outcome of a silent step. -/
theorem Emit.outcome_run {α : Type} (o : Outcome α) : (Emit.run o).outcome = o := rfl

/-- A write alone. -/
theorem Emit.c_text_fprintf (s : String) : (fprintf_c_file s).c_text = s := rfl

/-! ## Lemmas on the expression emitter -/

/-- One more level of nesting: the resolver, then the switch. -/
theorem process_expression_succ (g : ValaCodeGenerator) (h : Store) (fuel depth : Nat)
    (e : ValaExpression) :
    vala_code_generator_process_expression g h fuel (depth + 1) e =
      (Emit.run (vala_code_generator_find_static_type_of_expression g h fuel e)).bind
        (process_expression_switch g h fuel
          (vala_code_generator_process_expression g h fuel depth)) := by
  rw [vala_code_generator_process_expression]
  rfl

/-- The emitter of a resolved expression goes straight to the switch. -/
theorem process_expression_of_resolved (g : ValaCodeGenerator) (h : Store) (fuel depth : Nat)
    (e e' : ValaExpression)
    (he : vala_code_generator_find_static_type_of_expression g h fuel e = .ok e') :
    vala_code_generator_process_expression g h fuel (depth + 1) e =
      process_expression_switch g h fuel
        (vala_code_generator_process_expression g h fuel depth) e' := by
  rw [process_expression_succ, he, Emit.run_ok_bind]

/-- An emission that returns has resolved its expression. -/
theorem process_expression_ok_resolver (g : ValaCodeGenerator) (h : Store) (fuel depth : Nat)
    (e : ValaExpression)
    (he : (vala_code_generator_process_expression g h fuel depth e).outcome.is_ok = true) :
    ∃ e', vala_code_generator_find_static_type_of_expression g h fuel e = .ok e' := by
  cases depth with
  | zero => simp [vala_code_generator_process_expression, Emit.run, Outcome.is_ok] at he
  | succ d =>
    rw [process_expression_succ] at he
    cases hr : vala_code_generator_find_static_type_of_expression g h fuel e with
    | ok e' => exact ⟨e', rfl⟩
    | exit l d => simp [hr, Emit.run, Emit.bind, Outcome.is_ok] at he
    | fault => simp [hr, Emit.run, Emit.bind, Outcome.is_ok] at he
    | out_of_fuel => simp [hr, Emit.run, Emit.bind, Outcome.is_ok] at he

/-- The emitter does not tell an expression from its resolved form. -/
theorem process_expression_congr (g : ValaCodeGenerator) (h : Store) (fuel depth : Nat)
    (e e' : ValaExpression)
    (he : vala_code_generator_find_static_type_of_expression g h fuel e = .ok e') :
    vala_code_generator_process_expression g h fuel depth e =
      vala_code_generator_process_expression g h fuel depth e' := by
  cases depth with
  | zero => simp [vala_code_generator_process_expression]
  | succ d =>
    rw [process_expression_of_resolved g h fuel d e e' he,
      process_expression_of_resolved g h fuel d e' e' (find_static_type_idem g h fuel e e' he)]

/-- The resolver keeps an operation an operation of the same operator and right operand, with
its left operand resolved or left as it is. -/
theorem find_static_type_operation_shape (g : ValaCodeGenerator) (h : Store) (fuel : Nat)
    (i : ExprInfo) (type : ValaOpType) (left : Option ValaExpression) (right e' : ValaExpression)
    (he : vala_code_generator_find_static_type_of_expression g h fuel
      (.OPERATION i type left right) = .ok e') :
    ∃ i' left', e' = .OPERATION i' type left' right ∧
      (left = none → left' = none) ∧
      ∀ l, left = some l → ∃ l', left' = some l' ∧
        (l' = l ∨ vala_code_generator_find_static_type_of_expression g h fuel l = .ok l') := by
  by_cases hi : i.static_type_symbol = none
  · by_cases ht : type = .PLUS ∨ type = .MINUS
    · cases left with
      | none =>
        rw [vala_code_generator_find_static_type_of_expression] at he
        simp [hi, ht] at he
        exact ⟨i, none, he.symm, fun _ => rfl, fun l hl => by cases hl⟩
      | some l =>
        rw [vala_code_generator_find_static_type_of_expression] at he
        simp only [hi, ht, ne_eq, not_true_eq_false, if_false, if_true, Outcome.bind_eq,
          Outcome.pure_eq, Outcome.bind_eq_ok] at he
        obtain ⟨l', hl', he⟩ := he
        cases he
        refine ⟨_, some l', rfl, fun hn => (by cases hn), fun x hx => ?_⟩
        cases hx
        exact ⟨l', rfl, Or.inr hl'⟩
    · rw [find_static_type_operation_other g h fuel i type left right (Or.inl ht)] at he
      cases he
      exact ⟨i, left, rfl, fun hn => hn, fun l hl => ⟨l, hl, Or.inl rfl⟩⟩
  · rw [find_static_type_resolved g h fuel (.OPERATION i type left right) hi] at he
    cases he
    exact ⟨i, left, rfl, fun hn => hn, fun l hl => ⟨l, hl, Or.inl rfl⟩⟩

/-- The resolver returns on an operation whose left operand, if any, it resolves. -/
theorem find_static_type_operation_ok (g : ValaCodeGenerator) (h : Store) (fuel : Nat)
    (i : ExprInfo) (type : ValaOpType) (left : Option ValaExpression) (right : ValaExpression)
    (hl : ∀ l, left = some l →
      ∃ l', vala_code_generator_find_static_type_of_expression g h fuel l = .ok l') :
    ∃ e', vala_code_generator_find_static_type_of_expression g h fuel
      (.OPERATION i type left right) = .ok e' := by
  cases left with
  | none =>
    rw [vala_code_generator_find_static_type_of_expression]
    by_cases hi : i.static_type_symbol = none <;> simp [hi]
  | some l =>
    rw [vala_code_generator_find_static_type_of_expression]
    obtain ⟨l', hl'⟩ := hl l rfl
    by_cases hi : i.static_type_symbol = none
    · by_cases ht : type = .PLUS ∨ type = .MINUS
      · simp [hi, ht, hl']
      · simp [hi, ht]
    · simp [hi]

/-- The switch sends an operation to the operation arm. -/
theorem process_expression_switch_operation (g : ValaCodeGenerator) (h : Store) (fuel : Nat)
    (pe : ValaExpression → Emit ValaExpression) (i : ExprInfo) (type : ValaOpType)
    (left : Option ValaExpression) (right : ValaExpression) :
    process_expression_switch g h fuel pe (.OPERATION i type left right) =
      vala_code_generator_process_operation_expression pe (.OPERATION i type left right) := rfl

/-- The text of the operation arm without a left operand, for any emitter of the operands. -/
theorem process_operation_expression_unary (pe : ValaExpression → Emit ValaExpression)
    (i : ExprInfo) (type : ValaOpType) (right : ValaExpression) :
    (vala_code_generator_process_operation_expression pe
        (.OPERATION i type none right)).c_text = " " ++ cop type ++ " " ++ (pe right).c_text := by
  cases hr : pe right with
  | mk w2 o2 =>
    cases o2 <;>
      simp [vala_code_generator_process_operation_expression, Emit.seq_eq, Emit.ret_eq,
        Emit.bind, hr, fprintf_c_file, Emit.c_text, Output.append_c_file, String.append_assoc]

/-- The text of the operation arm with a left operand, for any emitter of the operands. -/
theorem process_operation_expression_binary (pe : ValaExpression → Emit ValaExpression)
    (i : ExprInfo) (type : ValaOpType) (l right : ValaExpression)
    (hok : (pe l).outcome.is_ok = true) :
    (vala_code_generator_process_operation_expression pe
        (.OPERATION i type (some l) right)).c_text =
      (pe l).c_text ++ " " ++ cop type ++ " " ++ (pe right).c_text := by
  cases hr : pe right with
  | mk w2 o2 =>
    cases hx : pe l with
    | mk w o =>
      rw [hx] at hok
      cases o with
      | ok a =>
        cases o2 <;>
          simp [vala_code_generator_process_operation_expression, Emit.seq_eq, Emit.ret_eq,
            Emit.bind, hr, hx, fprintf_c_file, Emit.c_text, Output.append_c_file,
            String.append_assoc]
      | exit l d => cases hok
      | fault => cases hok
      | out_of_fuel => cases hok

/-! ## Claims on the expression emitter -/

/-- C12: for an operation expression whose left operand is emitted without a diagnostic, the
expression emitter writes the emitted left operand, then the C operator with one space on
each side, then what the emission of the right operand writes; without a left operand it
writes nothing before the operator.  The C operator is the one of the fixed table, and the
table is injective. -/
theorem operation_emitted (g : ValaCodeGenerator) (h : Store) (fuel depth : Nat) (i : ExprInfo)
    (type : ValaOpType) (right : ValaExpression) :
    (∀ l : ValaExpression,
      (vala_code_generator_process_expression g h fuel depth l).outcome.is_ok = true →
      (vala_code_generator_process_expression g h fuel (depth + 1)
          (.OPERATION i type (some l) right)).c_text =
        (vala_code_generator_process_expression g h fuel depth l).c_text ++ " " ++ cop type ++
          " " ++ (vala_code_generator_process_expression g h fuel depth right).c_text) ∧
    (vala_code_generator_process_expression g h fuel (depth + 1)
        (.OPERATION i type none right)).c_text =
      " " ++ cop type ++ " " ++
        (vala_code_generator_process_expression g h fuel depth right).c_text ∧
    (cop .PLUS = "+" ∧ cop .MINUS = "-" ∧ cop .MUL = "*" ∧ cop .DIV = "/" ∧ cop .EQ = "==" ∧
      cop .NE = "!=" ∧ cop .LT = "<" ∧ cop .GT = ">" ∧ cop .LE = "<=" ∧ cop .GE = ">=" ∧
      cop .NEG = "!" ∧ cop .AND = "&&" ∧ cop .OR = "||" ∧ cop .BITWISE_AND = "&" ∧
      cop .BITWISE_OR = "|") ∧
    ∀ a b : ValaOpType, cop a = cop b → a = b := by
  refine ⟨?_, ?_, by simp [cop], ?_⟩
  · intro l hl
    obtain ⟨e', he'⟩ := find_static_type_operation_ok g h fuel i type (some l) right
      (fun x hx => by
        cases hx
        exact process_expression_ok_resolver g h fuel depth l hl)
    obtain ⟨i', left', rfl, -, hsome⟩ :=
      find_static_type_operation_shape g h fuel i type (some l) right e' he'
    obtain ⟨l', hl', hll⟩ := hsome l rfl
    cases hl'
    have hpe : vala_code_generator_process_expression g h fuel depth l' =
        vala_code_generator_process_expression g h fuel depth l := by
      rcases hll with hll | hll
      · rw [hll]
      · exact (process_expression_congr g h fuel depth l l' hll).symm
    rw [process_expression_of_resolved g h fuel depth _ _ he',
      process_expression_switch_operation,
      process_operation_expression_binary _ _ _ _ _ (by rw [hpe]; exact hl), hpe]
  · obtain ⟨e', he'⟩ := find_static_type_operation_ok g h fuel i type none right
      (fun x hx => by cases hx)
    obtain ⟨i', left', rfl, hnone, -⟩ :=
      find_static_type_operation_shape g h fuel i type none right e' he'
    cases hnone rfl
    rw [process_expression_of_resolved g h fuel depth _ _ he',
      process_expression_switch_operation, process_operation_expression_unary]
  · intro a b
    cases a <;> cases b <;> simp [cop]

/-- Witness of C12: in the body of `Circle.spin` of the second sample program the sum
`count + 2` is written with the field access on the left of ` + `. -/
theorem operation_emitted_witness :
    (vala_code_generator_process_expression demo_generator demo_store 3 2
      (.OPERATION {} .PLUS (some (simple_name "count")) (.LITERAL_INTEGER {} "2"))).c_text =
      "DEMO_SHAPE(self)->count + 2" :=
  ((operation_emitted demo_generator demo_store 3 1 {} .PLUS (.LITERAL_INTEGER {} "2")).1
    (simple_name "count") rfl).trans (by rfl)

/-! ## Lemmas on the ref/out markers -/

/-- The field block does not read the ref/out markers. -/
theorem flatten_field_markers (h : Store) (i : ExprInfo) (s : ValaSymbol) (r o : Bool) :
    flatten_field h (i.with_markers r o) s =
      (flatten_field h i s).bind fun j => .ok (j.with_markers r o) := by
  simp only [flatten_field, Outcome.bind_eq, Outcome.pure_eq]
  cases h.field s.field with
  | ok f =>
    simp only [Outcome.ok_bind]
    cases Outcome.of_option f.declaration_statement.variable_declaration <;> rfl
  | exit l d => rfl
  | fault => rfl
  | out_of_fuel => rfl

/-- The property block does not read the ref/out markers. -/
theorem flatten_property_markers (h : Store) (i : ExprInfo) (s : ValaSymbol) (r o : Bool) :
    flatten_property h (i.with_markers r o) s =
      (flatten_property h i s).bind fun j => .ok (j.with_markers r o) := by
  simp only [flatten_property, Outcome.bind_eq, Outcome.pure_eq]
  cases h.property s.property <;> rfl

/-- The scope step does not read the ref/out markers. -/
theorem simple_name_local_markers (g : ValaCodeGenerator) (h : Store) (i : ExprInfo)
    (str : String) (r o : Bool) :
    simple_name_local g h (i.with_markers r o) str =
      (simple_name_local g h i str).bind fun j => .ok (j.with_markers r o) := by
  unfold simple_name_local
  cases g.sym with
  | none => rfl
  | some gs =>
    simp only [Outcome.bind_eq, Outcome.pure_eq]
    cases h.symbol (some gs) with
    | ok scope =>
      simp only [Outcome.ok_bind]
      cases g_hash_table_lookup scope.symbol_table str with
      | none => rfl
      | some sym =>
        simp only
        cases h.symbol (some sym) with
        | ok s =>
          simp only [Outcome.ok_bind]
          cases Outcome.of_option s.typeref <;> rfl
        | exit l d => rfl
        | fault => rfl
        | out_of_fuel => rfl
    | exit l d => rfl
    | fault => rfl
    | out_of_fuel => rfl

/-- The class step does not read the ref/out markers. -/
theorem simple_name_this_markers (g : ValaCodeGenerator) (h : Store) (fuel : Nat)
    (i : ExprInfo) (str : String) (r o : Bool) :
    simple_name_this g h fuel (i.with_markers r o) str =
      (simple_name_this g h fuel i str).bind fun j => .ok (j.with_markers r o) := by
  unfold simple_name_this
  by_cases hi : i.static_type_symbol = none
  · have hu : (i.with_markers r o).static_type_symbol = none := hi
    simp only [hi, hu, if_true, Outcome.bind_eq, Outcome.pure_eq]
    cases h.class_ g.class_ with
    | ok c =>
      simp only [Outcome.ok_bind]
      have hl : (i.with_markers r o).location = i.location := rfl
      rw [hl]
      cases get_inherited_member h fuel c.symbol str i.location false <;> rfl
    | exit l d => rfl
    | fault => rfl
    | out_of_fuel => rfl
  · have hu : ¬ (i.with_markers r o).static_type_symbol = none := hi
    simp only [hi, hu, if_false]
    rfl

/-- The namespace step does not read the ref/out markers. -/
theorem simple_name_namespace_markers (g : ValaCodeGenerator) (h : Store) (i : ExprInfo)
    (str : String) (r o : Bool) :
    simple_name_namespace g h (i.with_markers r o) str =
      (simple_name_namespace g h i str).bind fun j => .ok (j.with_markers r o) := by
  unfold simple_name_namespace
  by_cases hi : i.static_type_symbol = none
  · have hu : (i.with_markers r o).static_type_symbol = none := hi
    simp only [hi, hu, if_true, Outcome.bind_eq, Outcome.pure_eq]
    cases h.class_ g.class_ with
    | ok c =>
      simp only [Outcome.ok_bind]
      cases h.namespace_ (some c.namespace_) with
      | ok ns =>
        simp only [Outcome.ok_bind]
        cases h.symbol (some ns.symbol) <;> rfl
      | exit l d => rfl
      | fault => rfl
      | out_of_fuel => rfl
    | exit l d => rfl
    | fault => rfl
    | out_of_fuel => rfl
  · have hu : ¬ (i.with_markers r o).static_type_symbol = none := hi
    simp only [hi, hu, if_false]
    rfl

/-- The root step does not read the ref/out markers. -/
theorem simple_name_root_markers (g : ValaCodeGenerator) (h : Store) (i : ExprInfo)
    (str : String) (r o : Bool) :
    simple_name_root g h (i.with_markers r o) str =
      (simple_name_root g h i str).bind fun j => .ok (j.with_markers r o) := by
  unfold simple_name_root
  by_cases hi : i.static_type_symbol = none
  · have hu : (i.with_markers r o).static_type_symbol = none := hi
    simp only [hi, hu, if_true, Outcome.bind_eq, Outcome.pure_eq]
    cases h.symbol (some g.context.root) <;> rfl
  · have hu : ¬ (i.with_markers r o).static_type_symbol = none := hi
    simp only [hi, hu, if_false]
    rfl

/-- The using-directive step does not read the ref/out markers. -/
theorem simple_name_using_markers (g : ValaCodeGenerator) (h : Store) (i : ExprInfo)
    (str : String) (r o : Bool) :
    simple_name_using g h (i.with_markers r o) str =
      (simple_name_using g h i str).bind fun j => .ok (j.with_markers r o) := by
  unfold simple_name_using
  by_cases hi : i.static_type_symbol = none
  · have hu : (i.with_markers r o).static_type_symbol = none := hi
    simp only [hi, hu, if_true, Outcome.bind_eq, Outcome.pure_eq]
    cases h.class_ g.class_ with
    | ok c =>
      simp only [Outcome.ok_bind]
      cases h.namespace_ (some c.namespace_) with
      | ok ns =>
        simp only [Outcome.ok_bind]
        cases h.source_file (some ns.source_file) with
        | ok sf =>
          simp only [Outcome.ok_bind]
          have hl : (i.with_markers r o).location = i.location := rfl
          rw [hl]
          cases using_directives_loop g h i.location str sf.using_directives (none, false) <;>
            rfl
        | exit l d => rfl
        | fault => rfl
        | out_of_fuel => rfl
      | exit l d => rfl
      | fault => rfl
      | out_of_fuel => rfl
    | exit l d => rfl
    | fault => rfl
    | out_of_fuel => rfl
  · have hu : ¬ (i.with_markers r o).static_type_symbol = none := hi
    simp only [hi, hu, if_false]
    rfl

/-- The last step of the simple-name arm does not read the ref/out markers. -/
theorem simple_name_finish_markers (h : Store) (i : ExprInfo) (str : String) (r o : Bool) :
    simple_name_finish h (i.with_markers r o) str =
      (simple_name_finish h i str).bind fun j => .ok (j.with_markers r o) := by
  unfold simple_name_finish
  simp only [Outcome.bind_eq, Outcome.pure_eq]
  have key : ∀ x : Outcome ExprInfo,
      ((x.bind fun j => Outcome.ok (j.with_markers r o)).bind fun k =>
        if k.static_type_symbol = none then err k.location (.UnresolvedSymbol str)
        else Outcome.ok k) =
      (x.bind fun k =>
        if k.static_type_symbol = none then err k.location (.UnresolvedSymbol str)
        else Outcome.ok k).bind fun j => Outcome.ok (j.with_markers r o) := by
    intro x
    cases x with
    | ok k =>
      simp only [Outcome.ok_bind]
      have hu : (k.with_markers r o).static_type_symbol = k.static_type_symbol := rfl
      rw [hu]
      by_cases hk : k.static_type_symbol = none
      · simp only [hk, if_true]
        rfl
      · simp only [hk, if_false]
        rfl
    | exit l d => rfl
    | fault => rfl
    | out_of_fuel => rfl
  rw [← key]
  congr 1
  by_cases hi : i.static_type_symbol = none
  · have hu : (i.with_markers r o).static_type_symbol = none := hi
    simp only [hi, hu, ne_eq, not_true_eq_false, if_false]
    rfl
  · have hu : ¬ (i.with_markers r o).static_type_symbol = none := hi
    have hs : (i.with_markers r o).static_type_symbol = i.static_type_symbol := rfl
    simp only [hi, hu, ne_eq, not_false_eq_true, if_true]
    rw [hs]
    cases h.symbol i.static_type_symbol with
    | ok s =>
      simp only [Outcome.ok_bind]
      by_cases hf : s.type = .FIELD
      · simp only [hf, if_true]
        exact flatten_field_markers h i s r o
      · by_cases hp : s.type = .PROPERTY
        · simp only [hp, if_true]
          simp only [reduceCtorEq, if_false]
          exact flatten_property_markers h i s r o
        · simp only [hf, hp, if_false]
          rfl
    | exit l d => rfl
    | fault => rfl
    | out_of_fuel => rfl

/-- A step that does not read the ref/out markers may follow their setting or come before
it. -/
theorem Outcome.markers_bind (r o : Bool) (x : Outcome ExprInfo)
    (f : ExprInfo → Outcome ExprInfo)
    (hf : ∀ i : ExprInfo, f (i.with_markers r o) =
      (f i).bind fun j => .ok (j.with_markers r o)) :
    (x.bind fun j => Outcome.ok (j.with_markers r o)).bind f =
      (x.bind f).bind fun j => .ok (j.with_markers r o) := by
  cases x with
  | ok a => exact hf a
  | exit l d => rfl
  | fault => rfl
  | out_of_fuel => rfl

/-- Two steps that do not read the ref/out markers, in sequence. -/
theorem Outcome.markers_comp (r o : Bool) (f1 f2 : ExprInfo → Outcome ExprInfo)
    (h1 : ∀ i : ExprInfo, f1 (i.with_markers r o) =
      (f1 i).bind fun j => .ok (j.with_markers r o))
    (h2 : ∀ i : ExprInfo, f2 (i.with_markers r o) =
      (f2 i).bind fun j => .ok (j.with_markers r o)) (i : ExprInfo) :
    (f1 (i.with_markers r o)).bind f2 =
      ((f1 i).bind f2).bind fun j => .ok (j.with_markers r o) := by
  rw [h1, Outcome.markers_bind r o _ _ h2]

/-- The simple-name arm does not read the ref/out markers. -/
theorem find_static_type_of_simple_name_markers (g : ValaCodeGenerator) (h : Store)
    (fuel : Nat) (i : ExprInfo) (str : String) (r o : Bool) :
    find_static_type_of_simple_name g h fuel (i.with_markers r o) str =
      (find_static_type_of_simple_name g h fuel i str).bind
        fun j => .ok (j.with_markers r o) := by
  have hns := Outcome.markers_comp r o (fun k => simple_name_namespace g h k str)
    (fun k => simple_name_root g h k str)
    (fun k => simple_name_namespace_markers g h k str r o)
    (fun k => simple_name_root_markers g h k str r o)
  have hthis := Outcome.markers_comp r o (fun k => simple_name_this g h fuel k str)
    (fun k => (simple_name_namespace g h k str).bind fun k => simple_name_root g h k str)
    (fun k => simple_name_this_markers g h fuel k str r o) hns
  have hloc := Outcome.markers_comp r o (fun k => simple_name_local g h k str)
    (fun k => (simple_name_this g h fuel k str).bind fun k =>
      (simple_name_namespace g h k str).bind fun k => simple_name_root g h k str)
    (fun k => simple_name_local_markers g h k str r o) hthis
  have hbefore : ∀ k : ExprInfo, simple_name_before_using g h fuel (k.with_markers r o) str =
      (simple_name_before_using g h fuel k str).bind fun j => .ok (j.with_markers r o) := hloc
  rw [find_static_type_of_simple_name_eq, find_static_type_of_simple_name_eq, hbefore,
    Outcome.markers_bind r o _ _ (fun k => simple_name_using_markers g h k str r o),
    Outcome.markers_bind r o _ _ (fun k => simple_name_finish_markers h k str r o)]

/-- Setting the markers of a header to what they are. -/
theorem ExprInfo.with_markers_self (i : ExprInfo) :
    i.with_markers i.ref_variable i.out_variable = i := rfl

/-- The simple-name arm keeps the ref/out markers. -/
theorem find_static_type_of_simple_name_keeps (g : ValaCodeGenerator) (h : Store)
    (fuel : Nat) (i j : ExprInfo) (str : String)
    (hj : find_static_type_of_simple_name g h fuel i str = .ok j) :
    j.ref_variable = i.ref_variable ∧ j.out_variable = i.out_variable := by
  have hm := find_static_type_of_simple_name_markers g h fuel i str i.ref_variable
    i.out_variable
  rw [ExprInfo.with_markers_self, hj, Outcome.ok_bind] at hm
  simp only [Outcome.ok.injEq] at hm
  rw [hm]
  exact ⟨rfl, rfl⟩

/-- The resolver on a simple name keeps the ref/out markers and does not read them. -/
theorem find_static_type_simple_name_markers (g : ValaCodeGenerator) (h : Store) (fuel : Nat)
    (i : ExprInfo) (str : String) (e : ValaExpression)
    (he : vala_code_generator_find_static_type_of_expression g h fuel (.SIMPLE_NAME i str) =
      .ok e) :
    ∃ j, e = .SIMPLE_NAME j str ∧
      j.ref_variable = i.ref_variable ∧ j.out_variable = i.out_variable ∧
      vala_code_generator_find_static_type_of_expression g h fuel
        (.SIMPLE_NAME i.unmarked str) = .ok (.SIMPLE_NAME j.unmarked str) := by
  by_cases hi : i.static_type_symbol = none
  · have hu : i.unmarked.static_type_symbol = none := hi
    rw [find_static_type_simple_name_eq g h fuel i str hi, Outcome.bind_eq_ok] at he
    obtain ⟨k, hk, he⟩ := he
    cases he
    have hm := find_static_type_of_simple_name_markers g h fuel i str false false
    rw [hk, Outcome.ok_bind] at hm
    obtain ⟨hr, ho⟩ := find_static_type_of_simple_name_keeps g h fuel i k str hk
    refine ⟨k, rfl, hr, ho, ?_⟩
    rw [find_static_type_simple_name_eq g h fuel _ str hu]
    show (find_static_type_of_simple_name g h fuel (i.with_markers false false) str).bind _ = _
    rw [hm, Outcome.ok_bind]
    rfl
  · rw [find_static_type_resolved g h fuel (.SIMPLE_NAME i str) hi] at he
    cases he
    exact ⟨i, rfl, rfl, rfl, find_static_type_resolved g h fuel (.SIMPLE_NAME i.unmarked str) hi⟩

/-- A sequence that ends with silent steps writes what its first part writes. -/
theorem Emit.c_text_bind_silent {α β : Type} (x : Emit α) (f : α → Emit β)
    (hf : ∀ a, (f a).c_text = "") : (x.bind f).c_text = x.c_text := by
  cases x with
  | mk w o =>
    cases o with
    | ok a =>
      have := hf a
      simp only [Emit.c_text] at this
      simp [Emit.bind, Emit.c_text, Output.append_c_file, this]
    | exit l d => rfl
    | fault => rfl
    | out_of_fuel => rfl

/-- The simple-name arm writes the marker, then the name. -/
theorem process_simple_name_text (h : Store) (j : ExprInfo) (str : String) :
    (vala_code_generator_process_simple_name h (.SIMPLE_NAME j str)).c_text =
      (if j.ref_variable || j.out_variable then "&" else "") ++
        (simple_name_body h j str).c_text := by
  cases hb : simple_name_body h j str with
  | mk w o =>
    cases hm : (j.ref_variable || j.out_variable) <;> cases o <;>
      simp [vala_code_generator_process_simple_name, Emit.seq_eq, Emit.ret_eq, Emit.bind,
        hb, hm, fprintf_c_file, Emit.c_text, Output.append_c_file]

/-- The simple-name arm returns the name as it is when the text of the name is written. -/
theorem process_simple_name_outcome (h : Store) (j : ExprInfo) (str : String)
    (hb : (simple_name_body h j str).outcome = .ok ()) :
    (vala_code_generator_process_simple_name h (.SIMPLE_NAME j str)).outcome =
      .ok (.SIMPLE_NAME j str) := by
  cases hm : (j.ref_variable || j.out_variable) <;>
    simp [vala_code_generator_process_simple_name, Emit.seq_eq, Emit.ret_eq, Emit.bind,
      hb, hm, fprintf_c_file]

/-- The text of a name does not depend on the markers. -/
theorem simple_name_body_unmarked (h : Store) (j : ExprInfo) (str : String) :
    simple_name_body h j.unmarked str = simple_name_body h j str := rfl

/-- The text and the outcome of a simple name bound to a field of a class. -/
theorem simple_name_body_class_field (h : Store) (j : ExprInfo) (str : String) (fp : FieldPtr)
    (field : ValaField) (cp : ClassPtr) (class_ : ValaClass) (ns : ValaNamespace)
    (hfield : j.field = some fp) (hf : h.field (some fp) = .ok field)
    (hclass : field.class_ = some cp) (hc : h.class_ (some cp) = .ok class_)
    (hns : h.namespace_ (some class_.namespace_) = .ok ns) :
    simple_name_body h j str =
      if field.modifiers.STATIC && field.modifiers.PRIVATE then fprintf_c_file str
      else if field.modifiers.STATIC then
        fprintf_c_file (ns.upper_case_cname ++ class_.upper_case_cname ++ "_GET_CLASS(self)->" ++
          str)
      else if field.modifiers.PRIVATE then fprintf_c_file ("self->priv->" ++ str)
      else if field.modifiers.PUBLIC then
        fprintf_c_file (ns.upper_case_cname ++ class_.upper_case_cname ++ "(self)->" ++ str)
      else pure () := by
  simp only [simple_name_body, hfield, Emit.seq_eq, hf, Emit.run_ok_bind, hclass, hc, hns]

/-! ## Claims on names and member accesses in the emitter -/

/-- C13: for a simple name that the resolver binds to a field of a class with the C names NS
and CLASS, the expression emitter returns and writes, after `&` when the name is marked as a
ref or out argument: the plain identifier when the field is Private and Static;
`NSCLASS_GET_CLASS(self)->name` when it is Static and not Private; `self->priv->name` when it
is Private and not Static; `NSCLASS(self)->name` when it is Public and neither Static nor
Private.  For every simple name that resolves, the emission is `&` followed by the emission of
the same name without the markers when it is marked as a ref or out argument, and that emission
alone when it is not. -/
theorem simple_name_field_emitted (g : ValaCodeGenerator) (h : Store) (fuel depth : Nat)
    (i j : ExprInfo) (str : String)
    (hres : vala_code_generator_find_static_type_of_expression g h fuel (.SIMPLE_NAME i str) =
      .ok (.SIMPLE_NAME j str)) :
    (vala_code_generator_process_expression g h fuel (depth + 1) (.SIMPLE_NAME i str)).c_text =
      (if i.ref_variable || i.out_variable then "&" else "") ++
        (vala_code_generator_process_expression g h fuel (depth + 1)
          (.SIMPLE_NAME i.unmarked str)).c_text ∧
    ∀ (fp : FieldPtr) (field : ValaField) (cp : ClassPtr) (class_ : ValaClass)
      (ns : ValaNamespace), j.field = some fp → h.field (some fp) = .ok field →
      field.class_ = some cp → h.class_ (some cp) = .ok class_ →
      h.namespace_ (some class_.namespace_) = .ok ns →
      (vala_code_generator_process_expression g h fuel (depth + 1)
        (.SIMPLE_NAME i str)).outcome = .ok (.SIMPLE_NAME j str) ∧
      (field.modifiers.STATIC = true → field.modifiers.PRIVATE = true →
        (vala_code_generator_process_expression g h fuel (depth + 1)
          (.SIMPLE_NAME i str)).c_text =
        (if i.ref_variable || i.out_variable then "&" else "") ++ str) ∧
      (field.modifiers.STATIC = true → field.modifiers.PRIVATE = false →
        (vala_code_generator_process_expression g h fuel (depth + 1)
          (.SIMPLE_NAME i str)).c_text =
        (if i.ref_variable || i.out_variable then "&" else "") ++
          (ns.upper_case_cname ++ class_.upper_case_cname ++ "_GET_CLASS(self)->" ++ str)) ∧
      (field.modifiers.STATIC = false → field.modifiers.PRIVATE = true →
        (vala_code_generator_process_expression g h fuel (depth + 1)
          (.SIMPLE_NAME i str)).c_text =
        (if i.ref_variable || i.out_variable then "&" else "") ++ ("self->priv->" ++ str)) ∧
      (field.modifiers.STATIC = false → field.modifiers.PRIVATE = false →
        field.modifiers.PUBLIC = true →
        (vala_code_generator_process_expression g h fuel (depth + 1)
          (.SIMPLE_NAME i str)).c_text =
        (if i.ref_variable || i.out_variable then "&" else "") ++
          (ns.upper_case_cname ++ class_.upper_case_cname ++ "(self)->" ++ str)) := by
  obtain ⟨k, hk, hr, ho, hu⟩ := find_static_type_simple_name_markers g h fuel i str _ hres
  cases hk
  have htext : (vala_code_generator_process_expression g h fuel (depth + 1)
      (.SIMPLE_NAME i str)).c_text =
      (if i.ref_variable || i.out_variable then "&" else "") ++
        (simple_name_body h j str).c_text := by
    rw [process_expression_of_resolved g h fuel depth _ _ hres]
    show (vala_code_generator_process_simple_name h (.SIMPLE_NAME j str)).c_text = _
    rw [process_simple_name_text, hr, ho]
  refine ⟨?_, ?_⟩
  · rw [htext, process_expression_of_resolved g h fuel depth _ _ hu]
    show _ = _ ++ (vala_code_generator_process_simple_name h (.SIMPLE_NAME j.unmarked str)).c_text
    rw [process_simple_name_text, simple_name_body_unmarked]
    have h1 : j.unmarked.ref_variable = false := rfl
    have h2 : j.unmarked.out_variable = false := rfl
    simp [h1, h2]
  · intro fp field cp class_ ns hfield hf hclass hc hns
    have hb := simple_name_body_class_field h j str fp field cp class_ ns hfield hf hclass hc hns
    rw [htext, hb]
    refine ⟨?_, ?_, ?_, ?_, ?_⟩
    · rw [process_expression_of_resolved g h fuel depth _ _ hres]
      show (vala_code_generator_process_simple_name h (.SIMPLE_NAME j str)).outcome = _
      apply process_simple_name_outcome
      rw [hb]
      cases field.modifiers.STATIC <;> cases field.modifiers.PRIVATE <;>
        cases field.modifiers.PUBLIC <;> rfl
    · intro hs hp
      simp [hs, hp, Emit.c_text_fprintf]
    · intro hs hp
      simp [hs, hp, Emit.c_text_fprintf]
    · intro hs hp
      simp [hs, hp, Emit.c_text_fprintf]
    · intro hs hp hq
      simp [hs, hp, hq, Emit.c_text_fprintf]

/-- Witness of C13: in the body of `Circle.spin` of the second sample program the public static
field `total` of `Shape`, passed as a ref argument, is read through the class structure. -/
theorem simple_name_field_emitted_witness :
    (vala_code_generator_process_expression demo_generator demo_store 3 1
      (.SIMPLE_NAME { ref_variable := true } "total")).c_text =
      "&DEMO_SHAPE_GET_CLASS(self)->total" :=
  (((simple_name_field_emitted demo_generator demo_store 3 0 { ref_variable := true } _ "total"
    rfl).2 2 _ 0 _ _ rfl rfl rfl rfl rfl).2.2.1 rfl rfl).trans (by rfl)

/-- A text, then nothing written. -/
theorem Output.append_empty (w : Output) : w ++ ({} : Output) = w := by
  cases w
  show Output.append _ _ = _
  simp [Output.append]

/-- A `pure` hands its value on. -/
theorem Emit.pure_bind {α β : Type} (a : α) (f : α → Emit β) :
    (pure a : Emit α).bind f = f a := Emit.run_ok_bind a f

/-- The resolver keeps a member access a member access of the same name, with its left operand
resolved or left as it is. -/
theorem find_static_type_member_access_shape (g : ValaCodeGenerator) (h : Store) (fuel : Nat)
    (i : ExprInfo) (left : ValaExpression) (right : String) (e' : ValaExpression)
    (he : vala_code_generator_find_static_type_of_expression g h fuel
      (.MEMBER_ACCESS i left right) = .ok e') :
    ∃ j left', e' = .MEMBER_ACCESS j left' right ∧
      (left' = left ∨
        vala_code_generator_find_static_type_of_expression g h fuel left = .ok left') := by
  by_cases hi : i.static_type_symbol = none
  · rw [find_static_type_member_access_eq g h fuel i left right hi, Outcome.bind_eq_ok] at he
    obtain ⟨l, hl, he⟩ := he
    rw [Outcome.bind_eq_ok] at he
    obtain ⟨j, _, he⟩ := he
    cases he
    exact ⟨j, l, rfl, Or.inr hl⟩
  · rw [find_static_type_resolved g h fuel (.MEMBER_ACCESS i left right) hi] at he
    cases he
    exact ⟨i, left, rfl, Or.inl rfl⟩

/-- The member-access arm on a Method hit. -/
theorem process_member_access_method (h : Store) (pe : ValaExpression → Emit ValaExpression)
    (j : ExprInfo) (left : ValaExpression) (right : String) (sym : ValaSymbol)
    (method : ValaMethod) (cname : String)
    (hsym : h.symbol j.static_type_symbol = .ok sym) (ht : sym.type = .METHOD)
    (hm : h.method sym.method = .ok method) (hc : method.cname = some cname) :
    vala_code_generator_process_member_access h pe (.MEMBER_ACCESS j left right) =
      ⟨{ c_file := cname }, .ok (.MEMBER_ACCESS j left right)⟩ := by
  simp only [vala_code_generator_process_member_access, Emit.seq_eq, hsym, Emit.run_ok_bind,
    ht, if_true, hm, hc, Outcome.of_option]
  simp only [Emit.bind, fprintf_c_file, Emit.ret_eq, Output.append_empty]

/-- The member-access arm on an EnumValue hit. -/
theorem process_member_access_enum_value (h : Store)
    (pe : ValaExpression → Emit ValaExpression) (j : ExprInfo) (left : ValaExpression)
    (right : String) (sym : ValaSymbol) (p : SymPtr) (s : ValaSymbol) (value : ValaEnumValue)
    (hsym : h.symbol j.static_type_symbol = .ok sym) (ht : sym.type ≠ .METHOD)
    (hp : j.static_symbol = some p) (hs : h.symbol (some p) = .ok s)
    (hst : s.type = .ENUM_VALUE) (hv : h.enum_value s.enum_value = .ok value) :
    vala_code_generator_process_member_access h pe (.MEMBER_ACCESS j left right) =
      ⟨{ c_file := value.cname }, .ok (.MEMBER_ACCESS j left right)⟩ := by
  simp only [vala_code_generator_process_member_access, Emit.seq_eq, hsym, Emit.run_ok_bind,
    ht, if_false, hp, hs, hst, decide_True, Emit.pure_bind, if_true, hv]
  simp only [Emit.bind, fprintf_c_file, Emit.ret_eq, Output.append_empty]

/-- The member-access arm on a Property hit. -/
theorem process_member_access_property (h : Store)
    (pe : ValaExpression → Emit ValaExpression) (j : ExprInfo) (left : ValaExpression)
    (right : String) (sym : ValaSymbol) (pp : PropertyPtr) (property : ValaProperty)
    (class_ : ValaClass) (ns : ValaNamespace)
    (hsym : h.symbol j.static_type_symbol = .ok sym) (ht : sym.type ≠ .METHOD)
    (hss : j.static_symbol = none) (hpp : j.property = some pp)
    (hp : h.property (some pp) = .ok property) (hc : h.class_ property.class_ = .ok class_)
    (hns : h.namespace_ (some class_.namespace_) = .ok ns) (l' : ValaExpression)
    (hl : (pe left).outcome = .ok l') :
    (vala_code_generator_process_member_access h pe (.MEMBER_ACCESS j left right)).c_text =
      ns.lower_case_cname ++ class_.lower_case_cname ++ "_get_" ++ property.name ++ " (" ++
        (pe left).c_text ++ ")" ∧
    (vala_code_generator_process_member_access h pe (.MEMBER_ACCESS j left right)).outcome =
      .ok (.MEMBER_ACCESS j l' right) := by
  cases hx : pe left with
  | mk w o =>
    rw [hx] at hl
    simp only at hl
    subst hl
    simp only [vala_code_generator_process_member_access, Emit.seq_eq, hsym,
      Emit.run_ok_bind, ht, if_false, hss, hpp, Emit.pure_bind, ne_eq, reduceCtorEq,
      not_false_eq_true, if_true, hp, hc, hns, Bool.false_eq_true]
    simp [hx, Emit.bind, fprintf_c_file, Emit.ret_eq, Emit.c_text, Output.append_c_file,
      String.append_assoc]

/-- The member-access arm on a Field hit. -/
theorem process_member_access_field (h : Store)
    (pe : ValaExpression → Emit ValaExpression) (j : ExprInfo) (left : ValaExpression)
    (right : String) (sym : ValaSymbol) (fp : FieldPtr) (field : ValaField)
    (hsym : h.symbol j.static_type_symbol = .ok sym) (ht : sym.type ≠ .METHOD)
    (hss : j.static_symbol = none) (hpp : j.property = none) (hfp : j.field = some fp)
    (hf : h.field (some fp) = .ok field) (l' : ValaExpression)
    (hl : (pe left).outcome = .ok l') :
    (field.is_struct_field = true →
      (vala_code_generator_process_member_access h pe (.MEMBER_ACCESS j left right)).c_text =
        (pe left).c_text ++ "->" ++ right ∧
      (vala_code_generator_process_member_access h pe (.MEMBER_ACCESS j left right)).outcome =
        .ok (.MEMBER_ACCESS j l' right)) ∧
    (field.is_struct_field = false → ∀ (class_ : ValaClass) (ns : ValaNamespace),
      h.class_ field.class_ = .ok class_ → h.namespace_ (some class_.namespace_) = .ok ns →
      (vala_code_generator_process_member_access h pe (.MEMBER_ACCESS j left right)).c_text =
        ns.upper_case_cname ++ class_.upper_case_cname ++ "(" ++ (pe left).c_text ++ ")->" ++
          right ∧
      (vala_code_generator_process_member_access h pe (.MEMBER_ACCESS j left right)).outcome =
        .ok (.MEMBER_ACCESS j l' right)) := by
  cases hx : pe left with
  | mk w o =>
    rw [hx] at hl
    simp only at hl
    subst hl
    constructor
    · intro hsf
      simp only [vala_code_generator_process_member_access, Emit.seq_eq, hsym,
        Emit.run_ok_bind, ht, if_false, hss, hpp, hfp, Emit.pure_bind, ne_eq,
        not_true_eq_false, hf, hsf, Bool.false_eq_true, Bool.not_true]
      have hs : ")->" ++ right = ")" ++ ("->" ++ right) := by
        rw [← String.append_assoc]
        rfl
      simp [hx, Emit.bind, fprintf_c_file, Emit.ret_eq, Emit.c_text, Output.append_c_file,
        String.append_assoc, hs]
    · intro hsf class_ ns hc hns
      simp only [vala_code_generator_process_member_access, Emit.seq_eq, hsym,
        Emit.run_ok_bind, ht, if_false, hss, hpp, hfp, Emit.pure_bind, ne_eq,
        not_true_eq_false, hf, hsf, Bool.false_eq_true, Bool.not_false, if_true, hc, hns]
      have hs : ")->" ++ right = ")" ++ ("->" ++ right) := by
        rw [← String.append_assoc]
        rfl
      simp [hx, Emit.bind, fprintf_c_file, Emit.ret_eq, Emit.c_text, Output.append_c_file,
        String.append_assoc, hs]

/-- C14: for a member access `left.right` that the resolver has resolved, with `sym` the symbol
its `static_type_symbol` points to, the expression emitter returns and writes: on a Method hit
exactly the C name of the method; on an EnumValue hit exactly the C name of the value; on a hit
on a Property `p` of a class with the lower-case C names `ns` and `c`, the getter call
`ns c _get_p (` left `)`; on a hit on a Field of a class with the upper-case C names `NS` and
`F`, the access `NS F (` left `)->right` through the cast to the declaring class of the field;
on a hit on a struct field, left `->right`.  The Property and Field cases are those of a left
operand that is emitted without a diagnostic, and of a node that carries neither a Method type
nor an EnumValue. -/
theorem member_access_emitted (g : ValaCodeGenerator) (h : Store) (fuel depth : Nat)
    (i j : ExprInfo) (left left' : ValaExpression) (right : String) (sym : ValaSymbol)
    (hres : vala_code_generator_find_static_type_of_expression g h fuel
      (.MEMBER_ACCESS i left right) = .ok (.MEMBER_ACCESS j left' right))
    (hsym : h.symbol j.static_type_symbol = .ok sym) :
    (∀ (method : ValaMethod) (cname : String), sym.type = .METHOD →
      h.method sym.method = .ok method → method.cname = some cname →
      (vala_code_generator_process_expression g h fuel (depth + 1)
        (.MEMBER_ACCESS i left right)).c_text = cname ∧
      (vala_code_generator_process_expression g h fuel (depth + 1)
        (.MEMBER_ACCESS i left right)).outcome.is_ok = true) ∧
    (∀ (p : SymPtr) (s : ValaSymbol) (value : ValaEnumValue), sym.type ≠ .METHOD →
      j.static_symbol = some p → h.symbol (some p) = .ok s → s.type = .ENUM_VALUE →
      h.enum_value s.enum_value = .ok value →
      (vala_code_generator_process_expression g h fuel (depth + 1)
        (.MEMBER_ACCESS i left right)).c_text = value.cname ∧
      (vala_code_generator_process_expression g h fuel (depth + 1)
        (.MEMBER_ACCESS i left right)).outcome.is_ok = true) ∧
    (∀ (pp : PropertyPtr) (property : ValaProperty) (class_ : ValaClass) (ns : ValaNamespace),
      sym.type ≠ .METHOD → j.static_symbol = none → j.property = some pp →
      h.property (some pp) = .ok property → h.class_ property.class_ = .ok class_ →
      h.namespace_ (some class_.namespace_) = .ok ns →
      (vala_code_generator_process_expression g h fuel depth left).outcome.is_ok = true →
      (vala_code_generator_process_expression g h fuel (depth + 1)
        (.MEMBER_ACCESS i left right)).c_text =
        ns.lower_case_cname ++ class_.lower_case_cname ++ "_get_" ++ property.name ++ " (" ++
          (vala_code_generator_process_expression g h fuel depth left).c_text ++ ")" ∧
      (vala_code_generator_process_expression g h fuel (depth + 1)
        (.MEMBER_ACCESS i left right)).outcome.is_ok = true) ∧
    (∀ (fp : FieldPtr) (field : ValaField), sym.type ≠ .METHOD → j.static_symbol = none →
      j.property = none → j.field = some fp → h.field (some fp) = .ok field →
      (vala_code_generator_process_expression g h fuel depth left).outcome.is_ok = true →
      (field.is_struct_field = true →
        (vala_code_generator_process_expression g h fuel (depth + 1)
          (.MEMBER_ACCESS i left right)).c_text =
          (vala_code_generator_process_expression g h fuel depth left).c_text ++ "->" ++
            right ∧
        (vala_code_generator_process_expression g h fuel (depth + 1)
          (.MEMBER_ACCESS i left right)).outcome.is_ok = true) ∧
      (field.is_struct_field = false → ∀ (class_ : ValaClass) (ns : ValaNamespace),
        h.class_ field.class_ = .ok class_ → h.namespace_ (some class_.namespace_) = .ok ns →
        (vala_code_generator_process_expression g h fuel (depth + 1)
          (.MEMBER_ACCESS i left right)).c_text =
          ns.upper_case_cname ++ class_.upper_case_cname ++ "(" ++
            (vala_code_generator_process_expression g h fuel depth left).c_text ++ ")->" ++
            right ∧
        (vala_code_generator_process_expression g h fuel (depth + 1)
          (.MEMBER_ACCESS i left right)).outcome.is_ok = true)) := by
  obtain ⟨j2, l2, he, hl⟩ := find_static_type_member_access_shape g h fuel i left right _ hres
  cases he
  have hpe : vala_code_generator_process_expression g h fuel depth left' =
      vala_code_generator_process_expression g h fuel depth left := by
    rcases hl with hl | hl
    · rw [hl]
    · exact (process_expression_congr g h fuel depth left left' hl).symm
  have hsw : vala_code_generator_process_expression g h fuel (depth + 1)
      (.MEMBER_ACCESS i left right) =
      vala_code_generator_process_member_access h
        (vala_code_generator_process_expression g h fuel depth)
        (.MEMBER_ACCESS j left' right) := process_expression_of_resolved g h fuel depth _ _ hres
  rw [hsw, ← hpe]
  refine ⟨?_, ?_, ?_, ?_⟩
  · intro method cname ht hm hc
    rw [process_member_access_method h _ j left' right sym method cname hsym ht hm hc]
    exact ⟨rfl, rfl⟩
  · intro p s value ht hp hs hst hv
    rw [process_member_access_enum_value h _ j left' right sym p s value hsym ht hp hs hst hv]
    exact ⟨rfl, rfl⟩
  · intro pp property class_ ns ht hss hpp hp hc hns hok
    rw [Outcome.is_ok_iff] at hok
    obtain ⟨l3, hl3⟩ := hok
    obtain ⟨h1, h2⟩ := process_member_access_property h _ j left' right sym pp property class_
      ns hsym ht hss hpp hp hc hns l3 hl3
    rw [h1, h2]
    exact ⟨rfl, rfl⟩
  · intro fp field ht hss hpp hfp hf hok
    rw [Outcome.is_ok_iff] at hok
    obtain ⟨l3, hl3⟩ := hok
    obtain ⟨h1, h2⟩ := process_member_access_field h _ j left' right sym fp field hsym ht hss
      hpp hfp hf l3 hl3
    constructor
    · intro hsf
      obtain ⟨h3, h4⟩ := h1 hsf
      rw [h3, h4]
      exact ⟨rfl, rfl⟩
    · intro hsf class_ ns hc hns
      obtain ⟨h3, h4⟩ := h2 hsf class_ ns hc hns
      rw [h3, h4]
      exact ⟨rfl, rfl⟩

/-- Witness of C14: in the body of `Circle.spin` of the second sample program the access
`c.count`, on a local of class `Circle`, is written through the cast to `Shape`, the class
that declares the field. -/
theorem member_access_emitted_witness :
    (vala_code_generator_process_expression demo_generator demo_store 3 2
      (.MEMBER_ACCESS {} (simple_name "c") "count")).c_text = "DEMO_SHAPE(c)->count" :=
  ((((member_access_emitted demo_generator demo_store 3 1 {} _ (simple_name "c") _ "count" _
    rfl rfl).2.2.2 0 _ (by decide) rfl rfl rfl rfl rfl).2 rfl _ _ rfl rfl).1).trans (by rfl)

/-- The resolver leaves an assignment as it is. -/
theorem find_static_type_assignment_eq (g : ValaCodeGenerator) (h : Store) (fuel : Nat)
    (i : ExprInfo) (left right : ValaExpression) :
    vala_code_generator_find_static_type_of_expression g h fuel (.ASSIGNMENT i left right) =
      .ok (.ASSIGNMENT i left right) := by
  rw [vala_code_generator_find_static_type_of_expression]
  rfl

/-- The assignment arm on a simple name bound to a property. -/
theorem process_assignment_property_simple_name (g : ValaCodeGenerator) (h : Store)
    (fuel : Nat) (pe : ValaExpression → Emit ValaExpression) (i : ExprInfo)
    (left right : ValaExpression) (j : ExprInfo) (str : String) (pp : PropertyPtr)
    (property : ValaProperty)
    (hl : vala_code_generator_find_static_type_of_expression g h fuel left =
      .ok (.SIMPLE_NAME j str))
    (hpp : j.property = some pp) (hp : h.property (some pp) = .ok property)
    (hr : (pe right).outcome.is_ok = true) :
    (vala_code_generator_process_assignment g h fuel pe (.ASSIGNMENT i left right)).c_text =
      "g_object_set (self, \"" ++ property.name ++ "\", " ++ (pe right).c_text ++
        ", NULL);" ∧
    (vala_code_generator_process_assignment g h fuel pe
      (.ASSIGNMENT i left right)).outcome.is_ok = true := by
  cases hx : pe right with
  | mk w o =>
    rw [hx] at hr
    cases o with
    | ok r =>
      have hfold : ∀ X : String,
          "g_object_set (self, \"" ++ X = "g_object_set (" ++ ("self" ++ (", \"" ++ X)) :=
        fun X => by simp [← String.append_assoc]
      simp only [vala_code_generator_process_assignment, Emit.seq_eq, hl, Emit.run_ok_bind,
        ValaExpression.property, ValaExpression.info, hpp, ne_eq, reduceCtorEq,
        not_false_eq_true, if_true, hp]
      simp [hx, hp, hpp, Emit.run, Emit.bind, fprintf_c_file, Emit.ret_eq, Emit.c_text,
        Output.append_c_file, String.append_assoc, Outcome.is_ok, ValaExpression.property,
        ValaExpression.info, hfold]
    | exit l d => cases hr
    | fault => cases hr
    | out_of_fuel => cases hr

/-- The assignment arm on a member access bound to a property. -/
theorem process_assignment_property_member_access (g : ValaCodeGenerator) (h : Store)
    (fuel : Nat) (pe : ValaExpression → Emit ValaExpression) (i : ExprInfo)
    (left right : ValaExpression) (j : ExprInfo) (l : ValaExpression) (r : String)
    (pp : PropertyPtr) (property : ValaProperty)
    (hl : vala_code_generator_find_static_type_of_expression g h fuel left =
      .ok (.MEMBER_ACCESS j l r))
    (hpp : j.property = some pp) (hp : h.property (some pp) = .ok property)
    (hlo : (pe l).outcome.is_ok = true) (hr : (pe right).outcome.is_ok = true) :
    (vala_code_generator_process_assignment g h fuel pe (.ASSIGNMENT i left right)).c_text =
      "g_object_set (" ++ (pe l).c_text ++ ", \"" ++ property.name ++ "\", " ++
        (pe right).c_text ++ ", NULL);" ∧
    (vala_code_generator_process_assignment g h fuel pe
      (.ASSIGNMENT i left right)).outcome.is_ok = true := by
  cases hx : pe right with
  | mk w o =>
    cases hy : pe l with
    | mk w1 o1 =>
      rw [hx] at hr
      rw [hy] at hlo
      cases o with
      | ok r =>
        cases o1 with
        | ok l1 =>
          simp only [vala_code_generator_process_assignment, Emit.seq_eq, hl,
            Emit.run_ok_bind, ValaExpression.property, ValaExpression.info, hpp, ne_eq,
            reduceCtorEq, not_false_eq_true, if_true]
          simp [hx, hy, hp, Emit.run, Emit.bind, fprintf_c_file, Emit.ret_eq, Emit.c_text,
            Output.append_c_file, String.append_assoc, Outcome.is_ok, ValaExpression.property,
            ValaExpression.info, hpp]
        | exit l d => cases hlo
        | fault => cases hlo
        | out_of_fuel => cases hlo
      | exit l d => cases hr
      | fault => cases hr
      | out_of_fuel => cases hr

/-- The assignment arm on a left side that is not bound to a property. -/
theorem process_assignment_plain (g : ValaCodeGenerator) (h : Store)
    (fuel : Nat) (pe : ValaExpression → Emit ValaExpression) (i : ExprInfo)
    (left right left1 : ValaExpression)
    (hl : vala_code_generator_find_static_type_of_expression g h fuel left = .ok left1)
    (hpp : left1.property = none) (hlo : (pe left1).outcome.is_ok = true) :
    (vala_code_generator_process_assignment g h fuel pe (.ASSIGNMENT i left right)).c_text =
      (pe left1).c_text ++ " = " ++ (pe right).c_text ∧
    (vala_code_generator_process_assignment g h fuel pe
      (.ASSIGNMENT i left right)).outcome.is_ok = (pe right).outcome.is_ok := by
  cases hx : pe right with
  | mk w o =>
    cases hy : pe left1 with
    | mk w1 o1 =>
      rw [hy] at hlo
      cases o1 with
      | ok l1 =>
        simp only [vala_code_generator_process_assignment, Emit.seq_eq, hl,
          Emit.run_ok_bind, hpp, ne_eq, not_true_eq_false, if_false]
        cases o <;>
          simp [hx, hy, Emit.bind, fprintf_c_file, Emit.ret_eq, Emit.c_text,
            Output.append_c_file, String.append_assoc, Outcome.is_ok]
      | exit l d => cases hlo
      | fault => cases hlo
      | out_of_fuel => cases hlo

/-! ## Claims on assignments and invocations -/

/-- C15: for an assignment whose left side resolves to a node bound to a property named `p`,
and whose right side is emitted without a diagnostic, the expression emitter returns and
writes exactly the call `g_object_set (` target `, "p", ` right `, NULL);`, where the target is
`self` when the left side is a simple name and the emitted receiver when it is a member access
(so it does not write left ` = ` right); for an assignment whose left side resolves to a node
that is not bound to a property and is emitted without a diagnostic, it writes exactly
left ` = ` right, and it returns when the emission of the right side does. -/
theorem assignment_emitted (g : ValaCodeGenerator) (h : Store) (fuel depth : Nat)
    (i : ExprInfo) (left right left1 : ValaExpression)
    (hl : vala_code_generator_find_static_type_of_expression g h fuel left = .ok left1) :
    (∀ (pp : PropertyPtr) (property : ValaProperty), left1.property = some pp →
      h.property (some pp) = .ok property →
      (vala_code_generator_process_expression g h fuel depth right).outcome.is_ok = true →
      (∀ (i0 : ExprInfo) (str : String), left = .SIMPLE_NAME i0 str →
        (vala_code_generator_process_expression g h fuel (depth + 1)
          (.ASSIGNMENT i left right)).c_text =
          "g_object_set (self, \"" ++ property.name ++ "\", " ++
            (vala_code_generator_process_expression g h fuel depth right).c_text ++
            ", NULL);" ∧
        (vala_code_generator_process_expression g h fuel (depth + 1)
          (.ASSIGNMENT i left right)).outcome.is_ok = true) ∧
      (∀ (i0 : ExprInfo) (l0 : ValaExpression) (r : String), left = .MEMBER_ACCESS i0 l0 r →
        (vala_code_generator_process_expression g h fuel depth l0).outcome.is_ok = true →
        (vala_code_generator_process_expression g h fuel (depth + 1)
          (.ASSIGNMENT i left right)).c_text =
          "g_object_set (" ++
            (vala_code_generator_process_expression g h fuel depth l0).c_text ++ ", \"" ++
            property.name ++ "\", " ++
            (vala_code_generator_process_expression g h fuel depth right).c_text ++
            ", NULL);" ∧
        (vala_code_generator_process_expression g h fuel (depth + 1)
          (.ASSIGNMENT i left right)).outcome.is_ok = true)) ∧
    (left1.property = none →
      (vala_code_generator_process_expression g h fuel depth left).outcome.is_ok = true →
      (vala_code_generator_process_expression g h fuel (depth + 1)
        (.ASSIGNMENT i left right)).c_text =
        (vala_code_generator_process_expression g h fuel depth left).c_text ++ " = " ++
          (vala_code_generator_process_expression g h fuel depth right).c_text ∧
      (vala_code_generator_process_expression g h fuel (depth + 1)
        (.ASSIGNMENT i left right)).outcome.is_ok =
        (vala_code_generator_process_expression g h fuel depth right).outcome.is_ok) := by
  have hsw : vala_code_generator_process_expression g h fuel (depth + 1)
      (.ASSIGNMENT i left right) =
      vala_code_generator_process_assignment g h fuel
        (vala_code_generator_process_expression g h fuel depth) (.ASSIGNMENT i left right) :=
    process_expression_of_resolved g h fuel depth _ _
      (find_static_type_assignment_eq g h fuel i left right)
  rw [hsw]
  constructor
  · intro pp property hpp hp hr
    constructor
    · intro i0 str hleft
      subst hleft
      obtain ⟨j, hj, -, -, -⟩ := find_static_type_simple_name_markers g h fuel i0 str _ hl
      subst hj
      exact process_assignment_property_simple_name g h fuel _ i _ right j str pp property hl
        hpp hp hr
    · intro i0 l0 r hleft hlo
      subst hleft
      obtain ⟨j, l, hj, hll⟩ := find_static_type_member_access_shape g h fuel i0 l0 r _ hl
      subst hj
      have hpe : vala_code_generator_process_expression g h fuel depth l =
          vala_code_generator_process_expression g h fuel depth l0 := by
        rcases hll with hll | hll
        · rw [hll]
        · exact (process_expression_congr g h fuel depth l0 l hll).symm
      rw [← hpe] at hlo ⊢
      exact process_assignment_property_member_access g h fuel _ i _ right j l r pp property
        hl hpp hp hlo hr
  · intro hpp hlo
    rw [process_expression_congr g h fuel depth left left1 hl] at hlo ⊢
    exact process_assignment_plain g h fuel _ i left right left1 hl hpp hlo

/-- Witness of C15: in the body of `Circle.spin` of the second sample program the assignment
`s.title = "x"` to the property `title` is written as a call of `g_object_set` on `s`. -/
theorem assignment_emitted_witness :
    (vala_code_generator_process_expression demo_generator demo_store 3 3
      (.ASSIGNMENT {} (.MEMBER_ACCESS {} (simple_name "s") "title")
        (.LITERAL_STRING {} "\"x\""))).c_text =
      "g_object_set (s, \"title\", \"x\", NULL);" :=
  (((((assignment_emitted demo_generator demo_store 3 2 {}
    (.MEMBER_ACCESS {} (simple_name "s") "title") (.LITERAL_STRING {} "\"x\"") _ rfl).1 0 _
    rfl rfl rfl).2 {} (simple_name "s") "title" rfl rfl).1).trans (by rfl))

/-! ## The emitter keeps the header of a node -/

/-- A sequence returns exactly when both of its parts return. -/
theorem Emit.outcome_bind_eq_ok {α β : Type} (x : Emit α) (f : α → Emit β) (b : β) :
    (x.bind f).outcome = .ok b ↔ ∃ a, x.outcome = .ok a ∧ (f a).outcome = .ok b := by
  cases x with
  | mk w o => cases o <;> simp [Emit.bind]

/-- A sequence returns a node with the header `i` when its last part does. -/
theorem Emit.info_bind {α : Type} (x : Emit α) (f : α → Emit ValaExpression) (i : ExprInfo)
    (hf : ∀ a e', (f a).outcome = .ok e' → e'.info = i) :
    ∀ e', (x.bind f).outcome = .ok e' → e'.info = i := by
  intro e' he
  rw [Emit.outcome_bind_eq_ok] at he
  obtain ⟨a, _, ha⟩ := he
  exact hf a e' ha

/-- The operation arm keeps the header. -/
theorem process_operation_expression_info (pe : ValaExpression → Emit ValaExpression)
    (e : ValaExpression) :
    ∀ e', (vala_code_generator_process_operation_expression pe e).outcome = .ok e' →
      e'.info = e.info := by
  cases e <;> simp only [vala_code_generator_process_operation_expression, Emit.seq_eq] <;>
    repeat' (first
      | (refine Emit.info_bind _ _ _ (fun _ => ?_))
      | split
      | (intro e' he; cases he <;> rfl))

/-- The assignment arm keeps the header. -/
theorem process_assignment_info (g : ValaCodeGenerator) (h : Store) (fuel : Nat)
    (pe : ValaExpression → Emit ValaExpression) (e : ValaExpression) :
    ∀ e', (vala_code_generator_process_assignment g h fuel pe e).outcome = .ok e' →
      e'.info = e.info := by
  cases e <;> simp only [vala_code_generator_process_assignment, Emit.seq_eq] <;>
    repeat' (first
      | (refine Emit.info_bind _ _ _ (fun _ => ?_))
      | split
      | (intro e' he; cases he <;> rfl))

/-- The invocation arm keeps the header. -/
theorem process_invocation_info (g : ValaCodeGenerator) (h : Store) (fuel : Nat)
    (pe : ValaExpression → Emit ValaExpression) (e : ValaExpression) :
    ∀ e', (vala_code_generator_process_invocation g h fuel pe e).outcome = .ok e' →
      e'.info = e.info := by
  cases e <;> simp only [vala_code_generator_process_invocation, Emit.seq_eq] <;>
    repeat' (first
      | (refine Emit.info_bind _ _ _ (fun _ => ?_))
      | split
      | (intro e' he; cases he <;> rfl))

/-- The literal arm keeps the header. -/
theorem process_literal_info (e : ValaExpression) :
    ∀ e', (vala_code_generator_process_literal e).outcome = .ok e' → e'.info = e.info := by
  cases e <;> simp only [vala_code_generator_process_literal, Emit.seq_eq] <;>
    repeat' (first
      | (refine Emit.info_bind _ _ _ (fun _ => ?_))
      | split
      | (intro e' he; cases he <;> rfl))

/-- The cast arm keeps the header. -/
theorem process_cast_info (h : Store) (pe : ValaExpression → Emit ValaExpression)
    (e : ValaExpression) :
    ∀ e', (vala_code_generator_process_cast h pe e).outcome = .ok e' → e'.info = e.info := by
  cases e <;> simp only [vala_code_generator_process_cast, Emit.seq_eq] <;>
    repeat' (first
      | (refine Emit.info_bind _ _ _ (fun _ => ?_))
      | split
      | (intro e' he; cases he <;> rfl))

/-- The `is` arm keeps the header. -/
theorem process_is_info (h : Store) (pe : ValaExpression → Emit ValaExpression)
    (e : ValaExpression) :
    ∀ e', (vala_code_generator_process_is h pe e).outcome = .ok e' → e'.info = e.info := by
  cases e <;> simp only [vala_code_generator_process_is, Emit.seq_eq] <;>
    repeat' (first
      | (refine Emit.info_bind _ _ _ (fun _ => ?_))
      | split
      | (intro e' he; cases he <;> rfl))

/-- The element-access arm keeps the header. -/
theorem process_element_access_info (pe : ValaExpression → Emit ValaExpression)
    (e : ValaExpression) :
    ∀ e', (vala_code_generator_process_element_access pe e).outcome = .ok e' →
      e'.info = e.info := by
  cases e <;> simp only [vala_code_generator_process_element_access, Emit.seq_eq] <;>
    repeat' (first
      | (refine Emit.info_bind _ _ _ (fun _ => ?_))
      | split
      | (intro e' he; cases he <;> rfl))

/-- The member-access arm keeps the header. -/
theorem process_member_access_info (h : Store) (pe : ValaExpression → Emit ValaExpression)
    (e : ValaExpression) :
    ∀ e', (vala_code_generator_process_member_access h pe e).outcome = .ok e' →
      e'.info = e.info := by
  cases e <;> simp only [vala_code_generator_process_member_access, Emit.seq_eq] <;>
    repeat' (first
      | (refine Emit.info_bind _ _ _ (fun _ => ?_))
      | split
      | (intro e' he; cases he <;> rfl))

/-- The object-creation arm keeps the header. -/
theorem process_object_creation_expression_info (h : Store)
    (pe : ValaExpression → Emit ValaExpression) (e : ValaExpression) :
    ∀ e', (vala_code_generator_process_object_creation_expression h pe e).outcome = .ok e' →
      e'.info = e.info := by
  cases e <;>
    simp only [vala_code_generator_process_object_creation_expression, Emit.seq_eq] <;>
    repeat' (first
      | (refine Emit.info_bind _ _ _ (fun _ => ?_))
      | split
      | (intro e' he; cases he <;> rfl))

/-- The parenthesized arm keeps the header. -/
theorem process_parenthesized_expression_info (pe : ValaExpression → Emit ValaExpression)
    (e : ValaExpression) :
    ∀ e', (vala_code_generator_process_parenthesized_expression pe e).outcome = .ok e' →
      e'.info = e.info := by
  cases e <;> simp only [vala_code_generator_process_parenthesized_expression, Emit.seq_eq] <;>
    repeat' (first
      | (refine Emit.info_bind _ _ _ (fun _ => ?_))
      | split
      | (intro e' he; cases he <;> rfl))

/-- The postfix arm keeps the header. -/
theorem process_postfix_expression_info (pe : ValaExpression → Emit ValaExpression)
    (e : ValaExpression) :
    ∀ e', (vala_code_generator_process_postfix_expression pe e).outcome = .ok e' →
      e'.info = e.info := by
  cases e <;> simp only [vala_code_generator_process_postfix_expression, Emit.seq_eq] <;>
    repeat' (first
      | (refine Emit.info_bind _ _ _ (fun _ => ?_))
      | split
      | (intro e' he; cases he <;> rfl))

/-- The simple-name arm keeps the header. -/
theorem process_simple_name_info (h : Store) (e : ValaExpression) :
    ∀ e', (vala_code_generator_process_simple_name h e).outcome = .ok e' →
      e'.info = e.info := by
  cases e <;> simp only [vala_code_generator_process_simple_name, Emit.seq_eq] <;>
    repeat' (first
      | (refine Emit.info_bind _ _ _ (fun _ => ?_))
      | split
      | (intro e' he; cases he <;> rfl))

/-- The initializer arm keeps the header. -/
theorem process_struct_or_array_initializer_info (pe : ValaExpression → Emit ValaExpression)
    (e : ValaExpression) :
    ∀ e', (vala_code_generator_process_struct_or_array_initializer pe e).outcome = .ok e' →
      e'.info = e.info := by
  cases e <;>
    simp only [vala_code_generator_process_struct_or_array_initializer, Emit.seq_eq] <;>
    repeat' (first
      | (refine Emit.info_bind _ _ _ (fun _ => ?_))
      | split
      | (intro e' he; cases he <;> rfl))

/-- The `this` arm keeps the header. -/
theorem process_this_access_info (e : ValaExpression) :
    ∀ e', (vala_code_generator_process_this_access e).outcome = .ok e' → e'.info = e.info := by
  simp only [vala_code_generator_process_this_access, Emit.seq_eq]
  refine Emit.info_bind _ _ _ (fun _ => ?_)
  intro e' he
  cases he
  rfl

/-- The switch of the emitter keeps the header. -/
theorem process_expression_switch_info (g : ValaCodeGenerator) (h : Store) (fuel : Nat)
    (pe : ValaExpression → Emit ValaExpression) (e : ValaExpression) :
    ∀ e', (process_expression_switch g h fuel pe e).outcome = .ok e' → e'.info = e.info := by
  cases e
  · exact process_assignment_info g h fuel pe _
  · exact process_cast_info h pe _
  · exact process_element_access_info pe _
  · exact process_invocation_info g h fuel pe _
  · exact process_is_info h pe _
  · exact process_member_access_info h pe _
  · exact process_object_creation_expression_info h pe _
  · exact process_operation_expression_info pe _
  · exact process_parenthesized_expression_info pe _
  · exact process_postfix_expression_info pe _
  · exact process_literal_info _
  · exact process_literal_info _
  · exact process_literal_info _
  · exact process_literal_info _
  · exact process_literal_info _
  · exact process_simple_name_info h _
  · exact process_struct_or_array_initializer_info pe _
  · exact process_this_access_info _

/-- The emitter returns the expression with the header the resolver gave it. -/
theorem process_expression_info (g : ValaCodeGenerator) (h : Store) (fuel depth : Nat)
    (e e1 e' : ValaExpression)
    (hr : vala_code_generator_find_static_type_of_expression g h fuel e = .ok e1)
    (he : (vala_code_generator_process_expression g h fuel depth e).outcome = .ok e') :
    e'.info = e1.info := by
  cases depth with
  | zero => cases he
  | succ d =>
    rw [process_expression_of_resolved g h fuel d e e1 hr] at he
    exact process_expression_switch_info g h fuel _ e1 e' he

/-! ## Lemmas on the invocation arm -/

/-- Writing the instance of a callee back to the callee changes nothing. -/
theorem set_member_access_left_instance (call : ValaExpression)
    (instance_ : Option ValaExpression) :
    set_member_access_left call (invocation_instance call instance_) = call := by
  cases call <;> cases instance_ <;> rfl

/-- Without an instance the callee is left as it is. -/
theorem set_member_access_left_none (call : ValaExpression) :
    set_member_access_left call none = call := by
  cases call <;> rfl

/-- The resolver on an invocation whose callee resolves to a method: the node gets the return
type of the method unless it has a type, and its callee is in resolved form. -/
theorem find_static_type_invocation_ok (g : ValaCodeGenerator) (h : Store) (fuel : Nat)
    (i : ExprInfo) (call : ValaExpression) (instance_ : Option ValaExpression)
    (argument_list : List ValaExpression) (call1 : ValaExpression) (s : ValaSymbol)
    (m : ValaMethod)
    (hcall : vala_code_generator_find_static_type_of_expression g h fuel call = .ok call1)
    (hsym : h.symbol call1.static_type_symbol = .ok s) (hm : h.method s.method = .ok m) :
    ∃ i' c, vala_code_generator_find_static_type_of_expression g h fuel
        (.INVOCATION i call instance_ argument_list) =
          .ok (.INVOCATION i' c instance_ argument_list) ∧
      vala_code_generator_find_static_type_of_expression g h fuel c = .ok call1 ∧
      (i.static_type_symbol = none → i'.static_type_symbol = m.return_type.symbol) ∧
      (i.static_type_symbol ≠ none → i' = i) := by
  by_cases hi : i.static_type_symbol = none
  · refine ⟨{ i with static_type_symbol := m.return_type.symbol }, call1, ?_,
      find_static_type_idem g h fuel call call1 hcall, fun _ => rfl, fun hn => absurd hi hn⟩
    rw [find_static_type_invocation_eq g h fuel i call instance_ argument_list hi, hcall,
      Outcome.ok_bind, hsym, Outcome.ok_bind, hm, Outcome.ok_bind]
  · refine ⟨i, call, ?_, hcall, fun hn => absurd hn hi, fun _ => rfl⟩
    exact find_static_type_resolved g h fuel (.INVOCATION i call instance_ argument_list) hi

/-- The check of a `ReturnsModifiedPointer` method reads the type symbol of the node only. -/
theorem invocation_modified_pointer_congr (h : Store)
    (pe : ValaExpression → Emit ValaExpression) (i i2 : ExprInfo) (m : ValaMethod)
    (instance_ : Option ValaExpression)
    (hi : i.static_type_symbol = i2.static_type_symbol) :
    invocation_modified_pointer h pe i m instance_ =
      invocation_modified_pointer h pe i2 m instance_ := by
  simp only [invocation_modified_pointer, hi]

/-- The invocation arm in its phases: the text that comes before the callee, the callee, the
argument list. -/
theorem process_expression_invocation_eq (g : ValaCodeGenerator) (h : Store)
    (fuel depth : Nat) (i : ExprInfo) (call : ValaExpression)
    (instance_ : Option ValaExpression) (argument_list : List ValaExpression)
    (call1 : ValaExpression) (s : ValaSymbol) (m : ValaMethod)
    (hcall : vala_code_generator_find_static_type_of_expression g h fuel call = .ok call1)
    (hsym : h.symbol call1.static_type_symbol = .ok s) (hm : h.method s.method = .ok m)
    (hi : i.static_type_symbol = none ∨ i.static_type_symbol = m.return_type.symbol) :
    ∃ i' : ExprInfo, i'.static_type_symbol = m.return_type.symbol ∧
      vala_code_generator_process_expression g h fuel (depth + 1)
        (.INVOCATION i call instance_ argument_list) =
      (invocation_modified_pointer h (vala_code_generator_process_expression g h fuel depth) i'
        m (invocation_instance call1 instance_)).bind fun inst1 =>
        (vala_code_generator_process_expression g h fuel depth
          (set_member_access_left call1 inst1)).bind fun call2 =>
          (invocation_arguments g h (vala_code_generator_process_expression g h fuel depth) m
            (invocation_instance call2 inst1) argument_list).bind fun r =>
            pure (.INVOCATION i' (set_member_access_left call2 r.1) r.1 r.2) := by
  obtain ⟨i', c, hres, hc, h1, h2⟩ :=
    find_static_type_invocation_ok g h fuel i call instance_ argument_list call1 s m hcall hsym
      hm
  have hi' : i'.static_type_symbol = m.return_type.symbol := by
    by_cases hn : i.static_type_symbol = none
    · exact h1 hn
    · rw [h2 hn]
      rcases hi with hi | hi
      · exact absurd hi hn
      · exact hi
  refine ⟨i', hi', ?_⟩
  rw [process_expression_of_resolved g h fuel depth _ _ hres]
  simp only [process_expression_switch, vala_code_generator_process_invocation, Emit.seq_eq,
    hc, Emit.run_ok_bind, hsym, hm]

/-- The check of a `ReturnsModifiedPointer` method on a return type that is not `void`. -/
theorem invocation_modified_pointer_bad (h : Store)
    (pe : ValaExpression → Emit ValaExpression) (i : ExprInfo) (m : ValaMethod)
    (instance_ : Option ValaExpression) (t : ValaSymbol)
    (hf : m.returns_modified_pointer = true) (ht : h.symbol i.static_type_symbol = .ok t)
    (hv : t.type ≠ .VOID) :
    invocation_modified_pointer h pe i m instance_ =
      Emit.run (.exit m.location .ReturnsModifiedPointerShape) := by
  simp only [invocation_modified_pointer, hf, if_true, Emit.seq_eq, ht, Emit.run_ok_bind, hv,
    ne_eq, not_false_eq_true, err]

/-- The text before the callee of a `ReturnsModifiedPointer` method with an instance. -/
theorem invocation_modified_pointer_some (h : Store)
    (pe : ValaExpression → Emit ValaExpression) (i : ExprInfo) (m : ValaMethod)
    (x x1 : ValaExpression) (t : ValaSymbol)
    (hf : m.returns_modified_pointer = true) (ht : h.symbol i.static_type_symbol = .ok t)
    (hv : t.type = .VOID) (hx : (pe x).outcome = .ok x1) :
    (invocation_modified_pointer h pe i m (some x)).c_text = (pe x).c_text ++ " = " ∧
    (invocation_modified_pointer h pe i m (some x)).outcome = .ok (some x1) := by
  cases hp : pe x with
  | mk w o =>
    rw [hp] at hx
    simp only at hx
    subst hx
    simp only [invocation_modified_pointer, hf, if_true, Emit.seq_eq, ht, Emit.run_ok_bind,
      hv, ne_eq, not_true_eq_false, if_false]
    simp [hp, Emit.bind, fprintf_c_file, Emit.ret_eq, Emit.c_text, Output.append_c_file]

/-- The text before the callee of a `ReturnsModifiedPointer` method without an instance. -/
theorem invocation_modified_pointer_none (h : Store)
    (pe : ValaExpression → Emit ValaExpression) (i : ExprInfo) (m : ValaMethod)
    (t : ValaSymbol)
    (hf : m.returns_modified_pointer = true) (ht : h.symbol i.static_type_symbol = .ok t)
    (hv : t.type = .VOID) :
    (invocation_modified_pointer h pe i m none).c_text = "self = " ∧
    (invocation_modified_pointer h pe i m none).outcome = .ok none := by
  simp only [invocation_modified_pointer, hf, if_true, Emit.seq_eq, ht, Emit.run_ok_bind,
    hv, ne_eq, not_true_eq_false, if_false]
  simp [Emit.bind, fprintf_c_file, Emit.ret_eq, Emit.c_text, Output.append_c_file]

/-- Nothing comes before the callee of a method that is not `ReturnsModifiedPointer`. -/
theorem invocation_modified_pointer_plain (h : Store)
    (pe : ValaExpression → Emit ValaExpression) (i : ExprInfo) (m : ValaMethod)
    (instance_ : Option ValaExpression) (hf : m.returns_modified_pointer = false) :
    invocation_modified_pointer h pe i m instance_ = pure instance_ := by
  simp only [invocation_modified_pointer, hf, Bool.false_eq_true, if_false]

/-- A sequence that ends by returning a value writes what its first part writes. -/
theorem Emit.c_text_bind_pure {α β : Type} (x : Emit α) (k : α → β) :
    (x.bind fun a => pure (k a)).c_text = x.c_text :=
  Emit.c_text_bind_silent x _ (fun _ => rfl)

/-- The text of a sequence of three parts of which the first two return. -/
theorem Emit.c_text_bind_bind {α β γ : Type} (x : Emit α) (f : α → Emit β)
    (k : α → β → Emit γ) (a : α) (b : β) (hx : x.outcome = .ok a)
    (hf : (f a).outcome = .ok b) :
    (x.bind fun a => (f a).bind (k a)).c_text = x.c_text ++ (f a).c_text ++ (k a b).c_text := by
  rw [Emit.c_text_bind _ _ a hx, Emit.c_text_bind _ _ b hf, String.append_assoc]

/-- C18: for an invocation whose callee resolves to a method flagged `ReturnsModifiedPointer`
(the node being unresolved, or typed with the return type of the method): if the return type
of the method is not `void` the expression emitter reports ReturnsModifiedPointerShape at the
location of the method and writes nothing; if it is `void`, the emitter writes the emitted
instance, or `self` when the call has no instance, then ` = `, then the callee and the argument
list.  For a method without the flag the text starts with the callee.  The instance of a
member-access callee is its receiver. -/
theorem invocation_modified_pointer_emitted (g : ValaCodeGenerator) (h : Store)
    (fuel depth : Nat) (i : ExprInfo) (call : ValaExpression)
    (instance_ : Option ValaExpression) (argument_list : List ValaExpression)
    (call1 : ValaExpression) (s : ValaSymbol) (m : ValaMethod) (t : ValaSymbol)
    (hcall : vala_code_generator_find_static_type_of_expression g h fuel call = .ok call1)
    (hsym : h.symbol call1.static_type_symbol = .ok s) (hm : h.method s.method = .ok m)
    (hi : i.static_type_symbol = none ∨ i.static_type_symbol = m.return_type.symbol)
    (ht : h.symbol m.return_type.symbol = .ok t) :
    (m.returns_modified_pointer = true → t.type ≠ .VOID →
      (vala_code_generator_process_expression g h fuel (depth + 1)
        (.INVOCATION i call instance_ argument_list)).outcome =
        .exit m.location .ReturnsModifiedPointerShape ∧
      (vala_code_generator_process_expression g h fuel (depth + 1)
        (.INVOCATION i call instance_ argument_list)).c_text = "") ∧
    (m.returns_modified_pointer = true → t.type = .VOID →
      (∀ x x1 call2 : ValaExpression, invocation_instance call1 instance_ = some x →
        (vala_code_generator_process_expression g h fuel depth x).outcome = .ok x1 →
        (vala_code_generator_process_expression g h fuel depth
          (set_member_access_left call1 (some x1))).outcome = .ok call2 →
        (vala_code_generator_process_expression g h fuel (depth + 1)
          (.INVOCATION i call instance_ argument_list)).c_text =
          (vala_code_generator_process_expression g h fuel depth x).c_text ++ " = " ++
            (vala_code_generator_process_expression g h fuel depth
              (set_member_access_left call1 (some x1))).c_text ++
            (invocation_arguments g h (vala_code_generator_process_expression g h fuel depth) m
              (invocation_instance call2 (some x1)) argument_list).c_text) ∧
      (∀ call2 : ValaExpression, invocation_instance call1 instance_ = none →
        (vala_code_generator_process_expression g h fuel depth call).outcome = .ok call2 →
        (vala_code_generator_process_expression g h fuel (depth + 1)
          (.INVOCATION i call instance_ argument_list)).c_text =
          "self = " ++ (vala_code_generator_process_expression g h fuel depth call).c_text ++
            (invocation_arguments g h (vala_code_generator_process_expression g h fuel depth) m
              (invocation_instance call2 none) argument_list).c_text)) ∧
    (m.returns_modified_pointer = false → ∀ call2 : ValaExpression,
      (vala_code_generator_process_expression g h fuel depth call).outcome = .ok call2 →
      (vala_code_generator_process_expression g h fuel (depth + 1)
        (.INVOCATION i call instance_ argument_list)).c_text =
        (vala_code_generator_process_expression g h fuel depth call).c_text ++
          (invocation_arguments g h (vala_code_generator_process_expression g h fuel depth) m
            (invocation_instance call2 (invocation_instance call1 instance_))
            argument_list).c_text) ∧
    (∀ (i0 : ExprInfo) (l0 : ValaExpression) (r : String), call = .MEMBER_ACCESS i0 l0 r →
      ∃ j l, call1 = .MEMBER_ACCESS j l r ∧ invocation_instance call1 instance_ = some l ∧
        vala_code_generator_process_expression g h fuel depth l =
          vala_code_generator_process_expression g h fuel depth l0) := by
  obtain ⟨i', hi', heq⟩ := process_expression_invocation_eq g h fuel depth i call instance_
    argument_list call1 s m hcall hsym hm hi
  have ht' : h.symbol i'.static_type_symbol = .ok t := by rw [hi']; exact ht
  have hpc := process_expression_congr g h fuel depth call call1 hcall
  rw [heq]
  refine ⟨?_, ?_, ?_, ?_⟩
  · intro hf hv
    rw [invocation_modified_pointer_bad h _ i' m _ t hf ht' hv]
    exact ⟨rfl, rfl⟩
  · intro hf hv
    constructor
    · intro x x1 call2 hx hx1 hc2
      obtain ⟨h1, h2⟩ := invocation_modified_pointer_some h _ i' m x x1 t hf ht' hv hx1
      rw [hx, Emit.c_text_bind_bind _ _ _ (some x1) call2 h2 hc2, h1,
        Emit.c_text_bind_pure]
    · intro call2 hx hc2
      obtain ⟨h1, h2⟩ := invocation_modified_pointer_none h
        (vala_code_generator_process_expression g h fuel depth) i' m t hf ht' hv
      rw [hpc] at hc2 ⊢
      rw [hx, Emit.c_text_bind_bind _ _ _ none call2 h2
        (by rw [set_member_access_left_none]; exact hc2), h1, set_member_access_left_none,
        Emit.c_text_bind_pure]
  · intro hf call2 hc2
    rw [hpc] at hc2 ⊢
    rw [invocation_modified_pointer_plain h _ i' m _ hf, Emit.pure_bind,
      set_member_access_left_instance, Emit.c_text_bind _ _ call2 hc2,
      Emit.c_text_bind_pure]
  · intro i0 l0 r hc
    subst hc
    obtain ⟨j, l, hj, hl⟩ := find_static_type_member_access_shape g h fuel i0 l0 r _ hcall
    subst hj
    refine ⟨j, l, rfl, rfl, ?_⟩
    rcases hl with hl | hl
    · rw [hl]
    · exact (process_expression_congr g h fuel depth l0 l hl).symm

/-- Witness of C18: in the body of `Circle.spin` of the second sample program the call
`s.shrink ()` of a `ReturnsModifiedPointer` method that returns `int` is reported at the
location of the method. -/
theorem invocation_modified_pointer_emitted_witness :
    (vala_code_generator_process_expression demo_generator demo_store 3 3
      (.INVOCATION {} (.MEMBER_ACCESS {} (simple_name "s") "shrink") none [])).outcome =
      .exit (some { filename := "demo.vala", lineno := 12, colno := 3 })
        .ReturnsModifiedPointerShape :=
  ((invocation_modified_pointer_emitted demo_generator demo_store 3 2 {}
    (.MEMBER_ACCESS {} (simple_name "s") "shrink") none [] _ _ _ _ rfl rfl rfl (Or.inl rfl)
    rfl).1 rfl (by decide)).1

/-! ## Lemmas on lists of emitted expressions -/

/-- A list continued by one more text. -/
theorem continued_append_single (sep : String) (l : List String) (a : String) :
    continued sep (l ++ [a]) = continued sep l ++ sep ++ a := by
  induction l with
  | nil => simp [continued]
  | cons b rest ih => simp [continued, ih, String.append_assoc]

/-- A separated list with one more text at its end. -/
theorem separated_append_single (sep : String) (l : List String) (a : String) :
    separated sep (l ++ [a]) = if l.isEmpty then a else separated sep l ++ sep ++ a := by
  cases l with
  | nil => simp [separated, continued]
  | cons b rest =>
    simp [separated, continued_append_single, String.append_assoc]

/-- The loop over a list of expressions that are all emitted without a diagnostic: entered
with the flag unset it writes each one after `", "`; entered with the flag set it writes them
separated by `", "`; it returns the flag unset unless the list is empty. -/
theorem expression_list_loop_text (pe : ValaExpression → Emit ValaExpression) :
    ∀ (list : List ValaExpression),
      (list.all fun a => (pe a).outcome.is_ok) = true →
      (expression_list_loop pe false list).c_text =
        continued ", " (list.map fun a => (pe a).c_text) ∧
      (expression_list_loop pe true list).c_text =
        separated ", " (list.map fun a => (pe a).c_text) ∧
      ∀ first, ∃ l', (expression_list_loop pe first list).outcome =
        .ok (l', first && list.isEmpty)
  | [], _ => by
    refine ⟨rfl, rfl, fun first => ⟨[], ?_⟩⟩
    simp [expression_list_loop, Emit.ret_eq]
  | a :: rest, hok => by
    simp only [List.all_cons, Bool.and_eq_true] at hok
    obtain ⟨ha, hrest⟩ := hok
    obtain ⟨ih1, -, ih3⟩ := expression_list_loop_text pe rest hrest
    obtain ⟨r', hr'⟩ := ih3 false
    cases hp : pe a with
    | mk w o =>
      rw [hp] at ha
      cases o with
      | ok a' =>
        cases hq : expression_list_loop pe false rest with
        | mk w2 o2 =>
          rw [hq] at hr' ih1
          simp only at hr'
          subst hr'
          simp only [Emit.c_text] at ih1
          refine ⟨?_, ?_, fun first => ⟨a' :: r', ?_⟩⟩
          · simp [expression_list_loop, Emit.seq_eq, Emit.ret_eq, Emit.bind, hp, hq,
              fprintf_c_file, Emit.c_text, Output.append_c_file, continued, ih1,
              String.append_assoc]
          · simp [expression_list_loop, Emit.seq_eq, Emit.ret_eq, Emit.bind, hp, hq,
              fprintf_c_file, Emit.c_text, Output.append_c_file, separated, ih1,
              String.append_assoc]
          · cases first <;>
              simp [expression_list_loop, Emit.seq_eq, Emit.ret_eq, Emit.bind, hp, hq,
                fprintf_c_file]
      | exit l d => cases ha
      | fault => cases ha
      | out_of_fuel => cases ha

/-- The argument list of a method that takes its instance first. -/
theorem invocation_arguments_first (g : ValaCodeGenerator) (h : Store)
    (pe : ValaExpression → Emit ValaExpression) (m : ValaMethod)
    (instance_ : Option ValaExpression) (args : List ValaExpression)
    (hl : m.instance_last = false) (hs : m.modifiers.STATIC = false)
    (hfi : (invocation_first_instance g h pe m instance_).outcome.is_ok = true)
    (hargs : (args.all fun a => (pe a).outcome.is_ok) = true) :
    (invocation_arguments g h pe m instance_ args).c_text =
      " (" ++ separated ", " ((invocation_first_instance g h pe m instance_).c_text ::
        args.map fun a => (pe a).c_text) ++ ")" := by
  obtain ⟨h1, -, h3⟩ := expression_list_loop_text pe args hargs
  obtain ⟨l', hl'⟩ := h3 false
  cases hf : invocation_first_instance g h pe m instance_ with
  | mk w o =>
    rw [hf] at hfi
    cases o with
    | ok inst =>
      cases hq : expression_list_loop pe false args with
      | mk w2 o2 =>
        rw [hq] at hl' h1
        simp only at hl'
        subst hl'
        simp only [Emit.c_text] at h1
        simp [invocation_arguments, Emit.seq_eq, Emit.ret_eq, Emit.bind, hl, hs, hf, hq,
          fprintf_c_file, Emit.c_text, Output.append_c_file, separated, h1,
          String.append_assoc]
    | exit l d => cases hfi
    | fault => cases hfi
    | out_of_fuel => cases hfi

/-- The argument list of a static method. -/
theorem invocation_arguments_static (g : ValaCodeGenerator) (h : Store)
    (pe : ValaExpression → Emit ValaExpression) (m : ValaMethod)
    (instance_ : Option ValaExpression) (args : List ValaExpression)
    (hs : m.modifiers.STATIC = true)
    (hargs : (args.all fun a => (pe a).outcome.is_ok) = true) :
    (invocation_arguments g h pe m instance_ args).c_text =
      " (" ++ separated ", " (args.map fun a => (pe a).c_text) ++ ")" := by
  obtain ⟨-, h1, h3⟩ := expression_list_loop_text pe args hargs
  obtain ⟨l', hl'⟩ := h3 true
  cases hq : expression_list_loop pe true args with
  | mk w2 o2 =>
    rw [hq] at hl' h1
    simp only at hl'
    subst hl'
    simp only [Emit.c_text] at h1
    simp [invocation_arguments, Emit.seq_eq, Emit.ret_eq, Emit.bind, hs, hq,
      fprintf_c_file, Emit.c_text, Output.append_c_file, h1, String.append_assoc]

/-- The argument list of a method that takes its instance last, with an instance. -/
theorem invocation_arguments_last (g : ValaCodeGenerator) (h : Store)
    (pe : ValaExpression → Emit ValaExpression) (m : ValaMethod)
    (x : ValaExpression) (args : List ValaExpression)
    (hl : m.instance_last = true) (hs : m.modifiers.STATIC = false)
    (hx : (pe x).outcome.is_ok = true)
    (hargs : (args.all fun a => (pe a).outcome.is_ok) = true) :
    (invocation_arguments g h pe m (some x) args).c_text =
      " (" ++ separated ", " ((args.map fun a => (pe a).c_text) ++ [(pe x).c_text]) ++ ")" := by
  obtain ⟨-, h1, h3⟩ := expression_list_loop_text pe args hargs
  obtain ⟨l', hl'⟩ := h3 true
  cases hp : pe x with
  | mk w o =>
    rw [hp] at hx
    cases o with
    | ok x1 =>
      cases hq : expression_list_loop pe true args with
      | mk w2 o2 =>
        rw [hq] at hl' h1
        simp only at hl'
        subst hl'
        simp only [Emit.c_text] at h1
        rw [separated_append_single]
        cases args with
        | nil =>
          simp [separated] at h1
          simp [invocation_arguments, Emit.seq_eq, Emit.ret_eq, Emit.bind, hl, hs, hp, hq,
            fprintf_c_file, Emit.c_text, Output.append_c_file, h1, String.append_assoc]
        | cons a rest =>
          simp [invocation_arguments, Emit.seq_eq, Emit.ret_eq, Emit.bind, hl, hs, hp, hq,
            fprintf_c_file, Emit.c_text, Output.append_c_file, h1, String.append_assoc]
    | exit l d => cases hx
    | fault => cases hx
    | out_of_fuel => cases hx

/-- The argument list of a method that takes its instance last, without an instance. -/
theorem invocation_arguments_last_self (g : ValaCodeGenerator) (h : Store)
    (pe : ValaExpression → Emit ValaExpression) (m : ValaMethod)
    (args : List ValaExpression)
    (hl : m.instance_last = true) (hs : m.modifiers.STATIC = false)
    (hargs : (args.all fun a => (pe a).outcome.is_ok) = true) :
    (invocation_arguments g h pe m none args).c_text =
      " (" ++ separated ", " ((args.map fun a => (pe a).c_text) ++ ["self"]) ++ ")" := by
  obtain ⟨-, h1, h3⟩ := expression_list_loop_text pe args hargs
  obtain ⟨l', hl'⟩ := h3 true
  cases hq : expression_list_loop pe true args with
  | mk w2 o2 =>
    rw [hq] at hl' h1
    simp only at hl'
    subst hl'
    simp only [Emit.c_text] at h1
    rw [separated_append_single]
    cases args with
    | nil =>
      simp [separated] at h1
      simp [invocation_arguments, Emit.seq_eq, Emit.ret_eq, Emit.bind, hl, hs, hq,
        fprintf_c_file, Emit.c_text, Output.append_c_file, h1, String.append_assoc]
    | cons a rest =>
      simp [invocation_arguments, Emit.seq_eq, Emit.ret_eq, Emit.bind, hl, hs, hq,
        fprintf_c_file, Emit.c_text, Output.append_c_file, h1, String.append_assoc]

/-- The text of an invocation: what comes before the callee, the callee, the argument list. -/
theorem process_expression_invocation_text (g : ValaCodeGenerator) (h : Store)
    (fuel depth : Nat) (i : ExprInfo) (call : ValaExpression)
    (instance_ : Option ValaExpression) (args : List ValaExpression) (call1 : ValaExpression)
    (s : ValaSymbol) (m : ValaMethod) (inst1 : Option ValaExpression) (call2 : ValaExpression)
    (hcall : vala_code_generator_find_static_type_of_expression g h fuel call = .ok call1)
    (hsym : h.symbol call1.static_type_symbol = .ok s) (hm : h.method s.method = .ok m)
    (hi : i.static_type_symbol = none ∨ i.static_type_symbol = m.return_type.symbol)
    (hpre : (invocation_modified_pointer h
      (vala_code_generator_process_expression g h fuel depth)
      { i with static_type_symbol := m.return_type.symbol } m
      (invocation_instance call1 instance_)).outcome = .ok inst1)
    (hcallee : (vala_code_generator_process_expression g h fuel depth
      (set_member_access_left call1 inst1)).outcome = .ok call2) :
    (vala_code_generator_process_expression g h fuel (depth + 1)
      (.INVOCATION i call instance_ args)).c_text =
      (invocation_modified_pointer h (vala_code_generator_process_expression g h fuel depth)
        { i with static_type_symbol := m.return_type.symbol } m
        (invocation_instance call1 instance_)).c_text ++
      (vala_code_generator_process_expression g h fuel depth
        (set_member_access_left call1 inst1)).c_text ++
      (invocation_arguments g h (vala_code_generator_process_expression g h fuel depth) m
        (invocation_instance call2 inst1) args).c_text := by
  obtain ⟨i', hi', heq⟩ := process_expression_invocation_eq g h fuel depth i call instance_
    args call1 s m hcall hsym hm hi
  have hc := invocation_modified_pointer_congr h
    (vala_code_generator_process_expression g h fuel depth) i'
    { i with static_type_symbol := m.return_type.symbol } m
    (invocation_instance call1 instance_) hi'
  rw [hc] at heq
  rw [heq, Emit.c_text_bind_bind _ _ _ inst1 call2 hpre hcallee, Emit.c_text_bind_pure]

/-- The test of the upcast for a method of a class. -/
theorem upcast_needed_class (h : Store) (m : ValaMethod) (B : ValaClass)
    (y : Option SymPtr) (hs : m.is_struct_method = false) (hB : h.class_ m.class_ = .ok B) :
    upcast_needed h m (.ok y) = .ok (decide (y ≠ some B.symbol)) := by
  simp [upcast_needed, hs, hB, Outcome.pure_eq, Outcome.bind_eq]

/-- The test of the upcast for a struct method. -/
theorem upcast_needed_struct (h : Store) (m : ValaMethod) (y : Outcome (Option SymPtr))
    (hs : m.is_struct_method = true) : upcast_needed h m y = .ok false := by
  simp [upcast_needed, hs, Outcome.pure_eq]

/-- The instance as first argument, when the emission of the instance keeps its type symbol. -/
theorem invocation_first_instance_some (g : ValaCodeGenerator) (h : Store)
    (pe : ValaExpression → Emit ValaExpression) (m : ValaMethod) (x x1 : ValaExpression)
    (hx : (pe x).outcome = .ok x1)
    (hkeep : x1.static_type_symbol = x.static_type_symbol) :
    (m.is_struct_method = true →
      (invocation_first_instance g h pe m (some x)).c_text = (pe x).c_text ∧
      (invocation_first_instance g h pe m (some x)).outcome = .ok (some x1)) ∧
    (m.is_struct_method = false → ∀ B : ValaClass, h.class_ m.class_ = .ok B →
      (x.static_type_symbol = some B.symbol →
        (invocation_first_instance g h pe m (some x)).c_text = (pe x).c_text ∧
        (invocation_first_instance g h pe m (some x)).outcome = .ok (some x1)) ∧
      (x.static_type_symbol ≠ some B.symbol → ∀ ns : ValaNamespace,
        h.namespace_ (some B.namespace_) = .ok ns →
        (invocation_first_instance g h pe m (some x)).c_text =
          ns.upper_case_cname ++ B.upper_case_cname ++ "(" ++ (pe x).c_text ++ ")" ∧
        (invocation_first_instance g h pe m (some x)).outcome = .ok (some x1))) := by
  cases hp : pe x with
  | mk w o =>
    rw [hp] at hx
    simp only at hx
    subst hx
    constructor
    · intro hs
      simp only [invocation_first_instance, Emit.seq_eq, Outcome.pure_eq,
        (fun y => upcast_needed_struct h m y hs), Emit.run_ok_bind, Bool.false_eq_true,
        if_false, Emit.pure_bind]
      simp [hp, Emit.bind, (fun y => upcast_needed_struct h m y hs), Emit.run, Emit.ret_eq,
        Emit.c_text, Output.append_c_file]
    · intro hs B hB
      constructor
      · intro hsym
        simp only [invocation_first_instance, Emit.seq_eq, Outcome.pure_eq,
          (fun y => upcast_needed_class h m B y hs hB), Emit.run_ok_bind, hsym, ne_eq,
          not_true_eq_false, decide_False, Bool.false_eq_true, if_false, Emit.pure_bind]
        simp [hp, Emit.bind, (fun y => upcast_needed_class h m B y hs hB), hkeep, hsym,
          Emit.run, Emit.ret_eq, Emit.c_text, Output.append_c_file]
      · intro hsym ns hns
        simp only [invocation_first_instance, Emit.seq_eq, Outcome.pure_eq,
          (fun y => upcast_needed_class h m B y hs hB), Emit.run_ok_bind, hsym, ne_eq,
          not_false_eq_true, decide_True, if_true, upcast_open, Outcome.bind_eq, hB,
          Outcome.ok_bind, hns]
        simp [hp, Emit.bind, (fun y => upcast_needed_class h m B y hs hB), hkeep, hsym,
          Emit.run, Emit.ret_eq, Emit.c_text, Output.append_c_file, fprintf_c_file,
          String.append_assoc]

/-- The instance `self` as first argument. -/
theorem invocation_first_instance_none (g : ValaCodeGenerator) (h : Store)
    (pe : ValaExpression → Emit ValaExpression) (m : ValaMethod) :
    (m.is_struct_method = true →
      (invocation_first_instance g h pe m none).c_text = "self" ∧
      (invocation_first_instance g h pe m none).outcome = .ok none) ∧
    (m.is_struct_method = false → ∀ B D : ValaClass, h.class_ m.class_ = .ok B →
      h.class_ g.class_ = .ok D →
      (D.symbol = B.symbol →
        (invocation_first_instance g h pe m none).c_text = "self" ∧
        (invocation_first_instance g h pe m none).outcome = .ok none) ∧
      (D.symbol ≠ B.symbol → ∀ ns : ValaNamespace,
        h.namespace_ (some B.namespace_) = .ok ns →
        (invocation_first_instance g h pe m none).c_text =
          ns.upper_case_cname ++ B.upper_case_cname ++ "(" ++ "self" ++ ")" ∧
        (invocation_first_instance g h pe m none).outcome = .ok none)) := by
  constructor
  · intro hs
    simp only [invocation_first_instance, Emit.seq_eq,
      (fun y => upcast_needed_struct h m y hs), Emit.run_ok_bind, Bool.false_eq_true, if_false,
      Emit.pure_bind]
    simp [Emit.bind, Emit.ret_eq, Emit.c_text, Output.append_c_file, fprintf_c_file]
  · intro hs B D hB hD
    constructor
    · intro hsym
      simp only [invocation_first_instance, Emit.seq_eq, Outcome.bind_eq, Outcome.pure_eq, hD,
        Outcome.ok_bind, (fun y => upcast_needed_class h m B y hs hB), Emit.run_ok_bind, hsym,
        ne_eq, not_true_eq_false, decide_False, Bool.false_eq_true, if_false, Emit.pure_bind]
      simp [Emit.bind, Emit.ret_eq, Emit.c_text, Output.append_c_file, fprintf_c_file]
    · intro hsym ns hns
      have hd : decide (some D.symbol ≠ some B.symbol) = true := by simp [hsym]
      simp only [invocation_first_instance, Emit.seq_eq, Outcome.bind_eq, Outcome.pure_eq, hD,
        Outcome.ok_bind, (fun y => upcast_needed_class h m B y hs hB), Emit.run_ok_bind, hd,
        if_true, upcast_open, hB, hns]
      simp [Emit.bind, Emit.ret_eq, Emit.c_text, Output.append_c_file, fprintf_c_file,
        String.append_assoc]

/-! ## Claims on the argument list of an invocation -/

/-- C16: for an invocation whose callee resolves to a method `m` (the node being unresolved, or
typed with the return type of the method), whose callee is emitted without a diagnostic and
whose user arguments are all emitted without a diagnostic, the expression emitter writes what
comes before the callee, the callee, and then the parenthesised argument list ` (` ... `)` whose
items are separated by `, ` with no leading or trailing separator.  When `m` is not static
and not `instance_last` the first item is the instance and the user arguments follow in their
order: the instance is the emitted receiver `x`, or `self` when the call has no receiver,
plain for a struct method and for a method of the class `B` when the type symbol of the
receiver (of the class being generated, for `self`) is the symbol of `B`, and inside the
upcast `NS B (` ... `)` when it is not.  When `m` is not static and `instance_last` the items
are the user arguments in their order followed by the emitted receiver, or `self`.  When `m`
is static the items are the user arguments in their order alone.  The receiver is the left
operand of the member-access callee. -/
theorem invocation_argument_list (g : ValaCodeGenerator) (h : Store) (fuel depth : Nat)
    (i : ExprInfo) (call : ValaExpression) (instance_ : Option ValaExpression)
    (args : List ValaExpression) (call1 : ValaExpression) (s : ValaSymbol) (m : ValaMethod)
    (inst1 : Option ValaExpression) (call2 : ValaExpression)
    (hcall : vala_code_generator_find_static_type_of_expression g h fuel call = .ok call1)
    (hsym : h.symbol call1.static_type_symbol = .ok s) (hm : h.method s.method = .ok m)
    (hi : i.static_type_symbol = none ∨ i.static_type_symbol = m.return_type.symbol)
    (hpre : (invocation_modified_pointer h
      (vala_code_generator_process_expression g h fuel depth)
      { i with static_type_symbol := m.return_type.symbol } m
      (invocation_instance call1 instance_)).outcome = .ok inst1)
    (hcallee : (vala_code_generator_process_expression g h fuel depth
      (set_member_access_left call1 inst1)).outcome = .ok call2)
    (hargs : (args.all fun a =>
      (vala_code_generator_process_expression g h fuel depth a).outcome.is_ok) = true) :
    (m.modifiers.STATIC = false → m.instance_last = false →
      (∀ x : ValaExpression, invocation_instance call2 inst1 = some x →
        x.static_type_symbol ≠ none →
        (vala_code_generator_process_expression g h fuel depth x).outcome.is_ok = true →
        (m.is_struct_method = true →
          (vala_code_generator_process_expression g h fuel (depth + 1)
            (.INVOCATION i call instance_ args)).c_text =
            (invocation_modified_pointer h
              (vala_code_generator_process_expression g h fuel depth)
              { i with static_type_symbol := m.return_type.symbol } m
              (invocation_instance call1 instance_)).c_text ++
            (vala_code_generator_process_expression g h fuel depth
              (set_member_access_left call1 inst1)).c_text ++
            (" (" ++ separated ", "
              ((vala_code_generator_process_expression g h fuel depth x).c_text ::
                args.map fun a =>
                  (vala_code_generator_process_expression g h fuel depth a).c_text) ++
              ")")) ∧
        (m.is_struct_method = false → ∀ B : ValaClass, h.class_ m.class_ = .ok B →
          ∀ ns : ValaNamespace, h.namespace_ (some B.namespace_) = .ok ns →
          (vala_code_generator_process_expression g h fuel (depth + 1)
            (.INVOCATION i call instance_ args)).c_text =
            (invocation_modified_pointer h
              (vala_code_generator_process_expression g h fuel depth)
              { i with static_type_symbol := m.return_type.symbol } m
              (invocation_instance call1 instance_)).c_text ++
            (vala_code_generator_process_expression g h fuel depth
              (set_member_access_left call1 inst1)).c_text ++
            (" (" ++ separated ", "
              ((if x.static_type_symbol ≠ some B.symbol then
                  ns.upper_case_cname ++ B.upper_case_cname ++ "(" ++
                    (vala_code_generator_process_expression g h fuel depth x).c_text ++ ")"
                else (vala_code_generator_process_expression g h fuel depth x).c_text) ::
                args.map fun a =>
                  (vala_code_generator_process_expression g h fuel depth a).c_text) ++
              ")"))) ∧
      (invocation_instance call2 inst1 = none →
        (m.is_struct_method = true →
          (vala_code_generator_process_expression g h fuel (depth + 1)
            (.INVOCATION i call instance_ args)).c_text =
            (invocation_modified_pointer h
              (vala_code_generator_process_expression g h fuel depth)
              { i with static_type_symbol := m.return_type.symbol } m
              (invocation_instance call1 instance_)).c_text ++
            (vala_code_generator_process_expression g h fuel depth
              (set_member_access_left call1 inst1)).c_text ++
            (" (" ++ separated ", " ("self" :: args.map fun a =>
              (vala_code_generator_process_expression g h fuel depth a).c_text) ++ ")")) ∧
        (m.is_struct_method = false → ∀ B D : ValaClass, h.class_ m.class_ = .ok B →
          h.class_ g.class_ = .ok D →
          ∀ ns : ValaNamespace, h.namespace_ (some B.namespace_) = .ok ns →
          (vala_code_generator_process_expression g h fuel (depth + 1)
            (.INVOCATION i call instance_ args)).c_text =
            (invocation_modified_pointer h
              (vala_code_generator_process_expression g h fuel depth)
              { i with static_type_symbol := m.return_type.symbol } m
              (invocation_instance call1 instance_)).c_text ++
            (vala_code_generator_process_expression g h fuel depth
              (set_member_access_left call1 inst1)).c_text ++
            (" (" ++ separated ", "
              ((if D.symbol ≠ B.symbol then
                  ns.upper_case_cname ++ B.upper_case_cname ++ "(" ++ "self" ++ ")"
                else "self") ::
                args.map fun a =>
                  (vala_code_generator_process_expression g h fuel depth a).c_text) ++
              ")")))) ∧
    (m.modifiers.STATIC = false → m.instance_last = true →
      (∀ x : ValaExpression, invocation_instance call2 inst1 = some x →
        (vala_code_generator_process_expression g h fuel depth x).outcome.is_ok = true →
        (vala_code_generator_process_expression g h fuel (depth + 1)
          (.INVOCATION i call instance_ args)).c_text =
          (invocation_modified_pointer h (vala_code_generator_process_expression g h fuel depth)
            { i with static_type_symbol := m.return_type.symbol } m
            (invocation_instance call1 instance_)).c_text ++
          (vala_code_generator_process_expression g h fuel depth
            (set_member_access_left call1 inst1)).c_text ++
          (" (" ++ separated ", " ((args.map fun a =>
              (vala_code_generator_process_expression g h fuel depth a).c_text) ++
            [(vala_code_generator_process_expression g h fuel depth x).c_text]) ++ ")")) ∧
      (invocation_instance call2 inst1 = none →
        (vala_code_generator_process_expression g h fuel (depth + 1)
          (.INVOCATION i call instance_ args)).c_text =
          (invocation_modified_pointer h (vala_code_generator_process_expression g h fuel depth)
            { i with static_type_symbol := m.return_type.symbol } m
            (invocation_instance call1 instance_)).c_text ++
          (vala_code_generator_process_expression g h fuel depth
            (set_member_access_left call1 inst1)).c_text ++
          (" (" ++ separated ", " ((args.map fun a =>
              (vala_code_generator_process_expression g h fuel depth a).c_text) ++
            ["self"]) ++ ")"))) ∧
    (m.modifiers.STATIC = true →
      (vala_code_generator_process_expression g h fuel (depth + 1)
        (.INVOCATION i call instance_ args)).c_text =
        (invocation_modified_pointer h (vala_code_generator_process_expression g h fuel depth)
          { i with static_type_symbol := m.return_type.symbol } m
          (invocation_instance call1 instance_)).c_text ++
        (vala_code_generator_process_expression g h fuel depth
          (set_member_access_left call1 inst1)).c_text ++
        (" (" ++ separated ", " (args.map fun a =>
          (vala_code_generator_process_expression g h fuel depth a).c_text) ++ ")")) ∧
    (∀ (j : ExprInfo) (x : ValaExpression) (r : String), call2 = .MEMBER_ACCESS j x r →
      invocation_instance call2 inst1 = some x) ∧
    (m.returns_modified_pointer = false → inst1 = invocation_instance call1 instance_ ∧
      set_member_access_left call1 inst1 = call1) := by
  have htext := process_expression_invocation_text g h fuel depth i call instance_ args call1
    s m inst1 call2 hcall hsym hm hi hpre hcallee
  rw [htext]
  refine ⟨?_, ?_, ?_, ?_, ?_⟩
  · intro hs hl
    constructor
    · intro x hx hxt hxo
      have hxo2 := hxo
      rw [Outcome.is_ok_iff] at hxo2
      obtain ⟨x1, hx1⟩ := hxo2
      have hkeep : x1.static_type_symbol = x.static_type_symbol := by
        have := process_expression_info g h fuel depth x x x1
          (find_static_type_resolved g h fuel x hxt) hx1
        simp only [ValaExpression.static_type_symbol, this]
      obtain ⟨h1, h2⟩ := invocation_first_instance_some g h
        (vala_code_generator_process_expression g h fuel depth) m x x1 hx1 hkeep
      rw [hx]
      constructor
      · intro hsm
        obtain ⟨h3, h4⟩ := h1 hsm
        rw [invocation_arguments_first g h _ m _ args hl hs (by rw [h4]; rfl) hargs, h3]
      · intro hsf B hB ns hns
        obtain ⟨h3, h4⟩ := h2 hsf B hB
        by_cases hsy : x.static_type_symbol = some B.symbol
        · simp only [hsy, ne_eq, not_true_eq_false, if_false]
          rw [invocation_arguments_first g h _ m _ args hl hs (by rw [(h3 hsy).2]; rfl) hargs,
            (h3 hsy).1]
        · simp only [hsy, ne_eq, not_false_eq_true, if_true]
          rw [invocation_arguments_first g h _ m _ args hl hs
            (by rw [(h4 hsy ns hns).2]; rfl) hargs, (h4 hsy ns hns).1]
    · intro hx
      obtain ⟨h1, h2⟩ := invocation_first_instance_none g h
        (vala_code_generator_process_expression g h fuel depth) m
      rw [hx]
      constructor
      · intro hsm
        obtain ⟨h3, h4⟩ := h1 hsm
        rw [invocation_arguments_first g h _ m _ args hl hs (by rw [h4]; rfl) hargs, h3]
      · intro hsf B D hB hD ns hns
        obtain ⟨h3, h4⟩ := h2 hsf B D hB hD
        by_cases hsy : D.symbol = B.symbol
        · simp only [hsy, ne_eq, not_true_eq_false, if_false]
          rw [invocation_arguments_first g h _ m _ args hl hs (by rw [(h3 hsy).2]; rfl) hargs,
            (h3 hsy).1]
        · simp only [hsy, ne_eq, not_false_eq_true, if_true]
          rw [invocation_arguments_first g h _ m _ args hl hs
            (by rw [(h4 hsy ns hns).2]; rfl) hargs, (h4 hsy ns hns).1]
  · intro hs hl
    constructor
    · intro x hx hxo
      rw [hx, invocation_arguments_last g h _ m x args hl hs hxo hargs]
    · intro hx
      rw [hx, invocation_arguments_last_self g h _ m args hl hs hargs]
  · intro hs
    rw [invocation_arguments_static g h _ m _ args hs hargs]
  · intro j x r hc2
    rw [hc2]
    rfl
  · intro hf
    rw [invocation_modified_pointer_plain h _ _ m _ hf] at hpre
    cases hpre
    exact ⟨rfl, set_member_access_left_instance call1 instance_⟩

/-- Witness of C16: in the body of `Circle.spin` of the second sample program, the call
`s.draw (1, 2)` passes the receiver `s` first, the call `c.draw (1, 2)` on a `Circle` passes
the receiver inside the upcast to `Shape`, the call `s.append (1, 2)` of an `instance_last`
method passes the receiver after the user arguments, and the call `create (1, 2)` of a static
method passes the user arguments alone. -/
theorem invocation_argument_list_witness :
    (vala_code_generator_process_expression demo_generator demo_store 3 3
      (.INVOCATION {} (.MEMBER_ACCESS {} (simple_name "s") "draw") none
        [.LITERAL_INTEGER {} "1", .LITERAL_INTEGER {} "2"])).c_text =
      "demo_shape_draw (s, 1, 2)" ∧
    (vala_code_generator_process_expression demo_generator demo_store 3 3
      (.INVOCATION {} (.MEMBER_ACCESS {} (simple_name "c") "draw") none
        [.LITERAL_INTEGER {} "1", .LITERAL_INTEGER {} "2"])).c_text =
      "demo_shape_draw (DEMO_SHAPE(c), 1, 2)" ∧
    (vala_code_generator_process_expression demo_generator demo_store 3 3
      (.INVOCATION {} (.MEMBER_ACCESS {} (simple_name "s") "append") none
        [.LITERAL_INTEGER {} "1", .LITERAL_INTEGER {} "2"])).c_text =
      "demo_shape_append (1, 2, s)" ∧
    (vala_code_generator_process_expression demo_generator demo_store 3 3
      (.INVOCATION {} (simple_name "create") none
        [.LITERAL_INTEGER {} "1", .LITERAL_INTEGER {} "2"])).c_text =
      "demo_shape_create (1, 2)" :=
  ⟨((((invocation_argument_list demo_generator demo_store 3 2 {}
      (.MEMBER_ACCESS {} (simple_name "s") "draw") none
      [.LITERAL_INTEGER {} "1", .LITERAL_INTEGER {} "2"] _ _ _ _ _ rfl rfl rfl (Or.inl rfl) rfl
      rfl rfl).1 rfl rfl).1 _ rfl (by decide) rfl).2 rfl _ rfl _ rfl).trans (by rfl),
    ((((invocation_argument_list demo_generator demo_store 3 2 {}
      (.MEMBER_ACCESS {} (simple_name "c") "draw") none
      [.LITERAL_INTEGER {} "1", .LITERAL_INTEGER {} "2"] _ _ _ _ _ rfl rfl rfl (Or.inl rfl) rfl
      rfl rfl).1 rfl rfl).1 _ rfl (by decide) rfl).2 rfl _ rfl _ rfl).trans (by rfl),
    (((invocation_argument_list demo_generator demo_store 3 2 {}
      (.MEMBER_ACCESS {} (simple_name "s") "append") none
      [.LITERAL_INTEGER {} "1", .LITERAL_INTEGER {} "2"] _ _ _ _ _ rfl rfl rfl (Or.inl rfl) rfl
      rfl rfl).2.1 rfl rfl).1 _ rfl rfl).trans (by rfl),
    ((invocation_argument_list demo_generator demo_store 3 2 {}
      (simple_name "create") none
      [.LITERAL_INTEGER {} "1", .LITERAL_INTEGER {} "2"] _ _ _ _ _ rfl rfl rfl (Or.inl rfl) rfl
      rfl rfl).2.2.1 rfl).trans (by rfl)⟩

/-- C17: for an invocation whose callee resolves to a method `m` that is not static and not
`instance_last` (the node being unresolved, or typed with the return type of the method),
whose callee and user arguments are emitted without a diagnostic, the first item of the
argument list is the instance: for a struct method the emitted instance, or `self`; for a
method declared in the class `B`, the emitted instance when its type symbol is the symbol of
`B` and the upcast `NS B (` instance `)` when it is not; and without an instance, plain `self`
when the symbol of the class being generated is the symbol of `B` and the upcast
`NS B (self)` when it is not.  The instance is one that has been resolved and is emitted
without a diagnostic. -/
theorem invocation_instance_upcast (g : ValaCodeGenerator) (h : Store) (fuel depth : Nat)
    (i : ExprInfo) (call : ValaExpression) (instance_ : Option ValaExpression)
    (args : List ValaExpression) (call1 : ValaExpression) (s : ValaSymbol) (m : ValaMethod)
    (inst1 : Option ValaExpression) (call2 : ValaExpression)
    (hcall : vala_code_generator_find_static_type_of_expression g h fuel call = .ok call1)
    (hsym : h.symbol call1.static_type_symbol = .ok s) (hm : h.method s.method = .ok m)
    (hi : i.static_type_symbol = none ∨ i.static_type_symbol = m.return_type.symbol)
    (hpre : (invocation_modified_pointer h
      (vala_code_generator_process_expression g h fuel depth)
      { i with static_type_symbol := m.return_type.symbol } m
      (invocation_instance call1 instance_)).outcome = .ok inst1)
    (hcallee : (vala_code_generator_process_expression g h fuel depth
      (set_member_access_left call1 inst1)).outcome = .ok call2)
    (hargs : (args.all fun a =>
      (vala_code_generator_process_expression g h fuel depth a).outcome.is_ok) = true)
    (hs : m.modifiers.STATIC = false) (hl : m.instance_last = false) :
    (∀ item : String,
      (invocation_first_instance g h (vala_code_generator_process_expression g h fuel depth) m
        (invocation_instance call2 inst1)).outcome.is_ok = true →
      (invocation_first_instance g h (vala_code_generator_process_expression g h fuel depth) m
        (invocation_instance call2 inst1)).c_text = item →
      (vala_code_generator_process_expression g h fuel (depth + 1)
        (.INVOCATION i call instance_ args)).c_text =
        (invocation_modified_pointer h (vala_code_generator_process_expression g h fuel depth)
          { i with static_type_symbol := m.return_type.symbol } m
          (invocation_instance call1 instance_)).c_text ++
        (vala_code_generator_process_expression g h fuel depth
          (set_member_access_left call1 inst1)).c_text ++
        (" (" ++ separated ", " (item ::
          args.map fun a => (vala_code_generator_process_expression g h fuel depth a).c_text) ++
          ")")) ∧
    (∀ x : ValaExpression, invocation_instance call2 inst1 = some x →
      x.static_type_symbol ≠ none →
      (vala_code_generator_process_expression g h fuel depth x).outcome.is_ok = true →
      (m.is_struct_method = true →
        (invocation_first_instance g h (vala_code_generator_process_expression g h fuel depth)
          m (invocation_instance call2 inst1)).outcome.is_ok = true ∧
        (invocation_first_instance g h (vala_code_generator_process_expression g h fuel depth)
          m (invocation_instance call2 inst1)).c_text =
          (vala_code_generator_process_expression g h fuel depth x).c_text) ∧
      (m.is_struct_method = false → ∀ B : ValaClass, h.class_ m.class_ = .ok B →
        ∀ ns : ValaNamespace, h.namespace_ (some B.namespace_) = .ok ns →
        (invocation_first_instance g h (vala_code_generator_process_expression g h fuel depth)
          m (invocation_instance call2 inst1)).outcome.is_ok = true ∧
        (invocation_first_instance g h (vala_code_generator_process_expression g h fuel depth)
          m (invocation_instance call2 inst1)).c_text =
          if x.static_type_symbol ≠ some B.symbol then
            ns.upper_case_cname ++ B.upper_case_cname ++ "(" ++
              (vala_code_generator_process_expression g h fuel depth x).c_text ++ ")"
          else (vala_code_generator_process_expression g h fuel depth x).c_text)) ∧
    (invocation_instance call2 inst1 = none →
      (m.is_struct_method = true →
        (invocation_first_instance g h (vala_code_generator_process_expression g h fuel depth)
          m (invocation_instance call2 inst1)).outcome.is_ok = true ∧
        (invocation_first_instance g h (vala_code_generator_process_expression g h fuel depth)
          m (invocation_instance call2 inst1)).c_text = "self") ∧
      (m.is_struct_method = false → ∀ B D : ValaClass, h.class_ m.class_ = .ok B →
        h.class_ g.class_ = .ok D →
        ∀ ns : ValaNamespace, h.namespace_ (some B.namespace_) = .ok ns →
        (invocation_first_instance g h (vala_code_generator_process_expression g h fuel depth)
          m (invocation_instance call2 inst1)).outcome.is_ok = true ∧
        (invocation_first_instance g h (vala_code_generator_process_expression g h fuel depth)
          m (invocation_instance call2 inst1)).c_text =
          if D.symbol ≠ B.symbol then
            ns.upper_case_cname ++ B.upper_case_cname ++ "(" ++ "self" ++ ")"
          else "self")) := by
  refine ⟨?_, ?_, ?_⟩
  · intro item hfi hitem
    rw [process_expression_invocation_text g h fuel depth i call instance_ args call1 s m inst1
      call2 hcall hsym hm hi hpre hcallee,
      invocation_arguments_first g h _ m _ args hl hs hfi hargs, hitem]
  · intro x hx hxt hxo
    rw [Outcome.is_ok_iff] at hxo
    obtain ⟨x1, hx1⟩ := hxo
    have hkeep : x1.static_type_symbol = x.static_type_symbol := by
      have := process_expression_info g h fuel depth x x x1
        (find_static_type_resolved g h fuel x hxt) hx1
      simp only [ValaExpression.static_type_symbol, this]
    obtain ⟨h1, h2⟩ := invocation_first_instance_some g h
      (vala_code_generator_process_expression g h fuel depth) m x x1 hx1 hkeep
    rw [hx]
    constructor
    · intro hsm
      obtain ⟨h3, h4⟩ := h1 hsm
      exact ⟨by rw [h4]; rfl, h3⟩
    · intro hsf B hB ns hns
      obtain ⟨h3, h4⟩ := h2 hsf B hB
      by_cases hsy : x.static_type_symbol = some B.symbol
      · simp only [hsy, ne_eq, not_true_eq_false, if_false]
        exact ⟨by rw [(h3 hsy).2]; rfl, (h3 hsy).1⟩
      · simp only [hsy, ne_eq, not_false_eq_true, if_true]
        exact ⟨by rw [(h4 hsy ns hns).2]; rfl, (h4 hsy ns hns).1⟩
  · intro hx
    obtain ⟨h1, h2⟩ := invocation_first_instance_none g h
      (vala_code_generator_process_expression g h fuel depth) m
    rw [hx]
    constructor
    · intro hsm
      obtain ⟨h3, h4⟩ := h1 hsm
      exact ⟨by rw [h4]; rfl, h3⟩
    · intro hsf B D hB hD ns hns
      obtain ⟨h3, h4⟩ := h2 hsf B D hB hD
      by_cases hsy : D.symbol = B.symbol
      · simp only [hsy, ne_eq, not_true_eq_false, if_false]
        exact ⟨by rw [(h3 hsy).2]; rfl, (h3 hsy).1⟩
      · simp only [hsy, ne_eq, not_false_eq_true, if_true]
        exact ⟨by rw [(h4 hsy ns hns).2]; rfl, (h4 hsy ns hns).1⟩

/-- Witness of C17: in the body of `Circle.spin` of the second sample program the implicit-this
call `draw (1)` of the method `draw` of the base class `Shape` passes `self` through the
upcast to `Shape`. -/
theorem invocation_instance_upcast_witness :
    (vala_code_generator_process_expression demo_generator demo_store 3 3
      (.INVOCATION {} (simple_name "draw") none [.LITERAL_INTEGER {} "1"])).c_text =
      "demo_shape_draw (DEMO_SHAPE(self), 1)" :=
  ((invocation_instance_upcast demo_generator demo_store 3 2 {} (simple_name "draw") none
    [.LITERAL_INTEGER {} "1"] _ _ _ _ _ rfl rfl rfl (Or.inl rfl) rfl rfl rfl rfl rfl).1
    "DEMO_SHAPE(self)" rfl rfl).trans (by rfl)

/-! ## Claims on type checks and loops -/

/-- The resolver keeps an `is` expression an `is` expression on the same type and operand, at
the same location. -/
theorem find_static_type_is_shape (g : ValaCodeGenerator) (h : Store) (fuel : Nat)
    (i : ExprInfo) (type : ValaTypeReference) (expr e' : ValaExpression)
    (he : vala_code_generator_find_static_type_of_expression g h fuel (.IS i type expr) =
      .ok e') :
    ∃ i' : ExprInfo, e' = .IS i' type expr ∧ i'.location = i.location := by
  rw [vala_code_generator_find_static_type_of_expression] at he
  by_cases hi : i.static_type_symbol = none
  · simp only [hi, ne_eq, not_true_eq_false, if_false, Outcome.bind_eq, Outcome.pure_eq,
      Outcome.bind_eq_ok] at he
    obtain ⟨root, _, he⟩ := he
    cases he
    exact ⟨_, rfl, rfl⟩
  · simp only [hi, ne_eq, not_false_eq_true, if_true, Outcome.pure_eq] at he
    cases he
    exact ⟨i, rfl, rfl⟩

/-- The `is` arm on a type that is not a class. -/
theorem process_is_non_class (h : Store) (pe : ValaExpression → Emit ValaExpression)
    (i : ExprInfo) (type : ValaTypeReference) (expr : ValaExpression) (sym : ValaSymbol)
    (hsym : h.symbol type.symbol = .ok sym) (ht : sym.type ≠ .CLASS) :
    vala_code_generator_process_is h pe (.IS i type expr) =
      Emit.run (.exit i.location .IsOnNonClass) := by
  simp only [vala_code_generator_process_is, Emit.seq_eq, hsym, Emit.run_ok_bind, ht,
    if_false, err]

/-- The `is` arm on a class. -/
theorem process_is_class (h : Store) (pe : ValaExpression → Emit ValaExpression)
    (i : ExprInfo) (type : ValaTypeReference) (expr : ValaExpression) (sym : ValaSymbol)
    (cl : ValaClass) (ns : ValaNamespace)
    (hsym : h.symbol type.symbol = .ok sym) (ht : sym.type = .CLASS)
    (hcl : h.class_ sym.class_ = .ok cl) (hns : h.namespace_ (some cl.namespace_) = .ok ns) :
    ((pe expr).outcome.is_ok = true →
      (vala_code_generator_process_is h pe (.IS i type expr)).c_text =
        ns.upper_case_cname ++ "IS_" ++ cl.upper_case_cname ++ " (" ++ (pe expr).c_text ++ ")" ∧
      (vala_code_generator_process_is h pe (.IS i type expr)).outcome.is_ok = true) ∧
    ∀ l d, (vala_code_generator_process_is h pe (.IS i type expr)).outcome = .exit l d ↔
      (pe expr).outcome = .exit l d := by
  cases hp : pe expr with
  | mk w o =>
    simp only [vala_code_generator_process_is, Emit.seq_eq, hsym, Emit.run_ok_bind, ht,
      if_true, hcl, hns]
    cases o <;>
      simp [hp, Emit.bind, Emit.ret_eq, Emit.c_text, Output.append_c_file, fprintf_c_file,
        String.append_assoc, Outcome.is_ok]

/-- The `is` arm on a class reports what the emission of its operand reports. -/
theorem process_is_class_exit (h : Store) (pe : ValaExpression → Emit ValaExpression)
    (i : ExprInfo) (type : ValaTypeReference) (expr : ValaExpression) (sym : ValaSymbol)
    (hsym : h.symbol type.symbol = .ok sym) (ht : sym.type = .CLASS) (l : Option ValaLocation)
    (d : Diagnostic)
    (hx : (vala_code_generator_process_is h pe (.IS i type expr)).outcome = .exit l d) :
    (pe expr).outcome = .exit l d := by
  simp only [vala_code_generator_process_is, Emit.seq_eq, hsym, Emit.run_ok_bind, ht,
    if_true] at hx
  cases hcl : h.class_ sym.class_ with
  | ok cl =>
    rw [hcl, Emit.run_ok_bind] at hx
    cases hns : h.namespace_ (some cl.namespace_) with
    | ok ns =>
      rw [hns, Emit.run_ok_bind] at hx
      cases hp : pe expr with
      | mk w o =>
        cases o <;> simp_all [Emit.bind, Emit.ret_eq, fprintf_c_file]
    | exit l2 d2 => exact (Outcome.of_option_ne_exit _ l2 d2 hns).elim
    | fault =>
      rw [hns] at hx
      cases hx
    | out_of_fuel =>
      rw [hns] at hx
      cases hx
  | exit l2 d2 => exact (Outcome.of_option_ne_exit _ l2 d2 hcl).elim
  | fault =>
    rw [hcl] at hx
    cases hx
  | out_of_fuel =>
    rw [hcl] at hx
    cases hx

/-- C19: for an `is` expression that the resolver resolves, with `sym` the symbol of the tested
type: if `sym` is a class with the upper-case C names `NS` and `CLASS` and the operand is
emitted without a diagnostic, the expression emitter writes `NS IS_CLASS (` operand `)` and
returns; if `sym` is not a class, it reports IsOnNonClass at the location of the expression
and writes nothing.  When the emission of the operand does not itself report IsOnNonClass, the
diagnostic is reported if and only if the kind of `sym` is not Class. -/
theorem is_emitted (g : ValaCodeGenerator) (h : Store) (fuel depth : Nat) (i : ExprInfo)
    (type : ValaTypeReference) (expr e1 : ValaExpression) (sym : ValaSymbol)
    (hres : vala_code_generator_find_static_type_of_expression g h fuel (.IS i type expr) =
      .ok e1)
    (hsym : h.symbol type.symbol = .ok sym) :
    (sym.type = .CLASS → ∀ (cl : ValaClass) (ns : ValaNamespace),
      h.class_ sym.class_ = .ok cl → h.namespace_ (some cl.namespace_) = .ok ns →
      (vala_code_generator_process_expression g h fuel depth expr).outcome.is_ok = true →
      (vala_code_generator_process_expression g h fuel (depth + 1) (.IS i type expr)).c_text =
        ns.upper_case_cname ++ "IS_" ++ cl.upper_case_cname ++ " (" ++
          (vala_code_generator_process_expression g h fuel depth expr).c_text ++ ")" ∧
      (vala_code_generator_process_expression g h fuel (depth + 1)
        (.IS i type expr)).outcome.is_ok = true) ∧
    (sym.type ≠ .CLASS →
      (vala_code_generator_process_expression g h fuel (depth + 1) (.IS i type expr)).outcome =
        .exit i.location .IsOnNonClass ∧
      (vala_code_generator_process_expression g h fuel (depth + 1) (.IS i type expr)).c_text =
        "") ∧
    ((∀ l, (vala_code_generator_process_expression g h fuel depth expr).outcome ≠
        .exit l .IsOnNonClass) →
      ((∃ l, (vala_code_generator_process_expression g h fuel (depth + 1)
          (.IS i type expr)).outcome = .exit l .IsOnNonClass) ↔ sym.type ≠ .CLASS)) := by
  obtain ⟨i', hi', hloc⟩ := find_static_type_is_shape g h fuel i type expr e1 hres
  subst hi'
  have hsw : vala_code_generator_process_expression g h fuel (depth + 1) (.IS i type expr) =
      vala_code_generator_process_is h (vala_code_generator_process_expression g h fuel depth)
        (.IS i' type expr) := process_expression_of_resolved g h fuel depth _ _ hres
  rw [hsw]
  refine ⟨?_, ?_, ?_⟩
  · intro ht cl ns hcl hns hok
    exact (process_is_class h _ i' type expr sym cl ns hsym ht hcl hns).1 hok
  · intro ht
    rw [process_is_non_class h _ i' type expr sym hsym ht, hloc]
    exact ⟨rfl, rfl⟩
  · intro hin
    constructor
    · rintro ⟨l, hl⟩ ht
      exact hin l (process_is_class_exit h _ i' type expr sym hsym ht l _ hl)
    · intro ht
      rw [process_is_non_class h _ i' type expr sym hsym ht]
      exact ⟨i'.location, rfl⟩

/-- Witness of C19: in the body of `Circle.spin` of the second sample program the check
`c is Shape` is written with the type-check of `Shape`. -/
theorem is_emitted_witness :
    (vala_code_generator_process_expression demo_generator demo_store 3 2
      (.IS {} { symbol := some 6 } (simple_name "c"))).c_text = "DEMO_IS_SHAPE (c)" :=
  (((is_emitted demo_generator demo_store 3 1 {} { symbol := some 6 } (simple_name "c") _ _
    rfl rfl).1 rfl _ _ rfl rfl rfl).1).trans (by rfl)

/-! ## Lemmas on local variables -/

/-- A name that has just been inserted is found. -/
theorem g_hash_table_lookup_insert (table : GHashTable) (key : String) (value : SymPtr) :
    g_hash_table_lookup (g_hash_table_insert table key value) key = some value := by
  simp [g_hash_table_lookup, g_hash_table_insert, List.lookup]

/-- The declaration of a local variable in the scope of the body: the store gets one more
symbol, a LocalVariable that carries the type reference, and the table of the scope binds the
name to it; nothing else changes. -/
theorem declare_local_variable_eq (g : ValaCodeGenerator) (h : Store) (name : String)
    (type : ValaTypeReference) (sp : SymPtr) (scope : ValaSymbol)
    (hg : g.sym = some sp) (hs : h.symbol (some sp) = .ok scope) :
    ∃ h1 : Store, declare_local_variable g h name type = .ok h1 ∧
      h1.symbol (some sp) = .ok { scope with
        symbol_table := g_hash_table_insert scope.symbol_table name h.symbols.length } ∧
      h1.symbol (some h.symbols.length) =
        .ok { type := .LOCAL_VARIABLE, typeref := some type } ∧
      h1.symbols.length = h.symbols.length + 1 ∧
      (∀ p, p ≠ sp → p < h.symbols.length → h1.symbols[p]? = h.symbols[p]?) ∧
      h1.classes = h.classes ∧ h1.methods = h.methods ∧ h1.fields = h.fields ∧
      h1.properties = h.properties ∧ h1.namespaces = h.namespaces ∧
      h1.source_files = h.source_files ∧ h1.structs = h.structs ∧ h1.enums = h.enums ∧
      h1.enum_values = h.enum_values := by
  have hlt : sp < h.symbols.length := by
    simp only [Store.symbol, Option.bind] at hs
    by_contra hn
    rw [List.getElem?_eq_none (Nat.le_of_not_lt hn)] at hs
    cases hs
  have hne : sp ≠ h.symbols.length := Nat.ne_of_lt hlt
  have hsc : (h.symbols ++ [({ type := .LOCAL_VARIABLE } : ValaSymbol)])[sp]? = some scope := by
    rw [List.getElem?_append_left hlt]
    simp only [Store.symbol, Option.bind] at hs
    cases hx : h.symbols[sp]? with
    | none => rw [hx] at hs; cases hs
    | some v => rw [hx] at hs; cases hs; rfl
  simp only [declare_local_variable, vala_symbol_new, hg, Outcome.of_option, Outcome.bind_eq,
    Outcome.ok_bind, Store.symbol, Option.bind, hsc, Outcome.pure_eq]
  have hnew : ((h.symbols ++ [({ type := .LOCAL_VARIABLE } : ValaSymbol)]).set sp
      { scope with symbol_table :=
        g_hash_table_insert scope.symbol_table name h.symbols.length })[h.symbols.length]? =
      some { type := .LOCAL_VARIABLE } := by
    rw [List.getElem?_set_ne hne]
    simp
  simp only [hnew, Outcome.ok_bind]
  refine ⟨_, rfl, ?_, ?_, ?_, ?_, rfl, rfl, rfl, rfl, rfl, rfl, rfl, rfl, rfl⟩
  · simp only
    rw [List.getElem?_set_ne (Ne.symm hne), List.getElem?_set_self (by simp; exact Nat.lt_succ_of_lt hlt)]
  · simp only
    rw [List.getElem?_set_self (by simp)]
  · simp
  · intro p hp hpl
    simp only
    rw [List.getElem?_set_ne (Nat.ne_of_gt hpl), List.getElem?_set_ne (Ne.symm hp),
      List.getElem?_append_left hpl]

/-- The resolver finds a local variable that has just been declared, with its type. -/
theorem simple_name_local_declared (g : ValaCodeGenerator) (h1 : Store) (i : ExprInfo)
    (name : String) (type : ValaTypeReference) (sp p : SymPtr) (scope : ValaSymbol)
    (table : GHashTable) (hg : g.sym = some sp)
    (hs : h1.symbol (some sp) = .ok { scope with symbol_table := table })
    (hl : g_hash_table_lookup table name = some p)
    (hp : h1.symbol (some p) = .ok { type := .LOCAL_VARIABLE, typeref := some type }) :
    simple_name_local g h1 i name =
      .ok { i with static_type_symbol := type.symbol, array_type := type.array_type } := by
  simp [simple_name_local, hg, hs, hl, hp, Outcome.of_option]

/-- The foreach arm over an array. -/
theorem process_foreach_statement_array (g : ValaCodeGenerator) (fuel : Nat)
    (pe : Store → ValaExpression → Emit ValaExpression)
    (ps : ValaStatement → Store → Emit (ValaStatement × Store)) (i : StmtInfo)
    (type : ValaTypeReference) (name : String) (container : ValaExpression)
    (loop : ValaStatement) (h h1 : Store) (c1 : ValaExpression) (ctype tname : String)
    (hc : vala_code_generator_find_static_type_of_expression g h fuel container = .ok c1)
    (ha : c1.array_type = true)
    (hct : get_cname_for_static_expression_type h c1 i.location = .ok ctype)
    (hxs : (pe h c1).outcome.is_ok = true)
    (hT : get_cname_for_type_reference h type false i.location = .ok tname)
    (hdecl : declare_local_variable g h name type = .ok h1)
    (hbody : (ps loop h1).outcome.is_ok = true) :
    (vala_code_generator_process_foreach_statement g fuel pe ps
      (.FOREACH i type name container loop) h).c_text =
      "\t" ++ ctype ++ name ++ "_it;\n" ++
      ("\tfor (" ++ (name ++ "_it = ") ++ (pe h c1).c_text ++ "; " ++
        ("*" ++ name ++ "_it != NULL") ++ "; " ++ (name ++ "_it++") ++ ") \x7b\n") ++
      ("\t\t" ++ tname ++ name ++ " = *" ++ name ++ "_it;\n") ++
      (ps loop h1).c_text ++ "\x7d\n" ∧
    (vala_code_generator_process_foreach_statement g fuel pe ps
      (.FOREACH i type name container loop) h).outcome.is_ok = true := by
  cases hp : pe h c1 with
  | mk w o =>
    cases hb : ps loop h1 with
    | mk w2 o2 =>
      rw [hp] at hxs
      rw [hb] at hbody
      cases o with
      | ok c2 =>
        cases o2 with
        | ok r =>
          simp only [vala_code_generator_process_foreach_statement, Emit.seq_eq, hc,
            Emit.run_ok_bind, foreach_head, ha, if_true, hct, hT, hdecl]
          simp only [hp, hb, Emit.bind, fprintf_c_file, Emit.ret_eq, Emit.c_text,
            Output.append_c_file, String.append_assoc, Emit.run, Outcome.is_ok,
            String.append_empty, and_true]
        | exit l d => cases hbody
        | fault => cases hbody
        | out_of_fuel => cases hbody
      | exit l d => cases hxs
      | fault => cases hxs
      | out_of_fuel => cases hxs

/-- The foreach arm over a list. -/
theorem process_foreach_statement_list (g : ValaCodeGenerator) (fuel : Nat)
    (pe : Store → ValaExpression → Emit ValaExpression)
    (ps : ValaStatement → Store → Emit (ValaStatement × Store)) (i : StmtInfo)
    (type : ValaTypeReference) (name : String) (container : ValaExpression)
    (loop : ValaStatement) (h h1 : Store) (c1 : ValaExpression) (tname : String)
    (hc : vala_code_generator_find_static_type_of_expression g h fuel container = .ok c1)
    (ha : c1.array_type = false)
    (hxs : (pe h c1).outcome.is_ok = true)
    (hT : get_cname_for_type_reference h type false i.location = .ok tname)
    (hdecl : declare_local_variable g h name type = .ok h1)
    (hbody : (ps loop h1).outcome.is_ok = true) :
    (vala_code_generator_process_foreach_statement g fuel pe ps
      (.FOREACH i type name container loop) h).c_text =
      "\tGList *" ++ name ++ "_it;\n" ++
      ("\tfor (" ++ (name ++ "_it = ") ++ (pe h c1).c_text ++ "; " ++
        (name ++ "_it != NULL") ++ "; " ++ (name ++ "_it = " ++ name ++ "_it->next") ++
        ") \x7b\n") ++
      ("\t" ++ tname ++ name ++ " = " ++ name ++ "_it->data;\n") ++
      (ps loop h1).c_text ++ "\x7d\n" ∧
    (vala_code_generator_process_foreach_statement g fuel pe ps
      (.FOREACH i type name container loop) h).outcome.is_ok = true := by
  cases hp : pe h c1 with
  | mk w o =>
    cases hb : ps loop h1 with
    | mk w2 o2 =>
      rw [hp] at hxs
      rw [hb] at hbody
      cases o with
      | ok c2 =>
        cases o2 with
        | ok r =>
          simp only [vala_code_generator_process_foreach_statement, Emit.seq_eq, hc,
            Emit.run_ok_bind, foreach_head, ha, Bool.false_eq_true, if_false, hT, hdecl]
          simp only [hp, hb, Emit.bind, fprintf_c_file, Emit.ret_eq, Emit.c_text,
            Output.append_c_file, String.append_assoc, Emit.run, Outcome.is_ok,
            String.append_empty, and_true]
        | exit l d => cases hbody
        | fault => cases hbody
        | out_of_fuel => cases hbody
      | exit l d => cases hxs
      | fault => cases hxs
      | out_of_fuel => cases hxs

/-- The statement switch sends a foreach statement to the foreach arm. -/
theorem process_statement_foreach (g : ValaCodeGenerator) (fuel depth : Nat) (i : StmtInfo)
    (type : ValaTypeReference) (name : String) (container : ValaExpression)
    (loop : ValaStatement) (h : Store) :
    vala_code_generator_process_statement g fuel (depth + 1)
        (.FOREACH i type name container loop) h =
      vala_code_generator_process_foreach_statement g fuel
        (fun s e => vala_code_generator_process_expression g s fuel depth e)
        (fun s t => vala_code_generator_process_statement g fuel depth s t)
        (.FOREACH i type name container loop) h := by
  rw [vala_code_generator_process_statement]

/-- C20: for a statement `foreach (T name in xs)` whose container resolves and is emitted
without a diagnostic, with `T` a type that has a C name, in a body scope where the loop
variable can be declared and with a body that is emitted without a diagnostic: if the resolved
container has its `array_type` flag set, the statement emitter writes the declaration of the
iterator `name_it` with the C type of the container, then
`for (name_it = ` xs `; *name_it != NULL; name_it++) {`, then `T name = *name_it;`; otherwise it
writes the declaration `GList *name_it;`, then
`for (name_it = ` xs `; name_it != NULL; name_it = name_it->next) {`, then
`T name = name_it->data;`.  In both cases the emitted body and a closing brace follow, and the
body is emitted in the store in which the table of the scope binds `name` to a new
LocalVariable symbol that carries `T`, so that the resolver gives the name the type `T`. -/
theorem foreach_emitted (g : ValaCodeGenerator) (fuel depth : Nat) (i : StmtInfo)
    (type : ValaTypeReference) (name : String) (container : ValaExpression)
    (loop : ValaStatement) (h h1 : Store) (c1 : ValaExpression) (tname : String) (sp : SymPtr)
    (scope : ValaSymbol)
    (hc : vala_code_generator_find_static_type_of_expression g h fuel container = .ok c1)
    (hxs : (vala_code_generator_process_expression g h fuel depth container).outcome.is_ok =
      true)
    (hT : get_cname_for_type_reference h type false i.location = .ok tname)
    (hg : g.sym = some sp) (hs : h.symbol (some sp) = .ok scope)
    (hdecl : declare_local_variable g h name type = .ok h1)
    (hbody : (vala_code_generator_process_statement g fuel depth loop h1).outcome.is_ok =
      true) :
    (c1.array_type = true → ∀ ctype : String,
      get_cname_for_static_expression_type h c1 i.location = .ok ctype →
      (vala_code_generator_process_statement g fuel (depth + 1)
        (.FOREACH i type name container loop) h).c_text =
        "\t" ++ ctype ++ name ++ "_it;\n" ++
        ("\tfor (" ++ (name ++ "_it = ") ++
          (vala_code_generator_process_expression g h fuel depth container).c_text ++ "; " ++
          ("*" ++ name ++ "_it != NULL") ++ "; " ++ (name ++ "_it++") ++ ") \x7b\n") ++
        ("\t\t" ++ tname ++ name ++ " = *" ++ name ++ "_it;\n") ++
        (vala_code_generator_process_statement g fuel depth loop h1).c_text ++ "\x7d\n") ∧
    (c1.array_type = false →
      (vala_code_generator_process_statement g fuel (depth + 1)
        (.FOREACH i type name container loop) h).c_text =
        "\tGList *" ++ name ++ "_it;\n" ++
        ("\tfor (" ++ (name ++ "_it = ") ++
          (vala_code_generator_process_expression g h fuel depth container).c_text ++ "; " ++
          (name ++ "_it != NULL") ++ "; " ++ (name ++ "_it = " ++ name ++ "_it->next") ++
          ") \x7b\n") ++
        ("\t" ++ tname ++ name ++ " = " ++ name ++ "_it->data;\n") ++
        (vala_code_generator_process_statement g fuel depth loop h1).c_text ++ "\x7d\n") ∧
    h1.symbol (some sp) = .ok { scope with
      symbol_table := g_hash_table_insert scope.symbol_table name h.symbols.length } ∧
    g_hash_table_lookup (g_hash_table_insert scope.symbol_table name h.symbols.length) name =
      some h.symbols.length ∧
    h1.symbol (some h.symbols.length) = .ok { type := .LOCAL_VARIABLE, typeref := some type } ∧
    (∀ j : ExprInfo, simple_name_local g h1 j name =
      .ok { j with static_type_symbol := type.symbol, array_type := type.array_type }) := by
  obtain ⟨h2, hd2, hsc, hnew, -⟩ := declare_local_variable_eq g h name type sp scope hg hs
  rw [hdecl] at hd2
  cases hd2
  have hl := g_hash_table_lookup_insert scope.symbol_table name h.symbols.length
  have hpe := process_expression_congr g h fuel depth container c1 hc
  rw [process_statement_foreach, hpe]
  rw [hpe] at hxs
  refine ⟨?_, ?_, hsc, hl, hnew, ?_⟩
  · intro ha ctype hct
    exact (process_foreach_statement_array g fuel _ _ i type name container loop h h1 c1 ctype
      tname hc ha hct hxs hT hdecl hbody).1
  · intro ha
    exact (process_foreach_statement_list g fuel _ _ i type name container loop h h1 c1 tname
      hc ha hxs hT hdecl hbody).1
  · intro j
    exact simple_name_local_declared g h1 j name type sp h.symbols.length scope _ hg hsc hl hnew

/-- Witness of C20: in the body of `Circle.spin` of the second sample program the loop
`foreach (string x in xs) { x; }` over the array `xs` is written with the iterator `x_it` of
type `char **`. -/
theorem foreach_emitted_witness :
    (vala_code_generator_process_statement demo_generator 3 4
      (.FOREACH {} { symbol := some 3 } "x" (simple_name "xs")
        (.BLOCK {} [.EXPRESSION {} (simple_name "x")])) demo_store).c_text =
      "\tchar **x_it;\n\tfor (x_it = xs; *x_it != NULL; x_it++) \x7b\n\t\tchar *x = *x_it;\n" ++
        "\x7b\n\tx;\n\x7d\n\x7d\n" :=
  ((foreach_emitted demo_generator 3 3 {} { symbol := some 3 } "x" (simple_name "xs")
    (.BLOCK {} [.EXPRESSION {} (simple_name "x")]) demo_store _ _ _ 19 _ rfl rfl rfl rfl rfl
    rfl rfl).1 rfl _ rfl).trans (by rfl)

/-! ## Claims on the declaration of a local variable -/

/-- The statement emitter on a variable declaration is the function for declarations. -/
theorem process_statement_variable_declaration (g : ValaCodeGenerator) (fuel depth : Nat)
    (i : StmtInfo) (d : ValaVariableDeclaration) (h : Store) :
    vala_code_generator_process_statement g fuel (depth + 1) (.VARIABLE_DECLARATION i d) h =
      vala_code_generator_process_variable_declaration g fuel
        (fun s e => vala_code_generator_process_expression g s fuel depth e)
        (.VARIABLE_DECLARATION i d) h := rfl

/-- Lines 870-883 for a declaration whose type and initializer are known: the text, and the
store with the new local variable. -/
theorem variable_declaration_tail (g : ValaCodeGenerator)
    (pe : ValaExpression → Emit ValaExpression) (i : StmtInfo) (name : String)
    (type : ValaTypeReference) (init : Option ValaExpression) (h h1 : Store) (ctype : String)
    (x : Emit (ValaStatement × Store))
    (hx : x = ((Emit.run (get_cname_for_type_reference h type false i.location)).bind
      fun decl_string =>
        (fprintf_c_file ("\t" ++ decl_string ++ name)).bind fun _ =>
        (match init with
          | some e => (fprintf_c_file " = ").bind fun _ =>
            (pe e).bind fun e => pure (some e)
          | none => pure none).bind fun expr =>
        (fprintf_c_file ";\n").bind fun _ =>
        (Emit.run (declare_local_variable g h name type)).bind fun h =>
        (pure (ValaStatement.VARIABLE_DECLARATION i
          { type := type, declarator := { name := name, initializer := expr } }, h) :
          Emit (ValaStatement × Store))))
    (hct : get_cname_for_type_reference h type false i.location = .ok ctype)
    (hinit : ∀ e, init = some e → (pe e).outcome.is_ok = true)
    (hdecl : declare_local_variable g h name type = .ok h1) :
    (∃ s, x.outcome = .ok (s, h1)) ∧
      x.c_text = "\t" ++ ctype ++ name ++ initializer_text pe init ++ ";\n" := by
  subst hx
  rw [hct, Emit.run_ok_bind, hdecl]
  cases init with
  | none =>
    simp [Emit.bind, fprintf_c_file, Emit.ret_eq, Emit.run, initializer_text,
      Emit.c_text, Output.append_c_file]
  | some e =>
    obtain ⟨e1, he1⟩ := (Outcome.is_ok_iff _).1 (hinit e rfl)
    cases hp : pe e with
    | mk w o =>
      rw [hp] at he1
      simp only at he1
      subst he1
      simp [Emit.bind, fprintf_c_file, Emit.ret_eq, Emit.run, initializer_text, hp,
        Emit.c_text, Output.append_c_file, String.append_assoc]

/-- C21: the statement emitter on the declaration of a variable `x`, in a body whose scope
symbol is in the store.  With a declared type `T` that has the C name `ctype` and an
initializer, if there is one, that is emitted without a diagnostic, and with the type `var`
and an initializer that resolves to `e1` and is emitted without a diagnostic, where the type
reference with its symbol set to the `static_type_symbol` of `e1` has the C name `ctype`: the
run returns, the text written is a tab, `ctype`, `x`, then ` = ` and the text of the
initializer exactly when there is one, then `;` and a line end; and in the store returned the
table of the scope binds `x` to a new LocalVariable symbol that carries that type reference,
so that the scope lookup of the resolver gives a simple name `x` the symbol and the array
flag of that type reference. -/
theorem variable_declaration_emitted (g : ValaCodeGenerator) (fuel depth : Nat) (i : StmtInfo)
    (d : ValaVariableDeclaration) (h : Store) (sp : SymPtr) (scope : ValaSymbol)
    (type : ValaTypeReference) (init : Option ValaExpression) (ctype : String)
    (hg : g.sym = some sp) (hs : h.symbol (some sp) = .ok scope)
    (hti : (d.type.type_name ≠ none ∧ type = d.type ∧ init = d.declarator.initializer) ∨
      (d.type.type_name = none ∧ ∃ e e1, d.declarator.initializer = some e ∧
        vala_code_generator_find_static_type_of_expression g h fuel e = .ok e1 ∧
        type = { d.type with symbol := e1.static_type_symbol } ∧ init = some e1))
    (hct : get_cname_for_type_reference h type false i.location = .ok ctype)
    (hinit : ∀ e, init = some e →
      (vala_code_generator_process_expression g h fuel depth e).outcome.is_ok = true) :
    ∃ h1 : Store,
      (∃ s, (vala_code_generator_process_statement g fuel (depth + 1)
        (.VARIABLE_DECLARATION i d) h).outcome = .ok (s, h1)) ∧
      (vala_code_generator_process_statement g fuel (depth + 1)
        (.VARIABLE_DECLARATION i d) h).c_text =
        "\t" ++ ctype ++ d.declarator.name ++
          initializer_text (vala_code_generator_process_expression g h fuel depth) init ++
          ";\n" ∧
      h1.symbol (some sp) = .ok { scope with
        symbol_table :=
          g_hash_table_insert scope.symbol_table d.declarator.name h.symbols.length } ∧
      g_hash_table_lookup
        (g_hash_table_insert scope.symbol_table d.declarator.name h.symbols.length)
        d.declarator.name = some h.symbols.length ∧
      h1.symbol (some h.symbols.length) =
        .ok { type := .LOCAL_VARIABLE, typeref := some type } ∧
      (∀ j : ExprInfo, simple_name_local g h1 j d.declarator.name =
        .ok { j with static_type_symbol := type.symbol, array_type := type.array_type }) := by
  obtain ⟨h1, hdecl, hsc, hnew, -⟩ :=
    declare_local_variable_eq g h d.declarator.name type sp scope hg hs
  have hl := g_hash_table_lookup_insert scope.symbol_table d.declarator.name h.symbols.length
  refine ⟨h1, ?_, ?_, hsc, hl, hnew, fun j =>
    simple_name_local_declared g h1 j d.declarator.name type sp h.symbols.length scope _ hg hsc
      hl hnew⟩ <;>
  · rw [process_statement_variable_declaration]
    rcases hti with ⟨ht, rfl, rfl⟩ | ⟨ht, e, e1, he, hr, rfl, rfl⟩
    · have := variable_declaration_tail g (vala_code_generator_process_expression g h fuel depth)
        i d.declarator.name d.type d.declarator.initializer h h1 ctype _ rfl hct hinit hdecl
      simp only [vala_code_generator_process_variable_declaration, Emit.seq_eq, ht, if_false,
        Emit.pure_bind]
      first | exact this.1 | exact this.2
    · have := variable_declaration_tail g (vala_code_generator_process_expression g h fuel depth)
        i d.declarator.name { d.type with symbol := e1.static_type_symbol } (some e1) h h1 ctype
        _ rfl hct hinit hdecl
      simp only [vala_code_generator_process_variable_declaration, Emit.seq_eq]
      rw [if_pos ht]
      simp only [he, Outcome.of_option, Emit.run_ok_bind, hr, Emit.pure_bind]
      first | exact this.1 | exact this.2


/-- Witness of C21: in the body of `Circle.spin` of the second sample program the declaration
`var t = s;`, with `s` a local variable of the class `Shape`, is written `DemoShape *t = s;`,
and afterwards the scope lookup gives the name `t` the symbol of `Shape`. -/
theorem variable_declaration_emitted_witness :
    ∃ h1 : Store,
      (vala_code_generator_process_statement demo_generator 3 4
        (.VARIABLE_DECLARATION {}
          { type := {}, declarator := { name := "t", initializer := some (simple_name "s") } })
        demo_store).c_text = "\tDemoShape *t = s;\n" ∧
      ∀ j : ExprInfo, simple_name_local demo_generator h1 j "t" =
        .ok { j with static_type_symbol := some 6, array_type := false } := by
  obtain ⟨h1, -, ht, -, -, -, hn⟩ := variable_declaration_emitted demo_generator 3 3 {}
    { type := {}, declarator := { name := "t", initializer := some (simple_name "s") } }
    demo_store 19 _ _ _ "DemoShape *" rfl rfl (Or.inr ⟨rfl, _, _, rfl, rfl, rfl, rfl⟩) rfl
    (fun e he => by cases he; rfl)
  exact ⟨h1, ht.trans (by rfl), hn⟩

/-! ## Lemmas on loops over lists -/

/-- The loop over the empty list. -/
theorem g_list_for_nil {α σ : Type} (body : α → σ → Emit σ) (s : σ) :
    g_list_for body [] s = pure s := rfl

/-- The loop over a list with a first element. -/
theorem g_list_for_cons {α σ : Type} (body : α → σ → Emit σ) (a : α) (l : List α) (s : σ) :
    g_list_for body (a :: l) s = (body a s).bind fun s => g_list_for body l s := rfl

/-- A loop that returns relates its first state to its last by every reflexive and transitive
relation each of its turns respects; the turns may rely on a property `Q` of the state that
holds for every element at the start and that the relation keeps. -/
theorem g_list_for_rel {α σ : Type} (body : α → σ → Emit σ) (R : σ → σ → Prop)
    (Q : α → σ → Prop) (hrefl : ∀ s, R s s) (htrans : ∀ a b c, R a b → R b c → R a c)
    (hQ : ∀ a s s', Q a s → R s s' → Q a s') (l : List α)
    (hstep : ∀ a ∈ l, ∀ s s', Q a s → (body a s).outcome = .ok s' → R s s') :
    ∀ s s', (∀ a ∈ l, Q a s) → (g_list_for body l s).outcome = .ok s' → R s s' := by
  induction l with
  | nil =>
    intro s s' _ hrun
    cases hrun
    exact hrefl s
  | cons a l ih =>
    intro s s' hq hrun
    rw [g_list_for_cons, Emit.outcome_bind_eq_ok] at hrun
    obtain ⟨s1, h1, h2⟩ := hrun
    have r1 := hstep a (List.mem_cons_self a l) s s1 (hq a (List.mem_cons_self a l)) h1
    exact htrans _ _ _ r1
      (ih (fun b hb => hstep b (List.mem_cons_of_mem a hb)) s1 s'
        (fun b hb => hQ b s s1 (hq b (List.mem_cons_of_mem a hb)) r1) h2)

/-- After a loop that returns, every element has the property `P` its turn establishes,
when the turns that follow keep it. -/
theorem g_list_for_each {α σ : Type} (body : α → σ → Emit σ) (R : σ → σ → Prop)
    (P : α → σ → Prop) (hrefl : ∀ s, R s s) (htrans : ∀ a b c, R a b → R b c → R a c)
    (hP : ∀ a s s', P a s → R s s' → P a s') (l : List α)
    (hstep : ∀ a ∈ l, ∀ s s', (body a s).outcome = .ok s' → R s s' ∧ P a s') :
    ∀ s s', (g_list_for body l s).outcome = .ok s' → R s s' ∧ ∀ a ∈ l, P a s' := by
  induction l with
  | nil =>
    intro s s' hrun
    cases hrun
    exact ⟨hrefl s, fun a ha => by cases ha⟩
  | cons a l ih =>
    intro s s' hrun
    rw [g_list_for_cons, Emit.outcome_bind_eq_ok] at hrun
    obtain ⟨s1, h1, h2⟩ := hrun
    obtain ⟨r1, p1⟩ := hstep a (List.mem_cons_self a l) s s1 h1
    obtain ⟨r2, p2⟩ := ih (fun c hc => hstep c (List.mem_cons_of_mem a hc)) s1 s' h2
    refine ⟨htrans _ _ _ r1 r2, fun b hb => ?_⟩
    cases hb with
    | head => exact hP _ _ _ p1 r2
    | tail _ hm => exact p2 b hm

/-! ## Lemmas on the writes of the first pass -/

/-- No write at all. -/
theorem ValaMethod.method_le_refl (m : ValaMethod) : m.first_pass_le m :=
  ⟨rfl, fun _ => rfl, fun x => x, fun x => x⟩

/-- Writes after writes. -/
theorem ValaMethod.method_le_trans (a b c : ValaMethod) (hab : a.first_pass_le b)
    (hbc : b.first_pass_le c) : a.first_pass_le c := by
  obtain ⟨d1, n1, p1, c1⟩ := hab
  obtain ⟨d2, n2, p2, c2⟩ := hbc
  refine ⟨d2.trans d1, fun hn => ?_, fun hp => p2 (p1 hp), fun hc => c2 (c1 hc)⟩
  have := n1 hn
  rw [n2 (by rw [this]; exact hn), this]

/-- No write at all. -/
theorem ValaClass.class_le_refl (c : ValaClass) : c.first_pass_le c := ⟨rfl, fun x => x⟩

/-- Writes after writes. -/
theorem ValaClass.class_le_trans (a b c : ValaClass) (hab : a.first_pass_le b)
    (hbc : b.first_pass_le c) : a.first_pass_le c :=
  ⟨hbc.1.trans hab.1, fun x => hbc.2 (hab.2 x)⟩

/-- An index that has an element in one list has one in a list of the same length. -/
theorem getElem?_of_length_eq {α : Type} (a b : List α) (hl : b.length = a.length)
    (p : Nat) (x : α) (hx : a[p]? = some x) : ∃ y, b[p]? = some y := by
  cases hb : b[p]? with
  | some y => exact ⟨y, rfl⟩
  | none =>
    rw [List.getElem?_eq_none_iff] at hb
    rw [List.getElem?_eq_none (hl ▸ hb)] at hx
    cases hx

/-- No write at all. -/
theorem Store.first_pass_le_refl (h : Store) : h.first_pass_le h :=
  ⟨rfl, rfl, rfl, fun _ c c' hc hc' => by
      rw [hc] at hc'
      cases hc'
      exact ValaClass.class_le_refl _,
    fun _ m m' hm hm' => by
      rw [hm] at hm'
      cases hm'
      exact ValaMethod.method_le_refl _⟩

/-- Writes after writes. -/
theorem Store.first_pass_le_trans (a b c : Store) (hab : a.first_pass_le b)
    (hbc : b.first_pass_le c) : a.first_pass_le c := by
  obtain ⟨e1, lc1, lm1, c1, m1⟩ := hab
  obtain ⟨e2, lc2, lm2, c2, m2⟩ := hbc
  refine ⟨?_, lc2.trans lc1, lm2.trans lm1, ?_, ?_⟩
  · cases a
    cases b
    cases c
    simp only [Store.mk.injEq] at e1 e2 ⊢
    simp only [true_and, and_true] at e1 e2 ⊢
    obtain ⟨x1, x2, x3, x4, x5, x6, x7, x8, x9⟩ := e1
    obtain ⟨y1, y2, y3, y4, y5, y6, y7, y8, y9⟩ := e2
    exact ⟨y1.trans x1, y2.trans x2, y3.trans x3, y4.trans x4, y5.trans x5, y6.trans x6,
      y7.trans x7, y8.trans x8, y9.trans x9⟩
  · intro p x z hx hz
    obtain ⟨y, hy⟩ := getElem?_of_length_eq a.classes b.classes lc1 p x hx
    exact ValaClass.class_le_trans _ _ _ (c1 p x y hx hy) (c2 p y z hy hz)
  · intro p x z hx hz
    obtain ⟨y, hy⟩ := getElem?_of_length_eq a.methods b.methods lm1 p x hx
    exact ValaMethod.method_le_trans _ _ _ (m1 p x y hx hy) (m2 p y z hy hz)

/-- A method pointer is dereferenced to the record at its index. -/
theorem Store.method_eq_ok (h : Store) (p : MethodPtr) (m : ValaMethod) :
    h.method (some p) = .ok m ↔ h.methods[p]? = some m := by
  simp only [Store.method, Option.bind]
  cases h.methods[p]? <;> simp [Outcome.of_option]

/-- A class pointer is dereferenced to the record at its index. -/
theorem Store.class_eq_ok (h : Store) (p : ClassPtr) (c : ValaClass) :
    h.class_ (some p) = .ok c ↔ h.classes[p]? = some c := by
  simp only [Store.class_, Option.bind]
  cases h.classes[p]? <;> simp [Outcome.of_option]

/-- The record a write of a method stored. -/
theorem Store.set_method_self (h : Store) (p : MethodPtr) (m m' : ValaMethod)
    (hm : h.method (some p) = .ok m) : (h.set_method p m').method (some p) = .ok m' := by
  rw [Store.method_eq_ok] at hm ⊢
  have hlt : p < h.methods.length := by
    by_contra hn
    rw [List.getElem?_eq_none (Nat.le_of_not_lt hn)] at hm
    cases hm
  simp [Store.set_method, List.getElem?_set, hlt]

/-- The record a write of a class stored. -/
theorem Store.set_class_self (h : Store) (p : ClassPtr) (c c' : ValaClass)
    (hc : h.class_ (some p) = .ok c) : (h.set_class p c').class_ (some p) = .ok c' := by
  rw [Store.class_eq_ok] at hc ⊢
  have hlt : p < h.classes.length := by
    by_contra hn
    rw [List.getElem?_eq_none (Nat.le_of_not_lt hn)] at hc
    cases hc
  simp [Store.set_class, List.getElem?_set, hlt]

/-- The write of a method record that only adds what the first pass writes. -/
theorem Store.first_pass_le_set_method (h : Store) (p : MethodPtr) (m m' : ValaMethod)
    (hm : h.method (some p) = .ok m) (hle : m.first_pass_le m') :
    h.first_pass_le (h.set_method p m') := by
  rw [Store.method_eq_ok] at hm
  refine ⟨rfl, rfl, by simp [Store.set_method], fun q c c' hc hc' => ?_, fun q x x' hx hx' => ?_⟩
  · have : c' = c := by
      simp only [Store.set_method] at hc'
      rw [hc] at hc'
      cases hc'
      rfl
    subst this
    exact ValaClass.class_le_refl _
  · simp only [Store.set_method] at hx'
    by_cases hq : p = q
    · subst hq
      rw [hm] at hx
      cases hx
      rw [List.getElem?_set] at hx'
      simp only [if_true] at hx'
      split at hx'
      · cases hx'
        exact hle
      · cases hx'
    · rw [List.getElem?_set_ne hq, hx] at hx'
      cases hx'
      exact ValaMethod.method_le_refl _

/-- The write of a class record that only adds what the first pass writes. -/
theorem Store.first_pass_le_set_class (h : Store) (p : ClassPtr) (c c' : ValaClass)
    (hc : h.class_ (some p) = .ok c) (hle : c.first_pass_le c') :
    h.first_pass_le (h.set_class p c') := by
  rw [Store.class_eq_ok] at hc
  refine ⟨rfl, by simp [Store.set_class], rfl, fun q x x' hx hx' => ?_, fun q m m' hm hm' => ?_⟩
  · simp only [Store.set_class] at hx'
    by_cases hq : p = q
    · subst hq
      rw [hc] at hx
      cases hx
      rw [List.getElem?_set] at hx'
      simp only [if_true] at hx'
      split at hx'
      · cases hx'
        exact hle
      · cases hx'
    · rw [List.getElem?_set_ne hq, hx] at hx'
      cases hx'
      exact ValaClass.class_le_refl _
  · have : m' = m := by
      simp only [Store.set_class] at hm'
      rw [hm] at hm'
      cases hm'
      rfl
    subst this
    exact ValaMethod.method_le_refl _

/-- The first pass leaves the namespaces as they are. -/
theorem Store.first_pass_le.namespace_eq {h h' : Store} (hle : h.first_pass_le h')
    (p : Option NamespacePtr) : h'.namespace_ p = h.namespace_ p := by
  have := congrArg Store.namespaces hle.1
  simp only at this
  simp only [Store.namespace_, this]

/-- The first pass leaves the structs as they are. -/
theorem Store.first_pass_le.struct_eq {h h' : Store} (hle : h.first_pass_le h')
    (p : Option StructPtr) : h'.struct_ p = h.struct_ p := by
  have := congrArg Store.structs hle.1
  simp only at this
  simp only [Store.struct_, this]

/-- The first pass leaves the fields as they are. -/
theorem Store.first_pass_le.field_eq {h h' : Store} (hle : h.first_pass_le h')
    (p : Option FieldPtr) : h'.field p = h.field p := by
  have := congrArg Store.fields hle.1
  simp only at this
  simp only [Store.field, this]

/-- The first pass leaves the symbols as they are. -/
theorem Store.first_pass_le.symbol_eq {h h' : Store} (hle : h.first_pass_le h')
    (p : Option SymPtr) : h'.symbol p = h.symbol p := by
  have := congrArg Store.symbols hle.1
  simp only at this
  simp only [Store.symbol, this]

/-- After writes of the first pass a class pointer is dereferenced to the record with the
same declared part. -/
theorem Store.first_pass_le.class_of {h h' : Store} (hle : h.first_pass_le h') (p : ClassPtr)
    (c : ValaClass) (hc : h.class_ (some p) = .ok c) :
    ∃ c', h'.class_ (some p) = .ok c' ∧ c.first_pass_le c' := by
  rw [Store.class_eq_ok] at hc
  obtain ⟨c', hc'⟩ := getElem?_of_length_eq h.classes h'.classes hle.2.1 p c hc
  exact ⟨c', (Store.class_eq_ok _ _ _).2 hc', hle.2.2.2.1 p c c' hc hc'⟩

/-- The class records before the writes of the first pass. -/
theorem Store.first_pass_le.class_from {h h' : Store} (hle : h.first_pass_le h') (p : ClassPtr)
    (c' : ValaClass) (hc' : h'.class_ (some p) = .ok c') :
    ∃ c, h.class_ (some p) = .ok c ∧ c.first_pass_le c' := by
  rw [Store.class_eq_ok] at hc'
  obtain ⟨c, hc⟩ := getElem?_of_length_eq h'.classes h.classes hle.2.1.symm p c' hc'
  exact ⟨c, (Store.class_eq_ok _ _ _).2 hc, hle.2.2.2.1 p c c' hc hc'⟩

/-- After writes of the first pass a method pointer is dereferenced to the record with the
same declared part. -/
theorem Store.first_pass_le.method_of {h h' : Store} (hle : h.first_pass_le h')
    (p : MethodPtr) (m : ValaMethod) (hm : h.method (some p) = .ok m) :
    ∃ m', h'.method (some p) = .ok m' ∧ m.first_pass_le m' := by
  rw [Store.method_eq_ok] at hm
  obtain ⟨m', hm'⟩ := getElem?_of_length_eq h.methods h'.methods hle.2.2.1 p m hm
  exact ⟨m', (Store.method_eq_ok _ _ _).2 hm', hle.2.2.2.2 p m m' hm hm'⟩

/-- The method records before the writes of the first pass. -/
theorem Store.first_pass_le.method_from {h h' : Store} (hle : h.first_pass_le h')
    (p : MethodPtr) (m' : ValaMethod) (hm' : h'.method (some p) = .ok m') :
    ∃ m, h.method (some p) = .ok m ∧ m.first_pass_le m' := by
  rw [Store.method_eq_ok] at hm'
  obtain ⟨m, hm⟩ := getElem?_of_length_eq h'.methods h.methods hle.2.2.1.symm p m' hm'
  exact ⟨m, (Store.method_eq_ok _ _ _).2 hm, hle.2.2.2.2 p m m' hm hm'⟩

/-! ## Lemmas on one turn of the first pass over the methods -/

/-- The write of `cname` keeps the declared part of the record. -/
theorem methods1_cname_eq (ns_lower lower_case : String) (m : ValaMethod) :
    methods1_cname ns_lower lower_case m =
      { m with cname := some (m.cname.getD (ns_lower ++ lower_case ++ "_" ++ m.name)) } := by
  cases m with
  | mk name modifiers return_type class_ formal_parameters body location rmp il ism cname cp
      cd vsc =>
    cases cname <;> simp [methods1_cname]

/-- The instance parameter is computed without a change of the method record other than the
write of `virtual_super_class`. -/
theorem methods1_instance_parameter_ok (h : Store) (fuel : Nat) (c : ValaClass)
    (m m1 : ValaMethod) (first : List String)
    (hr : methods1_instance_parameter h fuel c m = .ok (m1, first)) :
    m1 = { m with virtual_super_class := m1.virtual_super_class } := by
  unfold methods1_instance_parameter at hr
  split at hr
  · split at hr
    · simp only [Outcome.bind_eq, Outcome.pure_eq] at hr
      rw [Outcome.bind_eq_ok] at hr
      obtain ⟨sc, _, hr⟩ := hr
      split at hr
      · cases hr
      · rw [Outcome.bind_eq_ok] at hr
        obtain ⟨v, _, hr⟩ := hr
        cases hr
        rfl
    · cases hr
      rfl
  · cases hr
    rfl

/-- The head of the declaration: the return C type, after `static ` for a method that is not
public. -/
theorem methods1_cdecl1_outcome (m m2 : ValaMethod) (rt : String)
    (hr : (methods1_cdecl1 m rt).outcome = .ok m2) :
    m2 = { m with cdecl1 := some (if m.modifiers.PUBLIC then rt else "static " ++ rt) } := by
  unfold methods1_cdecl1 at hr
  split at hr
  next hp =>
    cases hr
    simp [hp]
  next hp =>
    simp only [Emit.seq_eq, Emit.outcome_bind_eq_ok, Emit.outcome_run, Emit.outcome_pure] at hr
    obtain ⟨_, _, _, _, _, _, _, _, hr⟩ := hr
    cases hr
    simp [hp]

/-- The check of the initializers writes at most `init_method` or `class_init_method`. -/
theorem methods1_initializers_ok (c c2 : ValaClass) (mp : MethodPtr) (m : ValaMethod)
    (hr : methods1_initializers c mp m = .ok c2) : c.first_pass_le c2 := by
  unfold methods1_initializers at hr
  repeat' split at hr
  all_goals first
    | (cases hr; exact ⟨rfl, fun x => x⟩)
    | cases hr

/-- One turn of the loop over the methods of a class, with the records read. -/
theorem process_methods1_method_eq (fuel : Nat) (cp : ClassPtr) (mp : MethodPtr) (h : Store)
    (c : ValaClass) (ns : ValaNamespace) (m : ValaMethod) (rt : String)
    (hc : h.class_ (some cp) = .ok c) (hns : h.namespace_ (some c.namespace_) = .ok ns)
    (hm : h.method (some mp) = .ok m)
    (hrt : get_cname_for_type_reference h m.return_type false m.location = .ok rt) :
    process_methods1_method fuel cp mp h =
      if ns.import_ = true then
        pure (h.set_method mp (methods1_cname ns.lower_case_cname c.lower_case_cname m))
      else
        (Emit.run (methods1_instance_parameter h fuel c
          (methods1_cname ns.lower_case_cname c.lower_case_cname m))).bind fun r =>
        (Emit.run (formal_parameters_loop h r.1.formal_parameters)).bind fun params =>
        (methods1_cdecl1 { r.1 with cparameters := some (join_parameter_list (r.2 ++ params)) }
          rt).bind fun method =>
        (Emit.run (methods1_initializers c mp method)).bind fun c2 =>
        pure ((h.set_method mp method).set_class cp c2) := by
  simp only [process_methods1_method, Emit.seq_eq, hc, hns, hm, hrt, Emit.run_ok_bind]

/-- A turn that returns has read the class, its namespace, the method and the C name of the
return type. -/
theorem process_methods1_method_reads (fuel : Nat) (cp : ClassPtr) (mp : MethodPtr)
    (h h' : Store) (hrun : (process_methods1_method fuel cp mp h).outcome = .ok h') :
    ∃ (c : ValaClass) (ns : ValaNamespace) (m : ValaMethod) (rt : String),
      h.class_ (some cp) = .ok c ∧ h.namespace_ (some c.namespace_) = .ok ns ∧
      h.method (some mp) = .ok m ∧
      get_cname_for_type_reference h m.return_type false m.location = .ok rt := by
  simp only [process_methods1_method, Emit.seq_eq, Emit.outcome_bind_eq_ok, Emit.outcome_run]
    at hrun
  obtain ⟨c, hc, ns, hns, m, hm, rt, hrt, -⟩ := hrun
  exact ⟨c, ns, m, rt, hc, hns, hm, hrt⟩

/-- A turn over a method of a class in a namespace that is not imported, when it returns:
the instance parameter and the formal parameters were computed, the initializers checked, and
the method and the class were written. -/
theorem process_methods1_method_run (fuel : Nat) (cp : ClassPtr) (mp : MethodPtr)
    (h h' : Store) (c : ValaClass) (ns : ValaNamespace) (m : ValaMethod) (rt : String)
    (hc : h.class_ (some cp) = .ok c) (hns : h.namespace_ (some c.namespace_) = .ok ns)
    (hm : h.method (some mp) = .ok m)
    (hrt : get_cname_for_type_reference h m.return_type false m.location = .ok rt)
    (himp : ns.import_ = false)
    (hrun : (process_methods1_method fuel cp mp h).outcome = .ok h') :
    ∃ (vsc : Option ClassPtr) (first params : List String) (c2 : ValaClass),
      methods1_instance_parameter h fuel c
          (methods1_cname ns.lower_case_cname c.lower_case_cname m) =
        .ok ({ methods1_cname ns.lower_case_cname c.lower_case_cname m with
          virtual_super_class := vsc }, first) ∧
      formal_parameters_loop h m.formal_parameters = .ok params ∧
      methods1_initializers c mp
        { m with
          cname := some (m.cname.getD (ns.lower_case_cname ++ c.lower_case_cname ++ "_" ++
            m.name)),
          virtual_super_class := vsc,
          cparameters := some (join_parameter_list (first ++ params)),
          cdecl1 := some (if m.modifiers.PUBLIC then rt else "static " ++ rt) } = .ok c2 ∧
      h' = (h.set_method mp
        { m with
          cname := some (m.cname.getD (ns.lower_case_cname ++ c.lower_case_cname ++ "_" ++
            m.name)),
          virtual_super_class := vsc,
          cparameters := some (join_parameter_list (first ++ params)),
          cdecl1 := some (if m.modifiers.PUBLIC then rt else "static " ++ rt) }).set_class
        cp c2 := by
  rw [process_methods1_method_eq fuel cp mp h c ns m rt hc hns hm hrt, himp] at hrun
  simp only [Bool.false_eq_true, if_false, Emit.outcome_bind_eq_ok, Emit.outcome_run,
    Emit.outcome_pure] at hrun
  obtain ⟨⟨m1, first⟩, hip, params, hfp, m2, hcd, c2, hin, hh⟩ := hrun
  have e1 := methods1_instance_parameter_ok _ _ _ _ _ _ hip
  have e2 := methods1_cdecl1_outcome _ _ _ hcd
  simp only at e1 e2 hfp hin
  have hfmt : m1.formal_parameters = m.formal_parameters := by
    rw [e1, methods1_cname_eq]
  have hpub : m1.modifiers = m.modifiers := by
    rw [e1, methods1_cname_eq]
  have hm2 : m2 = { m with
      cname := some (m.cname.getD (ns.lower_case_cname ++ c.lower_case_cname ++ "_" ++
        m.name)),
      virtual_super_class := m1.virtual_super_class,
      cparameters := some (join_parameter_list (first ++ params)),
      cdecl1 := some (if m.modifiers.PUBLIC then rt else "static " ++ rt) } := by
    rw [e2]
    simp only [hpub]
    rw [e1, methods1_cname_eq]
  refine ⟨m1.virtual_super_class, first, params, c2, ?_, ?_, ?_, ?_⟩
  · rw [hip]
    congr 1
    rw [Prod.mk.injEq]
    exact ⟨e1, rfl⟩
  · rw [← hfmt]
    exact hfp
  · rw [← hm2]
    exact hin
  · cases hh
    rw [hm2]

/-- A turn over a method of a class in an imported namespace, when it returns, has written
the C name only. -/
theorem process_methods1_method_import (fuel : Nat) (cp : ClassPtr) (mp : MethodPtr)
    (h h' : Store) (c : ValaClass) (ns : ValaNamespace) (m : ValaMethod) (rt : String)
    (hc : h.class_ (some cp) = .ok c) (hns : h.namespace_ (some c.namespace_) = .ok ns)
    (hm : h.method (some mp) = .ok m)
    (hrt : get_cname_for_type_reference h m.return_type false m.location = .ok rt)
    (himp : ns.import_ = true)
    (hrun : (process_methods1_method fuel cp mp h).outcome = .ok h') :
    h' = h.set_method mp
      { m with cname := some (m.cname.getD (ns.lower_case_cname ++ c.lower_case_cname ++ "_" ++
          m.name)) } := by
  rw [process_methods1_method_eq fuel cp mp h c ns m rt hc hns hm hrt, himp] at hrun
  simp only [if_true, Emit.outcome_pure] at hrun
  cases hrun
  rw [methods1_cname_eq]

/-! ## Lemmas on the parameter list of a method -/

/-- The loop that joins the parameter strings appends each one after a comma. -/
theorem foldl_parameters (rest : List String) (a : String) :
    rest.foldl (fun cparameters s => cparameters ++ ", " ++ s) a = a ++ continued ", " rest := by
  induction rest generalizing a with
  | nil => simp [continued]
  | cons b r ih =>
    rw [List.foldl_cons, ih]
    simp only [continued, String.append_assoc]

/-- The value of `cparameters` is the parameter strings separated by `, `. -/
theorem join_parameter_list_eq (l : List String) :
    join_parameter_list l = separated ", " l := by
  cases l with
  | nil => rfl
  | cons a rest => exact foldl_parameters rest a

/-- A text without characters is the empty text. -/
theorem string_length_eq_zero (a : String) (h : a.length = 0) : a = "" := by
  cases a with
  | mk data =>
    have : data = [] := List.length_eq_zero.1 h
    subst this
    rfl

/-- A text with a part that is not empty is not empty. -/
theorem append_ne_empty (a b : String) (ha : a ≠ "") : a ++ b ≠ "" := by
  intro hab
  apply ha
  have h1 := congrArg String.length hab
  rw [String.length_append] at h1
  have h2 : a.length = 0 := by
    have : ("" : String).length = 0 := rfl
    omega
  exact string_length_eq_zero _ h2

/-- A text that ends with a part that is not empty is not empty. -/
theorem append_ne_empty_right (a b : String) (hb : b ≠ "") : a ++ b ≠ "" := by
  intro hab
  apply hb
  have h1 := congrArg String.length hab
  rw [String.length_append] at h1
  have h2 : b.length = 0 := by
    have : ("" : String).length = 0 := rfl
    omega
  exact string_length_eq_zero _ h2

/-- The C name of a type is not the empty text. -/
theorem get_cname_for_type_reference_ne_empty (h : Store) (type : ValaTypeReference)
    (constant : Bool) (location : Option ValaLocation) (s : String)
    (hs : get_cname_for_type_reference h type constant location = .ok s) : s ≠ "" := by
  unfold get_cname_for_type_reference at hs
  simp only [Outcome.bind_eq, Outcome.pure_eq, Outcome.bind_eq_ok] at hs
  obtain ⟨symbol, _, hs⟩ := hs
  split at hs
  · simp only [Outcome.bind_eq_ok] at hs
    obtain ⟨c, _, hs⟩ := hs
    cases hs
    rw [String.append_assoc]
    exact append_ne_empty_right _ _ (append_ne_empty _ _ (by decide))
  · simp only [Outcome.bind_eq_ok] at hs
    obtain ⟨c, _, hs⟩ := hs
    split at hs
    · cases hs
      exact append_ne_empty _ _ (append_ne_empty _ _ (append_ne_empty _ _ (by decide)))
    · cases hs
      rw [String.append_assoc, String.append_assoc, String.append_assoc]
      exact append_ne_empty_right _ _ (append_ne_empty_right _ _ (append_ne_empty _ _ (by decide)))
  · simp only [Outcome.bind_eq_ok] at hs
    obtain ⟨c, _, hs⟩ := hs
    cases hs
    exact append_ne_empty_right _ _ (by decide)
  · cases hs
    decide
  · cases hs

/-- The loop over the formal parameters returns the strings of the parameters: for each one
the C name of its type followed by its name. -/
theorem formal_parameters_loop_ok (h : Store) (params : List ValaFormalParameter)
    (strs : List String) (hr : formal_parameters_loop h params = .ok strs) :
    ∃ ctypes : List String,
      List.Forall₂ (fun (param : ValaFormalParameter) (ctype : String) =>
        get_cname_for_type_reference h param.type false param.location = .ok ctype)
        params ctypes ∧
      strs = List.zipWith (fun (param : ValaFormalParameter) (ctype : String) =>
        ctype ++ param.name) params ctypes := by
  induction params generalizing strs with
  | nil =>
    cases hr
    exact ⟨[], List.Forall₂.nil, rfl⟩
  | cons p ps ih =>
    simp only [formal_parameters_loop, Outcome.bind_eq, Outcome.pure_eq, Outcome.bind_eq_ok]
      at hr
    obtain ⟨ct, hct, rest, hrest, hr⟩ := hr
    cases hr
    obtain ⟨cts, hf, he⟩ := ih rest hrest
    exact ⟨ct :: cts, List.Forall₂.cons hct hf, by rw [he]; rfl⟩

/-- The strings of a list of parameter strings separated by `, ` are empty only for the empty
list, when no string is empty. -/
theorem separated_eq_empty (l : List String) (hl : ∀ s ∈ l, s ≠ "") :
    separated ", " l = "" ↔ l = [] := by
  cases l with
  | nil => simp [separated]
  | cons a rest =>
    simp only [separated, reduceCtorEq, iff_false]
    exact append_ne_empty _ _ (hl a (List.mem_cons_self a rest))

/-- The records in the store after a turn over a method of a class in a namespace that is
not imported. -/
theorem process_methods1_method_store (h : Store) (cp : ClassPtr) (mp : MethodPtr)
    (c c2 : ValaClass) (m m2 : ValaMethod) (hc : h.class_ (some cp) = .ok c)
    (hm : h.method (some mp) = .ok m) :
    ((h.set_method mp m2).set_class cp c2).method (some mp) = .ok m2 ∧
      ((h.set_method mp m2).set_class cp c2).class_ (some cp) = .ok c2 :=
  ⟨Store.set_method_self h mp m m2 hm, Store.set_class_self (h.set_method mp m2) cp c c2 hc⟩

/-- The instance parameter of a method: nothing for a static method, `self` of the class for
a method that does not override, `base` of the class the walk up the base classes found for
a method that overrides. -/
theorem methods1_instance_parameter_cases (h : Store) (fuel : Nat) (c : ValaClass)
    (m m1 : ValaMethod) (first : List String)
    (hr : methods1_instance_parameter h fuel c m = .ok (m1, first)) :
    (m.modifiers.STATIC = true → first = [] ∧ m1 = m) ∧
    (m.modifiers.STATIC = false → m.modifiers.OVERRIDE = false →
      first = [c.cname ++ " *self"] ∧ m1 = m) ∧
    (m.modifiers.STATIC = false → m.modifiers.OVERRIDE = true →
      ∃ (sp : ClassPtr) (sc : ValaClass),
        virtual_super_class_loop h m.name fuel c.base_class = .ok (some sp) ∧
        h.class_ (some sp) = .ok sc ∧ m1.virtual_super_class = some sp ∧
        first = [sc.cname ++ " *base"]) := by
  unfold methods1_instance_parameter at hr
  refine ⟨fun hs => ?_, fun hs ho => ?_, fun hs ho => ?_⟩
  · simp only [hs, Bool.not_true, Bool.false_eq_true, if_false, Outcome.pure_eq] at hr
    cases hr
    exact ⟨rfl, rfl⟩
  · simp only [hs, ho, Bool.not_false, Bool.false_eq_true, if_true, if_false,
      Outcome.pure_eq] at hr
    cases hr
    exact ⟨rfl, rfl⟩
  · simp only [hs, ho, Bool.not_false, if_true, Outcome.bind_eq, Outcome.pure_eq,
      Outcome.bind_eq_ok] at hr
    obtain ⟨sup, hw, hr⟩ := hr
    cases sup with
    | none =>
      simp only [if_true] at hr
      cases hr
    | some sp =>
      simp only [reduceCtorEq, if_false, Outcome.bind_eq_ok] at hr
      obtain ⟨sc, hsc, hr⟩ := hr
      cases hr
      exact ⟨sp, sc, hw, hsc, rfl, rfl⟩

/-- The string of a formal parameter is not empty. -/
theorem parameter_strings_ne_empty (h : Store) (params : List ValaFormalParameter)
    (ctypes : List String)
    (hf : List.Forall₂ (fun (param : ValaFormalParameter) (ctype : String) =>
      get_cname_for_type_reference h param.type false param.location = .ok ctype)
      params ctypes) :
    ∀ s ∈ List.zipWith (fun (param : ValaFormalParameter) (ctype : String) =>
      ctype ++ param.name) params ctypes, s ≠ "" := by
  induction hf with
  | nil => intro s hs; cases hs
  | cons hct _ ih =>
    intro s hs
    simp only [List.zipWith_cons_cons, List.mem_cons] at hs
    rcases hs with rfl | hs
    · exact append_ne_empty _ _ (get_cname_for_type_reference_ne_empty _ _ _ _ _ hct)
    · exact ih s hs

/-- There is no parameter string exactly when there is no formal parameter. -/
theorem parameter_strings_eq_nil {α : Type} (R : ValaFormalParameter → String → Prop)
    (f : ValaFormalParameter → String → α) (params : List ValaFormalParameter)
    (ctypes : List String) (hf : List.Forall₂ R params ctypes) :
    List.zipWith f params ctypes = [] ↔ params = [] := by
  cases hf with
  | nil => simp
  | cons _ _ => simp

/-! ## Claims on the C parameters and the declaration head of a method -/

/-- C24: for a method of a class in a namespace that is not imported, when its turn in the
loop of the first pass returns, the method record holds in `cparameters` the `, `-separated
list made of the instance parameter (none for a static method, `<class cname> *self` for a
non-static method that does not override, `<virtual_super_class cname> *base` for a
non-static method that overrides) and then, for each formal parameter in order, the C name of
its type immediately followed by its name; `cparameters` is the empty text exactly for a
static method without formal parameters; and `cdecl1` is the C name of the return type, after
`static ` exactly when the method is not public. -/
theorem cparameters_and_cdecl1 (fuel : Nat) (cp : ClassPtr) (mp : MethodPtr) (h h' : Store)
    (c : ValaClass) (ns : ValaNamespace) (m : ValaMethod) (rt : String)
    (hc : h.class_ (some cp) = .ok c) (hns : h.namespace_ (some c.namespace_) = .ok ns)
    (hm : h.method (some mp) = .ok m)
    (hrt : get_cname_for_type_reference h m.return_type false m.location = .ok rt)
    (himp : ns.import_ = false)
    (hrun : (process_methods1_method fuel cp mp h).outcome = .ok h') :
    ∃ (m' : ValaMethod) (ctypes : List String),
      h'.method (some mp) = .ok m' ∧
      List.Forall₂ (fun (param : ValaFormalParameter) (ctype : String) =>
        get_cname_for_type_reference h param.type false param.location = .ok ctype)
        m.formal_parameters ctypes ∧
      (m.modifiers.STATIC = true →
        m'.cparameters = some (separated ", "
          (List.zipWith (fun (param : ValaFormalParameter) (ctype : String) =>
            ctype ++ param.name) m.formal_parameters ctypes))) ∧
      (m.modifiers.STATIC = false → m.modifiers.OVERRIDE = false →
        m'.cparameters = some (separated ", "
          ((c.cname ++ " *self") ::
            List.zipWith (fun (param : ValaFormalParameter) (ctype : String) =>
              ctype ++ param.name) m.formal_parameters ctypes))) ∧
      (m.modifiers.STATIC = false → m.modifiers.OVERRIDE = true →
        ∃ sc : ValaClass, h.class_ m'.virtual_super_class = .ok sc ∧
          m'.cparameters = some (separated ", "
            ((sc.cname ++ " *base") ::
              List.zipWith (fun (param : ValaFormalParameter) (ctype : String) =>
                ctype ++ param.name) m.formal_parameters ctypes))) ∧
      (m'.cparameters = some "" ↔ m.modifiers.STATIC = true ∧ m.formal_parameters = []) ∧
      m'.cdecl1 = some (if m.modifiers.PUBLIC = true then rt else "static " ++ rt) := by
  obtain ⟨vsc, first, params, c2, hip, hfp, -, hh⟩ :=
    process_methods1_method_run fuel cp mp h h' c ns m rt hc hns hm hrt himp hrun
  obtain ⟨ctypes, hf, hz⟩ := formal_parameters_loop_ok h m.formal_parameters params hfp
  obtain ⟨k1, k2, k3⟩ := methods1_instance_parameter_cases h fuel c _ _ first hip
  have hmod : (methods1_cname ns.lower_case_cname c.lower_case_cname m).modifiers =
      m.modifiers := by rw [methods1_cname_eq]
  have hname : (methods1_cname ns.lower_case_cname c.lower_case_cname m).name = m.name := by
    rw [methods1_cname_eq]
  rw [hmod] at k1 k2 k3
  subst hh
  subst hz
  refine ⟨_, ctypes, (process_methods1_method_store h cp mp c c2 m _ hc hm).1, hf, ?_, ?_, ?_,
    ?_, rfl⟩
  · intro hs
    simp only [(k1 hs).1, List.nil_append, join_parameter_list_eq]
  · intro hs ho
    simp only [(k2 hs ho).1, List.singleton_append, join_parameter_list_eq]
  · intro hs ho
    obtain ⟨sp, sc, -, hsc, hv, hfirst⟩ := k3 hs ho
    simp only at hv
    refine ⟨sc, ?_, ?_⟩
    · simp only [hv]
      exact hsc
    · simp only [hfirst, List.singleton_append, join_parameter_list_eq]
  · have hne := parameter_strings_ne_empty h m.formal_parameters ctypes hf
    simp only [Option.some.injEq, join_parameter_list_eq]
    cases hs : m.modifiers.STATIC with
    | true =>
      rw [(k1 hs).1, List.nil_append, separated_eq_empty _ hne,
        parameter_strings_eq_nil _ _ _ _ hf]
      simp only [true_and]
    | false =>
      simp only [Bool.false_eq_true, false_and, iff_false]
      cases ho : m.modifiers.OVERRIDE with
      | false =>
        rw [(k2 hs ho).1, List.singleton_append]
        exact append_ne_empty _ _ (append_ne_empty_right _ _ (by decide))
      | true =>
        obtain ⟨sp, sc, -, -, -, hfirst⟩ := k3 hs ho
        rw [hfirst, List.singleton_append]
        exact append_ne_empty _ _ (append_ne_empty_right _ _ (by decide))

/-- Witness of C24: in the third sample program the turn of the first pass over the method
`spin` of `Circle`, which is not public, not static and takes `int turns` and `string label`,
sets `cparameters` to `DemoCircle *self, int turns, char *label` and `cdecl1` to
`static void`. -/
theorem cparameters_and_cdecl1_witness :
    ∃ (h' : Store) (m' : ValaMethod),
      (process_methods1_method 3 1 4 decl_store).outcome = .ok h' ∧
      h'.method (some 4) = .ok m' ∧
      m'.cparameters = some "DemoCircle *self, int turns, char *label" ∧
      m'.cdecl1 = some "static void" := by
  obtain ⟨m', ctypes, hm', hf, -, hself, -, -, hd⟩ :=
    cparameters_and_cdecl1 3 1 4 decl_store _ _ _ _ "void" rfl rfl rfl rfl rfl rfl
  refine ⟨_, m', rfl, hm', ?_, hd⟩
  cases hf with
  | cons h1 hf =>
    cases hf with
    | cons h2 hf =>
      cases hf
      cases h1
      cases h2
      exact hself rfl rfl

/-! ## Lemmas on the walk up the base classes of an overriding method -/

/-- A sequence of emitter code reports a diagnostic exactly when its first part does, or its
first part returns and its second part does. -/
theorem Emit.outcome_bind_eq_exit {α β : Type} (x : Emit α) (f : α → Emit β)
    (l : Option ValaLocation) (d : Diagnostic) :
    (x.bind f).outcome = .exit l d ↔
      x.outcome = .exit l d ∨ ∃ a, x.outcome = .ok a ∧ (f a).outcome = .exit l d := by
  cases x with
  | mk w o => cases o <;> simp [Emit.bind]

/-- The loop over the methods of an ancestor, all of them in the store, is left by `break`
exactly when the ancestor declares an abstract or virtual method of the name. -/
theorem overridable_method_loop_ok (h : Store) (name : String) (l : List MethodPtr)
    (hl : ∀ vp ∈ l, (h.method (some vp)).is_ok = true) :
    ∃ b : Bool, overridable_method_loop h name l = .ok b ∧
      (b = true ↔ ∃ vp ∈ l, ∃ vm : ValaMethod, h.method (some vp) = .ok vm ∧ vm.name = name ∧
        (vm.modifiers.ABSTRACT = true ∨ vm.modifiers.VIRTUAL = true)) := by
  induction l with
  | nil => exact ⟨false, rfl, by simp⟩
  | cons vp l ih =>
    obtain ⟨vm, hvm⟩ := (Outcome.is_ok_iff _).1 (hl vp (List.mem_cons_self vp l))
    obtain ⟨b, hb, hiff⟩ := ih (fun q hq => hl q (List.mem_cons_of_mem vp hq))
    by_cases hcond : vm.name = name ∧ (vm.modifiers.ABSTRACT = true ∨ vm.modifiers.VIRTUAL = true)
    · refine ⟨true, ?_, ?_⟩
      · simp only [overridable_method_loop, Outcome.bind_eq, hvm, Outcome.bind, hcond]
        simp
      · simp only [true_iff]
        exact ⟨vp, List.mem_cons_self vp l, vm, hvm, hcond.1, hcond.2⟩
    · refine ⟨b, ?_, ?_⟩
      · simp only [overridable_method_loop, Outcome.bind_eq, hvm, Outcome.bind, hcond,
          if_false]
        exact hb
      · rw [hiff]
        constructor
        · rintro ⟨q, hq, w, hw, hn⟩
          exact ⟨q, List.mem_cons_of_mem vp hq, w, hw, hn⟩
        · rintro ⟨q, hq, w, hw, hn⟩
          cases hq with
          | head =>
            rw [hvm] at hw
            cases hw
            exact absurd hn hcond
          | tail _ hq => exact ⟨q, hq, w, hw, hn⟩

/-- The loop over the methods of a class in terms of the notion of the claims. -/
theorem overridable_method_loop_declares (h : Store) (name : String) (c : ValaClass)
    (hl : ∀ vp ∈ c.methods, (h.method (some vp)).is_ok = true) :
    ∃ b : Bool, overridable_method_loop h name c.methods = .ok b ∧
      (b = true ↔ h.declares_overridable c name) :=
  overridable_method_loop_ok h name c.methods hl

/-- The walk over a finite chain none of whose classes declares an overridable method of the
name ends with `super_class == NULL`. -/
theorem virtual_super_class_loop_none (h : Store) (name : String) (p : Option ClassPtr)
    (chain : List (ClassPtr × ValaClass)) (hchain : BaseClassChain h p chain) :
    ∀ fuel, chain.length ≤ fuel →
    (∀ a ∈ chain, ∀ vp ∈ a.2.methods, (h.method (some vp)).is_ok = true) →
    (∀ a ∈ chain, ¬ h.declares_overridable a.2 name) →
    virtual_super_class_loop h name fuel p = .ok none := by
  induction hchain with
  | root =>
    intro fuel _ _ _
    cases fuel <;> rfl
  | step q c rest hc _ ih =>
    intro fuel hfuel hm hno
    cases fuel with
    | zero => simp at hfuel
    | succ fuel =>
      obtain ⟨b, hb, hiff⟩ := overridable_method_loop_declares h name c
        (hm (q, c) (List.mem_cons_self _ _))
      have hbf : b = false := by
        cases b with
        | false => rfl
        | true => exact absurd (hiff.1 rfl) (hno (q, c) (List.mem_cons_self _ _))
      subst hbf
      simp only [virtual_super_class_loop, Outcome.bind_eq, hc, Outcome.bind, hb,
        Bool.false_eq_true, if_false]
      exact ih fuel (by simpa using hfuel)
        (fun a ha => hm a (List.mem_cons_of_mem _ ha))
        (fun a ha => hno a (List.mem_cons_of_mem _ ha))

/-- The walk over a finite chain stops at the first class that declares an overridable method
of the name. -/
theorem virtual_super_class_loop_some (h : Store) (name : String) (p : Option ClassPtr)
    (chain : List (ClassPtr × ValaClass)) (hchain : BaseClassChain h p chain) :
    ∀ (fuel : Nat) (pre : List (ClassPtr × ValaClass)) (a : ClassPtr × ValaClass)
      (post : List (ClassPtr × ValaClass)), chain.length ≤ fuel →
    (∀ a ∈ chain, ∀ vp ∈ a.2.methods, (h.method (some vp)).is_ok = true) →
    chain = pre ++ a :: post → (∀ b ∈ pre, ¬ h.declares_overridable b.2 name) →
    h.declares_overridable a.2 name →
    virtual_super_class_loop h name fuel p = .ok (some a.1) ∧ h.class_ (some a.1) = .ok a.2 := by
  induction hchain with
  | root =>
    intro fuel pre a post _ _ he
    cases pre <;> cases he
  | step q c rest hc _ ih =>
    intro fuel pre a post hfuel hm he hno hyes
    cases fuel with
    | zero => simp at hfuel
    | succ fuel =>
      obtain ⟨b, hb, hiff⟩ := overridable_method_loop_declares h name c
        (hm (q, c) (List.mem_cons_self _ _))
      cases pre with
      | nil =>
        simp only [List.nil_append, List.cons.injEq] at he
        obtain ⟨rfl, rfl⟩ := he
        have hbt : b = true := hiff.2 hyes
        subst hbt
        simp only [virtual_super_class_loop, Outcome.bind_eq, hc, Outcome.bind, hb, if_true]
        exact ⟨rfl, trivial⟩
      | cons x pre =>
        simp only [List.cons_append, List.cons.injEq] at he
        obtain ⟨rfl, he⟩ := he
        have hbf : b = false := by
          cases b with
          | false => rfl
          | true => exact absurd (hiff.1 rfl) (hno (q, c) (List.mem_cons_self _ _))
        subst hbf
        simp only [virtual_super_class_loop, Outcome.bind_eq, hc, Outcome.bind, hb,
          Bool.false_eq_true, if_false]
        exact ih fuel pre a post (by simpa using hfuel)
          (fun a ha => hm a (List.mem_cons_of_mem _ ha)) he
          (fun b hb => hno b (List.mem_cons_of_mem _ hb)) hyes

/-- A chain with a class that has a property has a first such class. -/
theorem chain_first {α : Type} (P : α → Prop) (chain : List α) (a : α) (ha : a ∈ chain)
    (hp : P a) :
    ∃ (pre : List α) (b : α) (post : List α), chain = pre ++ b :: post ∧
      (∀ x ∈ pre, ¬ P x) ∧ P b := by
  induction chain with
  | nil => cases ha
  | cons x rest ih =>
    by_cases hx : P x
    · exact ⟨[], x, rest, rfl, fun _ h => (by cases h), hx⟩
    · have har : a ∈ rest := by
        cases ha with
        | head => exact absurd hp hx
        | tail _ h => exact h
      obtain ⟨pre, b, post, he, hn, hb⟩ := ih har
      refine ⟨x :: pre, b, post, by rw [he]; rfl, fun y hy => ?_, hb⟩
      cases hy with
      | head => exact hx
      | tail _ h => exact hn y h

/-- The only diagnostic of the C name of a type is the internal one for a symbol kind without
a C name. -/
theorem get_cname_for_type_reference_exit (h : Store) (type : ValaTypeReference)
    (constant : Bool) (location l : Option ValaLocation) (d : Diagnostic)
    (hx : get_cname_for_type_reference h type constant location = .exit l d) :
    ∃ k, d = .InternalUnhandledKind k := by
  unfold get_cname_for_type_reference at hx
  simp only [Outcome.bind_eq, Outcome.pure_eq, Outcome.bind_eq_exit] at hx
  rcases hx with hx | ⟨symbol, _, hx⟩
  · exact absurd hx (Outcome.of_option_ne_exit _ _ _)
  · split at hx
    · simp only [Outcome.bind_eq_exit] at hx
      rcases hx with hx | ⟨_, _, hx⟩
      · exact absurd hx (Outcome.of_option_ne_exit _ _ _)
      · cases hx
    · simp only [Outcome.bind_eq_exit] at hx
      rcases hx with hx | ⟨_, _, hx⟩
      · exact absurd hx (Outcome.of_option_ne_exit _ _ _)
      · split at hx <;> cases hx
    · simp only [Outcome.bind_eq_exit] at hx
      rcases hx with hx | ⟨_, _, hx⟩
      · exact absurd hx (Outcome.of_option_ne_exit _ _ _)
      · cases hx
    · cases hx
    · cases hx
      exact ⟨_, rfl⟩

/-- The only diagnostic of the loop over the formal parameters is the internal one for a
symbol kind without a C name. -/
theorem formal_parameters_loop_exit (h : Store) (params : List ValaFormalParameter)
    (l : Option ValaLocation) (d : Diagnostic)
    (hx : formal_parameters_loop h params = .exit l d) : ∃ k, d = .InternalUnhandledKind k := by
  induction params with
  | nil => cases hx
  | cons p ps ih =>
    simp only [formal_parameters_loop, Outcome.bind_eq, Outcome.pure_eq, Outcome.bind_eq_exit]
      at hx
    rcases hx with hx | ⟨_, _, hx | ⟨_, hx, hx2⟩⟩
    · exact get_cname_for_type_reference_exit _ _ _ _ _ _ hx
    · exact ih hx
    · cases hx2

/-- The computation of `cdecl1` reports no diagnostic. -/
theorem methods1_cdecl1_ne_exit (m : ValaMethod) (rt : String) (l : Option ValaLocation)
    (d : Diagnostic) : (methods1_cdecl1 m rt).outcome ≠ .exit l d := by
  intro hx
  unfold methods1_cdecl1 at hx
  split at hx
  · cases hx
  · simp only [Emit.seq_eq, Emit.outcome_bind_eq_exit, Emit.outcome_run] at hx
    rcases hx with hx | ⟨_, _, hx | ⟨_, _, hx | ⟨_, _, hx | ⟨_, _, hx⟩⟩⟩⟩
    · exact absurd hx (Outcome.of_option_ne_exit _ _ _)
    · exact absurd hx (Outcome.of_option_ne_exit _ _ _)
    · exact absurd hx (Outcome.of_option_ne_exit _ _ _)
    · cases hx
    · cases hx

/-- The diagnostics of the check of the initializers. -/
theorem methods1_initializers_exit (c : ValaClass) (mp : MethodPtr) (m : ValaMethod)
    (l : Option ValaLocation) (d : Diagnostic)
    (hx : methods1_initializers c mp m = .exit l d) :
    l = m.location ∧
    ((d = .InstanceInitStatic ∧ m.name = "init" ∧ m.modifiers.STATIC = true) ∨
      (d = .InstanceInitArguments ∧ m.name = "init" ∧ m.modifiers.STATIC = false ∧
        m.formal_parameters ≠ []) ∨
      (d = .ClassInitNotStatic ∧ m.name = "class_init" ∧ m.modifiers.STATIC = false) ∨
      (d = .ClassInitArguments ∧ m.name = "class_init" ∧ m.modifiers.STATIC = true ∧
        m.formal_parameters ≠ [])) := by
  unfold methods1_initializers at hx
  split at hx
  next hn =>
    split at hx
    next hs =>
      cases hx
      exact ⟨rfl, Or.inl ⟨rfl, hn, hs⟩⟩
    next hs =>
      split at hx
      next hp =>
        cases hx
        refine ⟨rfl, Or.inr (Or.inl ⟨rfl, hn, by simpa using hs, ?_⟩)⟩
        intro he
        rw [he] at hp
        simp at hp
      next hp => cases hx
  next hn =>
    split at hx
    next hn2 =>
      split at hx
      next hs =>
        cases hx
        exact ⟨rfl, Or.inr (Or.inr (Or.inl ⟨rfl, hn2, by simpa using hs⟩))⟩
      next hs =>
        split at hx
        next hp =>
          cases hx
          refine ⟨rfl, Or.inr (Or.inr (Or.inr ⟨rfl, hn2, by simpa using hs, ?_⟩))⟩
          intro he
          rw [he] at hp
          simp at hp
        next hp => cases hx
    next hn2 => cases hx

/-- The instance parameter of a non-static overriding method, by the result of the walk. -/
theorem methods1_instance_parameter_override (h : Store) (fuel : Nat) (c : ValaClass)
    (m : ValaMethod) (hs : m.modifiers.STATIC = false) (ho : m.modifiers.OVERRIDE = true) :
    (virtual_super_class_loop h m.name fuel c.base_class = .ok none →
      methods1_instance_parameter h fuel c m =
        .exit m.location (.NoOverridableMethod m.name)) ∧
    (∀ (sp : ClassPtr) (sc : ValaClass),
      virtual_super_class_loop h m.name fuel c.base_class = .ok (some sp) →
      h.class_ (some sp) = .ok sc →
      methods1_instance_parameter h fuel c m =
        .ok ({ m with virtual_super_class := some sp }, [sc.cname ++ " *base"])) := by
  constructor
  · intro hw
    simp [methods1_instance_parameter, hs, ho, hw, Outcome.bind, err]
  · intro sp sc hw hsc
    simp [methods1_instance_parameter, hs, ho, hw, Outcome.bind, hsc]

/-- After the instance parameter, a turn of the loop reports no missing overridable
method. -/
theorem methods1_tail_exit (h : Store) (cp : ClassPtr) (mp : MethodPtr) (c : ValaClass)
    (rt : String) (r : ValaMethod × List String) (l : Option ValaLocation) (n : String) :
    ((Emit.run (formal_parameters_loop h r.1.formal_parameters)).bind fun params =>
      (methods1_cdecl1 { r.1 with cparameters := some (join_parameter_list (r.2 ++ params)) }
        rt).bind fun method =>
      (Emit.run (methods1_initializers c mp method)).bind fun c2 =>
      (pure ((h.set_method mp method).set_class cp c2) : Emit Store)).outcome ≠
      .exit l (.NoOverridableMethod n) := by
  intro hx
  simp only [Emit.outcome_bind_eq_exit, Emit.outcome_run, Emit.outcome_pure] at hx
  rcases hx with hx | ⟨_, _, hx | ⟨m2, _, hx | ⟨_, _, hx⟩⟩⟩
  · obtain ⟨k, hk⟩ := formal_parameters_loop_exit _ _ _ _ hx
    cases hk
  · exact methods1_cdecl1_ne_exit _ _ _ _ hx
  · obtain ⟨-, hd⟩ := methods1_initializers_exit _ _ _ _ _ hx
    rcases hd with ⟨hd, -⟩ | ⟨hd, -⟩ | ⟨hd, -⟩ | ⟨hd, -⟩ <;> cases hd
  · cases hx

/-! ## Claims on the overridden method -/

/-- C25: for a non-static method `m` with the Override modifier, of a class `C` in a
namespace that is not imported, whose return type has a C name, where `chain` is the finite
chain of the proper ancestors of `C`, nearest first, their methods are in the store and the
fuel covers the chain: the turn of the first pass over `m` reports the NoOverridableMethod
diagnostic exactly when no class of the chain declares a method of the name of `m` that
carries Virtual or Abstract, and it does so at the location of `m` with its name; when `a` is
the first class of the chain that declares one, line 145 sets `virtual_super_class` to `a`
and the instance parameter is `<a cname> *base`, and a turn that returns leaves `a` as the
`virtual_super_class` of the method record. -/
theorem no_overridable_method_iff (fuel : Nat) (cp : ClassPtr) (mp : MethodPtr) (h : Store)
    (c : ValaClass) (ns : ValaNamespace) (m : ValaMethod) (rt : String)
    (chain : List (ClassPtr × ValaClass))
    (hc : h.class_ (some cp) = .ok c) (hns : h.namespace_ (some c.namespace_) = .ok ns)
    (hm : h.method (some mp) = .ok m)
    (hrt : get_cname_for_type_reference h m.return_type false m.location = .ok rt)
    (himp : ns.import_ = false) (hs : m.modifiers.STATIC = false)
    (ho : m.modifiers.OVERRIDE = true) (hchain : BaseClassChain h c.base_class chain)
    (hfuel : chain.length ≤ fuel)
    (hmethods : ∀ a ∈ chain, ∀ vp ∈ a.2.methods, (h.method (some vp)).is_ok = true) :
    ((∃ l n, (process_methods1_method fuel cp mp h).outcome =
        .exit l (.NoOverridableMethod n)) ↔
      ∀ a ∈ chain, ¬ h.declares_overridable a.2 m.name) ∧
    ((∀ a ∈ chain, ¬ h.declares_overridable a.2 m.name) →
      (process_methods1_method fuel cp mp h).outcome =
        .exit m.location (.NoOverridableMethod m.name)) ∧
    (∀ (pre : List (ClassPtr × ValaClass)) (a : ClassPtr × ValaClass)
        (post : List (ClassPtr × ValaClass)), chain = pre ++ a :: post →
      (∀ b ∈ pre, ¬ h.declares_overridable b.2 m.name) → h.declares_overridable a.2 m.name →
      methods1_instance_parameter h fuel c
          (methods1_cname ns.lower_case_cname c.lower_case_cname m) =
        .ok ({ methods1_cname ns.lower_case_cname c.lower_case_cname m with
          virtual_super_class := some a.1 }, [a.2.cname ++ " *base"]) ∧
      ∀ h', (process_methods1_method fuel cp mp h).outcome = .ok h' →
        ∃ m', h'.method (some mp) = .ok m' ∧ m'.virtual_super_class = some a.1) := by
  have hmod : (methods1_cname ns.lower_case_cname c.lower_case_cname m).modifiers =
      m.modifiers := by rw [methods1_cname_eq]
  have hname : (methods1_cname ns.lower_case_cname c.lower_case_cname m).name = m.name := by
    rw [methods1_cname_eq]
  have hloc : (methods1_cname ns.lower_case_cname c.lower_case_cname m).location =
      m.location := by rw [methods1_cname_eq]
  obtain ⟨k0, k1⟩ := methods1_instance_parameter_override h fuel c
    (methods1_cname ns.lower_case_cname c.lower_case_cname m) (hmod ▸ hs) (hmod ▸ ho)
  rw [hname, hloc] at k0
  have hnone : (∀ a ∈ chain, ¬ h.declares_overridable a.2 m.name) →
      (process_methods1_method fuel cp mp h).outcome =
        .exit m.location (.NoOverridableMethod m.name) := by
    intro hno
    have hw := virtual_super_class_loop_none h m.name c.base_class chain hchain fuel hfuel
      hmethods hno
    rw [process_methods1_method_eq fuel cp mp h c ns m rt hc hns hm hrt, himp, k0 hw]
    rfl
  have hsome : ∀ (pre : List (ClassPtr × ValaClass)) (a : ClassPtr × ValaClass)
      (post : List (ClassPtr × ValaClass)), chain = pre ++ a :: post →
      (∀ b ∈ pre, ¬ h.declares_overridable b.2 m.name) → h.declares_overridable a.2 m.name →
      methods1_instance_parameter h fuel c
          (methods1_cname ns.lower_case_cname c.lower_case_cname m) =
        .ok ({ methods1_cname ns.lower_case_cname c.lower_case_cname m with
          virtual_super_class := some a.1 }, [a.2.cname ++ " *base"]) := by
    intro pre a post he hno hyes
    obtain ⟨hw, hca⟩ := virtual_super_class_loop_some h m.name c.base_class chain hchain fuel
      pre a post hfuel hmethods he hno hyes
    exact k1 a.1 a.2 (by rw [hname]; exact hw) hca
  refine ⟨⟨?_, fun hno => ⟨_, _, hnone hno⟩⟩, hnone, fun pre a post he hno hyes =>
    ⟨hsome pre a post he hno hyes, fun h' hrun => ?_⟩⟩
  · rintro ⟨l, n, hx⟩ a ha hyes
    obtain ⟨pre, b, post, he, hno, hb⟩ :=
      chain_first (fun x => h.declares_overridable x.2 m.name) chain a ha hyes
    rw [process_methods1_method_eq fuel cp mp h c ns m rt hc hns hm hrt, himp,
      hsome pre b post he hno hb] at hx
    rw [if_neg Bool.false_ne_true, Emit.run_ok_bind] at hx
    exact methods1_tail_exit h cp mp c rt _ l n hx
  · obtain ⟨vsc, first, params, c2, hip, -, -, hh⟩ :=
      process_methods1_method_run fuel cp mp h h' c ns m rt hc hns hm hrt himp hrun
    rw [hsome pre a post he hno hyes] at hip
    simp only [Outcome.ok.injEq, Prod.mk.injEq] at hip
    have hv := congrArg ValaMethod.virtual_super_class hip.1
    simp only at hv
    subst hh
    exact ⟨_, (process_methods1_method_store h cp mp c c2 m _ hc hm).1, hv.symm⟩

/-- Witness of C25: in the third sample program the overriding method `draw` of `Circle`
finds the abstract `draw` of the base class `Shape`, and its turn records `Shape` as the
`virtual_super_class`. -/
theorem no_overridable_method_iff_witness :
    ∃ (h' : Store) (m' : ValaMethod),
      (process_methods1_method 3 1 3 decl_store).outcome = .ok h' ∧
      h'.method (some 3) = .ok m' ∧ m'.virtual_super_class = some 0 := by
  obtain ⟨m', hm', hv⟩ := ((no_overridable_method_iff 3 1 3 decl_store _ _ _ "void" [(0, _)]
    rfl rfl rfl rfl rfl rfl rfl (BaseClassChain.step 0 _ [] rfl BaseClassChain.root)
    (by decide) (by
      intro a ha vp hvp
      simp only [List.mem_singleton] at ha
      subst ha
      have hvp' : vp = 0 ∨ vp = 1 ∨ vp = 2 ∨ vp = 5 := by
        simpa [decl_store] using hvp
      rcases hvp' with rfl | rfl | rfl | rfl <;> rfl)).2.2 [] _ [] rfl
    (fun _ hb => by cases hb) ⟨0, List.mem_cons_self 0 [1, 2, 5], _, rfl, rfl, Or.inl rfl⟩).2 _ rfl
  exact ⟨_, m', rfl, hm', hv⟩

/-! ## Lemmas on the initializers of a class -/

/-- The computation of `cdecl1` of a method with a C name and C parameters returns. -/
theorem methods1_cdecl1_returns (m : ValaMethod) (rt : String) (hn : m.cname ≠ none)
    (hp : m.cparameters ≠ none) :
    (methods1_cdecl1 m rt).outcome =
      .ok { m with cdecl1 := some (if m.modifiers.PUBLIC then rt else "static " ++ rt) } := by
  cases m with
  | mk name modifiers return_type class_ formal_parameters body location rmp il ism cname cp
      cd vsc =>
    cases cname with
    | none => exact absurd rfl hn
    | some n =>
      cases cp with
      | none => exact absurd rfl hp
      | some p =>
        unfold methods1_cdecl1
        by_cases hpub : modifiers.PUBLIC = true
        · simp [hpub, Emit.ret_eq]
        · simp [hpub, Emit.seq_eq, Emit.bind, Emit.run, Outcome.of_option, fprintf_c_file,
            Emit.ret_eq]

/-- The check of the initializers, case by case. -/
theorem methods1_initializers_eq (c : ValaClass) (mp : MethodPtr) (m : ValaMethod) :
    (m.name = "init" → m.modifiers.STATIC = true →
      methods1_initializers c mp m = .exit m.location .InstanceInitStatic) ∧
    (m.name = "init" → m.modifiers.STATIC = false → m.formal_parameters ≠ [] →
      methods1_initializers c mp m = .exit m.location .InstanceInitArguments) ∧
    (m.name = "init" → m.modifiers.STATIC = false → m.formal_parameters = [] →
      methods1_initializers c mp m = .ok { c with init_method := some mp }) ∧
    (m.name = "class_init" → m.modifiers.STATIC = false →
      methods1_initializers c mp m = .exit m.location .ClassInitNotStatic) ∧
    (m.name = "class_init" → m.modifiers.STATIC = true → m.formal_parameters ≠ [] →
      methods1_initializers c mp m = .exit m.location .ClassInitArguments) ∧
    (m.name = "class_init" → m.modifiers.STATIC = true → m.formal_parameters = [] →
      methods1_initializers c mp m = .ok { c with class_init_method := some mp }) ∧
    (m.name ≠ "init" → m.name ≠ "class_init" → methods1_initializers c mp m = .ok c) := by
  have hd : ("class_init" : String) ≠ "init" := by decide
  refine ⟨fun hn hs => ?_, fun hn hs hp => ?_, fun hn hs hp => ?_, fun hn hs => ?_,
    fun hn hs hp => ?_, fun hn hs hp => ?_, fun hn hn2 => ?_⟩
  · simp [methods1_initializers, hn, hs, err]
  · cases hf : m.formal_parameters with
    | nil => exact absurd hf hp
    | cons a l => simp [methods1_initializers, hn, hs, hf, err]
  · simp [methods1_initializers, hn, hs, hp]
  · simp [methods1_initializers, hn, hs, hd, err]
  · cases hf : m.formal_parameters with
    | nil => exact absurd hf hp
    | cons a l => simp [methods1_initializers, hn, hs, hf, hd, err]
  · simp [methods1_initializers, hn, hs, hp, hd]
  · simp [methods1_initializers, hn, hn2]

/-- A turn of the first pass whose lines before the check of the initializers return ends as
that check does. -/
theorem process_methods1_method_initializers (fuel : Nat) (cp : ClassPtr) (mp : MethodPtr)
    (h : Store) (c : ValaClass) (ns : ValaNamespace) (m m1 : ValaMethod) (rt : String)
    (first params : List String)
    (hc : h.class_ (some cp) = .ok c) (hns : h.namespace_ (some c.namespace_) = .ok ns)
    (hm : h.method (some mp) = .ok m)
    (hrt : get_cname_for_type_reference h m.return_type false m.location = .ok rt)
    (himp : ns.import_ = false)
    (hip : methods1_instance_parameter h fuel c
      (methods1_cname ns.lower_case_cname c.lower_case_cname m) = .ok (m1, first))
    (hfp : formal_parameters_loop h m.formal_parameters = .ok params) :
    ∃ m3 : ValaMethod, m3.name = m.name ∧ m3.modifiers = m.modifiers ∧
      m3.formal_parameters = m.formal_parameters ∧ m3.location = m.location ∧
      (process_methods1_method fuel cp mp h).outcome =
        (methods1_initializers c mp m3).bind fun c2 =>
          .ok ((h.set_method mp m3).set_class cp c2) := by
  have e1 := methods1_instance_parameter_ok _ _ _ _ _ _ hip
  have hfmt : m1.formal_parameters = m.formal_parameters := by
    rw [e1, methods1_cname_eq]
  have hcn : m1.cname ≠ none := by
    rw [e1, methods1_cname_eq]
    simp
  have hcd := methods1_cdecl1_returns
    { m1 with cparameters := some (join_parameter_list (first ++ params)) } rt hcn (by simp)
  refine ⟨{ m1 with
      cparameters := some (join_parameter_list (first ++ params)),
      cdecl1 := some (if m1.modifiers.PUBLIC then rt else "static " ++ rt) }, ?_, ?_, hfmt, ?_,
    ?_⟩
  · show m1.name = m.name
    rw [e1, methods1_cname_eq]
  · show m1.modifiers = m.modifiers
    rw [e1, methods1_cname_eq]
  · show m1.location = m.location
    rw [e1, methods1_cname_eq]
  · rw [process_methods1_method_eq fuel cp mp h c ns m rt hc hns hm hrt, himp,
      if_neg Bool.false_ne_true, hip, Emit.run_ok_bind]
    rw [← hfmt] at hfp
    dsimp only
    rw [hfp, Emit.run_ok_bind, Emit.outcome_bind _ _ _ hcd]
    cases methods1_initializers c mp _ <;> rfl

/-- The second pass skips the initializers. -/
theorem process_methods2_method_skip (fuel depth : Nat) (cp : ClassPtr) (mp : MethodPtr)
    (s : ValaCodeGenerator × Store) (c : ValaClass) (ns : ValaNamespace) (m : ValaMethod)
    (hc : s.2.class_ (some cp) = .ok c) (hns : s.2.namespace_ (some c.namespace_) = .ok ns)
    (hm : s.2.method (some mp) = .ok m) (hn : m.name = "init" ∨ m.name = "class_init") :
    process_methods2_method fuel depth cp mp s = pure s := by
  simp only [process_methods2_method, Emit.seq_eq, hc, hns, hm, Emit.run_ok_bind, hn, if_true]

/-! ## Claims on the initializers of a class -/

/-- C26: for a method of a class in a namespace that is not imported, in a turn of the first
pass whose lines before the check of the initializers return (the C name of the return type,
the instance parameter and the parameter strings are computed): the turn reports one of the
two diagnostics of the shape of the instance initializer exactly when the method is named
`init` and is static or has a formal parameter; it reports one of the two diagnostics of the
shape of the class initializer exactly when the method is named `class_init` and is not
static or has a formal parameter; a diagnostic is reported at the location of the method; the
turn over a well-shaped `init` returns with the method recorded as `init_method` of the class,
the turn over a well-shaped `class_init` returns with the method recorded as
`class_init_method`; and the turn of the second pass over a method named `init` or
`class_init` writes nothing on either stream and changes nothing. -/
theorem initializer_shape (fuel : Nat) (cp : ClassPtr) (mp : MethodPtr)
    (h : Store) (c : ValaClass) (ns : ValaNamespace) (m m1 : ValaMethod) (rt : String)
    (first params : List String)
    (hc : h.class_ (some cp) = .ok c) (hns : h.namespace_ (some c.namespace_) = .ok ns)
    (hm : h.method (some mp) = .ok m)
    (hrt : get_cname_for_type_reference h m.return_type false m.location = .ok rt)
    (himp : ns.import_ = false)
    (hip : methods1_instance_parameter h fuel c
      (methods1_cname ns.lower_case_cname c.lower_case_cname m) = .ok (m1, first))
    (hfp : formal_parameters_loop h m.formal_parameters = .ok params) :
    ((∃ l d, (d = .InstanceInitStatic ∨ d = .InstanceInitArguments) ∧
        (process_methods1_method fuel cp mp h).outcome = .exit l d) ↔
      m.name = "init" ∧ (m.modifiers.STATIC = true ∨ m.formal_parameters ≠ [])) ∧
    ((∃ l d, (d = .ClassInitNotStatic ∨ d = .ClassInitArguments) ∧
        (process_methods1_method fuel cp mp h).outcome = .exit l d) ↔
      m.name = "class_init" ∧ (m.modifiers.STATIC = false ∨ m.formal_parameters ≠ [])) ∧
    (∀ l d, (process_methods1_method fuel cp mp h).outcome = .exit l d → l = m.location) ∧
    (m.name = "init" → m.modifiers.STATIC = false → m.formal_parameters = [] →
      ∃ h' c', (process_methods1_method fuel cp mp h).outcome = .ok h' ∧
        h'.class_ (some cp) = .ok c' ∧ c'.init_method = some mp) ∧
    (m.name = "class_init" → m.modifiers.STATIC = true → m.formal_parameters = [] →
      ∃ h' c', (process_methods1_method fuel cp mp h).outcome = .ok h' ∧
        h'.class_ (some cp) = .ok c' ∧ c'.class_init_method = some mp) ∧
    (∀ (fuel2 depth : Nat) (s : ValaCodeGenerator × Store) (c2 : ValaClass)
        (ns2 : ValaNamespace) (m2 : ValaMethod), s.2.class_ (some cp) = .ok c2 →
      s.2.namespace_ (some c2.namespace_) = .ok ns2 → s.2.method (some mp) = .ok m2 →
      m2.name = "init" ∨ m2.name = "class_init" →
      process_methods2_method fuel2 depth cp mp s = pure s) := by
  obtain ⟨m3, en, emod, efp, eloc, hout⟩ := process_methods1_method_initializers fuel cp mp h c
    ns m m1 rt first params hc hns hm hrt himp hip hfp
  have K := methods1_initializers_eq c mp m3
  rw [en, emod, efp, eloc] at K
  obtain ⟨k1, k2, k3, k4, k5, k6, k7⟩ := K
  have hd : ("class_init" : String) ≠ "init" := by decide
  rw [hout]
  refine ⟨?_, ?_, ?_, fun hn hs hp => ?_, fun hn hs hp => ?_,
    fun fuel2 depth s c2 ns2 m2 h1 h2 h3 h4 =>
      process_methods2_method_skip fuel2 depth cp mp s c2 ns2 m2 h1 h2 h3 h4⟩
  · by_cases hn : m.name = "init"
    · cases hs : m.modifiers.STATIC with
      | true =>
        rw [k1 hn hs]
        simp [Outcome.bind, hn]
      | false =>
        by_cases hp : m.formal_parameters = []
        · rw [k3 hn hs hp]
          simp [Outcome.bind, hn, hp]
        · rw [k2 hn hs hp]
          simp [Outcome.bind, hn, hp]
    · by_cases hn2 : m.name = "class_init"
      · cases hs : m.modifiers.STATIC with
        | false =>
          rw [k4 hn2 hs]
          simp [Outcome.bind, hn]
        | true =>
          by_cases hp : m.formal_parameters = []
          · rw [k6 hn2 hs hp]
            simp [Outcome.bind, hn]
          · rw [k5 hn2 hs hp]
            simp [Outcome.bind, hn]
      · rw [k7 hn hn2]
        simp [Outcome.bind, hn]
  · by_cases hn : m.name = "init"
    · have hn2 : m.name ≠ "class_init" := by
        rw [hn]
        exact hd.symm
      cases hs : m.modifiers.STATIC with
      | true =>
        rw [k1 hn hs]
        simp [Outcome.bind, hn2]
      | false =>
        by_cases hp : m.formal_parameters = []
        · rw [k3 hn hs hp]
          simp [Outcome.bind, hn2]
        · rw [k2 hn hs hp]
          simp [Outcome.bind, hn2]
    · by_cases hn2 : m.name = "class_init"
      · cases hs : m.modifiers.STATIC with
        | false =>
          rw [k4 hn2 hs]
          simp [Outcome.bind, hn2]
        | true =>
          by_cases hp : m.formal_parameters = []
          · rw [k6 hn2 hs hp]
            simp [Outcome.bind, hn2, hp]
          · rw [k5 hn2 hs hp]
            simp [Outcome.bind, hn2, hp]
      · rw [k7 hn hn2]
        simp [Outcome.bind, hn2]
  · intro l d hx
    rw [Outcome.bind_eq_exit] at hx
    rcases hx with hx | ⟨_, _, hx⟩
    · rw [← eloc]
      exact (methods1_initializers_exit _ _ _ _ _ hx).1
    · cases hx
  · rw [k3 hn hs hp]
    exact ⟨_, _, rfl, (process_methods1_method_store h cp mp c _ m m3 hc hm).2, rfl⟩
  · rw [k6 hn hs hp]
    exact ⟨_, _, rfl, (process_methods1_method_store h cp mp c _ m m3 hc hm).2, rfl⟩

/-- Witness of C26: in the third sample program the turn of the first pass over the method
`init` of `Shape`, which is not static and has no parameter, returns and records the method
as the `init_method` of the class. -/
theorem initializer_shape_witness :
    ∃ (h' : Store) (c' : ValaClass),
      (process_methods1_method 3 0 2 decl_store).outcome = .ok h' ∧
      h'.class_ (some 0) = .ok c' ∧ c'.init_method = some 2 :=
  (initializer_shape 3 0 2 decl_store _ _ _ _ "void" _ _ rfl rfl rfl rfl rfl rfl rfl).2.2.2.1
    rfl rfl rfl

/-! ## Lemmas on the text of a loop -/

/-- Texts on the header stream are appended. -/
theorem Output.append_h_file (a b : Output) : (a ++ b).h_file = a.h_file ++ b.h_file := rfl

/-- The header text of a sequence whose first part returns. -/
theorem Emit.h_text_bind {α β : Type} (x : Emit α) (f : α → Emit β) (a : α)
    (hx : x.outcome = .ok a) : (x.bind f).h_text = x.h_text ++ (f a).h_text := by
  simp [Emit.bind, hx, Emit.h_text, Output.append_h_file]

/-- One turn of the loop over the virtual method pointers, with the flag `first` still set:
nothing for a method that is neither abstract nor virtual, and for the others the comment and
the slot; the flag stays set. -/
theorem virtual_method_pointer_eq (h : Store) (mp : MethodPtr) (m : ValaMethod)
    (hm : h.method (some mp) = .ok m) :
    (m.modifiers.ABSTRACT = false → m.modifiers.VIRTUAL = false →
      virtual_method_pointer h mp true = pure true) ∧
    ((m.modifiers.ABSTRACT = true ∨ m.modifiers.VIRTUAL = true) → ∀ (rt cps : String),
      get_cname_for_type_reference h m.return_type false m.location = .ok rt →
      m.cparameters = some cps →
      (virtual_method_pointer h mp true).outcome = .ok true ∧
      (virtual_method_pointer h mp true).c_text = "" ∧
      (virtual_method_pointer h mp true).h_text =
        "\n" ++ "\t/* virtual methods */\n" ++
          ("\t" ++ rt ++ "(*" ++ m.name ++ ") (" ++ cps ++ ");\n")) := by
  constructor
  · intro ha hv
    simp only [virtual_method_pointer, Emit.seq_eq, hm, Emit.run_ok_bind, ha, hv, or_self,
      Bool.false_eq_true, not_false_eq_true, if_true]
  · intro hav rt cps hrt hcp
    simp only [virtual_method_pointer, Emit.seq_eq, hm, Emit.run_ok_bind, hav,
      not_true_eq_false, if_false, if_true, hrt, hcp, Outcome.of_option]
    refine ⟨rfl, rfl, ?_⟩
    simp [Emit.bind, fprintf_h_file, Emit.h_text, Emit.ret_eq, Output.append_h_file,
      String.append_assoc]

/-- The texts of the methods that are neither abstract nor virtual are empty, so the texts of
all methods are the texts of the abstract and virtual ones. -/
theorem concatenated_filter {α : Type} (p : α → Bool) (t : α → String) (l : List α)
    (ht : ∀ a ∈ l, p a = false → t a = "") :
    concatenated (l.map t) = concatenated ((l.filter p).map t) := by
  induction l with
  | nil => rfl
  | cons a l ih =>
    have ih' := ih (fun b hb => ht b (List.mem_cons_of_mem a hb))
    cases hp : p a with
    | true =>
      rw [List.filter_cons_of_pos hp]
      simp only [List.map_cons, concatenated, ih']
    | false =>
      rw [List.filter_cons_of_neg (by simp [hp])]
      simp only [List.map_cons, concatenated, ih', ht a (List.mem_cons_self a l) hp,
        String.empty_append]

/-- The loop over the virtual method pointers of a list of methods: it returns with the flag
`first` still set, writes nothing on the C stream, and writes on the header stream one slot,
after the comment, for each abstract or virtual method, in order. -/
theorem virtual_method_pointers_loop (h : Store) (l : List MethodPtr) (ms : List ValaMethod)
    (hms : List.Forall₂ (fun (mp : MethodPtr) (m : ValaMethod) => h.method (some mp) = .ok m)
      l ms)
    (hslot : ∀ m ∈ ms, (m.modifiers.ABSTRACT = true ∨ m.modifiers.VIRTUAL = true) →
      ∃ rt cps : String,
        get_cname_for_type_reference h m.return_type false m.location = .ok rt ∧
        m.cparameters = some cps) :
    (g_list_for (virtual_method_pointer h) l true).outcome = .ok true ∧
    (g_list_for (virtual_method_pointer h) l true).c_text = "" ∧
    ∃ slots : List String,
      (g_list_for (virtual_method_pointer h) l true).h_text = concatenated slots ∧
      List.Forall₂ (fun (m : ValaMethod) (slot : String) => ∃ rt cps : String,
        get_cname_for_type_reference h m.return_type false m.location = .ok rt ∧
        m.cparameters = some cps ∧
        slot = "\n" ++ "\t/* virtual methods */\n" ++
          ("\t" ++ rt ++ "(*" ++ m.name ++ ") (" ++ cps ++ ");\n"))
        (ms.filter fun m => m.modifiers.ABSTRACT || m.modifiers.VIRTUAL) slots := by
  induction hms with
  | nil => exact ⟨rfl, rfl, [], rfl, List.Forall₂.nil⟩
  | @cons mp m l ms hm _ ih =>
    obtain ⟨i1, i2, slots, i3, i4⟩ := ih (fun x hx => hslot x (List.mem_cons_of_mem m hx))
    obtain ⟨k1, k2⟩ := virtual_method_pointer_eq h mp m hm
    cases ha : m.modifiers.ABSTRACT with
    | false =>
      cases hv : m.modifiers.VIRTUAL with
      | false =>
        rw [g_list_for_cons, k1 ha hv, Emit.pure_bind]
        refine ⟨i1, i2, slots, i3, ?_⟩
        rw [List.filter_cons_of_neg (by simp [ha, hv])]
        exact i4
      | true =>
        obtain ⟨rt, cps, hrt, hcp⟩ := hslot m (List.mem_cons_self m ms) (Or.inr hv)
        obtain ⟨o1, o2, o3⟩ := k2 (Or.inr hv) rt cps hrt hcp
        refine ⟨?_, ?_, (virtual_method_pointer h mp true).h_text :: slots, ?_, ?_⟩
        · rw [g_list_for_cons, Emit.outcome_bind _ _ _ o1, i1]
        · rw [g_list_for_cons, Emit.c_text_bind _ _ _ o1, o2, i2]
          rfl
        · rw [g_list_for_cons, Emit.h_text_bind _ _ _ o1, i3]
          rfl
        · rw [List.filter_cons_of_pos (by simp [ha, hv])]
          exact List.Forall₂.cons ⟨rt, cps, hrt, hcp, o3⟩ i4
    | true =>
      obtain ⟨rt, cps, hrt, hcp⟩ := hslot m (List.mem_cons_self m ms) (Or.inl ha)
      obtain ⟨o1, o2, o3⟩ := k2 (Or.inl ha) rt cps hrt hcp
      refine ⟨?_, ?_, (virtual_method_pointer h mp true).h_text :: slots, ?_, ?_⟩
      · rw [g_list_for_cons, Emit.outcome_bind _ _ _ o1, i1]
      · rw [g_list_for_cons, Emit.c_text_bind _ _ _ o1, o2, i2]
        rfl
      · rw [g_list_for_cons, Emit.h_text_bind _ _ _ o1, i3]
        rfl
      · rw [List.filter_cons_of_pos (by simp [ha])]
        exact List.Forall₂.cons ⟨rt, cps, hrt, hcp, o3⟩ i4

/-- A loop over the methods of an ancestor that is left by `break` has met an abstract or
virtual method of the name. -/
theorem overridable_method_loop_found (h : Store) (name : String) (l : List MethodPtr)
    (hr : overridable_method_loop h name l = .ok true) :
    ∃ vp ∈ l, ∃ vm : ValaMethod, h.method (some vp) = .ok vm ∧ vm.name = name ∧
      (vm.modifiers.ABSTRACT = true ∨ vm.modifiers.VIRTUAL = true) := by
  induction l with
  | nil => cases hr
  | cons vp l ih =>
    simp only [overridable_method_loop, Outcome.bind_eq, Outcome.bind_eq_ok] at hr
    obtain ⟨vm, hvm, hr⟩ := hr
    split at hr
    next hcond => exact ⟨vp, List.mem_cons_self vp l, vm, hvm, hcond.1, hcond.2⟩
    next hcond =>
      obtain ⟨q, hq, w, hw, hn⟩ := ih hr
      exact ⟨q, List.mem_cons_of_mem vp hq, w, hw, hn⟩

/-- The class the walk up the base classes stops at declares an overridable method of the
name. -/
theorem virtual_super_class_loop_found (h : Store) (name : String) (fuel : Nat)
    (p : Option ClassPtr) (sp : ClassPtr)
    (hr : virtual_super_class_loop h name fuel p = .ok (some sp)) :
    ∃ sc : ValaClass, h.class_ (some sp) = .ok sc ∧ h.declares_overridable sc name := by
  induction fuel generalizing p with
  | zero =>
    cases p with
    | none => cases hr
    | some q => cases hr
  | succ fuel ih =>
    cases p with
    | none => cases hr
    | some q =>
      simp only [virtual_super_class_loop, Outcome.bind_eq, Outcome.bind_eq_ok,
        Outcome.pure_eq] at hr
      obtain ⟨sc, hsc, b, hb, hr⟩ := hr
      cases b with
      | true =>
        simp only [if_true, Outcome.ok.injEq, Option.some.injEq] at hr
        subst hr
        exact ⟨sc, hsc, overridable_method_loop_found h name sc.methods hb⟩
      | false =>
        simp only [Bool.false_eq_true, if_false] at hr
        exact ih _ hr

/-! ## Claims on the virtual method pointers -/

/-- Counterexample to C28: in the third sample program the class `Widget` of the imported
namespace `Lib` has the overriding method `show`; its turn in the first pass returns, and the
method is left without a `virtual_super_class`, so it resolves to no slot. -/
theorem override_slot_counterexample :
    ∃ (h' : Store) (m' : ValaMethod),
      (process_methods1_method 3 2 8 decl_store).outcome = .ok h' ∧
      h'.method (some 8) = .ok m' ∧ m'.modifiers.OVERRIDE = true ∧
      m'.virtual_super_class = none :=
  ⟨_, _, rfl, rfl, rfl, rfl⟩

/-- C28, amended: for a class whose methods `ms` are in the store, where every abstract or
virtual one has its C parameters set and a return type with a C name, the function that
emits the virtual method pointers returns, writes nothing on the C stream and writes on the
header stream exactly one slot `<return C type>(*name) (cparameters);` for each method that
carries Abstract or Virtual, in declaration order, each after an empty line and the comment
line that the function writes before every slot, so that the number of slots is the number
of these methods; a method that carries Override, with at most one of the three modifiers,
is not among them.  And for an
overriding method that is not static, of a class in a namespace that is not imported, when
its turn in the first pass returns, the `virtual_super_class` of the method record is a class
of the store that declares a method of the same name that carries Abstract or Virtual, hence
has a slot of that name; it is the only method of that name there when the methods of that
class have distinct names.  The turn of the first pass over a method of a class in an
imported namespace, and over a static method, makes no search: when it returns, the
`virtual_super_class` of the method record is what it was. -/
theorem virtual_method_slots (h : Store) (cp : ClassPtr) (c : ValaClass) (ns : ValaNamespace)
    (ms : List ValaMethod)
    (hc : h.class_ (some cp) = .ok c) (hns : h.namespace_ (some c.namespace_) = .ok ns)
    (hms : List.Forall₂ (fun (mp : MethodPtr) (m : ValaMethod) => h.method (some mp) = .ok m)
      c.methods ms)
    (hslot : ∀ m ∈ ms, (m.modifiers.ABSTRACT = true ∨ m.modifiers.VIRTUAL = true) →
      ∃ rt cps : String,
        get_cname_for_type_reference h m.return_type false m.location = .ok rt ∧
        m.cparameters = some cps) :
    ((vala_code_generator_process_virtual_method_pointers h cp).outcome = .ok () ∧
      (vala_code_generator_process_virtual_method_pointers h cp).c_text = "" ∧
      ∃ slots : List String,
        (vala_code_generator_process_virtual_method_pointers h cp).h_text =
          concatenated slots ∧
        slots.length =
          (ms.filter fun m => m.modifiers.ABSTRACT || m.modifiers.VIRTUAL).length ∧
        List.Forall₂ (fun (m : ValaMethod) (slot : String) => ∃ rt cps : String,
          get_cname_for_type_reference h m.return_type false m.location = .ok rt ∧
          m.cparameters = some cps ∧
          slot = "\n" ++ "\t/* virtual methods */\n" ++
            ("\t" ++ rt ++ "(*" ++ m.name ++ ") (" ++ cps ++ ");\n"))
          (ms.filter fun m => m.modifiers.ABSTRACT || m.modifiers.VIRTUAL) slots) ∧
    (∀ m ∈ ms.filter fun m => m.modifiers.ABSTRACT || m.modifiers.VIRTUAL,
      m.modifiers.one_dispatch_kind → m.modifiers.OVERRIDE = false) ∧
    (∀ (fuel : Nat) (cp1 : ClassPtr) (mp : MethodPtr) (h' : Store) (c1 : ValaClass)
        (ns1 : ValaNamespace) (m : ValaMethod),
      h.class_ (some cp1) = .ok c1 → h.namespace_ (some c1.namespace_) = .ok ns1 →
      h.method (some mp) = .ok m → ns1.import_ = false → m.modifiers.STATIC = false →
      m.modifiers.OVERRIDE = true →
      (process_methods1_method fuel cp1 mp h).outcome = .ok h' →
      ∃ (m' : ValaMethod) (sp : ClassPtr) (sc : ValaClass),
        h'.method (some mp) = .ok m' ∧ m'.virtual_super_class = some sp ∧
        h.class_ (some sp) = .ok sc ∧
        ∃ vp ∈ sc.methods, ∃ vm : ValaMethod, h.method (some vp) = .ok vm ∧
          vm.name = m.name ∧
          (vm.modifiers.ABSTRACT = true ∨ vm.modifiers.VIRTUAL = true) ∧
          ((∀ p ∈ sc.methods, ∀ q ∈ sc.methods, ∀ a b : ValaMethod,
              h.method (some p) = .ok a → h.method (some q) = .ok b → a.name = b.name →
              p = q) →
            ∀ q ∈ sc.methods, ∀ b : ValaMethod, h.method (some q) = .ok b →
              b.name = m.name → q = vp)) ∧
    (∀ (fuel : Nat) (cp1 : ClassPtr) (mp : MethodPtr) (h' : Store) (c1 : ValaClass)
        (ns1 : ValaNamespace) (m : ValaMethod),
      h.class_ (some cp1) = .ok c1 → h.namespace_ (some c1.namespace_) = .ok ns1 →
      h.method (some mp) = .ok m → ns1.import_ = true →
      (process_methods1_method fuel cp1 mp h).outcome = .ok h' →
      ∃ m' : ValaMethod, h'.method (some mp) = .ok m' ∧
        m'.virtual_super_class = m.virtual_super_class) ∧
    (∀ (fuel : Nat) (cp1 : ClassPtr) (mp : MethodPtr) (h' : Store) (c1 : ValaClass)
        (ns1 : ValaNamespace) (m : ValaMethod),
      h.class_ (some cp1) = .ok c1 → h.namespace_ (some c1.namespace_) = .ok ns1 →
      h.method (some mp) = .ok m → ns1.import_ = false → m.modifiers.STATIC = true →
      (process_methods1_method fuel cp1 mp h).outcome = .ok h' →
      ∃ m' : ValaMethod, h'.method (some mp) = .ok m' ∧
        m'.virtual_super_class = m.virtual_super_class) := by
  refine ⟨?_, ?_, ?_, ?_, ?_⟩
  · obtain ⟨i1, i2, slots, i3, i4⟩ := virtual_method_pointers_loop h c.methods ms hms hslot
    have e : vala_code_generator_process_virtual_method_pointers h cp =
        (g_list_for (virtual_method_pointer h) c.methods true).bind fun _ => pure () := by
      simp only [vala_code_generator_process_virtual_method_pointers, Emit.seq_eq, hc, hns,
        Emit.run_ok_bind]
    rw [e]
    refine ⟨?_, ?_, slots, ?_, i4.length_eq.symm, i4⟩
    · rw [Emit.outcome_bind _ _ _ i1]
      rfl
    · rw [Emit.c_text_bind _ _ _ i1, i2]
      rfl
    · rw [Emit.h_text_bind _ _ _ i1, i3]
      exact String.append_empty _
  · intro m hmem hone
    rw [List.mem_filter] at hmem
    have hav := hmem.2
    simp only [Bool.or_eq_true] at hav
    rcases hav with ha | hv
    · exact (hone.1 ha).2
    · exact hone.2 hv
  · intro fuel cp1 mp h' c1 ns1 m hc1 hns1 hm himp hs ho hrun
    obtain ⟨c1', ns1', m1, rt, hc1', hns1', hm1, hrt⟩ :=
      process_methods1_method_reads fuel cp1 mp h h' hrun
    rw [hc1] at hc1'
    cases hc1'
    rw [hns1] at hns1'
    cases hns1'
    rw [hm] at hm1
    cases hm1
    obtain ⟨vsc, first, params, c2, hip, -, -, hh⟩ :=
      process_methods1_method_run fuel cp1 mp h h' c1 ns1 m rt hc1 hns1 hm hrt himp hrun
    have hmod : (methods1_cname ns1.lower_case_cname c1.lower_case_cname m).modifiers =
        m.modifiers := by rw [methods1_cname_eq]
    have hname : (methods1_cname ns1.lower_case_cname c1.lower_case_cname m).name =
        m.name := by rw [methods1_cname_eq]
    obtain ⟨-, -, k3⟩ := methods1_instance_parameter_cases h fuel c1 _ _ first hip
    obtain ⟨sp, sc, hw, hsc, hv, -⟩ := k3 (hmod ▸ hs) (hmod ▸ ho)
    rw [hname] at hw
    simp only at hv
    obtain ⟨sc', hsc', vp, hvp, vm, hvm, hn, hk⟩ :=
      virtual_super_class_loop_found h m.name fuel c1.base_class sp hw
    rw [hsc] at hsc'
    cases hsc'
    subst hh
    refine ⟨_, sp, sc, (process_methods1_method_store h cp1 mp c1 c2 m _ hc1 hm).1, hv, hsc,
      vp, hvp, vm, hvm, hn, hk, fun hd q hq b hb hbn => ?_⟩
    exact hd q hq vp hvp b vm hb hvm (hbn.trans hn.symm)
  · intro fuel cp1 mp h' c1 ns1 m hc1 hns1 hm himp hrun
    obtain ⟨c1', ns1', m1, rt, hc1', hns1', hm1, hrt⟩ :=
      process_methods1_method_reads fuel cp1 mp h h' hrun
    rw [hc1] at hc1'
    cases hc1'
    rw [hns1] at hns1'
    cases hns1'
    rw [hm] at hm1
    cases hm1
    have hh := process_methods1_method_import fuel cp1 mp h h' c1 ns1 m rt hc1 hns1 hm hrt
      himp hrun
    subst hh
    exact ⟨_, Store.set_method_self h mp m _ hm, rfl⟩
  · intro fuel cp1 mp h' c1 ns1 m hc1 hns1 hm himp hs hrun
    obtain ⟨c1', ns1', m1, rt, hc1', hns1', hm1, hrt⟩ :=
      process_methods1_method_reads fuel cp1 mp h h' hrun
    rw [hc1] at hc1'
    cases hc1'
    rw [hns1] at hns1'
    cases hns1'
    rw [hm] at hm1
    cases hm1
    obtain ⟨vsc, first, params, c2, hip, -, -, hh⟩ :=
      process_methods1_method_run fuel cp1 mp h h' c1 ns1 m rt hc1 hns1 hm hrt himp hrun
    have hmod : (methods1_cname ns1.lower_case_cname c1.lower_case_cname m).modifiers =
        m.modifiers := by rw [methods1_cname_eq]
    obtain ⟨k1, -, -⟩ := methods1_instance_parameter_cases h fuel c1 _ _ first hip
    have hv := congrArg ValaMethod.virtual_super_class (k1 (hmod ▸ hs)).2
    simp only [methods1_cname_eq] at hv
    subst hh
    exact ⟨_, (process_methods1_method_store h cp1 mp c1 c2 m _ hc1 hm).1, hv⟩

/-- Witness of C28: in the third sample program after the first pass, the class `Shape`, with
the abstract method `draw`, the virtual method `grow` and the methods `init` and `create`, has
two slots, `draw` and `grow`. -/
theorem virtual_method_slots_witness :
    (vala_code_generator_process_virtual_method_pointers named_store 0).outcome = .ok () ∧
    (vala_code_generator_process_virtual_method_pointers named_store 0).h_text =
      "\n\t/* virtual methods */\n\tvoid(*draw) (DemoShape *self);\n" ++
        "\n\t/* virtual methods */\n\tint (*grow) (DemoShape *self, int n);\n" ∧
    ∃ slots : List String,
      (vala_code_generator_process_virtual_method_pointers named_store 0).h_text =
        concatenated slots ∧ slots.length = 2 := by
  obtain ⟨⟨hok, -, slots, ht, hl, -⟩, -⟩ := virtual_method_slots named_store 0 _ _ _ rfl rfl
    (List.Forall₂.cons rfl (List.Forall₂.cons rfl (List.Forall₂.cons rfl
      (List.Forall₂.cons rfl List.Forall₂.nil))))
    (by
      intro m hm _
      simp only [List.mem_cons, List.mem_singleton, List.not_mem_nil, or_false] at hm
      rcases hm with rfl | rfl | rfl | rfl <;> exact ⟨_, _, rfl, rfl⟩)
  exact ⟨hok, rfl, slots, ht, hl⟩

/-! ## Claims on the class initializer -/

/-- The declared part of a class record holds its C name. -/
theorem ValaClass.first_pass_le.cname_eq {c c' : ValaClass} (hle : c.first_pass_le c') :
    c'.cname = c.cname := by
  show c'.declared.cname = c.declared.cname
  rw [hle.1]

/-- The writes of the first pass change no class pointer into a dangling one. -/
theorem Store.first_pass_le.class_eq_of {h h' : Store} (hle : h.first_pass_le h')
    (p : Option ClassPtr) {β : Type} (f : ValaClass → Outcome β)
    (hf : ∀ c c' : ValaClass, c.first_pass_le c' → f c' = f c) :
    (h'.class_ p).bind f = (h.class_ p).bind f := by
  cases p with
  | none => rfl
  | some q =>
    cases hq : h.classes[q]? with
    | some c =>
      have hc := (Store.class_eq_ok h q c).2 hq
      obtain ⟨c', hc', hcc⟩ := hle.class_of q c hc
      rw [hc, hc']
      exact hf c c' hcc
    | none =>
      have hn : h'.classes[q]? = none := by
        rw [List.getElem?_eq_none_iff] at hq ⊢
        rw [hle.2.1]
        exact hq
      simp [Store.class_, Option.bind, hq, hn]

/-- The C name of a type is the same after writes of the first pass. -/
theorem get_cname_for_type_reference_first_pass {h h' : Store} (hle : h.first_pass_le h')
    (type : ValaTypeReference) (constant : Bool) (location : Option ValaLocation) :
    get_cname_for_type_reference h' type constant location =
      get_cname_for_type_reference h type constant location := by
  unfold get_cname_for_type_reference
  simp only [Outcome.bind_eq, hle.symbol_eq]
  congr 1
  funext symbol
  split
  · exact hle.class_eq_of _ _ (fun c c' hcc => by simp only [Outcome.pure_eq, hcc.cname_eq])
  · have := congrArg Store.structs hle.1
    simp only at this
    simp only [Store.struct_, this]
  · have := congrArg Store.enums hle.1
    simp only at this
    simp only [Store.enum_, this]
  · rfl
  · rfl

/-- The line of a field whose declaration and type are known. -/
theorem field_line_eq (h : Store) (lead : String) (fp : FieldPtr) (f : ValaField)
    (d : ValaVariableDeclaration) (ctype : String) (hf : h.field (some fp) = .ok f)
    (hd : f.declaration_statement.variable_declaration = some d)
    (hct : get_cname_for_type_reference h d.type false f.declaration_statement.info.location =
      .ok ctype) :
    field_line h lead fp = fprintf_c_file (lead ++ ctype ++ d.declarator.name ++ ";\n") := by
  simp only [field_line, Emit.seq_eq, hf, Emit.run_ok_bind, hd, Outcome.of_option, hct]

/-- The loop of `get_fields_by_flag` over fields that are in the store prepends the fields
with the modifier word, last first. -/
theorem get_fields_by_flag_loop_ok (h : Store) (flag : ValaModifierFlags) (l : List FieldPtr)
    (fs : List ValaField)
    (hfs : List.Forall₂ (fun (fp : FieldPtr) (f : ValaField) => h.field (some fp) = .ok f)
      l fs) :
    ∀ ret : List FieldPtr, ∃ l' : List FieldPtr,
      get_fields_by_flag_loop h flag l ret = .ok (l'.reverse ++ ret) ∧
      List.Forall₂ (fun (fp : FieldPtr) (f : ValaField) => h.field (some fp) = .ok f) l'
        (fs.filter fun f => f.modifiers = flag) := by
  induction hfs with
  | nil => exact fun ret => ⟨[], rfl, List.Forall₂.nil⟩
  | @cons fp f l fs hf _ ih =>
    intro ret
    by_cases heq : f.modifiers = flag
    · obtain ⟨l', h1, h2⟩ := ih (fp :: ret)
      refine ⟨fp :: l', ?_, ?_⟩
      · simp only [get_fields_by_flag_loop, Outcome.bind_eq, hf, Outcome.bind, heq, if_true,
          h1, List.reverse_cons, List.append_assoc, List.singleton_append]
      · rw [List.filter_cons_of_pos (by simpa using heq)]
        exact List.Forall₂.cons hf h2
    · obtain ⟨l', h1, h2⟩ := ih ret
      refine ⟨l', ?_, ?_⟩
      · simp only [get_fields_by_flag_loop, Outcome.bind_eq, hf, Outcome.bind, heq, if_false,
          h1]
      · rw [List.filter_cons_of_neg (by simpa using heq)]
        exact h2

/-- The function `get_fields_by_flag` returns the fields with the modifier word, in the order
of the declarations. -/
theorem get_fields_by_flag_ok (h : Store) (c : ValaClass) (flag : ValaModifierFlags)
    (fs : List ValaField)
    (hfs : List.Forall₂ (fun (fp : FieldPtr) (f : ValaField) => h.field (some fp) = .ok f)
      c.fields fs) :
    ∃ l' : List FieldPtr, get_fields_by_flag h c flag = .ok l' ∧
      List.Forall₂ (fun (fp : FieldPtr) (f : ValaField) => h.field (some fp) = .ok f) l'
        (fs.filter fun f => f.modifiers = flag) := by
  obtain ⟨l', h1, h2⟩ := get_fields_by_flag_loop_ok h flag c.fields fs hfs []
  refine ⟨l', ?_, h2⟩
  simp only [get_fields_by_flag, Outcome.bind_eq, h1, Outcome.bind, Outcome.pure_eq,
    List.append_nil, List.reverse_reverse]

/-- A modifier word made of an access modifier and Static is the word Private exactly for a
private field that is not static. -/
theorem modifiers_eq_private (f : ValaField) (hm : f.modifiers.of_field) :
    decide (f.modifiers = { PRIVATE := true }) = f.private_instance := by
  obtain ⟨h1, h2, h3, h4⟩ := hm
  cases hmod : f.modifiers with
  | mk pub priv stat abs virt over =>
    rw [hmod] at h1 h2 h3 h4
    simp only at h1 h2 h3 h4
    subst h1 h2 h3
    simp only [ValaField.private_instance, hmod]
    cases pub <;> cases priv <;> cases stat <;> simp at h4 ⊢

/-- One turn of the loop over the private fields, in a store written by the first pass: the
flag of the class is set and the line of the field is written. -/
theorem private_field_eq (h0 s : Store) (cp : ClassPtr) (c0 : ValaClass) (fp : FieldPtr)
    (f : ValaField) (d : ValaVariableDeclaration) (ctype : String)
    (hc0 : h0.class_ (some cp) = .ok c0) (hle : h0.first_pass_le s)
    (hf : h0.field (some fp) = .ok f)
    (hd : f.declaration_statement.variable_declaration = some d)
    (hct : get_cname_for_type_reference h0 d.type false
      f.declaration_statement.info.location = .ok ctype) :
    ∃ s1 : Store, private_field cp fp s =
        ((fprintf_c_file ("\t" ++ ctype ++ d.declarator.name ++ ";\n")).bind fun _ =>
          pure s1) ∧
      s.first_pass_le s1 ∧
      ∃ c1 : ValaClass, s1.class_ (some cp) = .ok c1 ∧ c1.has_private_fields = true := by
  obtain ⟨c1, hc1, -⟩ := hle.class_of cp c0 hc0
  have hs1 := Store.first_pass_le_set_class s cp c1 { c1 with has_private_fields := true } hc1
    ⟨rfl, fun _ => rfl⟩
  have hle1 := Store.first_pass_le_trans _ _ _ hle hs1
  refine ⟨s.set_class cp { c1 with has_private_fields := true }, ?_, hs1, _,
    Store.set_class_self s cp c1 _ hc1, rfl⟩
  simp only [private_field, Emit.seq_eq, hc1, Emit.run_ok_bind]
  rw [field_line_eq _ "\t" fp f d ctype (by rw [hle1.field_eq]; exact hf) hd
    (by rw [get_cname_for_type_reference_first_pass hle1]; exact hct)]

/-- The loop over the private fields: it returns, writes the lines of the fields in order,
and, when there is a field, leaves the flag of the class set. -/
theorem private_fields_loop (h0 : Store) (cp : ClassPtr) (c0 : ValaClass)
    (hc0 : h0.class_ (some cp) = .ok c0) (l : List FieldPtr) (fs : List ValaField)
    (hfs : List.Forall₂ (fun (fp : FieldPtr) (f : ValaField) => h0.field (some fp) = .ok f)
      l fs)
    (hline : ∀ f ∈ fs, ∃ (d : ValaVariableDeclaration) (ctype : String),
      f.declaration_statement.variable_declaration = some d ∧
      get_cname_for_type_reference h0 d.type false f.declaration_statement.info.location =
        .ok ctype) :
    ∀ s : Store, h0.first_pass_le s → ∃ (s' : Store) (lines : List String),
      (g_list_for (private_field cp) l s).outcome = .ok s' ∧ s.first_pass_le s' ∧
      (g_list_for (private_field cp) l s).c_text = concatenated lines ∧
      List.Forall₂ (fun (f : ValaField) (line : String) =>
        ∃ (d : ValaVariableDeclaration) (ctype : String),
          f.declaration_statement.variable_declaration = some d ∧
          get_cname_for_type_reference h0 d.type false
            f.declaration_statement.info.location = .ok ctype ∧
          line = "\t" ++ ctype ++ d.declarator.name ++ ";\n") fs lines ∧
      (fs = [] → s' = s) ∧
      (fs ≠ [] → ∃ c' : ValaClass, s'.class_ (some cp) = .ok c' ∧
        c'.has_private_fields = true) := by
  induction hfs with
  | nil =>
    intro s _
    exact ⟨s, [], rfl, Store.first_pass_le_refl s, rfl, List.Forall₂.nil, fun _ => rfl,
      fun hn => absurd rfl hn⟩
  | @cons fp f l fs hf _ ih =>
    intro s hle
    obtain ⟨d, ctype, hd, hct⟩ := hline f (List.mem_cons_self f fs)
    obtain ⟨s1, e1, hs1, c1, hc1, hflag⟩ :=
      private_field_eq h0 s cp c0 fp f d ctype hc0 hle hf hd hct
    obtain ⟨s', lines, o2, r2, t2, f2, -, -⟩ :=
      ih (fun x hx => hline x (List.mem_cons_of_mem f hx)) s1
        (Store.first_pass_le_trans _ _ _ hle hs1)
    have o1 : (private_field cp fp s).outcome = .ok s1 := by rw [e1]; rfl
    have t1 : (private_field cp fp s).c_text = "\t" ++ ctype ++ d.declarator.name ++ ";\n" := by
      rw [e1]
      exact String.append_empty _
    refine ⟨s', ("\t" ++ ctype ++ d.declarator.name ++ ";\n") :: lines, ?_,
      Store.first_pass_le_trans _ _ _ hs1 r2, ?_,
      List.Forall₂.cons ⟨d, ctype, hd, hct, rfl⟩ f2, fun hn => (by cases hn), fun _ => ?_⟩
    · rw [g_list_for_cons, Emit.outcome_bind _ _ _ o1, o2]
    · rw [g_list_for_cons, Emit.c_text_bind _ _ _ o1, t1, t2]
      rfl
    · obtain ⟨c', hc', hcc⟩ := r2.class_of cp c1 hc1
      exact ⟨c', hc', hcc.2 hflag⟩

/-- The end of the private structure, by the flag of the class after the loop. -/
theorem private_structure_tail (s : Store) (cp : ClassPtr) (c : ValaClass)
    (hc : s.class_ (some cp) = .ok c) (x : Emit Store)
    (hx : x = ((Emit.run (s.class_ (some cp))).bind fun class_ =>
      if (!class_.has_private_fields) = true then
        (fprintf_c_file "\tint dummy;\n").bind fun _ =>
          (fprintf_c_file "\x7d;\n").bind fun _ =>
          (fprintf_c_file "\n").bind fun _ => (pure s : Emit Store)
      else
        (pure () : Emit Unit).bind fun _ =>
          (fprintf_c_file "\x7d;\n").bind fun _ =>
          (fprintf_c_file "\n").bind fun _ => (pure s : Emit Store))) :
    x.outcome = .ok s ∧
      x.c_text = (if c.has_private_fields = true then "" else "\tint dummy;\n") ++
        "\x7d;\n" ++ "\n" := by
  subst hx
  rw [hc, Emit.run_ok_bind]
  cases c.has_private_fields <;> exact ⟨rfl, rfl⟩

/-- The private structure of a class whose flag is not set yet. -/
theorem class1_private_structure_eq (h : Store) (cp : ClassPtr) (c : ValaClass)
    (fs : List ValaField) (hc : h.class_ (some cp) = .ok c)
    (hflag : c.has_private_fields = false)
    (hfs : List.Forall₂ (fun (fp : FieldPtr) (f : ValaField) => h.field (some fp) = .ok f)
      c.fields fs)
    (hmod : ∀ f ∈ fs, f.modifiers.of_field)
    (hline : ∀ f ∈ fs, f.private_instance = true →
      ∃ (d : ValaVariableDeclaration) (ctype : String),
        f.declaration_statement.variable_declaration = some d ∧
        get_cname_for_type_reference h d.type false f.declaration_statement.info.location =
          .ok ctype) :
    ∃ (h' : Store) (c' : ValaClass) (members : List String),
      (class1_private_structure cp h).outcome = .ok h' ∧ h.first_pass_le h' ∧
      (class1_private_structure cp h).c_text =
        ("struct _" ++ c.cname ++ "Private \x7b\n") ++ (concatenated members ++
          ((if (fs.filter ValaField.private_instance).isEmpty = true then "\tint dummy;\n"
            else "") ++ "\x7d;\n" ++ "\n")) ∧
      List.Forall₂ (fun (f : ValaField) (line : String) =>
        ∃ (d : ValaVariableDeclaration) (ctype : String),
          f.declaration_statement.variable_declaration = some d ∧
          get_cname_for_type_reference h d.type false
            f.declaration_statement.info.location = .ok ctype ∧
          line = "\t" ++ ctype ++ d.declarator.name ++ ";\n")
        (fs.filter ValaField.private_instance) members ∧
      h'.class_ (some cp) = .ok c' ∧
      c'.has_private_fields = !(fs.filter ValaField.private_instance).isEmpty := by
  have hfilter : (fs.filter fun f => f.modifiers = { PRIVATE := true }) =
      fs.filter ValaField.private_instance :=
    List.filter_congr (fun f hf => modifiers_eq_private f (hmod f hf))
  obtain ⟨l', hget, hl'⟩ := get_fields_by_flag_ok h c { PRIVATE := true } fs hfs
  rw [hfilter] at hl'
  obtain ⟨s', lines, o2, r2, t2, f2, hnil, hcons⟩ :=
    private_fields_loop h cp c hc l' (fs.filter ValaField.private_instance) hl'
      (fun f hf => hline f (List.mem_filter.1 hf).1 (List.mem_filter.1 hf).2) h
      (Store.first_pass_le_refl h)
  have hc' : ∃ c' : ValaClass, s'.class_ (some cp) = .ok c' ∧
      c'.has_private_fields = !(fs.filter ValaField.private_instance).isEmpty := by
    cases hfl : fs.filter ValaField.private_instance with
    | nil =>
      have := hnil hfl
      subst this
      exact ⟨c, hc, hflag⟩
    | cons a rest =>
      obtain ⟨c', h1, h2⟩ := hcons (by rw [hfl]; exact List.cons_ne_nil a rest)
      exact ⟨c', h1, h2⟩
  obtain ⟨c', hc1, hc2⟩ := hc'
  have e : class1_private_structure cp h =
      (fprintf_c_file ("struct _" ++ c.cname ++ "Private \x7b\n")).bind fun _ =>
        (g_list_for (private_field cp) l' h).bind fun s =>
        ((Emit.run (s.class_ (some cp))).bind fun class_ =>
          if (!class_.has_private_fields) = true then
            (fprintf_c_file "\tint dummy;\n").bind fun _ =>
              (fprintf_c_file "\x7d;\n").bind fun _ =>
              (fprintf_c_file "\n").bind fun _ => (pure s : Emit Store)
          else
            (pure () : Emit Unit).bind fun _ =>
              (fprintf_c_file "\x7d;\n").bind fun _ =>
              (fprintf_c_file "\n").bind fun _ => (pure s : Emit Store)) := by
    simp only [class1_private_structure, Emit.seq_eq, hc, Emit.run_ok_bind, hget]
  obtain ⟨k1, k2⟩ := private_structure_tail s' cp c' hc1 _ rfl
  refine ⟨s', c', lines, ?_, r2, ?_, f2, hc1, hc2⟩
  · rw [e, Emit.outcome_fprintf_bind, Emit.outcome_bind _ _ _ o2, k1]
  · rw [e, Emit.c_text_fprintf_bind, Emit.c_text_bind _ _ _ o2, t2, k2, hc2]
    cases (fs.filter ValaField.private_instance).isEmpty <;> rfl

/-! ## Lemmas on the first pass as a whole -/

/-- The declared part of a class record holds its namespace. -/
theorem ValaClass.first_pass_le.class_namespace_eq {c c' : ValaClass} (hle : c.first_pass_le c') :
    c'.namespace_ = c.namespace_ := by
  show c'.declared.namespace_ = c.declared.namespace_
  rw [hle.1]

/-- The declared part of a class record holds its methods. -/
theorem ValaClass.first_pass_le.methods_eq {c c' : ValaClass} (hle : c.first_pass_le c') :
    c'.methods = c.methods := by
  show c'.declared.methods = c.declared.methods
  rw [hle.1]

/-- No write, the same C names. -/
theorem Store.same_cnames_refl (h : Store) : h.same_cnames h := fun _ => rfl

/-- The same C names after writes and writes. -/
theorem Store.same_cnames_trans (a b c : Store) (hab : a.same_cnames b)
    (hbc : b.same_cnames c) : a.same_cnames c := fun p => (hbc p).trans (hab p)

/-- A store with the same methods has the same C names. -/
theorem Store.same_cnames_of_methods (h h' : Store) (he : h'.methods = h.methods) :
    h.same_cnames h' := fun p => by rw [he]

/-- The write of a method record with the C name it had. -/
theorem Store.same_cnames_set_method (h : Store) (p : MethodPtr) (m m' : ValaMethod)
    (hm : h.method (some p) = .ok m) (hn : m'.cname = m.cname) :
    h.same_cnames (h.set_method p m') := by
  rw [Store.method_eq_ok] at hm
  intro q
  simp only [Store.set_method]
  by_cases hq : p = q
  · subst hq
    have hlt : p < h.methods.length := by
      by_contra hnlt
      rw [List.getElem?_eq_none (Nat.le_of_not_lt hnlt)] at hm
      cases hm
    rw [List.getElem?_set, if_pos rfl, if_pos hlt, hm]
    simp only [Option.map_some', hn]
  · rw [List.getElem?_set_ne hq]

/-- The write of a class record changes no C name. -/
theorem Store.same_cnames_set_class (h : Store) (p : ClassPtr) (c : ValaClass) :
    h.same_cnames (h.set_class p c) := fun _ => rfl

/-- The method record a turn of the first pass writes extends the record it read. -/
theorem methods1_record_le (m : ValaMethod) (name : String) (vsc : Option ClassPtr)
    (cps cd : String) :
    m.first_pass_le { m with
      cname := some (m.cname.getD name), virtual_super_class := vsc,
      cparameters := some cps, cdecl1 := some cd } := by
  refine ⟨rfl, fun hn => ?_, fun _ => by simp, fun _ => by simp⟩
  cases hc : m.cname with
  | none => exact absurd hc hn
  | some n => simp [hc]

/-- The method record a turn over an imported class or a free method writes extends the
record it read. -/
theorem cname_record_le (m : ValaMethod) (name : String) :
    m.first_pass_le { m with cname := some (m.cname.getD name) } := by
  refine ⟨rfl, fun hn => ?_, fun h => h, fun h => h⟩
  cases hc : m.cname with
  | none => exact absurd hc hn
  | some n => simp [hc]

/-- A turn of the first pass over a method of a class, when it returns: the store is written
as the first pass writes, the method has its names, and no C name changes when the method
had one. -/
theorem process_methods1_method_le (fuel : Nat) (cp : ClassPtr) (mp : MethodPtr)
    (h h' : Store) (hrun : (process_methods1_method fuel cp mp h).outcome = .ok h') :
    h.first_pass_le h' ∧
    (∃ (c : ValaClass) (ns : ValaNamespace) (m m' : ValaMethod),
      h.class_ (some cp) = .ok c ∧ h.namespace_ (some c.namespace_) = .ok ns ∧
      h.method (some mp) = .ok m ∧ h'.method (some mp) = .ok m' ∧
      m'.cname = some (m.cname.getD (ns.lower_case_cname ++ c.lower_case_cname ++ "_" ++
        m.name)) ∧
      m'.names_set ns.import_) ∧
    ((∃ m : ValaMethod, h.method (some mp) = .ok m ∧ m.cname ≠ none) → h.same_cnames h') := by
  obtain ⟨c, ns, m, rt, hc, hns, hm, hrt⟩ := process_methods1_method_reads fuel cp mp h h' hrun
  cases himp : ns.import_ with
  | true =>
    have hh := process_methods1_method_import fuel cp mp h h' c ns m rt hc hns hm hrt himp hrun
    subst hh
    refine ⟨Store.first_pass_le_set_method h mp m _ hm (cname_record_le m _),
      ⟨c, ns, m, _, hc, hns, hm, Store.set_method_self h mp m _ hm, rfl, ?_⟩, ?_⟩
    · rw [himp]
      exact ⟨by simp, fun hf => nomatch hf⟩
    · rintro ⟨m0, hm0, hn0⟩
      rw [hm] at hm0
      cases hm0
      refine Store.same_cnames_set_method h mp m _ hm ?_
      cases hcn : m.cname with
      | none => exact absurd hcn hn0
      | some n => simp [hcn]
  | false =>
    obtain ⟨vsc, first, params, c2, -, -, hin, hh⟩ :=
      process_methods1_method_run fuel cp mp h h' c ns m rt hc hns hm hrt himp hrun
    subst hh
    have hle1 := Store.first_pass_le_set_method h mp m _ hm
      (methods1_record_le m (ns.lower_case_cname ++ c.lower_case_cname ++ "_" ++ m.name) vsc
        (join_parameter_list (first ++ params))
        (if m.modifiers.PUBLIC then rt else "static " ++ rt))
    have hle2 : ∀ s : Store, s.class_ (some cp) = .ok c → s.first_pass_le (s.set_class cp c2) :=
      fun s hs => Store.first_pass_le_set_class s cp c c2 hs
        (methods1_initializers_ok _ _ _ _ hin)
    refine ⟨Store.first_pass_le_trans _ _ _ hle1 (hle2 _ hc),
      ⟨c, ns, m, _, hc, hns, hm, (process_methods1_method_store h cp mp c c2 m _ hc hm).1, rfl,
        ?_⟩, ?_⟩
    · rw [himp]
      exact ⟨by simp, fun _ => ⟨by simp, by simp⟩⟩
    · rintro ⟨m0, hm0, hn0⟩
      rw [hm] at hm0
      cases hm0
      refine Store.same_cnames_trans _ _ _ (Store.same_cnames_set_method h mp m _ hm ?_)
        (Store.same_cnames_set_class _ cp c2)
      cases hcn : m.cname with
      | none => exact absurd hcn hn0
      | some n => simp [hcn]

/-- The declared part of a class record holds its fields. -/
theorem ValaClass.first_pass_le.fields_eq {c c' : ValaClass} (hle : c.first_pass_le c') :
    c'.fields = c.fields := by
  show c'.declared.fields = c.declared.fields
  rw [hle.1]

/-- Names that are set stay set under the writes of the first pass. -/
theorem ValaMethod.names_set_le (m m' : ValaMethod) (imported : Bool)
    (hle : m.first_pass_le m') (hn : m.names_set imported) : m'.names_set imported := by
  obtain ⟨-, h1, h2, h3⟩ := hle
  refine ⟨?_, fun hi => ⟨h2 (hn.2 hi).1, h3 (hn.2 hi).2⟩⟩
  rw [h1 hn.1]
  exact hn.1

/-- The names of a method of a class stay set under the writes of the first pass. -/
theorem Store.method_named_le (s s' : Store) (cp : ClassPtr) (mp : MethodPtr)
    (hn : s.method_named cp mp) (hle : s.first_pass_le s') : s'.method_named cp mp := by
  obtain ⟨m, c, ns, hm, hc, hns, hset⟩ := hn
  obtain ⟨m', hm', hmm⟩ := hle.method_of mp m hm
  obtain ⟨c', hc', hcc⟩ := hle.class_of cp c hc
  refine ⟨m', c', ns, hm', hc', ?_, ValaMethod.names_set_le m m' _ hmm hset⟩
  rw [hle.namespace_eq, hcc.class_namespace_eq]
  exact hns

/-- The names of the methods of a class stay set under the writes of the first pass. -/
theorem Store.class_named_le (s s' : Store) (cp : ClassPtr) (hn : s.class_named cp)
    (hle : s.first_pass_le s') : s'.class_named cp := by
  intro c' hc' mp hmp
  obtain ⟨c, hc, hcc⟩ := hle.class_from cp c' hc'
  rw [hcc.methods_eq] at hmp
  exact Store.method_named_le s s' cp mp (hn c hc mp hmp) hle

/-- The names of the methods of a struct stay set under the writes of the first pass. -/
theorem Store.struct_named_le (s s' : Store) (sp : StructPtr) (hn : s.struct_named sp)
    (hle : s.first_pass_le s') : s'.struct_named sp := by
  intro st hst mp hmp
  rw [hle.struct_eq] at hst
  obtain ⟨m, hm, hset⟩ := hn st hst mp hmp
  obtain ⟨m', hm', hmm⟩ := hle.method_of mp m hm
  exact ⟨m', hm', ValaMethod.names_set_le m m' _ hmm hset⟩

/-- The C name of a method stays set under the writes of the first pass. -/
theorem Store.free_named_le (s s' : Store) (mp : MethodPtr) (hn : s.free_named mp)
    (hle : s.first_pass_le s') : s'.free_named mp := by
  obtain ⟨m, hm, hset⟩ := hn
  obtain ⟨m', hm', hmm⟩ := hle.method_of mp m hm
  refine ⟨m', hm', ?_⟩
  rw [hmm.2.1 hset]
  exact hset

/-- The private-field flag stays set under the writes of the first pass. -/
theorem Store.private_flag_set_le (s s' : Store) (cp : ClassPtr) (hn : s.private_flag_set cp)
    (hle : s.first_pass_le s') : s'.private_flag_set cp := by
  intro c' hc' hex
  obtain ⟨c, hc, hcc⟩ := hle.class_from cp c' hc'
  refine hcc.2 (hn c hc ?_)
  obtain ⟨fp, hfp, f, hf, hmod⟩ := hex
  rw [hcc.fields_eq] at hfp
  rw [hle.field_eq] at hf
  exact ⟨fp, hfp, f, hf, hmod⟩

/-- The function `vala_code_generator_process_methods1`, when it returns: the store is
written as the first pass writes, every method of the class has its names, and no C name
changes when they all had theirs. -/
theorem process_methods1_le (fuel : Nat) (cp : ClassPtr) (h h' : Store)
    (hrun : (vala_code_generator_process_methods1 fuel cp h).outcome = .ok h') :
    h.first_pass_le h' ∧ h'.class_named cp ∧ (h.class_named cp → h.same_cnames h') := by
  simp only [vala_code_generator_process_methods1, Emit.seq_eq, Emit.outcome_bind_eq_ok,
    Emit.outcome_run, Emit.outcome_pure] at hrun
  obtain ⟨c, hc, ns, hns, h1, hloop, u, -, hh⟩ := hrun
  cases hh
  obtain ⟨r1, p1⟩ := g_list_for_each (process_methods1_method fuel cp)
    (fun a b => a.first_pass_le b) (fun mp s => s.method_named cp mp)
    Store.first_pass_le_refl Store.first_pass_le_trans
    (fun mp s s' hp hr => Store.method_named_le s s' cp mp hp hr) c.methods
    (fun mp _ s s' hs => by
      obtain ⟨k1, ⟨c1, ns1, m, m', hc1, hns1, hm, hm', -, hset⟩, -⟩ :=
        process_methods1_method_le fuel cp mp s s' hs
      obtain ⟨c', hc', hcc⟩ := k1.class_of cp c1 hc1
      refine ⟨k1, m', c', ns1, hm', hc', ?_, hset⟩
      rw [k1.namespace_eq, hcc.class_namespace_eq]
      exact hns1) h h' hloop
  refine ⟨r1, ?_, fun hq => ?_⟩
  · intro c' hc' mp hmp
    obtain ⟨c0, hc0, hcc⟩ := r1.class_from cp c' hc'
    rw [hc] at hc0
    cases hc0
    rw [hcc.methods_eq] at hmp
    exact p1 mp hmp
  · have := g_list_for_rel (process_methods1_method fuel cp)
      (fun a b => a.first_pass_le b ∧ a.same_cnames b) (fun mp s => s.free_named mp)
      (fun s => ⟨Store.first_pass_le_refl s, Store.same_cnames_refl s⟩)
      (fun a b d hab hbd => ⟨Store.first_pass_le_trans _ _ _ hab.1 hbd.1,
        Store.same_cnames_trans _ _ _ hab.2 hbd.2⟩)
      (fun mp s s' hp hr => Store.free_named_le s s' mp hp hr.1) c.methods
      (fun mp _ s s' hp hs => by
        obtain ⟨k1, -, k3⟩ := process_methods1_method_le fuel cp mp s s' hs
        exact ⟨k1, k3 hp⟩) h h'
      (fun mp hmp => by
        obtain ⟨m, c1, ns1, hm, _, _, hset⟩ := hq c hc mp hmp
        exact ⟨m, hm, hset.1⟩) hloop
    exact this.2

/-- One turn of the loop over the private fields, when it returns: the class record is
written, with its flag set, and nothing else. -/
theorem private_field_le (cp : ClassPtr) (fp : FieldPtr) (s s' : Store)
    (hrun : (private_field cp fp s).outcome = .ok s') :
    (s.first_pass_le s' ∧ s'.methods = s.methods) ∧
      ∃ c' : ValaClass, s'.class_ (some cp) = .ok c' ∧ c'.has_private_fields = true := by
  simp only [private_field, Emit.seq_eq, Emit.outcome_bind_eq_ok, Emit.outcome_run,
    Emit.outcome_pure] at hrun
  obtain ⟨c1, hc1, u, -, hh⟩ := hrun
  cases hh
  exact ⟨⟨Store.first_pass_le_set_class s cp c1 _ hc1 ⟨rfl, fun _ => rfl⟩, rfl⟩, _,
    Store.set_class_self s cp c1 _ hc1, rfl⟩

/-- The loop of `get_fields_by_flag` keeps what it has collected and collects every field
with the modifier word. -/
theorem get_fields_by_flag_loop_mem (h : Store) (flag : ValaModifierFlags)
    (l : List FieldPtr) :
    ∀ ret r : List FieldPtr, get_fields_by_flag_loop h flag l ret = .ok r →
      (∀ x ∈ ret, x ∈ r) ∧
      ∀ fp ∈ l, ∀ f : ValaField, h.field (some fp) = .ok f → f.modifiers = flag → fp ∈ r := by
  induction l with
  | nil =>
    intro ret r hr
    cases hr
    exact ⟨fun x hx => hx, fun fp hfp => by cases hfp⟩
  | cons a l ih =>
    intro ret r hr
    simp only [get_fields_by_flag_loop, Outcome.bind_eq, Outcome.bind_eq_ok] at hr
    obtain ⟨fa, hfa, hr⟩ := hr
    split at hr
    next heq =>
      obtain ⟨i1, i2⟩ := ih (a :: ret) r hr
      refine ⟨fun x hx => i1 x (List.mem_cons_of_mem a hx), fun fp hfp f hf hm => ?_⟩
      cases hfp with
      | head => exact i1 a (List.mem_cons_self a ret)
      | tail _ hfp => exact i2 fp hfp f hf hm
    next hne =>
      obtain ⟨i1, i2⟩ := ih ret r hr
      refine ⟨i1, fun fp hfp f hf hm => ?_⟩
      cases hfp with
      | head =>
        rw [hfa] at hf
        cases hf
        exact absurd hm hne
      | tail _ hfp => exact i2 fp hfp f hf hm

/-- The private structure, when it is written: the class record is written, with its flag
set if a field has the modifier word Private, and nothing else. -/
theorem class1_private_structure_le (cp : ClassPtr) (h h' : Store)
    (hrun : (class1_private_structure cp h).outcome = .ok h') :
    h.first_pass_le h' ∧ h'.methods = h.methods ∧ h'.private_flag_set cp := by
  simp only [class1_private_structure, Emit.seq_eq, Emit.outcome_bind_eq_ok,
    Emit.outcome_run, Emit.outcome_fprintf_bind] at hrun
  obtain ⟨c, hc, l, hget, s', hloop, c', hc', hrest⟩ := hrun
  have hh : s' = h' := by
    split at hrest
    · cases hrest
      rfl
    · cases hrest
      rfl
  subst hh
  obtain ⟨⟨r1, r2⟩, p1⟩ := g_list_for_each (private_field cp)
    (fun a b => a.first_pass_le b ∧ b.methods = a.methods)
    (fun _ s => ∃ c' : ValaClass, s.class_ (some cp) = .ok c' ∧ c'.has_private_fields = true)
    (fun s => ⟨Store.first_pass_le_refl s, rfl⟩)
    (fun a b d hab hbd => ⟨Store.first_pass_le_trans _ _ _ hab.1 hbd.1, hbd.2.trans hab.2⟩)
    (fun _ s t hp hr => by
      obtain ⟨c1, hc1, hf1⟩ := hp
      obtain ⟨c2, hc2, hcc⟩ := hr.1.class_of cp c1 hc1
      exact ⟨c2, hc2, hcc.2 hf1⟩) l
    (fun fp _ s t hs => private_field_le cp fp s t hs) h s' hloop
  refine ⟨r1, r2, ?_⟩
  intro c'' hc'' hex
  obtain ⟨fp, hfp, f, hf, hmod⟩ := hex
  obtain ⟨c0, hc0, hcc⟩ := r1.class_from cp c'' hc''
  rw [hc] at hc0
  cases hc0
  rw [hcc.fields_eq] at hfp
  rw [r1.field_eq] at hf
  simp only [get_fields_by_flag, Outcome.bind_eq, Outcome.pure_eq, Outcome.bind_eq_ok] at hget
  obtain ⟨ret, hret, hl⟩ := hget
  cases hl
  have hmem := (get_fields_by_flag_loop_mem h _ _ [] ret hret).2 fp hfp f hf hmod
  obtain ⟨c3, hc3, hf3⟩ := p1 fp (List.mem_reverse.2 hmem)
  rw [hc''] at hc3
  cases hc3
  exact hf3

/-- The function `vala_code_generator_process_class1`, when it returns: the store is written
as the first pass writes, every method of the class has its names, the private-field flag is
set if a field has the modifier word Private, and no C name changes when the methods all had
theirs. -/
theorem process_class1_le (g : ValaCodeGenerator) (fuel : Nat) (cp : ClassPtr) (h : Store)
    (s' : ValaCodeGenerator × Store)
    (hrun : (vala_code_generator_process_class1 g fuel cp h).outcome = .ok s') :
    h.first_pass_le s'.2 ∧ s'.2.class_named cp ∧ s'.2.private_flag_set cp ∧
      (h.class_named cp → h.same_cnames s'.2) := by
  simp only [vala_code_generator_process_class1, Emit.seq_eq, Emit.outcome_bind_eq_ok,
    Emit.outcome_run, Emit.outcome_pure, Emit.outcome_fprintf_bind] at hrun
  obtain ⟨c, hc, ns, hns, u1, -, h1, hm1, h2, hp2, l, -, u2, -, hh⟩ := hrun
  cases hh
  obtain ⟨r1, n1, q1⟩ := process_methods1_le fuel cp h h1 hm1
  obtain ⟨r2, e2, f2⟩ := class1_private_structure_le cp h1 h2 hp2
  exact ⟨Store.first_pass_le_trans _ _ _ r1 r2, Store.class_named_le _ _ cp n1 r2, f2,
    fun hq => Store.same_cnames_trans _ _ _ (q1 hq) (Store.same_cnames_of_methods _ _ e2)⟩

/-- The method record a turn over a struct method writes extends the record it read. -/
theorem struct_record_le (m : ValaMethod) (name cps cd : String) :
    m.first_pass_le { m with
      cname := some (m.cname.getD name), cparameters := some cps, cdecl1 := some cd } :=
  methods1_record_le m name m.virtual_super_class cps cd

/-- A turn of the first pass over a method of a struct, when it returns: the store is written
as the first pass writes, the method has its three names, and no C name changes when the
method had one. -/
theorem process_struct_methods1_method_le (sp : StructPtr) (mp : MethodPtr) (h h' : Store)
    (hrun : (process_struct_methods1_method sp mp h).outcome = .ok h') :
    h.first_pass_le h' ∧
    (∃ (st : ValaStruct) (ns : ValaNamespace) (m m' : ValaMethod),
      h.struct_ (some sp) = .ok st ∧ h.namespace_ (some st.namespace_) = .ok ns ∧
      h.method (some mp) = .ok m ∧ h'.method (some mp) = .ok m' ∧
      m'.cname = some (m.cname.getD (ns.lower_case_cname ++ st.lower_case_cname ++ "_" ++
        m.name)) ∧
      m'.names_set false) ∧
    ((∃ m : ValaMethod, h.method (some mp) = .ok m ∧ m.cname ≠ none) → h.same_cnames h') := by
  simp only [process_struct_methods1_method, Emit.seq_eq, Emit.outcome_bind_eq_ok,
    Emit.outcome_run, Emit.outcome_pure] at hrun
  obtain ⟨st, hst, ns, hns, m, hm, rt, hrt, params, hfp, m2, hcd, hh⟩ := hrun
  have e2 := methods1_cdecl1_outcome _ _ _ hcd
  have hm2 : ∃ cps cd : String, m2 = { m with
      cname := some (m.cname.getD (ns.lower_case_cname ++ st.lower_case_cname ++ "_" ++
        m.name)),
      cparameters := some cps, cdecl1 := some cd } := by
    rw [e2, methods1_cname_eq]
    exact ⟨_, _, rfl⟩
  obtain ⟨cps, cd, hm2⟩ := hm2
  cases hh
  subst hm2
  refine ⟨Store.first_pass_le_set_method h mp m _ hm (struct_record_le m _ cps cd),
    ⟨st, ns, m, _, hst, hns, hm, Store.set_method_self h mp m _ hm, rfl,
      ⟨by simp, fun _ => ⟨by simp, by simp⟩⟩⟩, ?_⟩
  rintro ⟨m0, hm0, hn0⟩
  rw [hm] at hm0
  cases hm0
  refine Store.same_cnames_set_method h mp m _ hm ?_
  cases hcn : m.cname with
  | none => exact absurd hcn hn0
  | some n => simp [hcn]

/-- The function `vala_code_generator_process_struct1`, when it returns: the store is written
as the first pass writes, every method of the struct has its three names, and no C name
changes when the methods all had theirs. -/
theorem process_struct1_le (g : ValaCodeGenerator) (sp : StructPtr) (h : Store)
    (s' : ValaCodeGenerator × Store)
    (hrun : (vala_code_generator_process_struct1 g sp h).outcome = .ok s') :
    h.first_pass_le s'.2 ∧ s'.2.struct_named sp ∧ (h.struct_named sp → h.same_cnames s'.2) := by
  simp only [vala_code_generator_process_struct1, vala_code_generator_process_struct_methods1,
    Emit.seq_eq, Emit.outcome_bind_eq_ok, Emit.outcome_run, Emit.outcome_pure,
    Emit.outcome_fprintf_bind] at hrun
  obtain ⟨st, hst, ns, hns, u1, -, u2, -, h1, ⟨st1, hst1, ns1, hns1, h2, hloop, hh1⟩, hh⟩ :=
    hrun
  cases hh
  cases hh1
  rw [hst] at hst1
  cases hst1
  obtain ⟨r1, p1⟩ := g_list_for_each (process_struct_methods1_method sp)
    (fun a b => a.first_pass_le b)
    (fun mp s => ∃ m : ValaMethod, s.method (some mp) = .ok m ∧ m.names_set false)
    Store.first_pass_le_refl Store.first_pass_le_trans
    (fun mp s t hp hr => by
      obtain ⟨m, hm, hset⟩ := hp
      obtain ⟨m', hm', hmm⟩ := hr.method_of mp m hm
      exact ⟨m', hm', ValaMethod.names_set_le m m' _ hmm hset⟩) st.methods
    (fun mp _ s t hs => by
      obtain ⟨k1, ⟨_, _, _, m', _, _, _, hm', _, hset⟩, _⟩ :=
        process_struct_methods1_method_le sp mp s t hs
      exact ⟨k1, m', hm', hset⟩) h h1 hloop
  refine ⟨r1, ?_, fun hq => ?_⟩
  · intro st' hst' mp hmp
    rw [r1.struct_eq, hst] at hst'
    cases hst'
    exact p1 mp hmp
  · have := g_list_for_rel (process_struct_methods1_method sp)
      (fun a b => a.first_pass_le b ∧ a.same_cnames b) (fun mp s => s.free_named mp)
      (fun s => ⟨Store.first_pass_le_refl s, Store.same_cnames_refl s⟩)
      (fun a b d hab hbd => ⟨Store.first_pass_le_trans _ _ _ hab.1 hbd.1,
        Store.same_cnames_trans _ _ _ hab.2 hbd.2⟩)
      (fun mp s t hp hr => Store.free_named_le s t mp hp hr.1) st.methods
      (fun mp _ s t hp hs => by
        obtain ⟨k1, -, k3⟩ := process_struct_methods1_method_le sp mp s t hs
        exact ⟨k1, k3 hp⟩) h h1
      (fun mp hmp => by
        obtain ⟨m, hm, hset⟩ := hq st hst mp hmp
        exact ⟨m, hm, hset.1⟩) hloop
    exact this.2

/-- The function `vala_code_generator_process_ns_method`, when it returns: the store is
written as the first pass writes, the method has its C name, made of the lower-case C name
of the namespace and of the name of the method if it had none, its C parameters and its
declaration head are as they were, and no C name changes when the method had one. -/
theorem process_ns_method_le (np : NamespacePtr) (mp : MethodPtr) (h h' : Store)
    (hrun : (vala_code_generator_process_ns_method np mp h).outcome = .ok h') :
    h.first_pass_le h' ∧
    (∃ m m' : ValaMethod, h.method (some mp) = .ok m ∧ h'.method (some mp) = .ok m' ∧
      m'.cname ≠ none ∧
      (m.cname = none → ∃ ns : ValaNamespace, h.namespace_ (some np) = .ok ns ∧
        m'.cname = some (ns.lower_case_cname ++ m.name)) ∧
      (m.cname ≠ none → m'.cname = m.cname) ∧
      m'.cparameters = m.cparameters ∧ m'.cdecl1 = m.cdecl1) ∧
    (h.free_named mp → h.same_cnames h') := by
  simp only [vala_code_generator_process_ns_method, Emit.seq_eq, Emit.outcome_bind_eq_ok,
    Emit.outcome_run] at hrun
  obtain ⟨m, hm, hrun⟩ := hrun
  split at hrun
  next hn =>
    simp only [Emit.outcome_bind_eq_ok, Emit.outcome_run, Emit.outcome_pure] at hrun
    obtain ⟨ns, hns, hh⟩ := hrun
    cases hh
    refine ⟨Store.first_pass_le_set_method h mp m _ hm
        ⟨rfl, fun hne => absurd hn hne, fun x => x, fun x => x⟩,
      ⟨m, _, hm, Store.set_method_self h mp m _ hm, by simp, fun _ => ⟨ns, hns, rfl⟩,
        fun hne => absurd hn hne, rfl, rfl⟩, ?_⟩
    rintro ⟨m0, hm0, hn0⟩
    rw [hm] at hm0
    cases hm0
    exact absurd hn hn0
  next hn =>
    cases hrun
    exact ⟨Store.first_pass_le_refl h, ⟨m, m, hm, hm, hn, fun he => absurd he hn,
      fun _ => rfl, rfl, rfl⟩, fun _ => Store.same_cnames_refl h⟩

/-- The function `vala_code_generator_process_namespace1`, when it returns: the store is
written as the first pass writes; the methods of the classes, of the structs and the free
methods of the namespace have their names; the private-field flags of the classes are set;
and no C name changes when all these methods had their names. -/
theorem process_namespace1_le (g : ValaCodeGenerator) (fuel : Nat) (np : NamespacePtr)
    (h : Store) (ns : ValaNamespace) (s' : ValaCodeGenerator × Store)
    (hns : h.namespace_ (some np) = .ok ns)
    (hrun : (vala_code_generator_process_namespace1 g fuel np h).outcome = .ok s') :
    h.first_pass_le s'.2 ∧
    (∀ cp ∈ ns.classes, s'.2.class_named cp ∧ s'.2.private_flag_set cp) ∧
    (∀ sp ∈ ns.structs, s'.2.struct_named sp) ∧
    (∀ mp ∈ ns.methods, s'.2.free_named mp) ∧
    ((∀ cp ∈ ns.classes, h.class_named cp) → (∀ sp ∈ ns.structs, h.struct_named sp) →
      (∀ mp ∈ ns.methods, h.free_named mp) → h.same_cnames s'.2) := by
  simp only [vala_code_generator_process_namespace1, Emit.seq_eq, hns, Emit.run_ok_bind,
    Emit.outcome_bind_eq_ok, Emit.outcome_pure] at hrun
  obtain ⟨s1, hl1, s2, hl2, u, -, h3, hl3, hh⟩ := hrun
  cases hh
  obtain ⟨r1, p1⟩ := g_list_for_each
    (fun cp (s : ValaCodeGenerator × Store) => vala_code_generator_process_class1 s.1 fuel cp s.2)
    (fun a b => a.2.first_pass_le b.2)
    (fun cp s => s.2.class_named cp ∧ s.2.private_flag_set cp)
    (fun s => Store.first_pass_le_refl s.2) (fun a b d => Store.first_pass_le_trans a.2 b.2 d.2)
    (fun cp s t hp hr => ⟨Store.class_named_le _ _ cp hp.1 hr,
      Store.private_flag_set_le _ _ cp hp.2 hr⟩) ns.classes
    (fun cp _ s t hs => by
      obtain ⟨k1, k2, k3, -⟩ := process_class1_le s.1 fuel cp s.2 t hs
      exact ⟨k1, k2, k3⟩) (g, h) s1 hl1
  obtain ⟨r2, p2⟩ := g_list_for_each
    (fun sp (s : ValaCodeGenerator × Store) => vala_code_generator_process_struct1 s.1 sp s.2)
    (fun a b => a.2.first_pass_le b.2) (fun sp s => s.2.struct_named sp)
    (fun s => Store.first_pass_le_refl s.2) (fun a b d => Store.first_pass_le_trans a.2 b.2 d.2)
    (fun sp s t hp hr => Store.struct_named_le _ _ sp hp hr) ns.structs
    (fun sp _ s t hs => by
      obtain ⟨k1, k2, -⟩ := process_struct1_le s.1 sp s.2 t hs
      exact ⟨k1, k2⟩) s1 s2 hl2
  obtain ⟨r3, p3⟩ := g_list_for_each (vala_code_generator_process_ns_method np)
    (fun a b => a.first_pass_le b) (fun mp s => s.free_named mp)
    Store.first_pass_le_refl Store.first_pass_le_trans
    (fun mp s t hp hr => Store.free_named_le _ _ mp hp hr) ns.methods
    (fun mp _ s t hs => by
      obtain ⟨k1, ⟨_, m', _, hm', hn, _⟩, _⟩ := process_ns_method_le np mp s t hs
      exact ⟨k1, m', hm', hn⟩) s2.2 h3 hl3
  simp only at r1 r2
  have r23 := Store.first_pass_le_trans _ _ _ r2 r3
  refine ⟨Store.first_pass_le_trans _ _ _ r1 r23,
    fun cp hcp => ⟨Store.class_named_le _ _ cp (p1 cp hcp).1 r23,
      Store.private_flag_set_le _ _ cp (p1 cp hcp).2 r23⟩,
    fun sp hsp => Store.struct_named_le _ _ sp (p2 sp hsp) r3, p3, fun q1 q2 q3 => ?_⟩
  have c1 := g_list_for_rel
    (fun cp (s : ValaCodeGenerator × Store) => vala_code_generator_process_class1 s.1 fuel cp s.2)
    (fun a b => a.2.first_pass_le b.2 ∧ a.2.same_cnames b.2)
    (fun cp s => s.2.class_named cp)
    (fun s => ⟨Store.first_pass_le_refl s.2, Store.same_cnames_refl s.2⟩)
    (fun a b d hab hbd => ⟨Store.first_pass_le_trans _ _ _ hab.1 hbd.1,
      Store.same_cnames_trans _ _ _ hab.2 hbd.2⟩)
    (fun cp s t hp hr => Store.class_named_le _ _ cp hp hr.1) ns.classes
    (fun cp _ s t hp hs => by
      obtain ⟨k1, -, -, k4⟩ := process_class1_le s.1 fuel cp s.2 t hs
      exact ⟨k1, k4 hp⟩) (g, h) s1 q1 hl1
  have c2 := g_list_for_rel
    (fun sp (s : ValaCodeGenerator × Store) => vala_code_generator_process_struct1 s.1 sp s.2)
    (fun a b => a.2.first_pass_le b.2 ∧ a.2.same_cnames b.2)
    (fun sp s => s.2.struct_named sp)
    (fun s => ⟨Store.first_pass_le_refl s.2, Store.same_cnames_refl s.2⟩)
    (fun a b d hab hbd => ⟨Store.first_pass_le_trans _ _ _ hab.1 hbd.1,
      Store.same_cnames_trans _ _ _ hab.2 hbd.2⟩)
    (fun sp s t hp hr => Store.struct_named_le _ _ sp hp hr.1) ns.structs
    (fun sp _ s t hp hs => by
      obtain ⟨k1, -, k3⟩ := process_struct1_le s.1 sp s.2 t hs
      exact ⟨k1, k3 hp⟩) s1 s2
    (fun sp hsp => Store.struct_named_le _ _ sp (q2 sp hsp) r1) hl2
  have c3 := g_list_for_rel (vala_code_generator_process_ns_method np)
    (fun a b => a.first_pass_le b ∧ a.same_cnames b) (fun mp s => s.free_named mp)
    (fun s => ⟨Store.first_pass_le_refl s, Store.same_cnames_refl s⟩)
    (fun a b d hab hbd => ⟨Store.first_pass_le_trans _ _ _ hab.1 hbd.1,
      Store.same_cnames_trans _ _ _ hab.2 hbd.2⟩)
    (fun mp s t hp hr => Store.free_named_le _ _ mp hp hr.1) ns.methods
    (fun mp _ s t hp hs => by
      obtain ⟨k1, -, k3⟩ := process_ns_method_le np mp s t hs
      exact ⟨k1, k3 hp⟩) s2.2 h3
    (fun mp hmp => Store.free_named_le _ _ mp (q3 mp hmp)
      (Store.first_pass_le_trans _ _ _ r1 r2)) hl3
  exact Store.same_cnames_trans _ _ _ c1.2 (Store.same_cnames_trans _ _ _ c2.2 c3.2)

/-! ## Claims on the private structure of a class -/

/-- A field of the list of a class is among the records of the fields. -/
theorem forall₂_mem_right {α β : Type} (R : α → β → Prop) (l : List α) (r : List β)
    (hf : List.Forall₂ R l r) (b : β) (hb : b ∈ r) : ∃ a ∈ l, R a b := by
  induction hf with
  | nil => cases hb
  | @cons x y l r hxy _ ih =>
    cases hb with
    | head => exact ⟨x, List.mem_cons_self x l, hxy⟩
    | tail _ hb =>
      obtain ⟨a, ha, hr⟩ := ih hb
      exact ⟨a, List.mem_cons_of_mem x ha, hr⟩

/-- C27: for a class of the store whose private-field flag is not set yet, whose fields `fs`
are in the store with modifier words made of an access modifier and Static, and whose
private non-static fields have declarations with types that have C names: the part of the
first pass that writes the private structure returns, and writes the head
`struct _<cname>Private {`, then the members of the private non-static fields, a tab, the C
type, the name and `;` each, exactly these and in declaration order, then the member
`int dummy;` exactly when there is no such field, then the closing lines; the class record is
left with the flag `has_private_fields` set exactly when there is such a field; and when the
first pass over a namespace that lists the class returns, the flag of the class is set if
there is such a field, so it is set before the second pass starts. -/
theorem private_structure_emitted (h : Store) (cp : ClassPtr) (c : ValaClass)
    (fs : List ValaField) (hc : h.class_ (some cp) = .ok c)
    (hflag : c.has_private_fields = false)
    (hfs : List.Forall₂ (fun (fp : FieldPtr) (f : ValaField) => h.field (some fp) = .ok f)
      c.fields fs)
    (hmod : ∀ f ∈ fs, f.modifiers.of_field)
    (hline : ∀ f ∈ fs, f.private_instance = true →
      ∃ (d : ValaVariableDeclaration) (ctype : String),
        f.declaration_statement.variable_declaration = some d ∧
        get_cname_for_type_reference h d.type false f.declaration_statement.info.location =
          .ok ctype) :
    (∃ (h' : Store) (c' : ValaClass) (members : List String),
      (class1_private_structure cp h).outcome = .ok h' ∧
      (class1_private_structure cp h).c_text =
        ("struct _" ++ c.cname ++ "Private \x7b\n") ++ (concatenated members ++
          ((if (fs.filter ValaField.private_instance).isEmpty = true then "\tint dummy;\n"
            else "") ++ "\x7d;\n" ++ "\n")) ∧
      List.Forall₂ (fun (f : ValaField) (line : String) =>
        ∃ (d : ValaVariableDeclaration) (ctype : String),
          f.declaration_statement.variable_declaration = some d ∧
          get_cname_for_type_reference h d.type false
            f.declaration_statement.info.location = .ok ctype ∧
          line = "\t" ++ ctype ++ d.declarator.name ++ ";\n")
        (fs.filter ValaField.private_instance) members ∧
      h'.class_ (some cp) = .ok c' ∧
      (c'.has_private_fields = true ↔ ∃ f ∈ fs, f.private_instance = true)) ∧
    (∀ (g : ValaCodeGenerator) (fuel : Nat) (np : NamespacePtr) (ns : ValaNamespace)
        (s' : ValaCodeGenerator × Store), h.namespace_ (some np) = .ok ns → cp ∈ ns.classes →
      (vala_code_generator_process_namespace1 g fuel np h).outcome = .ok s' →
      (∃ f ∈ fs, f.private_instance = true) →
      ∃ c' : ValaClass, s'.2.class_ (some cp) = .ok c' ∧ c'.has_private_fields = true) := by
  constructor
  · obtain ⟨h', c', members, o, -, t, f, hc', hfl⟩ :=
      class1_private_structure_eq h cp c fs hc hflag hfs hmod hline
    refine ⟨h', c', members, o, t, f, hc', ?_⟩
    rw [hfl]
    cases hfilter : fs.filter ValaField.private_instance with
    | nil =>
      simp only [List.isEmpty_nil, Bool.not_true, Bool.false_eq_true, false_iff, not_exists,
        not_and]
      intro x hx hp
      have : x ∈ fs.filter ValaField.private_instance := List.mem_filter.2 ⟨hx, hp⟩
      rw [hfilter] at this
      cases this
    | cons a rest =>
      simp only [List.isEmpty_cons, Bool.not_false, true_iff]
      have : a ∈ fs.filter ValaField.private_instance := by
        rw [hfilter]
        exact List.mem_cons_self a rest
      exact ⟨a, (List.mem_filter.1 this).1, (List.mem_filter.1 this).2⟩
  · intro g fuel np ns s' hns hcp hrun ⟨f, hf, hp⟩
    obtain ⟨r, pc, -⟩ := process_namespace1_le g fuel np h ns s' hns hrun
    obtain ⟨c', hc', hcc⟩ := r.class_of cp c hc
    refine ⟨c', hc', (pc cp hcp).2 c' hc' ?_⟩
    obtain ⟨fp, hfp, hfield⟩ := forall₂_mem_right _ _ _ hfs f hf
    refine ⟨fp, ?_, f, ?_, ?_⟩
    · rw [hcc.fields_eq]
      exact hfp
    · rw [r.field_eq]
      exact hfield
    · have := modifiers_eq_private f (hmod f hf)
      rw [hp] at this
      exact of_decide_eq_true this

/-- Witness of C27: in the third sample program the class `Shape` has the fields `count`,
`secret`, `total` and `hidden`, of which `secret` alone is private and not static; its
private structure lists `secret` and no `dummy`, and the flag of the class is set. -/
theorem private_structure_emitted_witness :
    (class1_private_structure 0 decl_store).c_text =
      "struct _DemoShapePrivate \x7b\n\tint secret;\n\x7d;\n\n" ∧
    ∃ (h' : Store) (c' : ValaClass),
      (class1_private_structure 0 decl_store).outcome = .ok h' ∧
      h'.class_ (some 0) = .ok c' ∧ c'.has_private_fields = true := by
  obtain ⟨⟨h', c', members, o, -, -, hc', hfl⟩, -⟩ :=
    private_structure_emitted decl_store 0 _ _ rfl rfl
      (List.Forall₂.cons rfl (List.Forall₂.cons rfl (List.Forall₂.cons rfl
        (List.Forall₂.cons rfl List.Forall₂.nil))))
      (by
        intro f hf
        simp only [List.mem_cons, List.mem_singleton, List.not_mem_nil, or_false] at hf
        rcases hf with rfl | rfl | rfl | rfl <;>
          first
            | exact ⟨rfl, rfl, rfl, Or.inl rfl⟩
            | exact ⟨rfl, rfl, rfl, Or.inr rfl⟩)
      (by
        intro f hf _
        simp only [List.mem_cons, List.mem_singleton, List.not_mem_nil, or_false] at hf
        rcases hf with rfl | rfl | rfl | rfl <;> exact ⟨_, _, rfl, rfl⟩)
  exact ⟨rfl, h', c', o, hc',
    hfl.2 ⟨_, List.mem_cons_of_mem _ (List.mem_cons_self _ _), rfl⟩⟩

/-! ## Claims on the names the first pass gives to the methods -/

/-- Counterexample to C22: in the third sample program the namespace `Demo` has the free
method `helper`; after the first pass over the namespace the method has its C name, and
neither C parameters nor a declaration head. -/
theorem pass1_names_counterexample :
    ∃ (ns : ValaNamespace) (s : ValaCodeGenerator × Store) (m : ValaMethod),
      decl_store.namespace_ (some 0) = .ok ns ∧ 7 ∈ ns.methods ∧
      (vala_code_generator_process_namespace1 decl_generator 3 0 decl_store).outcome = .ok s ∧
      s.2.method (some 7) = .ok m ∧ m.cname = some "demo_helper" ∧
      m.cparameters = none ∧ m.cdecl1 = none :=
  ⟨_, _, _, rfl, List.mem_singleton_self 7, rfl, rfl, rfl, rfl, rfl⟩

/-- C22, amended: when the first pass over a namespace returns, every method of every class
of the namespace, every method of every struct and every free method of the namespace has
its C name; every struct method has its C parameters and its declaration head too, and so
has every method of a class whose namespace is not imported.  The function for a free method
leaves the C parameters and the declaration head as they are, and so does the turn over a
method of a class of an imported namespace. -/
theorem pass1_names_set (g : ValaCodeGenerator) (fuel : Nat) (np : NamespacePtr) (h : Store)
    (ns : ValaNamespace) (s' : ValaCodeGenerator × Store)
    (hns : h.namespace_ (some np) = .ok ns)
    (hrun : (vala_code_generator_process_namespace1 g fuel np h).outcome = .ok s') :
    (∀ cp ∈ ns.classes, ∀ c : ValaClass, h.class_ (some cp) = .ok c → ∀ mp ∈ c.methods,
      ∃ m' : ValaMethod, s'.2.method (some mp) = .ok m' ∧ m'.cname ≠ none ∧
        ∀ cns : ValaNamespace, h.namespace_ (some c.namespace_) = .ok cns →
          cns.import_ = false → m'.cparameters ≠ none ∧ m'.cdecl1 ≠ none) ∧
    (∀ sp ∈ ns.structs, ∀ st : ValaStruct, h.struct_ (some sp) = .ok st → ∀ mp ∈ st.methods,
      ∃ m' : ValaMethod, s'.2.method (some mp) = .ok m' ∧ m'.cname ≠ none ∧
        m'.cparameters ≠ none ∧ m'.cdecl1 ≠ none) ∧
    (∀ mp ∈ ns.methods, ∃ m' : ValaMethod, s'.2.method (some mp) = .ok m' ∧
      m'.cname ≠ none) ∧
    (∀ (mp : MethodPtr) (h1 h2 : Store) (m : ValaMethod),
      (vala_code_generator_process_ns_method np mp h1).outcome = .ok h2 →
      h1.method (some mp) = .ok m →
      ∃ m' : ValaMethod, h2.method (some mp) = .ok m' ∧ m'.cparameters = m.cparameters ∧
        m'.cdecl1 = m.cdecl1) ∧
    (∀ (cp : ClassPtr) (mp : MethodPtr) (h1 h2 : Store) (c : ValaClass) (cns : ValaNamespace)
        (m : ValaMethod), h1.class_ (some cp) = .ok c →
      h1.namespace_ (some c.namespace_) = .ok cns → h1.method (some mp) = .ok m →
      cns.import_ = true → (process_methods1_method fuel cp mp h1).outcome = .ok h2 →
      ∃ m' : ValaMethod, h2.method (some mp) = .ok m' ∧ m'.cparameters = m.cparameters ∧
        m'.cdecl1 = m.cdecl1) := by
  obtain ⟨r, pc, ps, pm, -⟩ := process_namespace1_le g fuel np h ns s' hns hrun
  refine ⟨fun cp hcp c hc mp hmp => ?_, fun sp hsp st hst mp hmp => ?_, pm,
    fun mp h1 h2 m hr hm => ?_, fun cp mp h1 h2 c cns m hc hcns hm himp hr => ?_⟩
  · obtain ⟨c', hc', hcc⟩ := r.class_of cp c hc
    obtain ⟨m', c'', ns'', hm', hc'', hns'', hset⟩ :=
      (pc cp hcp).1 c' hc' mp (by rw [hcc.methods_eq]; exact hmp)
    rw [hc'] at hc''
    cases hc''
    refine ⟨m', hm', hset.1, fun cns hcns himp => ?_⟩
    rw [r.namespace_eq, hcc.class_namespace_eq, hcns] at hns''
    cases hns''
    exact hset.2 himp
  · obtain ⟨m', hm', hset⟩ := ps sp hsp st (by rw [r.struct_eq]; exact hst) mp hmp
    exact ⟨m', hm', hset.1, hset.2 rfl⟩
  · obtain ⟨-, ⟨m0, m', hm0, hm', -, -, -, e1, e2⟩, -⟩ := process_ns_method_le np mp h1 h2 hr
    rw [hm] at hm0
    cases hm0
    exact ⟨m', hm', e1, e2⟩
  · obtain ⟨_, _, _, rt, hc1, hns1, hm1, hrt⟩ := process_methods1_method_reads fuel cp mp h1 h2 hr
    rw [hc] at hc1
    cases hc1
    rw [hcns] at hns1
    cases hns1
    rw [hm] at hm1
    cases hm1
    have hh := process_methods1_method_import fuel cp mp h1 h2 c cns m rt hc hcns hm hrt himp hr
    subst hh
    exact ⟨_, Store.set_method_self h1 mp m _ hm, rfl, rfl⟩

/-- Witness of C22: after the first pass over the namespace `Demo` of the third sample
program the method `spin` of the class `Circle` has its three names. -/
theorem pass1_names_set_witness :
    ∃ (s : ValaCodeGenerator × Store) (m' : ValaMethod),
      (vala_code_generator_process_namespace1 decl_generator 3 0 decl_store).outcome = .ok s ∧
      s.2.method (some 4) = .ok m' ∧ m'.cname ≠ none ∧ m'.cparameters ≠ none ∧
      m'.cdecl1 ≠ none := by
  obtain ⟨m', hm', hn, hp⟩ := (pass1_names_set decl_generator 3 0 decl_store _ _ rfl rfl).1 1
    (List.mem_cons_of_mem _ (List.mem_cons_self _ _)) _ rfl 4
    (List.mem_cons_of_mem _ (List.mem_cons_self _ _))
  exact ⟨_, m', rfl, hm', hn, hp _ rfl rfl⟩

/-- C23: a turn of the first pass over a method of a class gives a method without C name the
name made of the lower-case C names of the namespace and of the class, `_` and the name of
the method; the function for a free method of a namespace gives a method without C name the
name made of the lower-case C name of the namespace and the name of the method; both keep a
C name that is set, and so does the first pass over a namespace; and a first pass over a
namespace that follows a first pass over it that returned changes the C name of no
method. -/
theorem pass1_cname (fuel : Nat) (np : NamespacePtr) (h : Store) (ns : ValaNamespace)
    (hns : h.namespace_ (some np) = .ok ns) :
    (∀ (cp : ClassPtr) (mp : MethodPtr) (h' : Store) (c : ValaClass) (cns : ValaNamespace)
        (m : ValaMethod), h.class_ (some cp) = .ok c →
      h.namespace_ (some c.namespace_) = .ok cns → h.method (some mp) = .ok m →
      (process_methods1_method fuel cp mp h).outcome = .ok h' →
      ∃ m' : ValaMethod, h'.method (some mp) = .ok m' ∧
        (m.cname = none → m'.cname =
          some (cns.lower_case_cname ++ c.lower_case_cname ++ "_" ++ m.name)) ∧
        (m.cname ≠ none → m'.cname = m.cname)) ∧
    (∀ (mp : MethodPtr) (h' : Store) (m : ValaMethod), h.method (some mp) = .ok m →
      (vala_code_generator_process_ns_method np mp h).outcome = .ok h' →
      ∃ m' : ValaMethod, h'.method (some mp) = .ok m' ∧
        (m.cname = none → m'.cname = some (ns.lower_case_cname ++ m.name)) ∧
        (m.cname ≠ none → m'.cname = m.cname)) ∧
    (∀ (g : ValaCodeGenerator) (s1 : ValaCodeGenerator × Store),
      (vala_code_generator_process_namespace1 g fuel np h).outcome = .ok s1 →
      (∀ (mp : MethodPtr) (m : ValaMethod), h.method (some mp) = .ok m → m.cname ≠ none →
        ∃ m1 : ValaMethod, s1.2.method (some mp) = .ok m1 ∧ m1.cname = m.cname) ∧
      ∀ (g2 : ValaCodeGenerator) (s2 : ValaCodeGenerator × Store),
        (vala_code_generator_process_namespace1 g2 fuel np s1.2).outcome = .ok s2 →
        ∀ (mp : MethodPtr) (m1 : ValaMethod), s1.2.method (some mp) = .ok m1 →
          ∃ m2 : ValaMethod, s2.2.method (some mp) = .ok m2 ∧ m2.cname = m1.cname) := by
  refine ⟨fun cp mp h' c cns m hc hcns hm hr => ?_, fun mp h' m hm hr => ?_,
    fun g s1 hr1 => ?_⟩
  · obtain ⟨-, ⟨c1, ns1, m0, m', hc1, hns1, hm0, hm', hcn, -⟩, -⟩ :=
      process_methods1_method_le fuel cp mp h h' hr
    rw [hc] at hc1
    cases hc1
    rw [hcns] at hns1
    cases hns1
    rw [hm] at hm0
    cases hm0
    refine ⟨m', hm', fun hn => ?_, fun hn => ?_⟩
    · rw [hcn, hn]
      rfl
    · rw [hcn]
      cases hc : m.cname with
      | none => exact absurd hc hn
      | some n => rfl
  · obtain ⟨-, ⟨m0, m', hm0, hm', -, k1, k2, -⟩, -⟩ := process_ns_method_le np mp h h' hr
    rw [hm] at hm0
    cases hm0
    refine ⟨m', hm', fun hn => ?_, k2⟩
    obtain ⟨ns1, hns1, hcn⟩ := k1 hn
    rw [hns] at hns1
    cases hns1
    exact hcn
  · obtain ⟨r, pc, ps, pm, -⟩ := process_namespace1_le g fuel np h ns s1 hns hr1
    refine ⟨fun mp m hm hn => ?_, fun g2 s2 hr2 mp m1 hm1 => ?_⟩
    · obtain ⟨m1, hm1, hmm⟩ := r.method_of mp m hm
      exact ⟨m1, hm1, hmm.2.1 hn⟩
    · have hns1 : s1.2.namespace_ (some np) = .ok ns := by
        rw [r.namespace_eq]
        exact hns
      obtain ⟨r2, -, -, -, hsame⟩ := process_namespace1_le g2 fuel np s1.2 ns s2 hns1 hr2
      have hs := hsame (fun cp hcp => (pc cp hcp).1) ps pm mp
      obtain ⟨m2, hm2, -⟩ := r2.method_of mp m1 hm1
      refine ⟨m2, hm2, ?_⟩
      rw [Store.method_eq_ok] at hm1 hm2
      rw [hm1, hm2] at hs
      simpa using hs

/-- Witness of C23: in the third sample program the turn of the first pass over the method
`spin` of the class `Circle`, which has no C name, names it `demo_circle_spin`. -/
theorem pass1_cname_witness :
    ∃ (h' : Store) (m' : ValaMethod),
      (process_methods1_method 3 1 4 decl_store).outcome = .ok h' ∧
      h'.method (some 4) = .ok m' ∧ m'.cname = some "demo_circle_spin" := by
  obtain ⟨m', hm', hn, -⟩ := (pass1_cname 3 0 decl_store _ rfl).1 1 4 _ _ _ _ rfl rfl rfl rfl
  exact ⟨_, m', rfl, hm', hn rfl⟩

/-! ## Lemmas on the methods of the second pass -/

/-- The loop that writes the arguments of the dispatcher: the names of the formal
parameters, each after a comma. -/
theorem dispatcher_arguments (l : List ValaFormalParameter) :
    (g_list_for (fun (param : ValaFormalParameter) _ => fprintf_c_file (", " ++ param.name))
      l ()).outcome = .ok () ∧
    (g_list_for (fun (param : ValaFormalParameter) _ => fprintf_c_file (", " ++ param.name))
      l ()).c_text = continued ", " (l.map fun param => param.name) := by
  induction l with
  | nil => exact ⟨rfl, rfl⟩
  | cons p l ih =>
    refine ⟨?_, ?_⟩
    · rw [g_list_for_cons, Emit.outcome_fprintf_bind]
      exact ih.1
    · rw [g_list_for_cons, Emit.c_text_fprintf_bind, ih.2]
      rfl

/-- The prototype of a method with its names: written for a public method that does not
override. -/
theorem methods2_prototype_eq (m : ValaMethod) (cname cps cd : String)
    (hcn : m.cname = some cname) (hcp : m.cparameters = some cps)
    (hcd : m.cdecl1 = some cd) :
    methods2_prototype m =
      if m.modifiers.PUBLIC = true ∧ m.modifiers.OVERRIDE = false then
        fprintf_h_file (cd ++ " " ++ cname ++ " (" ++ cps ++ ");\n")
      else pure () := by
  unfold methods2_prototype
  cases m.modifiers.PUBLIC <;> cases m.modifiers.OVERRIDE <;>
    simp [hcn, hcp, hcd, Outcome.of_option, Emit.seq_eq, Emit.run_ok_bind]

/-- The prototype writes nothing on the C stream and returns. -/
theorem methods2_prototype_c (m : ValaMethod) (cname cps cd : String)
    (hcn : m.cname = some cname) (hcp : m.cparameters = some cps)
    (hcd : m.cdecl1 = some cd) :
    (methods2_prototype m).outcome = .ok () ∧ (methods2_prototype m).c_text = "" := by
  rw [methods2_prototype_eq m cname cps cd hcn hcp hcd]
  split <;> exact ⟨rfl, rfl⟩

/-- The head of the function that holds the body of a method with its names. -/
theorem methods2_body_head_eq (c : ValaClass) (ns : ValaNamespace) (m : ValaMethod)
    (cname cps cd : String) (hcn : m.cname = some cname) (hcp : m.cparameters = some cps)
    (hcd : m.cdecl1 = some cd) :
    (methods2_body_head c ns m).outcome = .ok () ∧
    (methods2_body_head c ns m).c_text =
      if m.modifiers.VIRTUAL = false ∧ m.modifiers.OVERRIDE = false then
        cd ++ "\n" ++ (cname ++ " (" ++ cps ++ ")\n")
      else
        "static " ++ cd ++ "\n" ++ (ns.lower_case_cname ++ c.lower_case_cname ++ "_real_" ++
          m.name ++ " (" ++ cps ++ ")\n") := by
  unfold methods2_body_head
  simp only [hcn, hcp, hcd, Outcome.of_option, Emit.seq_eq, Emit.run_ok_bind]
  cases m.modifiers.VIRTUAL <;> cases m.modifiers.OVERRIDE <;>
    simp [Emit.run_ok_bind, Emit.bind, fprintf_c_file, Emit.c_text, Output.append_c_file,
      String.append_assoc]

/-- The dispatcher of a method with its names whose return type symbol is in the store:
written for an abstract or virtual method. -/
theorem methods2_dispatcher_eq (h : Store) (c : ValaClass) (ns : ValaNamespace)
    (m : ValaMethod) (cname cps cd : String) (rsym : ValaSymbol)
    (hcn : m.cname = some cname) (hcp : m.cparameters = some cps) (hcd : m.cdecl1 = some cd)
    (hret : h.symbol m.return_type.symbol = .ok rsym) :
    (methods2_dispatcher h c ns m).outcome = .ok () ∧
    (methods2_dispatcher h c ns m).c_text =
      if m.modifiers.ABSTRACT = true ∨ m.modifiers.VIRTUAL = true then
        cd ++ "\n" ++ (cname ++ " (" ++ cps ++ ")\n") ++ "\x7b\n" ++ "\t" ++
          (if rsym.type ≠ .VOID then "return " else "") ++
          (ns.upper_case_cname ++ c.upper_case_cname ++ "_GET_CLASS (self)->" ++ m.name ++
            " (self") ++
          continued ", " (m.formal_parameters.map fun param => param.name) ++
          ");\n" ++ "\x7d\n" ++ "\n"
      else "" := by
  unfold methods2_dispatcher
  by_cases hav : m.modifiers.ABSTRACT = true ∨ m.modifiers.VIRTUAL = true
  · obtain ⟨a1, a2⟩ := dispatcher_arguments m.formal_parameters
    simp only [hav, if_true, Emit.seq_eq, hcd, hcn, hcp, Outcome.of_option, Emit.run_ok_bind,
      hret]
    constructor
    · simp only [Emit.outcome_fprintf_bind]
      split
      · simp only [Emit.outcome_fprintf_bind]
        rw [Emit.outcome_bind _ _ _ a1]
        rfl
      · simp only [Emit.pure_bind, Emit.outcome_fprintf_bind]
        rw [Emit.outcome_bind _ _ _ a1]
        rfl
    · simp only [Emit.c_text_fprintf_bind]
      split
      · simp only [Emit.c_text_fprintf_bind]
        rw [Emit.c_text_bind _ _ _ a1, a2]
        simp only [Emit.c_text_fprintf_bind, Emit.c_text_fprintf, String.append_assoc]
      · simp only [Emit.pure_bind, Emit.c_text_fprintf_bind]
        rw [Emit.c_text_bind _ _ _ a1, a2]
        simp only [Emit.c_text_fprintf_bind, Emit.c_text_fprintf, String.append_assoc,
          String.empty_append]
  · simp only [hav, if_false]
    exact ⟨rfl, rfl⟩

/-- The function that holds the body of a method that is not abstract and has a body, when
the scope of the body is made and the block is emitted. -/
theorem methods2_body_eq (g : ValaCodeGenerator) (fuel depth : Nat) (c : ValaClass)
    (ns : ValaNamespace) (mp : MethodPtr) (m : ValaMethod) (h : Store) (body : ValaStatement)
    (cname cps cd : String) (sc : ValaCodeGenerator × Store) (r : ValaStatement × Store)
    (hcn : m.cname = some cname) (hcp : m.cparameters = some cps) (hcd : m.cdecl1 = some cd)
    (hb : m.body = some body) (ha : m.modifiers.ABSTRACT = false)
    (hsc : method_body_scope g h body m.formal_parameters = .ok sc)
    (hr : (vala_code_generator_process_block
      (vala_code_generator_process_statement sc.1 fuel depth) body sc.2).outcome = .ok r) :
    (methods2_body g fuel depth c ns mp m h).outcome =
      .ok (sc.1, r.2.set_method mp { m with body := some r.1 }) ∧
    (methods2_body g fuel depth c ns mp m h).c_text =
      (if m.modifiers.VIRTUAL = false ∧ m.modifiers.OVERRIDE = false then
        cd ++ "\n" ++ (cname ++ " (" ++ cps ++ ")\n")
      else
        "static " ++ cd ++ "\n" ++ (ns.lower_case_cname ++ c.lower_case_cname ++ "_real_" ++
          m.name ++ " (" ++ cps ++ ")\n")) ++
      ((if m.modifiers.OVERRIDE = true then
        "\x7b\n" ++ ("\t" ++ c.cname ++ " *self = " ++ ns.upper_case_cname ++
          c.upper_case_cname ++ "(base);\n")
        else "") ++
      ((vala_code_generator_process_block
        (vala_code_generator_process_statement sc.1 fuel depth) body sc.2).c_text ++
      (if m.modifiers.OVERRIDE = true then "\x7d\n" else ""))) := by
  obtain ⟨h1, h2⟩ := methods2_body_head_eq c ns m cname cps cd hcn hcp hcd
  unfold methods2_body
  simp only [hb, ha, Bool.not_false, if_true, Emit.seq_eq]
  cases ho : m.modifiers.OVERRIDE with
  | true =>
    simp only [if_true]
    refine ⟨?_, ?_⟩
    · rw [Emit.outcome_bind _ _ _ h1]
      simp only [Emit.outcome_fprintf_bind, hsc, Emit.run_ok_bind]
      rw [Emit.outcome_bind _ _ _ hr]
      rfl
    · rw [Emit.c_text_bind _ _ _ h1, h2]
      simp only [Emit.c_text_fprintf_bind, hsc, Emit.run_ok_bind]
      rw [Emit.c_text_bind _ _ _ hr]
      simp only [ho, Emit.c_text_fprintf_bind, Emit.c_text_pure, String.append_assoc,
        String.append_empty, if_true]
  | false =>
    simp only [Bool.false_eq_true, if_false, Emit.pure_bind]
    refine ⟨?_, ?_⟩
    · rw [Emit.outcome_bind _ _ _ h1]
      simp only [hsc, Emit.run_ok_bind]
      rw [Emit.outcome_bind _ _ _ hr]
      rfl
    · rw [Emit.c_text_bind _ _ _ h1, h2]
      simp only [hsc, Emit.run_ok_bind]
      rw [Emit.c_text_bind _ _ _ hr]
      simp only [ho, Emit.pure_bind, Emit.c_text_pure, String.append_assoc,
        String.empty_append, String.append_empty]

/-- An abstract method and a method without body get no function for a body. -/
theorem methods2_body_none (g : ValaCodeGenerator) (fuel depth : Nat) (c : ValaClass)
    (ns : ValaNamespace) (mp : MethodPtr) (m : ValaMethod) (h : Store)
    (hn : m.modifiers.ABSTRACT = true ∨ m.body = none) :
    methods2_body g fuel depth c ns mp m h = pure (g, h) := by
  unfold methods2_body
  cases hb : m.body with
  | none => rfl
  | some b =>
    rcases hn with ha | hn
    · simp only [ha, Bool.not_true, Bool.false_eq_true, if_false]
    · rw [hb] at hn
      cases hn

/-- The C `main` is written, or not, and the computation returns, for a method with its C
name whose return type has a name when the method is a static `main`. -/
theorem methods2_main_ok (m : ValaMethod) (cname : String) (hcn : m.cname = some cname)
    (ht : m.modifiers.STATIC = true → m.name = "main" → m.return_type.type_name ≠ none) :
    (methods2_main m).outcome = .ok () := by
  unfold methods2_main
  split
  next hc =>
    cases htn : m.return_type.type_name with
    | none => exact absurd htn (ht hc.1 hc.2)
    | some tn =>
      simp only [Emit.seq_eq, Outcome.of_option, Emit.run_ok_bind, hcn]
      split
      · split <;> rfl
      · rfl
  next hc => rfl

/-- The turn of the second pass over a method of a class that is named neither `init` nor
`class_init`, has its C name `cname`, its C parameters and its declaration head `cdecl1`, and
whose function for the body is emitted without a diagnostic.  The turn returns, and the text
on the C stream is the function for the body, an empty line, the dispatcher and the C `main`
of lines 1189-1201.  The function for the body is written exactly for a method that is not
abstract and has a body: under `cdecl1` and `cname` when the method carries neither Virtual
nor Override, and otherwise under `static` and `cdecl1` with the name
`<ns_lower><class_lower>_real_<name>`; the stanza
`<Class cname> *self = <NS_UPPER><CLASS_UPPER>(base);` opens it exactly when the method
carries Override.  The dispatcher is written exactly for a method that carries Abstract or
Virtual: under `cdecl1` and `cname`, it calls
`<NS_UPPER><CLASS_UPPER>_GET_CLASS (self)->name (self` with the names of the formal
parameters after commas, after `return ` exactly when the symbol of the return type is not
the void symbol.  The prototype in the header is written exactly for a public method that
does not override; so a method that carries Override, and with it neither Abstract nor
Virtual, gets neither a dispatcher nor a prototype. -/
theorem methods2_method_emitted (fuel depth : Nat) (cp : ClassPtr) (mp : MethodPtr)
    (s s' : ValaCodeGenerator × Store) (c : ValaClass) (ns : ValaNamespace) (m : ValaMethod)
    (cname cps cd : String) (rsym : ValaSymbol)
    (hc : s.2.class_ (some cp) = .ok c) (hns : s.2.namespace_ (some c.namespace_) = .ok ns)
    (hm : s.2.method (some mp) = .ok m) (hn1 : m.name ≠ "init") (hn2 : m.name ≠ "class_init")
    (hcn : m.cname = some cname) (hcp : m.cparameters = some cps) (hcd : m.cdecl1 = some cd)
    (hbody : (methods2_body s.1 fuel depth c ns mp m s.2).outcome = .ok s')
    (hret : s'.2.symbol m.return_type.symbol = .ok rsym)
    (hmain : m.modifiers.STATIC = true → m.name = "main" → m.return_type.type_name ≠ none) :
    (process_methods2_method fuel depth cp mp s).outcome = .ok s' ∧
    (process_methods2_method fuel depth cp mp s).c_text =
      (methods2_body s.1 fuel depth c ns mp m s.2).c_text ++ ("\n" ++
        ((methods2_dispatcher s'.2 c ns m).c_text ++ (methods2_main m).c_text)) ∧
    ((m.modifiers.ABSTRACT = true ∨ m.body = none) →
      methods2_body s.1 fuel depth c ns mp m s.2 = pure s) ∧
    (m.modifiers.ABSTRACT = false → ∀ (body : ValaStatement) (sc : ValaCodeGenerator × Store)
        (r : ValaStatement × Store), m.body = some body →
      method_body_scope s.1 s.2 body m.formal_parameters = .ok sc →
      (vala_code_generator_process_block
        (vala_code_generator_process_statement sc.1 fuel depth) body sc.2).outcome = .ok r →
      (methods2_body s.1 fuel depth c ns mp m s.2).c_text =
        (if m.modifiers.VIRTUAL = false ∧ m.modifiers.OVERRIDE = false then
          cd ++ "\n" ++ (cname ++ " (" ++ cps ++ ")\n")
        else
          "static " ++ cd ++ "\n" ++ (ns.lower_case_cname ++ c.lower_case_cname ++
            "_real_" ++ m.name ++ " (" ++ cps ++ ")\n")) ++
        ((if m.modifiers.OVERRIDE = true then
          "\x7b\n" ++ ("\t" ++ c.cname ++ " *self = " ++ ns.upper_case_cname ++
            c.upper_case_cname ++ "(base);\n")
          else "") ++
        ((vala_code_generator_process_block
          (vala_code_generator_process_statement sc.1 fuel depth) body sc.2).c_text ++
        (if m.modifiers.OVERRIDE = true then "\x7d\n" else "")))) ∧
    (methods2_dispatcher s'.2 c ns m).c_text =
      (if m.modifiers.ABSTRACT = true ∨ m.modifiers.VIRTUAL = true then
        cd ++ "\n" ++ (cname ++ " (" ++ cps ++ ")\n") ++ "\x7b\n" ++ "\t" ++
          (if rsym.type ≠ .VOID then "return " else "") ++
          (ns.upper_case_cname ++ c.upper_case_cname ++ "_GET_CLASS (self)->" ++ m.name ++
            " (self") ++
          continued ", " (m.formal_parameters.map fun param => param.name) ++
          ");\n" ++ "\x7d\n" ++ "\n"
      else "") ∧
    methods2_prototype m =
      (if m.modifiers.PUBLIC = true ∧ m.modifiers.OVERRIDE = false then
        fprintf_h_file (cd ++ " " ++ cname ++ " (" ++ cps ++ ");\n")
      else pure ()) ∧
    (m.modifiers.OVERRIDE = true → m.modifiers.one_dispatch_kind →
      (methods2_dispatcher s'.2 c ns m).c_text = "" ∧ methods2_prototype m = pure ()) := by
  obtain ⟨p1, p2⟩ := methods2_prototype_c m cname cps cd hcn hcp hcd
  obtain ⟨d1, d2⟩ := methods2_dispatcher_eq s'.2 c ns m cname cps cd rsym hcn hcp hcd hret
  have m1 := methods2_main_ok m cname hcn hmain
  have hp := methods2_prototype_eq m cname cps cd hcn hcp hcd
  have e : process_methods2_method fuel depth cp mp s =
      (methods2_prototype m).bind fun _ =>
        (methods2_body s.1 fuel depth c ns mp m s.2).bind fun s1 =>
        (fprintf_c_file "\n").bind fun _ =>
        (methods2_dispatcher s1.2 c ns m).bind fun _ =>
        (methods2_main m).bind fun _ => pure s1 := by
    simp only [process_methods2_method, Emit.seq_eq, hc, hns, hm, Emit.run_ok_bind, hn1, hn2,
      or_self, if_false]
  refine ⟨?_, ?_, fun hn => ?_, fun ha body sc r hb hsc hr => ?_, d2, hp, fun ho hone => ?_⟩
  · rw [e, Emit.outcome_bind _ _ _ p1, Emit.outcome_bind _ _ _ hbody,
      Emit.outcome_fprintf_bind, Emit.outcome_bind _ _ _ d1, Emit.outcome_bind _ _ _ m1]
    rfl
  · rw [e, Emit.c_text_bind _ _ _ p1, p2, Emit.c_text_bind _ _ _ hbody,
      Emit.c_text_fprintf_bind, Emit.c_text_bind _ _ _ d1, Emit.c_text_bind _ _ _ m1,
      String.empty_append]
    simp only [Emit.c_text_pure, String.append_empty]
  · exact methods2_body_none s.1 fuel depth c ns mp m s.2 hn
  · exact (methods2_body_eq s.1 fuel depth c ns mp m s.2 body cname cps cd sc r hcn hcp hcd hb
      ha hsc hr).2
  · have ha : m.modifiers.ABSTRACT = false := by
      cases ha : m.modifiers.ABSTRACT with
      | false => rfl
      | true =>
        have := (hone.1 ha).2
        rw [ho] at this
        cases this
    have hv : m.modifiers.VIRTUAL = false := by
      cases hv : m.modifiers.VIRTUAL with
      | false => rfl
      | true =>
        have := hone.2 hv
        rw [ho] at this
        cases this
    refine ⟨?_, ?_⟩
    · rw [d2, ha, hv]
      rfl
    · rw [hp, ho]
      simp

/-- In the third sample program after the first pass, the turn of the second pass over
the public virtual method `grow` of `Shape` writes the body as the static function
`demo_shape_real_grow` and the dispatcher `demo_shape_grow`, which returns the result of the
call through the class structure. -/
theorem methods2_method_emitted_witness :
    (process_methods2_method 3 6 0 1
      ({ decl_generator with class_ := some 0 }, named_store)).outcome.is_ok = true ∧
    (process_methods2_method 3 6 0 1
      ({ decl_generator with class_ := some 0 }, named_store)).c_text =
      "static int \ndemo_shape_real_grow (DemoShape *self, int n)\n\x7b\n\treturn n;\n\x7d\n" ++
        "\n" ++
        "int \ndemo_shape_grow (DemoShape *self, int n)\n\x7b\n" ++
        "\treturn DEMO_SHAPE_GET_CLASS (self)->grow (self, n);\n\x7d\n\n" := by
  have k := methods2_method_emitted 3 6 0 1
    ({ decl_generator with class_ := some 0 }, named_store) _ _ _ _ "demo_shape_grow"
    "DemoShape *self, int n" "int " _ rfl rfl rfl (by decide) (by decide) rfl rfl rfl rfl rfl
    (fun hs => absurd hs (by decide))
  refine ⟨?_, rfl⟩
  rw [k.1]
  rfl

/-! ## Claims on the methods of the second pass -/

/-- C30 (the code at the failing input): in the third sample program with the virtual method
`grow` of `Shape` not public, the first pass over the namespace `Demo` returns and gives
`grow` the declaration head `static int `.  The turn of the second pass over `grow` then
returns; it heads the function for the body `demo_shape_real_grow` with
`static static int `, which is no declaration of C, and it heads the dispatcher
`demo_shape_grow` with `static int `, so the dispatcher is not a public function.  With
`grow` public, as the first pass leaves the third sample program, the same turn writes the
static function `demo_shape_real_grow` and the public dispatcher `demo_shape_grow`. -/
theorem private_virtual_method_text :
    ∃ (s s' : ValaCodeGenerator × Store) (m : ValaMethod),
      (vala_code_generator_process_namespace1 decl_generator 3 0
        private_virtual_store).outcome = .ok s ∧
      s.2.method (some 1) = .ok m ∧ m.modifiers.VIRTUAL = true ∧
      m.modifiers.PUBLIC = false ∧ m.cdecl1 = some "static int " ∧
      (process_methods2_method 3 6 0 1 ({ s.1 with class_ := some 0 }, s.2)).outcome =
        .ok s' ∧
      (process_methods2_method 3 6 0 1 ({ s.1 with class_ := some 0 }, s.2)).c_text =
        "static static int \ndemo_shape_real_grow (DemoShape *self, int n)\n" ++
          "\x7b\n\treturn n;\n\x7d\n" ++ "\n" ++
          "static int \ndemo_shape_grow (DemoShape *self, int n)\n\x7b\n" ++
          "\treturn DEMO_SHAPE_GET_CLASS (self)->grow (self, n);\n\x7d\n\n" ∧
      (process_methods2_method 3 6 0 1
        ({ decl_generator with class_ := some 0 }, named_store)).c_text =
        "static int \ndemo_shape_real_grow (DemoShape *self, int n)\n" ++
          "\x7b\n\treturn n;\n\x7d\n" ++ "\n" ++
          "int \ndemo_shape_grow (DemoShape *self, int n)\n\x7b\n" ++
          "\treturn DEMO_SHAPE_GET_CLASS (self)->grow (self, n);\n\x7d\n\n" :=
  ⟨_, _, _, rfl, rfl, rfl, rfl, rfl, rfl, rfl, rfl⟩

/-! ## Lemmas on the two streams -/

/-- A write on the header and then `f`: the header text. -/
theorem Emit.h_text_header_bind {β : Type} (s : String) (f : Unit → Emit β) :
    ((fprintf_h_file s).bind f).h_text = s ++ (f ()).h_text := rfl

/-- A write on the header and then `f`: the C text. -/
theorem Emit.c_text_header_bind {β : Type} (s : String) (f : Unit → Emit β) :
    ((fprintf_h_file s).bind f).c_text = (f ()).c_text := by
  simp [Emit.bind, fprintf_h_file, Emit.c_text, Output.append_c_file]

/-- A write on the header and then `f`: the outcome. -/
theorem Emit.outcome_header_bind {β : Type} (s : String) (f : Unit → Emit β) :
    ((fprintf_h_file s).bind f).outcome = (f ()).outcome := rfl

/-- A write on the C stream and then `f`: the header text. -/
theorem Emit.h_text_fprintf_bind {β : Type} (s : String) (f : Unit → Emit β) :
    ((fprintf_c_file s).bind f).h_text = (f ()).h_text := by
  simp [Emit.bind, fprintf_c_file, Emit.h_text, Output.append_h_file]

/-- A run that returns at once writes nothing on the header. -/
theorem Emit.h_text_pure {α : Type} (a : α) : (pure a : Emit α).h_text = "" := rfl

/-- A silent step writes nothing on the header. -/
theorem Emit.h_text_run {α : Type} (o : Outcome α) : (Emit.run o).h_text = "" := rfl

/-- The header text of a write on the header. -/
theorem Emit.h_text_header (s : String) : (fprintf_h_file s).h_text = s := rfl

/-- The header text of a write on the C stream. -/
theorem Emit.h_text_fprintf (s : String) : (fprintf_c_file s).h_text = "" := rfl

/-- The C text of a write on the header. -/
theorem Emit.c_text_header (s : String) : (fprintf_h_file s).c_text = "" := rfl

/-- Appending outputs is associative. -/
theorem Output.append_assoc (a b c : Output) : (a ++ b) ++ c = a ++ (b ++ c) := by
  cases a
  cases b
  cases c
  show Output.append (Output.append _ _) _ = Output.append _ (Output.append _ _)
  simp only [Output.append, String.append_assoc]

/-- Sequencing is associative. -/
theorem Emit.bind_assoc {α β γ : Type} (x : Emit α) (f : α → Emit β) (k : β → Emit γ) :
    (x.bind f).bind k = x.bind fun a => (f a).bind k := by
  cases x with
  | mk w o =>
    cases o with
    | ok a =>
      cases hf : f a with
      | mk w2 o2 =>
        cases o2 with
        | ok b =>
          cases hk : k b with
          | mk w3 o3 => simp only [Emit.bind, hf, hk, Output.append_assoc]
        | exit l d => simp only [Emit.bind, hf]
        | fault => simp only [Emit.bind, hf]
        | out_of_fuel => simp only [Emit.bind, hf]
    | exit l d => rfl
    | fault => rfl
    | out_of_fuel => rfl

/-! ## Lemmas on the properties of a class -/

/-- The `g_value_set_` function of `get_property` is the one of the kind of the property. -/
theorem get_property_g_value_set_eq (h : Store) (prop : ValaProperty) (tn : String)
    (sym : ValaSymbol) (htn : prop.return_type.type_name = some tn)
    (hsym : tn = "string" ∨ h.symbol prop.return_type.symbol = .ok sym) :
    get_property_g_value_set h prop =
      fprintf_c_file ("\t\tg_value_set_" ++ (property_value_kind tn sym.type).name) := by
  unfold get_property_g_value_set property_value_kind
  simp only [htn, Outcome.of_option, Emit.seq_eq, Emit.run_ok_bind]
  by_cases h1 : tn = "string"
  · simp only [h1, if_true]
    rfl
  · rcases hsym with hs | hs
    · exact absurd hs h1
    · simp only [h1, if_false, hs, Emit.run_ok_bind]
      by_cases h2 : sym.type = .ENUM ∨ tn = "int"
      · simp only [h2, if_true]
        rfl
      · simp only [h2, if_false]
        by_cases h3 : tn = "bool"
        · simp only [h3, if_true]
          rfl
        · simp only [h3, if_false]
          by_cases h4 : sym.type = .CLASS
          · simp only [h4, if_true]
            rfl
          · simp only [h4, if_false]
            rfl

/-- The `g_value_get_` call of `set_property` is the one of the kind of the property. -/
theorem set_property_g_value_get_eq (h : Store) (prop : ValaProperty) (tn : String)
    (sym : ValaSymbol) (htn : prop.return_type.type_name = some tn)
    (hsym : tn = "string" ∨ h.symbol prop.return_type.symbol = .ok sym) :
    set_property_g_value_get h prop =
      fprintf_c_file (property_value_kind tn sym.type).reader := by
  unfold set_property_g_value_get property_value_kind
  simp only [htn, Outcome.of_option, Emit.seq_eq, Emit.run_ok_bind]
  by_cases h1 : tn = "string"
  · simp only [h1, if_true]
    rfl
  · rcases hsym with hs | hs
    · exact absurd hs h1
    · simp only [h1, if_false, hs, Emit.run_ok_bind]
      by_cases h2 : sym.type = .ENUM ∨ tn = "int"
      · simp only [h2, if_true]
        rfl
      · simp only [h2, if_false]
        by_cases h3 : tn = "bool"
        · simp only [h3, if_true]
          rfl
        · simp only [h3, if_false]
          by_cases h4 : sym.type = .CLASS
          · simp only [h4, if_true]
            rfl
          · simp only [h4, if_false]
            rfl

/-- A loop whose turns write lines: when the elements of the list are the pointers of the
records `rs`, the turn over a record that is kept returns and writes a line `T` describes,
and the turn over any other record does nothing, the loop returns, writes nothing on the
header and writes the lines of the records kept, in their order. -/
theorem g_list_for_lines {α β : Type} (step : α → Emit Unit) (R : α → β → Prop)
    (keep : β → Bool) (T : β → String → Prop) (l : List α) (rs : List β)
    (hrel : List.Forall₂ R l rs)
    (hkeep : ∀ a b, R a b → b ∈ rs → keep b = true →
      (step a).outcome = .ok () ∧ (step a).h_text = "" ∧ T b (step a).c_text)
    (hskip : ∀ a b, R a b → b ∈ rs → keep b = false → step a = pure ()) :
    (g_list_for (fun a _ => step a) l ()).outcome = .ok () ∧
    (g_list_for (fun a _ => step a) l ()).h_text = "" ∧
    ∃ lines : List String, List.Forall₂ T (rs.filter keep) lines ∧
      (g_list_for (fun a _ => step a) l ()).c_text = concatenated lines := by
  induction hrel with
  | nil => exact ⟨rfl, rfl, [], List.Forall₂.nil, rfl⟩
  | @cons a b l rs hab _ ih =>
    obtain ⟨i1, i2, lines, i3, i4⟩ := ih
      (fun x y hxy hy => hkeep x y hxy (List.mem_cons_of_mem b hy))
      (fun x y hxy hy => hskip x y hxy (List.mem_cons_of_mem b hy))
    rw [g_list_for_cons]
    cases hk : keep b with
    | false =>
      rw [hskip a b hab (List.mem_cons_self b rs) hk, Emit.pure_bind]
      refine ⟨i1, i2, lines, ?_, i4⟩
      rw [List.filter_cons_of_neg (by simp [hk])]
      exact i3
    | true =>
      obtain ⟨k1, k2, k3⟩ := hkeep a b hab (List.mem_cons_self b rs) hk
      refine ⟨?_, ?_, (step a).c_text :: lines, ?_, ?_⟩
      · rw [Emit.outcome_bind _ _ _ k1]
        exact i1
      · rw [Emit.h_text_bind _ _ _ k1, k2, i2]
        rfl
      · rw [List.filter_cons_of_pos (by simp [hk])]
        exact List.Forall₂.cons k3 i3
      · rw [Emit.c_text_bind _ _ _ k1, i4]
        rfl

/-! ## Claims on the C `main` of a program -/

/-- C32: for a class whose properties `ps` are in the store, each with a return type that has
a name and, unless the name is `string`, a symbol in the store.  The enumeration of the
property ids, `get_property` and `set_property` are emitted without a diagnostic.  The
enumeration lists `<NS_UPPER><CLASS_UPPER>_DUMMY_PROPERTY` first and then one enumerator per
property, `<NS_UPPER><CLASS_UPPER>_` and the name in upper case, in declaration order.
`get_property` has one case per property that has a get statement, in declaration order,
which passes the result of the getter to `g_value_set_K`; `set_property` has one case per
property that has a set statement, which passes to the setter `g_value_get_K (value)`, or
`g_value_dup_string (value)` for a string; `K` is the kind the specification gives for the
name of the return type and the kind of its symbol.  The second pass emits the three for a
class that has a property, and none of them for a class without properties. -/
theorem property_dispatchers (h : Store) (c : ValaClass) (ns : ValaNamespace)
    (ps : List ValaProperty)
    (hps : List.Forall₂ (fun (pp : PropertyPtr) (p : ValaProperty) =>
      h.property (some pp) = .ok p) c.properties ps)
    (hty : ∀ p ∈ ps, ∃ (tn : String) (sym : ValaSymbol),
      p.return_type.type_name = some tn ∧
      (tn = "string" ∨ h.symbol p.return_type.symbol = .ok sym)) :
    ((property_enum h c ns).outcome = .ok () ∧
      (property_enum h c ns).c_text =
        "enum \x7b\n" ++ (("\t" ++ ns.upper_case_cname ++ c.upper_case_cname ++
          "_DUMMY_PROPERTY,\n") ++ (concatenated (ps.map fun p =>
            "\t" ++ ns.upper_case_cname ++ c.upper_case_cname ++ "_" ++ g_ascii_strup p.name ++
              ",\n") ++ "\x7d;\n"))) ∧
    ((get_property_dispatcher h c ns).outcome = .ok () ∧
      ∃ cases : List String,
        List.Forall₂ (fun (p : ValaProperty) (line : String) =>
          ∃ (tn : String) (sym : ValaSymbol), p.return_type.type_name = some tn ∧
            (tn = "string" ∨ h.symbol p.return_type.symbol = .ok sym) ∧
            line = ("\tcase " ++ ns.upper_case_cname ++ c.upper_case_cname ++ "_" ++
                g_ascii_strup p.name ++ ":\n") ++
              (("\t\tg_value_set_" ++ (property_value_kind tn sym.type).name) ++
              ((" (value, " ++ ns.lower_case_cname ++ c.lower_case_cname ++ "_get_" ++ p.name ++
                " (self));\n") ++ "\t\tbreak;\n")))
          (ps.filter fun p => p.get_statement.isSome) cases ∧
        (get_property_dispatcher h c ns).c_text =
          "static void\n" ++ ((ns.lower_case_cname ++ c.lower_case_cname ++
            "_get_property (GObject *object, guint property_id, GValue *value, GParamSpec *pspec)\n") ++ ("\x7b\n" ++
          (("\t" ++ c.cname ++ " *self = (" ++ c.cname ++ " *) object;\n") ++
          ("\tswitch (property_id) \x7b\n" ++ (concatenated cases ++ ("\tdefault:\n" ++
          ("\t\tG_OBJECT_WARN_INVALID_PROPERTY_ID(object,property_id,pspec);\n" ++
          ("\t\tbreak;\n" ++ ("\t\x7d\n" ++ "\x7d\n")))))))))) ∧
    ((set_property_dispatcher h c ns).outcome = .ok () ∧
      ∃ cases : List String,
        List.Forall₂ (fun (p : ValaProperty) (line : String) =>
          ∃ (tn : String) (sym : ValaSymbol), p.return_type.type_name = some tn ∧
            (tn = "string" ∨ h.symbol p.return_type.symbol = .ok sym) ∧
            line = ("\tcase " ++ ns.upper_case_cname ++ c.upper_case_cname ++ "_" ++
                g_ascii_strup p.name ++ ":\n") ++
              (("\t" ++ ns.lower_case_cname ++ c.lower_case_cname ++ "_set_" ++ p.name ++
                " (self, ") ++
              ((property_value_kind tn sym.type).reader ++ (");\n" ++ "\t\tbreak;\n"))))
          (ps.filter fun p => p.set_statement.isSome) cases ∧
        (set_property_dispatcher h c ns).c_text =
          "static void\n" ++ ((ns.lower_case_cname ++ c.lower_case_cname ++
            "_set_property (GObject *object, guint property_id, const GValue *value, " ++
            "GParamSpec *pspec)\n") ++ ("\x7b\n" ++
          (("\t" ++ c.cname ++ " *self = (" ++ c.cname ++ " *) object;\n") ++
          ("\tswitch (property_id) \x7b\n" ++ (concatenated cases ++ ("\tdefault:\n" ++
          ("\t\tG_OBJECT_WARN_INVALID_PROPERTY_ID(object,property_id,pspec);\n" ++
          ("\t\tbreak;\n" ++ ("\t\x7d\n" ++ "\x7d\n")))))))))) ∧
    (∀ (fuel depth : Nat) (cp : ClassPtr) (s : ValaCodeGenerator × Store),
      s.2.class_ (some cp) = .ok c → s.2.namespace_ (some c.namespace_) = .ok ns →
      (c.properties ≠ [] → vala_code_generator_process_methods2 fuel depth cp s =
        (process_methods2_loop fuel depth cp s).bind fun s1 =>
          (fprintf_h_file "\n").bind fun _ =>
          ((property_enum s1.2 c ns).bind fun _ =>
            (g_list_for (property_accessors fuel depth c ns) c.properties s1).bind fun s2 =>
            (get_property_dispatcher s2.2 c ns).bind fun _ =>
            (set_property_dispatcher s2.2 c ns).bind fun _ => pure s2).bind fun s3 =>
          (methods2_init fuel depth cp s3).bind fun s4 => methods2_class_init fuel depth cp s4) ∧
      (c.properties = [] → vala_code_generator_process_methods2 fuel depth cp s =
        (process_methods2_loop fuel depth cp s).bind fun s1 =>
          (fprintf_h_file "\n").bind fun _ =>
          (methods2_init fuel depth cp s1).bind fun s4 =>
            methods2_class_init fuel depth cp s4)) := by
  refine ⟨?_, ?_, ?_, fun fuel depth cp s hc hns => ⟨fun hne => ?_, fun he => ?_⟩⟩
  · obtain ⟨e1, -, lines, e3, e4⟩ := g_list_for_lines (property_enumerator h c ns)
      (fun (pp : PropertyPtr) (p : ValaProperty) => h.property (some pp) = .ok p)
      (fun _ => true)
      (fun p line => line = "\t" ++ ns.upper_case_cname ++ c.upper_case_cname ++ "_" ++
        g_ascii_strup p.name ++ ",\n") c.properties ps hps
      (fun pp p hp _ _ => by
        simp only [property_enumerator, Emit.seq_eq, hp, Emit.run_ok_bind]
        exact ⟨rfl, rfl, rfl⟩)
      (fun pp p _ _ hk => by cases hk)
    have hl : lines = ps.map fun p =>
        "\t" ++ ns.upper_case_cname ++ c.upper_case_cname ++ "_" ++ g_ascii_strup p.name ++
          ",\n" := by
      rw [List.filter_true] at e3
      clear e4 hps hty
      induction e3 with
      | nil => rfl
      | cons hx _ ih => rw [hx, ih]; rfl
    unfold property_enum
    simp only [Emit.seq_eq]
    refine ⟨?_, ?_⟩
    · rw [Emit.outcome_fprintf_bind, Emit.outcome_fprintf_bind, Emit.outcome_bind _ _ _ e1]
      rfl
    · rw [Emit.c_text_fprintf_bind, Emit.c_text_fprintf_bind, Emit.c_text_bind _ _ _ e1, e4,
        hl]
      rfl
  · obtain ⟨e1, -, lines, e3, e4⟩ := g_list_for_lines (get_property_case h c ns)
      (fun (pp : PropertyPtr) (p : ValaProperty) => h.property (some pp) = .ok p)
      (fun p => p.get_statement.isSome)
      (fun (p : ValaProperty) (line : String) =>
          ∃ (tn : String) (sym : ValaSymbol), p.return_type.type_name = some tn ∧
            (tn = "string" ∨ h.symbol p.return_type.symbol = .ok sym) ∧
            line = ("\tcase " ++ ns.upper_case_cname ++ c.upper_case_cname ++ "_" ++
                g_ascii_strup p.name ++ ":\n") ++
              (("\t\tg_value_set_" ++ (property_value_kind tn sym.type).name) ++
              ((" (value, " ++ ns.lower_case_cname ++ c.lower_case_cname ++ "_get_" ++ p.name ++
                " (self));\n") ++ "\t\tbreak;\n"))) c.properties ps hps
      (fun pp p hp hmem hk => by
        obtain ⟨tn, sym, htn, hsym⟩ := hty p hmem
        have hk' : p.get_statement.isNone = false := by
          have hk2 : p.get_statement.isSome = true := hk
          cases hg : p.get_statement with
          | none => rw [hg] at hk2; cases hk2
          | some _ => rfl
        simp only [get_property_case, Emit.seq_eq, hp, Emit.run_ok_bind, hk',
          Bool.false_eq_true, if_false, get_property_g_value_set_eq h p tn sym htn hsym]
        exact ⟨rfl, rfl, tn, sym, htn, hsym, rfl⟩)
      (fun pp p hp _ hk => by
        have hk' : p.get_statement.isNone = true := by
          have hk2 : p.get_statement.isSome = false := hk
          cases hg : p.get_statement with
          | none => rfl
          | some _ => rw [hg] at hk2; cases hk2
        simp only [get_property_case, Emit.seq_eq, hp, Emit.run_ok_bind, hk', if_true])
    unfold get_property_dispatcher
    simp only [Emit.seq_eq]
    refine ⟨?_, lines, e3, ?_⟩
    · simp only [Emit.outcome_fprintf_bind, Emit.outcome_bind _ _ _ e1]
      rfl
    · simp only [Emit.c_text_fprintf_bind, Emit.c_text_bind _ _ _ e1, e4, Emit.c_text_fprintf]
  · obtain ⟨e1, -, lines, e3, e4⟩ := g_list_for_lines (set_property_case h c ns)
      (fun (pp : PropertyPtr) (p : ValaProperty) => h.property (some pp) = .ok p)
      (fun p => p.set_statement.isSome)
      (fun (p : ValaProperty) (line : String) =>
          ∃ (tn : String) (sym : ValaSymbol), p.return_type.type_name = some tn ∧
            (tn = "string" ∨ h.symbol p.return_type.symbol = .ok sym) ∧
            line = ("\tcase " ++ ns.upper_case_cname ++ c.upper_case_cname ++ "_" ++
                g_ascii_strup p.name ++ ":\n") ++
              (("\t" ++ ns.lower_case_cname ++ c.lower_case_cname ++ "_set_" ++ p.name ++
                " (self, ") ++
              ((property_value_kind tn sym.type).reader ++ (");\n" ++ "\t\tbreak;\n"))))
      c.properties ps hps
      (fun pp p hp hmem hk => by
        obtain ⟨tn, sym, htn, hsym⟩ := hty p hmem
        have hk' : p.set_statement.isNone = false := by
          have hk2 : p.set_statement.isSome = true := hk
          cases hg : p.set_statement with
          | none => rw [hg] at hk2; cases hk2
          | some _ => rfl
        simp only [set_property_case, Emit.seq_eq, hp, Emit.run_ok_bind, hk',
          Bool.false_eq_true, if_false, set_property_g_value_get_eq h p tn sym htn hsym]
        exact ⟨rfl, rfl, tn, sym, htn, hsym, rfl⟩)
      (fun pp p hp _ hk => by
        have hk' : p.set_statement.isNone = true := by
          have hk2 : p.set_statement.isSome = false := hk
          cases hg : p.set_statement with
          | none => rfl
          | some _ => rw [hg] at hk2; cases hk2
        simp only [set_property_case, Emit.seq_eq, hp, Emit.run_ok_bind, hk', if_true])
    unfold set_property_dispatcher
    simp only [Emit.seq_eq]
    refine ⟨?_, lines, e3, ?_⟩
    · simp only [Emit.outcome_fprintf_bind, Emit.outcome_bind _ _ _ e1]
      rfl
    · simp only [Emit.c_text_fprintf_bind, Emit.c_text_bind _ _ _ e1, e4, Emit.c_text_fprintf]
  · simp only [vala_code_generator_process_methods2, methods2_properties, Emit.seq_eq, hc, hns,
      Emit.run_ok_bind, hne, ne_eq, not_false_eq_true, if_true]
  · simp only [vala_code_generator_process_methods2, Emit.seq_eq, hc, hns,
      Emit.run_ok_bind, he, ne_eq, not_true_eq_false, if_false, Emit.pure_bind]

/-- Witness of C32: the class `Person` of the fourth sample program has six properties; the
enumeration of its property ids lists the dummy id and the six names in upper case. -/
theorem property_dispatchers_witness :
    (property_enum unit_store unit_person unit_app).c_text =
      "enum \x7b\n\tAPP_PERSON_DUMMY_PROPERTY,\n\tAPP_PERSON_NAME,\n\tAPP_PERSON_AGE,\n" ++
        "\tAPP_PERSON_MODE,\n\tAPP_PERSON_FRIEND,\n\tAPP_PERSON_ADULT,\n\tAPP_PERSON_DATA,\n" ++
        "\x7d;\n" :=
  ((property_dispatchers unit_store unit_person unit_app unit_properties
    (.cons rfl (.cons rfl (.cons rfl (.cons rfl (.cons rfl (.cons rfl .nil))))))
    (fun p hp => by
      simp only [unit_properties, List.mem_cons, List.mem_singleton, List.not_mem_nil,
        or_false] at hp
      rcases hp with rfl | rfl | rfl | rfl | rfl | rfl
      · exact ⟨"string", { type := .VOID }, rfl, Or.inl rfl⟩
      · exact ⟨"int", _, rfl, Or.inr rfl⟩
      · exact ⟨"Mode", _, rfl, Or.inr rfl⟩
      · exact ⟨"Person", _, rfl, Or.inr rfl⟩
      · exact ⟨"bool", _, rfl, Or.inr rfl⟩
      · exact ⟨"void", _, rfl, Or.inr rfl⟩)).1.2).trans (by rfl)

/-! ## Claims on the value kinds of a property -/

/-- The type macros and type definitions of a class in the header. -/
theorem class1_type_macros_eq (c : ValaClass) (ns : ValaNamespace) :
    (class1_type_macros c ns).outcome = .ok () ∧ (class1_type_macros c ns).c_text = "" ∧
    (class1_type_macros c ns).h_text =
      ("#define " ++ ns.upper_case_cname ++ "TYPE_" ++ c.upper_case_cname ++ "\t(" ++
        ns.lower_case_cname ++ c.lower_case_cname ++ "_get_type ())\n") ++
      (("#define " ++ ns.upper_case_cname ++ c.upper_case_cname ++
        "(obj)\t(G_TYPE_CHECK_INSTANCE_CAST ((obj), " ++ ns.upper_case_cname ++ "TYPE_" ++
        c.upper_case_cname ++ ", " ++ c.cname ++ "))\n") ++
      (("#define " ++ ns.upper_case_cname ++ c.upper_case_cname ++
        "_CLASS(klass)\t(G_TYPE_CHECK_CLASS_CAST ((klass), " ++ ns.upper_case_cname ++
        "TYPE_" ++ c.upper_case_cname ++ ", " ++ c.cname ++ "Class))\n") ++
      (("#define " ++ ns.upper_case_cname ++ "IS_" ++ c.upper_case_cname ++
        "(obj)\t(G_TYPE_CHECK_INSTANCE_TYPE ((obj), " ++ ns.upper_case_cname ++ "TYPE_" ++
        c.upper_case_cname ++ "))\n") ++
      (("#define " ++ ns.upper_case_cname ++ "IS_" ++ c.upper_case_cname ++
        "_CLASS(klass)\t(G_TYPE_CHECK_CLASS_TYPE ((klass), " ++ ns.upper_case_cname ++
        "TYPE_" ++ c.upper_case_cname ++ "))\n") ++
      (("#define " ++ ns.upper_case_cname ++ c.upper_case_cname ++
        "_GET_CLASS(obj)\t(G_TYPE_INSTANCE_GET_CLASS ((obj), " ++ ns.upper_case_cname ++
        "TYPE_" ++ c.upper_case_cname ++ ", " ++ c.cname ++ "Class))\n") ++
      ("\n" ++
      (("#ifndef _TYPE_" ++ ns.upper_case_cname ++ c.upper_case_cname ++ "\n") ++
      (("#define _TYPE_" ++ ns.upper_case_cname ++ c.upper_case_cname ++ "\n") ++
      (("typedef struct _" ++ c.cname ++ " " ++ c.cname ++ ";\n") ++
      (("typedef struct _" ++ c.cname ++ "Class " ++ c.cname ++ "Class;\n") ++
      ("#endif\n" ++
      (("typedef struct _" ++ c.cname ++ "Private " ++ c.cname ++ "Private;\n") ++
      "\n")))))))))))) := by
  refine ⟨rfl, rfl, ?_⟩
  simp only [class1_type_macros, Emit.seq_eq, Emit.h_text_header_bind, Emit.h_text_header]

/-- The type initialization function of a class whose base class and the namespace of the
base class are in the store. -/
theorem class2_get_type_eq (h : Store) (c : ValaClass) (ns : ValaNamespace)
    (camel_case : String) (b : ValaClass) (bns : ValaNamespace)
    (hb : h.class_ c.base_class = .ok b) (hbn : h.namespace_ (some b.namespace_) = .ok bns) :
    (class2_get_type h c ns camel_case).outcome = .ok () ∧
    (class2_get_type h c ns camel_case).h_text = "" ∧
    (class2_get_type h c ns camel_case).c_text =
      "GType\n" ++ ((ns.lower_case_cname ++ c.lower_case_cname ++ "_get_type ()\n") ++
      ("\x7b\n" ++ ("\tstatic GType g_define_type_id = 0;\n" ++
      ("\tif (G_UNLIKELY (g_define_type_id == 0)) \x7b\n" ++
      ("\t\tstatic const GTypeInfo g_define_type_info = \x7b\n" ++
      (("\t\t\tsizeof (" ++ camel_case ++ "Class),\n") ++
      ("\t\t\t(GBaseInitFunc) NULL,\n" ++ ("\t\t\t(GBaseFinalizeFunc) NULL,\n" ++
      (("\t\t\t(GClassInitFunc) " ++ ns.lower_case_cname ++ c.lower_case_cname ++
        "_class_init,\n") ++
      ("\t\t\t(GClassFinalizeFunc) NULL,\n" ++ ("\t\t\tNULL, /* class_data */\n" ++
      (("\t\t\tsizeof (" ++ camel_case ++ "),\n") ++ ("\t\t\t0, /* n_preallocs */\n" ++
      (("\t\t\t(GInstanceInitFunc) " ++ ns.lower_case_cname ++ c.lower_case_cname ++
        "_init,\n") ++
      ("\t\t\x7d;\n" ++
      (("\t\tg_define_type_id = g_type_register_static (" ++ bns.upper_case_cname ++
        "TYPE_" ++ b.upper_case_cname ++ ", \"" ++ camel_case ++
        "\", &g_define_type_info, 0);\n") ++
      ("\t\x7d\n" ++ ("\treturn g_define_type_id;\n" ++ ("\x7d\n" ++ "\n"))))))))))))))))))) := by
  simp only [class2_get_type, Emit.seq_eq, hb, hbn, Emit.run_ok_bind]
  refine ⟨rfl, rfl, ?_⟩
  simp only [Emit.c_text_fprintf_bind, Emit.c_text_fprintf]

/-! ## Claims on the type of a class -/

/-- C33: for a class `c` of a named namespace `ns`, with a base class `b` of the namespace
`bns`, without methods, fields, properties, constants and initializers.  The first pass over
the class returns and writes to the header the six macros `<NS_UPPER>TYPE_<UPPER>`,
`<NS_UPPER><UPPER>`, `<NS_UPPER><UPPER>_CLASS`, `<NS_UPPER>IS_<UPPER>`,
`<NS_UPPER>IS_<UPPER>_CLASS` and `<NS_UPPER><UPPER>_GET_CLASS` and the type definitions.  The
second pass over the class returns and writes to the C stream the functions
`<ns_lower><lower>_init`, `<ns_lower><lower>_class_init` and `<ns_lower><lower>_get_type`.
For every class, `_get_type` is the last part the second pass writes, and it registers the
type under the name of the namespace followed by the name of the class, against
`<BASE_NS_UPPER>TYPE_<BASE_UPPER>` of the base class. -/
theorem class_type_boilerplate (g : ValaCodeGenerator) (fuel depth : Nat) (cp : ClassPtr)
    (h : Store) (c : ValaClass) (ns : ValaNamespace) (name : String) (b : ValaClass)
    (bns : ValaNamespace)
    (hc : h.class_ (some cp) = .ok c) (hns : h.namespace_ (some c.namespace_) = .ok ns)
    (hname : ns.name = some name)
    (hb : h.class_ c.base_class = .ok b) (hbn : h.namespace_ (some b.namespace_) = .ok bns) :
    ((c.methods = [] ∧ c.fields = [] ∧ c.properties = [] ∧ c.constants = [] ∧
        c.init_method = none ∧ c.class_init_method = none ∧ c.has_private_fields = false) →
      ((vala_code_generator_process_class1 g fuel cp h).outcome =
          .ok ({ g with class_ := some cp }, h) ∧
        (vala_code_generator_process_class1 g fuel cp h).h_text =
          (class1_type_macros c ns).h_text) ∧
      ((vala_code_generator_process_class2 g fuel depth cp h).outcome =
          .ok ({ g with class_ := some cp }, h) ∧
        (vala_code_generator_process_class2 g fuel depth cp h).c_text =
          ("static void\n" ++ ((ns.lower_case_cname ++ c.lower_case_cname ++ "_init (" ++
            name ++ c.name ++ " *self)\n") ++ ("\x7b\n" ++ ("\x7d\n" ++ "\n")))) ++
          (("static void\n" ++ ((ns.lower_case_cname ++ c.lower_case_cname ++
            "_class_init (" ++ name ++ c.name ++ "Class *klass)\n") ++
            ("\x7b\n" ++ ("\x7d\n" ++ "\n")))) ++
          (class2_get_type h c ns (name ++ c.name)).c_text))) ∧
    ((class1_type_macros c ns).h_text =
      ("#define " ++ ns.upper_case_cname ++ "TYPE_" ++ c.upper_case_cname ++ "\t(" ++
        ns.lower_case_cname ++ c.lower_case_cname ++ "_get_type ())\n") ++
      (("#define " ++ ns.upper_case_cname ++ c.upper_case_cname ++
        "(obj)\t(G_TYPE_CHECK_INSTANCE_CAST ((obj), " ++ ns.upper_case_cname ++ "TYPE_" ++
        c.upper_case_cname ++ ", " ++ c.cname ++ "))\n") ++
      (("#define " ++ ns.upper_case_cname ++ c.upper_case_cname ++
        "_CLASS(klass)\t(G_TYPE_CHECK_CLASS_CAST ((klass), " ++ ns.upper_case_cname ++
        "TYPE_" ++ c.upper_case_cname ++ ", " ++ c.cname ++ "Class))\n") ++
      (("#define " ++ ns.upper_case_cname ++ "IS_" ++ c.upper_case_cname ++
        "(obj)\t(G_TYPE_CHECK_INSTANCE_TYPE ((obj), " ++ ns.upper_case_cname ++ "TYPE_" ++
        c.upper_case_cname ++ "))\n") ++
      (("#define " ++ ns.upper_case_cname ++ "IS_" ++ c.upper_case_cname ++
        "_CLASS(klass)\t(G_TYPE_CHECK_CLASS_TYPE ((klass), " ++ ns.upper_case_cname ++
        "TYPE_" ++ c.upper_case_cname ++ "))\n") ++
      (("#define " ++ ns.upper_case_cname ++ c.upper_case_cname ++
        "_GET_CLASS(obj)\t(G_TYPE_INSTANCE_GET_CLASS ((obj), " ++ ns.upper_case_cname ++
        "TYPE_" ++ c.upper_case_cname ++ ", " ++ c.cname ++ "Class))\n") ++
      ("\n" ++
      (("#ifndef _TYPE_" ++ ns.upper_case_cname ++ c.upper_case_cname ++ "\n") ++
      (("#define _TYPE_" ++ ns.upper_case_cname ++ c.upper_case_cname ++ "\n") ++
      (("typedef struct _" ++ c.cname ++ " " ++ c.cname ++ ";\n") ++
      (("typedef struct _" ++ c.cname ++ "Class " ++ c.cname ++ "Class;\n") ++
      ("#endif\n" ++
      (("typedef struct _" ++ c.cname ++ "Private " ++ c.cname ++ "Private;\n") ++
      "\n"))))))))))))) ∧
    (vala_code_generator_process_class2 g fuel depth cp h =
      (class2_structs h cp c ns (name ++ c.name)).bind fun _ =>
        (vala_code_generator_process_constants { g with class_ := some cp } fuel depth cp
          h).bind fun h1 =>
        (vala_code_generator_process_methods2 fuel depth cp
          ({ g with class_ := some cp }, h1)).bind fun s =>
        (class2_get_type s.2 c ns (name ++ c.name)).bind fun _ => pure s) ∧
    (∀ h2 : Store, h2.class_ c.base_class = .ok b → h2.namespace_ (some b.namespace_) = .ok bns →
      (class2_get_type h2 c ns (name ++ c.name)).outcome = .ok () ∧
      ∃ head : String, (class2_get_type h2 c ns (name ++ c.name)).c_text =
        head ++ (("\t\tg_define_type_id = g_type_register_static (" ++ bns.upper_case_cname ++
          "TYPE_" ++ b.upper_case_cname ++ ", \"" ++ (name ++ c.name) ++
          "\", &g_define_type_info, 0);\n") ++
        ("\t\x7d\n" ++ ("\treturn g_define_type_id;\n" ++ ("\x7d\n" ++ "\n"))))) := by
  have e2 : vala_code_generator_process_class2 g fuel depth cp h =
      (class2_structs h cp c ns (name ++ c.name)).bind fun _ =>
        (vala_code_generator_process_constants { g with class_ := some cp } fuel depth cp
          h).bind fun h1 =>
        (vala_code_generator_process_methods2 fuel depth cp
          ({ g with class_ := some cp }, h1)).bind fun s =>
        (class2_get_type s.2 c ns (name ++ c.name)).bind fun _ => pure s := by
    simp only [vala_code_generator_process_class2, Emit.seq_eq, hc, hns, hname,
      Outcome.of_option, Emit.run_ok_bind]
  refine ⟨fun hno => ?_, (class1_type_macros_eq c ns).2.2, e2, fun h2 hb2 hbn2 => ?_⟩
  · obtain ⟨hm, hf, hp, hk, hi, hci, hpf⟩ := hno
    obtain ⟨g1, g2, -⟩ := class2_get_type_eq h c ns (name ++ c.name) b bns hb hbn
    have hfl : ∀ flag, get_fields_by_flag h c flag = .ok [] := by
      intro flag
      simp [get_fields_by_flag, hf, get_fields_by_flag_loop]
    have e1 : vala_code_generator_process_class1 g fuel cp h =
        (class1_type_macros c ns).bind fun _ =>
          (fprintf_c_file "\n").bind fun _ =>
          (fprintf_c_file ("struct _" ++ c.cname ++ "Private \x7b\n")).bind fun _ =>
          (fprintf_c_file "\tint dummy;\n").bind fun _ =>
          (fprintf_c_file "\x7d;\n").bind fun _ =>
          (fprintf_c_file "\n").bind fun _ =>
          (fprintf_c_file ("#define " ++ ns.upper_case_cname ++ c.upper_case_cname ++
            "_GET_PRIVATE(o) (G_TYPE_INSTANCE_GET_PRIVATE ((o), " ++ ns.upper_case_cname ++
            "TYPE_" ++ c.upper_case_cname ++ ", " ++ c.cname ++ "Private))\n\n")).bind fun _ =>
          (fprintf_c_file "\n").bind fun _ => pure ({ g with class_ := some cp }, h) := by
      simp only [vala_code_generator_process_class1, vala_code_generator_process_methods1,
        class1_private_structure, Emit.seq_eq, Emit.bind_assoc, hc, hns, Emit.run_ok_bind, hm,
        hfl,
        g_list_for_nil, Emit.pure_bind, hpf, Bool.not_false, if_true]
    have e3 : vala_code_generator_process_class2 g fuel depth cp h =
        (class2_structs h cp c ns (name ++ c.name)).bind fun _ =>
          (fprintf_h_file "\n").bind fun _ =>
          (fprintf_c_file "static void\n").bind fun _ =>
          (fprintf_c_file (ns.lower_case_cname ++ c.lower_case_cname ++ "_init (" ++
            name ++ c.name ++ " *self)\n")).bind fun _ =>
          (fprintf_c_file "\x7b\n").bind fun _ =>
          (fprintf_c_file "\x7d\n").bind fun _ =>
          (fprintf_c_file "\n").bind fun _ =>
          (fprintf_c_file "static void\n").bind fun _ =>
          (fprintf_c_file (ns.lower_case_cname ++ c.lower_case_cname ++ "_class_init (" ++
            name ++ c.name ++ "Class *klass)\n")).bind fun _ =>
          (fprintf_c_file "\x7b\n").bind fun _ =>
          (fprintf_c_file "\x7d\n").bind fun _ =>
          (fprintf_c_file "\n").bind fun _ =>
          (class2_get_type h c ns (name ++ c.name)).bind fun _ =>
            pure ({ g with class_ := some cp }, h) := by
      rw [e2]
      simp only [vala_code_generator_process_constants,
        vala_code_generator_process_methods2, process_methods2_loop, methods2_init,
        methods2_class_init, class_init_chain_loop, initializer_body, Emit.seq_eq,
        Emit.bind_assoc, hc, hns,
        hname, Outcome.of_option, Emit.run_ok_bind, hm, hf, hp, hk, hi, hci, hpf,
        g_list_for_nil, Emit.pure_bind, ne_eq, not_true_eq_false, if_false,
        Bool.false_eq_true]
    have hs : (class2_structs h cp c ns (name ++ c.name)).outcome = .ok () ∧
        (class2_structs h cp c ns (name ++ c.name)).c_text = "" := by
      simp only [class2_structs, vala_code_generator_process_virtual_method_pointers,
        Emit.seq_eq, Emit.bind_assoc, hc, hns, hb, hfl, hm, Emit.run_ok_bind, g_list_for_nil,
        Emit.pure_bind]
      exact ⟨rfl, rfl⟩
    refine ⟨⟨?_, ?_⟩, ?_, ?_⟩
    · rw [e1, Emit.outcome_bind _ _ _ (class1_type_macros_eq c ns).1]
      rfl
    · rw [e1, Emit.h_text_bind _ _ _ (class1_type_macros_eq c ns).1]
      simp only [Emit.h_text_fprintf_bind, Emit.h_text_pure, String.append_empty]
    · rw [e3, Emit.outcome_bind _ _ _ hs.1]
      simp only [Emit.outcome_header_bind, Emit.outcome_fprintf_bind,
        Emit.outcome_bind _ _ _ g1]
      rfl
    · rw [e3, Emit.c_text_bind _ _ _ hs.1, hs.2]
      simp only [Emit.c_text_header_bind, Emit.c_text_fprintf_bind,
        Emit.c_text_bind _ _ _ g1, Emit.c_text_pure, String.append_empty,
        String.empty_append, String.append_assoc]
  · obtain ⟨g1, -, g3⟩ := class2_get_type_eq h2 c ns (name ++ c.name) b bns hb2 hbn2
    refine ⟨g1, "GType\n" ++ ((ns.lower_case_cname ++ c.lower_case_cname ++ "_get_type ()\n") ++
      ("\x7b\n" ++ ("\tstatic GType g_define_type_id = 0;\n" ++
      ("\tif (G_UNLIKELY (g_define_type_id == 0)) \x7b\n" ++
      ("\t\tstatic const GTypeInfo g_define_type_info = \x7b\n" ++
      (("\t\t\tsizeof (" ++ (name ++ c.name) ++ "Class),\n") ++
      ("\t\t\t(GBaseInitFunc) NULL,\n" ++ ("\t\t\t(GBaseFinalizeFunc) NULL,\n" ++
      (("\t\t\t(GClassInitFunc) " ++ ns.lower_case_cname ++ c.lower_case_cname ++
        "_class_init,\n") ++
      ("\t\t\t(GClassFinalizeFunc) NULL,\n" ++ ("\t\t\tNULL, /* class_data */\n" ++
      (("\t\t\tsizeof (" ++ (name ++ c.name) ++ "),\n") ++ ("\t\t\t0, /* n_preallocs */\n" ++
      (("\t\t\t(GInstanceInitFunc) " ++ ns.lower_case_cname ++ c.lower_case_cname ++
        "_init,\n") ++ "\t\t\x7d;\n")))))))))))))), ?_⟩
    rw [g3]
    simp only [String.append_assoc]

set_option maxRecDepth 100000 in
/-- Witness of C33: the class `Empty` of the namespace `App` of the fourth sample program has
the base class `GLib.Object` and no members; the first pass writes its six macros to the
header, and the second pass writes `app_empty_init`, `app_empty_class_init` and
`app_empty_get_type`, which registers `AppEmpty` against `G_TYPE_OBJECT`. -/
theorem class_type_boilerplate_witness :
    (vala_code_generator_process_class1 unit_generator 3 0 unit_store).h_text =
      "#define APP_TYPE_EMPTY\t(app_empty_get_type ())\n" ++
      "#define APP_EMPTY(obj)\t(G_TYPE_CHECK_INSTANCE_CAST ((obj), APP_TYPE_EMPTY, AppEmpty))\n" ++
      "#define APP_EMPTY_CLASS(klass)\t(G_TYPE_CHECK_CLASS_CAST ((klass), APP_TYPE_EMPTY, " ++
        "AppEmptyClass))\n" ++
      "#define APP_IS_EMPTY(obj)\t(G_TYPE_CHECK_INSTANCE_TYPE ((obj), APP_TYPE_EMPTY))\n" ++
      "#define APP_IS_EMPTY_CLASS(klass)\t(G_TYPE_CHECK_CLASS_TYPE ((klass), APP_TYPE_EMPTY))\n" ++
      "#define APP_EMPTY_GET_CLASS(obj)\t(G_TYPE_INSTANCE_GET_CLASS ((obj), APP_TYPE_EMPTY, " ++
        "AppEmptyClass))\n" ++
      "\n#ifndef _TYPE_APP_EMPTY\n#define _TYPE_APP_EMPTY\n" ++
      "typedef struct _AppEmpty AppEmpty;\ntypedef struct _AppEmptyClass AppEmptyClass;\n" ++
      "#endif\ntypedef struct _AppEmptyPrivate AppEmptyPrivate;\n\n" ∧
    (vala_code_generator_process_class2 unit_generator 3 6 0 unit_store).c_text =
      "static void\napp_empty_init (AppEmpty *self)\n\x7b\n\x7d\n\n" ++
      "static void\napp_empty_class_init (AppEmptyClass *klass)\n\x7b\n\x7d\n\n" ++
      "GType\napp_empty_get_type ()\n\x7b\n\tstatic GType g_define_type_id = 0;\n" ++
      "\tif (G_UNLIKELY (g_define_type_id == 0)) \x7b\n" ++
      "\t\tstatic const GTypeInfo g_define_type_info = \x7b\n" ++
      "\t\t\tsizeof (AppEmptyClass),\n\t\t\t(GBaseInitFunc) NULL,\n" ++
      "\t\t\t(GBaseFinalizeFunc) NULL,\n\t\t\t(GClassInitFunc) app_empty_class_init,\n" ++
      "\t\t\t(GClassFinalizeFunc) NULL,\n\t\t\tNULL, /* class_data */\n" ++
      "\t\t\tsizeof (AppEmpty),\n\t\t\t0, /* n_preallocs */\n" ++
      "\t\t\t(GInstanceInitFunc) app_empty_init,\n\t\t\x7d;\n" ++
      "\t\tg_define_type_id = g_type_register_static (G_TYPE_OBJECT, \"AppEmpty\", " ++
        "&g_define_type_info, 0);\n" ++
      "\t\x7d\n\treturn g_define_type_id;\n\x7d\n\n" := by
  have k := (class_type_boilerplate unit_generator 3 6 0 unit_store unit_empty unit_app "App"
    _ _ rfl rfl rfl rfl rfl).1 ⟨rfl, rfl, rfl, rfl, rfl, rfl, rfl⟩
  refine ⟨?_, ?_⟩
  · rw [k.1.2]
    rfl
  · rw [k.2.2]
    rfl

/-! ## Lemmas on characters and file names -/

/-- The bounds of an ASCII lower-case letter. -/
theorem isLower_bounds (c : Char) (h : c.isLower = true) : 97 ≤ c.toNat ∧ c.toNat ≤ 122 := by
  simp only [Char.isLower, Bool.and_eq_true, decide_eq_true_eq] at h
  exact h

/-- The bounds of an ASCII upper-case letter. -/
theorem isUpper_bounds (c : Char) (h : c.isUpper = true) : 65 ≤ c.toNat ∧ c.toNat ≤ 90 := by
  simp only [Char.isUpper, Bool.and_eq_true, decide_eq_true_eq] at h
  exact h

/-- The bounds of an ASCII digit. -/
theorem isDigit_bounds (c : Char) (h : c.isDigit = true) : 48 ≤ c.toNat ∧ c.toNat ≤ 57 := by
  simp only [Char.isDigit, Bool.and_eq_true, decide_eq_true_eq] at h
  exact h

/-- `toupper` keeps a character that is not an ASCII lower-case letter. -/
theorem toupper_keeps (c : Char) (h : c.toNat < 97 ∨ 122 < c.toNat) : toupper c = c := by
  unfold toupper Char.toUpper
  simp only
  rw [if_neg]
  omega

/-- `toupper` gives an ASCII upper-case letter for an ASCII letter. -/
theorem toupper_isUpper (c : Char) (h : c.isAlpha = true) : (toupper c).isUpper = true := by
  simp only [Char.isAlpha, Bool.or_eq_true] at h
  rcases h with h | h
  · rw [toupper_keeps c (Or.inl (by have := isUpper_bounds c h; omega))]
    exact h
  · obtain ⟨h1, h2⟩ := isLower_bounds c h
    unfold toupper Char.toUpper
    simp only
    rw [if_pos ⟨h1, h2⟩]
    generalize c.toNat = n at h1 h2
    interval_cases n <;> rfl

/-- `toupper` keeps a digit. -/
theorem toupper_digit (c : Char) (h : c.isDigit = true) : toupper c = c :=
  toupper_keeps c (Or.inl (by have := isDigit_bounds c h; omega))

/-- The character `filename_to_define` puts for a character of the base name. -/
theorem define_char_cases (p : Char) :
    (p.isAlpha = true → (if g_ascii_isalnum p then toupper p else '_') = p.toUpper ∧
      (if g_ascii_isalnum p then toupper p else '_').isUpper = true) ∧
    (p.isDigit = true → (if g_ascii_isalnum p then toupper p else '_') = p) ∧
    (p.isAlphanum = false → (if g_ascii_isalnum p then toupper p else '_') = '_') := by
  refine ⟨fun h => ?_, fun h => ?_, fun h => ?_⟩
  · have : g_ascii_isalnum p = true := by
      simp only [g_ascii_isalnum, Char.isAlphanum, h, Bool.true_or]
    rw [if_pos this]
    exact ⟨rfl, toupper_isUpper p h⟩
  · have : g_ascii_isalnum p = true := by
      simp only [g_ascii_isalnum, Char.isAlphanum, h, Bool.or_true]
    rw [if_pos this]
    exact toupper_digit p h
  · have : g_ascii_isalnum p = false := h
    rw [if_neg (by rw [this]; exact Bool.false_ne_true)]

/-! ## Lemmas on the source file -/

/-- The run over a source file with its name cut: the prologue of the two streams, the
declarations, and the epilogue of the header. -/
theorem process_source_file_eq (g : ValaCodeGenerator) (fuel depth : Nat)
    (sfp : SourceFilePtr) (h : Store) (sf : ValaSourceFile) (base : String)
    (hsf : h.source_file (some sfp) = .ok sf) (hcut : cut_vala_extension sf.filename = .ok base) :
    vala_code_generator_process_source_file g fuel depth sfp h =
      (fprintf_h_file ("#ifndef __" ++ filename_to_define (base ++ ".h") ++ "__\n")).bind
        fun _ =>
      (fprintf_h_file ("#define __" ++ filename_to_define (base ++ ".h") ++ "__\n")).bind
        fun _ =>
      (fprintf_h_file "\n").bind fun _ =>
      (fprintf_h_file "#include <stdio.h>\n").bind fun _ =>
      (fprintf_h_file "#include <glib-object.h>\n").bind fun _ =>
      (fprintf_h_file "\n").bind fun _ =>
      (fprintf_h_file "G_BEGIN_DECLS\n").bind fun _ =>
      (fprintf_h_file "\n").bind fun _ =>
      (fprintf_c_file ("#include \"" ++ g_path_get_basename (base ++ ".h") ++ "\"\n")).bind
        fun _ =>
      (fprintf_c_file "\n").bind fun _ =>
      (source_file_declarations g fuel depth sf h).bind fun s =>
      (fprintf_h_file "G_END_DECLS\n").bind fun _ =>
      (fprintf_h_file "\n").bind fun _ =>
      (fprintf_h_file ("#endif /* __" ++ filename_to_define (base ++ ".h") ++ "__ */\n")).bind
        fun _ => pure ({ c_filename := base ++ ".c", h_filename := base ++ ".h" }, s.1, s.2) := by
  simp only [vala_code_generator_process_source_file, Emit.seq_eq, hsf, hcut, Emit.run_ok_bind]

/-- What a run over a source file that returns has written and returns. -/
theorem process_source_file_ok (g : ValaCodeGenerator) (fuel depth : Nat)
    (sfp : SourceFilePtr) (h : Store) (sf : ValaSourceFile) (base : String)
    (r : OutputFiles × ValaCodeGenerator × Store)
    (hsf : h.source_file (some sfp) = .ok sf) (hcut : cut_vala_extension sf.filename = .ok base)
    (hrun : (vala_code_generator_process_source_file g fuel depth sfp h).outcome = .ok r) :
    ∃ s : ValaCodeGenerator × Store,
      (source_file_declarations g fuel depth sf h).outcome = .ok s ∧
      r = ({ c_filename := base ++ ".c", h_filename := base ++ ".h" }, s.1, s.2) ∧
      (vala_code_generator_process_source_file g fuel depth sfp h).h_text =
        ("#ifndef __" ++ filename_to_define (base ++ ".h") ++ "__\n") ++
        (("#define __" ++ filename_to_define (base ++ ".h") ++ "__\n") ++
        (("\n" ++ ("#include <stdio.h>\n" ++ ("#include <glib-object.h>\n" ++ ("\n" ++
          ("G_BEGIN_DECLS\n" ++ ("\n" ++ ((source_file_declarations g fuel depth sf h).h_text ++
          ("G_END_DECLS\n" ++ "\n")))))))) ++
        ("#endif /* __" ++ filename_to_define (base ++ ".h") ++ "__ */\n"))) ∧
      (vala_code_generator_process_source_file g fuel depth sfp h).c_text =
        ("#include \"" ++ g_path_get_basename (base ++ ".h") ++ "\"\n") ++
        ("\n" ++ (source_file_declarations g fuel depth sf h).c_text) := by
  rw [process_source_file_eq g fuel depth sfp h sf base hsf hcut] at hrun ⊢
  simp only [Emit.outcome_header_bind, Emit.outcome_fprintf_bind, Emit.outcome_bind_eq_ok,
    Emit.outcome_pure] at hrun
  obtain ⟨s, hs, hr⟩ := hrun
  refine ⟨s, hs, ?_, ?_, ?_⟩
  · simp only [Emit.outcome_header_bind, Emit.outcome_pure, Outcome.ok.injEq] at hr
    exact hr.symm
  · simp only [Emit.h_text_header_bind, Emit.h_text_fprintf_bind, Emit.h_text_bind _ _ _ hs,
      Emit.h_text_pure, String.append_empty, String.append_assoc]
  · simp only [Emit.c_text_header_bind, Emit.c_text_fprintf_bind, Emit.c_text_bind _ _ _ hs,
      Emit.c_text_pure, String.append_empty]

/-! ## Claims on the include guard of a header -/

/-- C34: the result of `filename_to_define` has the length of the base name of its argument;
character by character, an ASCII letter of the base name is replaced by its upper-case form,
a digit is kept and any other character is replaced by `_`, so the result holds only
upper-case letters, digits and underscores.  A run over a source file that returns writes the
header between `#ifndef __D__`, `#define __D__` and `#endif /* __D__ */`, where `D` is the
result for the name of the header; for the header `path/name.h` it is `NAME_H`. -/
theorem filename_to_define_guard (filename : String) :
    (filename_to_define filename).length = (g_path_get_basename filename).length ∧
    List.Forall₂ (fun (p q : Char) =>
        (p.isAlpha = true → q = p.toUpper ∧ q.isUpper = true) ∧
        (p.isDigit = true → q = p) ∧ (p.isAlphanum = false → q = '_'))
      (g_path_get_basename filename).data (filename_to_define filename).data ∧
    (∀ q ∈ (filename_to_define filename).data,
      q.isUpper = true ∨ q.isDigit = true ∨ q = '_') ∧
    (∀ (g : ValaCodeGenerator) (fuel depth : Nat) (sfp : SourceFilePtr) (h : Store)
        (sf : ValaSourceFile) (base : String) (r : OutputFiles × ValaCodeGenerator × Store),
      h.source_file (some sfp) = .ok sf → cut_vala_extension sf.filename = .ok base →
      base ++ ".h" = filename →
      (vala_code_generator_process_source_file g fuel depth sfp h).outcome = .ok r →
      r.1.h_filename = filename ∧
      ∃ middle : String,
        (vala_code_generator_process_source_file g fuel depth sfp h).h_text =
          ("#ifndef __" ++ filename_to_define filename ++ "__\n") ++
          (("#define __" ++ filename_to_define filename ++ "__\n") ++
          (middle ++ ("#endif /* __" ++ filename_to_define filename ++ "__ */\n")))) ∧
    filename_to_define "path/name.h" = "NAME_H" := by
  have hf2 : ∀ l : List Char, List.Forall₂ (fun (p q : Char) =>
        (p.isAlpha = true → q = p.toUpper ∧ q.isUpper = true) ∧
        (p.isDigit = true → q = p) ∧ (p.isAlphanum = false → q = '_'))
      l (l.map fun p => if g_ascii_isalnum p then toupper p else '_') := by
    intro l
    induction l with
    | nil => exact List.Forall₂.nil
    | cons p l ih => exact List.Forall₂.cons (define_char_cases p) ih
  refine ⟨?_, hf2 _, fun q hq => ?_, fun g fuel depth sfp h sf base r hsf hcut hb hrun => ?_,
    by decide⟩
  · show ((g_path_get_basename filename).data.map _).length = _
    rw [List.length_map]
    rfl
  · have hq' : q ∈ (g_path_get_basename filename).data.map
        fun p => if g_ascii_isalnum p then toupper p else '_' := hq
    rw [List.mem_map] at hq'
    obtain ⟨p, -, rfl⟩ := hq'
    cases ha : p.isAlpha with
    | true => exact Or.inl ((define_char_cases p).1 ha).2
    | false =>
      cases hd : p.isDigit with
      | true => exact Or.inr (Or.inl (by rw [(define_char_cases p).2.1 hd]; exact hd))
      | false =>
        exact Or.inr (Or.inr ((define_char_cases p).2.2
          (by simp only [Char.isAlphanum, ha, hd, Bool.or_self])))
  · obtain ⟨s, -, hr, ht, -⟩ := process_source_file_ok g fuel depth sfp h sf base r hsf hcut hrun
    subst hb
    refine ⟨by rw [hr], _, ht⟩

/-- Witness of C34: the run over the source file `src/app.vala` of the fourth sample program
returns, and writes the header `src/app.h` between the lines of the guard `__APP_H__`. -/
theorem filename_to_define_guard_witness :
    ∃ (r : OutputFiles × ValaCodeGenerator × Store) (middle : String),
      (vala_code_generator_process_source_file unit_generator 3 6 0 unit_store).outcome =
        .ok r ∧ r.1.h_filename = "src/app.h" ∧
      (vala_code_generator_process_source_file unit_generator 3 6 0 unit_store).h_text =
        "#ifndef __APP_H__\n" ++ ("#define __APP_H__\n" ++ (middle ++
          "#endif /* __APP_H__ */\n")) := by
  obtain ⟨k1, middle, k2⟩ := (filename_to_define_guard "src/app.h").2.2.2.1 unit_generator 3 6 0
    unit_store _ "src/app" _ rfl rfl rfl rfl
  exact ⟨_, middle, rfl, k1, k2⟩

/-! ## Lemmas on the names of the output files -/

/-- A name that ends with an extension of the length of `.vala` is cut before the
extension. -/
theorem cut_vala_extension_append (stem ext : String) (hext : ext.length = 5) :
    cut_vala_extension (stem ++ ext) = .ok stem := by
  have hl : (stem ++ ext).length = stem.length + 5 := by rw [String.length_append, hext]
  have h5 : ".vala".length = 5 := rfl
  unfold cut_vala_extension
  rw [h5, hl, if_neg (by omega)]
  have hd : (stem ++ ext).data = stem.data ++ ext.data := String.data_append stem ext
  have ht : (stem.data ++ ext.data).take (stem.length + 5 - 5) = stem.data := by
    rw [Nat.add_sub_cancel]
    exact List.take_left' rfl
  rw [hd, ht]
  rfl

/-- A name shorter than `.vala` cannot be cut. -/
theorem cut_vala_extension_short (filename : String) (h : filename.length < 5) :
    cut_vala_extension filename = .fault := by
  have h5 : ".vala".length = 5 := rfl
  unfold cut_vala_extension
  rw [h5, if_pos h]

/-- The longest prefix of a list whose elements satisfy `p`, when the list goes on with an
element that does not. -/
theorem takeWhile_append_stop {α : Type} (p : α → Bool) (l r : List α) (x : α)
    (hl : ∀ a ∈ l, p a = true) (hx : p x = false) : (l ++ x :: r).takeWhile p = l := by
  induction l with
  | nil => simp [List.takeWhile, hx]
  | cons a l ih =>
    rw [List.cons_append, List.takeWhile_cons, hl a (List.mem_cons_self a l),
      ih (fun b hb => hl b (List.mem_cons_of_mem a hb))]
    rfl

/-- The base name of a header `dir/name.h`, for a `name` without a slash. -/
theorem g_path_get_basename_header (dir name : String) (hn : ∀ c ∈ name.data, c ≠ '/') :
    g_path_get_basename (dir ++ "/" ++ name ++ ".h") = name ++ ".h" := by
  have hd : (dir ++ "/" ++ name ++ ".h").data = dir.data ++ '/' :: (name.data ++ ['.', 'h']) := by
    simp only [String.data_append]
    simp
  have hr : (dir.data ++ '/' :: (name.data ++ ['.', 'h'])).reverse =
      ('h' :: '.' :: name.data.reverse) ++ '/' :: dir.data.reverse := by
    simp
  unfold g_path_get_basename
  rw [hd, if_neg (by simp)]
  simp only [hr]
  have hdw : (('h' :: '.' :: name.data.reverse) ++ '/' :: dir.data.reverse).dropWhile
      (fun c => decide (c = '/')) =
      ('h' :: '.' :: name.data.reverse) ++ '/' :: dir.data.reverse := by
    rw [List.cons_append, List.dropWhile_cons_of_neg (by decide)]
  rw [hdw, List.reverse_reverse, if_neg (by simp)]
  have htw : (('h' :: '.' :: name.data.reverse) ++ '/' :: dir.data.reverse).takeWhile
      (fun c => decide (c ≠ '/')) = 'h' :: '.' :: name.data.reverse := by
    apply takeWhile_append_stop
    · intro a ha
      simp only [List.mem_cons, List.mem_reverse] at ha
      rcases ha with rfl | rfl | ha
      · decide
      · decide
      · simp [hn a ha]
    · decide
  rw [htw]
  show String.mk _ = _
  apply String.ext
  simp [String.data_append]

/-! ## Claims on the names of the output files -/

/-- Counterexample to C35: for the source file `tool.gs` the run returns, and the files it
writes are `to.c` and `to.h`, not `tool.c` and `tool.h`; the first line of the C file is
`#include "to.h"`. -/
theorem output_files_counterexample :
    ∃ r : OutputFiles × ValaCodeGenerator × Store,
      script_store.source_file (some 0) =
        .ok { filename := "tool.gs", root_namespace := some 0 } ∧
      (vala_code_generator_process_source_file unit_generator 3 6 0 script_store).outcome =
        .ok r ∧
      r.1 = { c_filename := "to.c", h_filename := "to.h" } ∧
      (vala_code_generator_process_source_file unit_generator 3 6 0 script_store).c_text =
        "#include \"to.h\"\n\n" :=
  ⟨_, rfl, rfl, rfl, rfl⟩

/-- C35, amended: the run over a source file cuts the last five characters, the length of
`.vala`, off its name.  For a name `stem` followed by an extension of five characters, a run
that returns has written the files `stem.c` and `stem.h`, and the C file starts with the
line `#include "b"`, where `b` is the base name of `stem.h`; for a `stem` of the form
`dir/name` with no slash in `name` this is `name.h`.  For a name of less than five characters
the run writes outside the copy of the name. -/
theorem output_files_named (g : ValaCodeGenerator) (fuel depth : Nat) (sfp : SourceFilePtr)
    (h : Store) (sf : ValaSourceFile) (hsf : h.source_file (some sfp) = .ok sf) :
    (∀ (stem ext : String) (r : OutputFiles × ValaCodeGenerator × Store),
      sf.filename = stem ++ ext → ext.length = 5 →
      (vala_code_generator_process_source_file g fuel depth sfp h).outcome = .ok r →
      r.1 = { c_filename := stem ++ ".c", h_filename := stem ++ ".h" } ∧
      ∃ rest : String, (vala_code_generator_process_source_file g fuel depth sfp h).c_text =
        ("#include \"" ++ g_path_get_basename (stem ++ ".h") ++ "\"\n") ++ rest) ∧
    (∀ dir name : String, (∀ c ∈ name.data, c ≠ '/') →
      g_path_get_basename (dir ++ "/" ++ name ++ ".h") = name ++ ".h") ∧
    (sf.filename.length < 5 →
      (vala_code_generator_process_source_file g fuel depth sfp h).outcome = .fault) := by
  refine ⟨fun stem ext r hfn hext hrun => ?_, g_path_get_basename_header, fun hlt => ?_⟩
  · have hcut : cut_vala_extension sf.filename = .ok stem := by
      rw [hfn]
      exact cut_vala_extension_append stem ext hext
    obtain ⟨s, -, hr, -, hct⟩ :=
      process_source_file_ok g fuel depth sfp h sf stem r hsf hcut hrun
    exact ⟨by rw [hr], _, hct⟩
  · simp only [vala_code_generator_process_source_file, Emit.seq_eq, hsf, Emit.run_ok_bind,
      cut_vala_extension_short sf.filename hlt]
    rfl

/-- Witness of C35: the run over the source file `src/app.vala` of the fourth sample program
returns and has written `src/app.c` and `src/app.h`; the C file starts with
`#include "app.h"`. -/
theorem output_files_named_witness :
    ∃ (r : OutputFiles × ValaCodeGenerator × Store) (rest : String),
      (vala_code_generator_process_source_file unit_generator 3 6 0 unit_store).outcome =
        .ok r ∧
      r.1 = { c_filename := "src/app.c", h_filename := "src/app.h" } ∧
      (vala_code_generator_process_source_file unit_generator 3 6 0 unit_store).c_text =
        "#include \"app.h\"\n" ++ rest := by
  obtain ⟨k1, rest, k2⟩ := (output_files_named unit_generator 3 6 0 unit_store _ rfl).1
    "src/app" ".vala" _ rfl rfl rfl
  exact ⟨_, rest, rfl, k1, k2⟩

/-! ## Lemmas on the include directives -/

/-- The text of two lists of lines, one after the other. -/
theorem concatenated_append (a b : List String) :
    concatenated (a ++ b) = concatenated a ++ concatenated b := by
  induction a with
  | nil => exact (String.empty_append _).symm
  | cons x a ih =>
    show x ++ concatenated (a ++ b) = (x ++ concatenated a) ++ concatenated b
    rw [ih, String.append_assoc]

/-- The text two lists of pieces put on a stream. -/
theorem chunks_text_append (f : FILE) (a b : List IncludeChunk) :
    chunks_text f (a ++ b) = chunks_text f a ++ chunks_text f b := by
  unfold chunks_text
  rw [List.filter_append, List.map_append, concatenated_append]

/-- The files two lists of pieces include. -/
theorem included_files_append (a b : List IncludeChunk) :
    included_files (a ++ b) = included_files a ++ included_files b :=
  List.filterMap_append _ _ _

/-- A step that returns at once. -/
theorem include_run_pure (h : Store) (d : List SourceFilePtr) : IncludeRun h (pure d) d := by
  intro d' hd
  cases hd
  exact ⟨[], rfl, rfl, rfl, List.nodup_nil, fun _ hf => (by cases hf), fun _ hk => (by cases hk)⟩

/-- A step after a step. -/
theorem include_run_bind (h : Store) (x : Emit (List SourceFilePtr))
    (f : List SourceFilePtr → Emit (List SourceFilePtr)) (d : List SourceFilePtr)
    (hx : IncludeRun h x d) (hf : ∀ d1, IncludeRun h (f d1) d1) : IncludeRun h (x.bind f) d := by
  intro d2 hrun
  rw [Emit.outcome_bind_eq_ok] at hrun
  obtain ⟨d1, h1, h2⟩ := hrun
  obtain ⟨k1, c1, t1, e1, n1, m1, s1⟩ := hx d1 h1
  obtain ⟨k2, c2, t2, e2, n2, m2, s2⟩ := hf d1 d2 h2
  refine ⟨k1 ++ k2, ?_, ?_, ?_, ?_, ?_, ?_⟩
  · rw [Emit.c_text_bind _ _ _ h1, c1, c2, chunks_text_append]
  · rw [Emit.h_text_bind _ _ _ h1, t1, t2, chunks_text_append]
  · rw [e2, e1, included_files_append, List.reverse_append, List.append_assoc]
  · rw [included_files_append, List.nodup_append]
    refine ⟨n1, n2, fun a ha hb => ?_⟩
    apply m2 a hb
    rw [e1]
    exact List.mem_append_left _ (List.mem_reverse.2 ha)
  · intro file hfile
    rw [included_files_append, List.mem_append] at hfile
    rcases hfile with hm | hm
    · exact m1 file hm
    · intro hd
      apply m2 file hm
      rw [e1]
      exact List.mem_append_right _ hd
  · intro k hk
    rw [List.mem_append] at hk
    rcases hk with hm | hm
    · exact s1 k hm
    · exact s2 k hm

/-- A step after a read. -/
theorem include_run_read {α : Type} (h : Store) (o : Outcome α)
    (f : α → Emit (List SourceFilePtr)) (d : List SourceFilePtr)
    (hf : ∀ a, o = .ok a → IncludeRun h (f a) d) : IncludeRun h ((Emit.run o).bind f) d := by
  cases o with
  | ok a =>
    rw [Emit.run_ok_bind]
    exact hf a rfl
  | exit l e => intro d' hd; cases hd
  | fault => intro d' hd; cases hd
  | out_of_fuel => intro d' hd; cases hd

/-- A step after the write of a piece that includes no source file of the program. -/
theorem include_run_write (h : Store) (stream : FILE) (text : String)
    (k : Unit → Emit (List SourceFilePtr)) (d : List SourceFilePtr)
    (hdesc : IncludeChunk.described h { f := stream, file := none, text := text })
    (hk : IncludeRun h (k ()) d) : IncludeRun h ((fprintf stream text).bind k) d := by
  intro d' hrun
  have ho : (fprintf stream text).outcome = .ok () := by cases stream <;> rfl
  rw [Emit.outcome_bind _ _ _ ho] at hrun
  obtain ⟨ks, c1, t1, e1, n1, m1, s1⟩ := hk d' hrun
  refine ⟨{ f := stream, file := none, text := text } :: ks, ?_, ?_, e1, n1, m1, ?_⟩
  · rw [Emit.c_text_bind _ _ _ ho, c1]
    cases stream <;> simp [chunks_text, fprintf, Emit.c_text_fprintf, Emit.c_text_header,
      concatenated]
  · rw [Emit.h_text_bind _ _ _ ho, t1]
    cases stream <;> simp [chunks_text, fprintf, Emit.h_text_fprintf, Emit.h_text_header,
      concatenated]
  · intro x hx
    rcases List.mem_cons.1 hx with rfl | hm
    · exact hdesc
    · exact s1 x hm

/-- The write of the include of a source file that is not included yet. -/
theorem include_run_own (h : Store) (stream : FILE) (text : String) (file : SourceFilePtr)
    (d : List SourceFilePtr) (hfile : file ∉ d)
    (hdesc : IncludeChunk.described h { f := stream, file := some file, text := text }) :
    IncludeRun h ((fprintf stream text).bind fun _ => pure (file :: d)) d := by
  intro d' hrun
  have ho : (fprintf stream text).outcome = .ok () := by cases stream <;> rfl
  rw [Emit.outcome_bind _ _ _ ho] at hrun
  cases hrun
  refine ⟨[{ f := stream, file := some file, text := text }], ?_, ?_, rfl,
    List.nodup_singleton _, ?_, ?_⟩
  · rw [Emit.c_text_bind _ _ _ ho]
    cases stream <;> simp [chunks_text, fprintf, Emit.c_text_fprintf, Emit.c_text_header,
      concatenated, Emit.c_text_pure]
  · rw [Emit.h_text_bind _ _ _ ho]
    cases stream <;> simp [chunks_text, fprintf, Emit.h_text_fprintf, Emit.h_text_header,
      concatenated, Emit.h_text_pure]
  · intro x hx
    rcases List.mem_singleton.1 hx with rfl
    exact hfile
  · intro x hx
    rcases List.mem_singleton.1 hx with rfl
    exact hdesc

/-- A loop of steps. -/
theorem include_run_loop {α : Type} (h : Store)
    (body : α → List SourceFilePtr → Emit (List SourceFilePtr))
    (hbody : ∀ a d, IncludeRun h (body a d) d) :
    ∀ (l : List α) (d : List SourceFilePtr), IncludeRun h (g_list_for body l d) d := by
  intro l
  induction l with
  | nil => exact fun d => include_run_pure h d
  | cons a l ih =>
    intro d
    rw [g_list_for_cons]
    exact include_run_bind h _ _ d (hbody a d) ih

/-- The namespace of a dependant type is a namespace of the store. -/
theorem dep_type_namespace_mem (h : Store) (dep_type : SymPtr) (ns : ValaNamespace)
    (hns : dep_type_namespace h dep_type = .ok ns) : ns ∈ h.namespaces := by
  simp only [dep_type_namespace, Outcome.bind_eq, Outcome.bind_eq_ok] at hns
  obtain ⟨sym, -, np, -, hn⟩ := hns
  exact Store.namespace_mem h _ ns hn

/-- A dependant type of the global namespace: nothing is written. -/
theorem process_dep_type_global (h : Store) (f : FILE) (dep_type : SymPtr)
    (dep_files : List SourceFilePtr) (ns : ValaNamespace)
    (hns : dep_type_namespace h dep_type = .ok ns)
    (hname : ns.name = none ∨ ns.name = some "") :
    vala_code_generator_process_dep_type h f dep_type dep_files = pure dep_files := by
  simp only [vala_code_generator_process_dep_type, Emit.seq_eq, hns, Emit.run_ok_bind, hname,
    if_true]

/-- A dependant type of an imported namespace: the include file of the namespace, if it has
one, is included at every call. -/
theorem process_dep_type_imported (h : Store) (f : FILE) (dep_type : SymPtr)
    (dep_files : List SourceFilePtr) (ns : ValaNamespace)
    (hns : dep_type_namespace h dep_type = .ok ns)
    (hname : ¬ (ns.name = none ∨ ns.name = some "")) (himp : ns.import_ = true) :
    vala_code_generator_process_dep_type h f dep_type dep_files =
      match ns.include_filename with
      | some include_filename =>
        (fprintf f ("#include <" ++ include_filename ++ ">\n")).bind fun _ => pure dep_files
      | none => pure dep_files := by
  simp only [vala_code_generator_process_dep_type, Emit.seq_eq, hns, Emit.run_ok_bind, hname,
    if_false, himp, if_true]
  cases ns.include_filename with
  | none => exact Emit.pure_bind _ _
  | some n => rfl

/-- A dependant type of a namespace of a source file of the program: the header of the file
is included unless it is among the files included so far. -/
theorem process_dep_type_own (h : Store) (f : FILE) (dep_type : SymPtr)
    (dep_files : List SourceFilePtr) (ns : ValaNamespace) (sf : ValaSourceFile) (base : String)
    (hns : dep_type_namespace h dep_type = .ok ns)
    (hname : ¬ (ns.name = none ∨ ns.name = some "")) (himp : ns.import_ = false)
    (hsf : h.source_files[ns.source_file]? = some sf)
    (hcut : cut_vala_extension sf.filename = .ok base) :
    vala_code_generator_process_dep_type h f dep_type dep_files =
      if ns.source_file ∈ dep_files then pure dep_files
      else (fprintf f ("#include <" ++ base ++ ".h>\n")).bind fun _ =>
        pure (ns.source_file :: dep_files) := by
  simp only [vala_code_generator_process_dep_type, Emit.seq_eq, hns, Emit.run_ok_bind, hname,
    if_false, himp, Bool.false_eq_true, hsf, hcut]

/-- A call of `vala_code_generator_process_dep_type` is a step of the include part. -/
theorem include_run_dep_type (h : Store) (f : FILE) (dep_type : SymPtr)
    (d : List SourceFilePtr) :
    IncludeRun h (vala_code_generator_process_dep_type h f dep_type d) d := by
  unfold vala_code_generator_process_dep_type
  simp only [Emit.seq_eq]
  refine include_run_read h _ _ d fun ns hns => ?_
  split
  · exact include_run_pure h d
  · split
    · cases hi : ns.include_filename with
      | none =>
        simp only [Emit.pure_bind]
        exact include_run_pure h d
      | some n =>
        simp only
        exact include_run_write h f _ _ d
          (Or.inl ⟨ns, n, dep_type_namespace_mem h dep_type ns hns, by assumption, hi, rfl⟩)
          (include_run_pure h d)
    · cases hsf : h.source_files[ns.source_file]? with
      | none => exact include_run_pure h d
      | some sf =>
        simp only
        split
        · exact include_run_pure h d
        · next hmem =>
          refine include_run_read h _ _ d fun base hbase => ?_
          exact include_run_own h f _ ns.source_file d hmem ⟨sf, base, hsf, hbase, rfl⟩

/-- The turn over a class of the file is a step of the include part. -/
theorem include_run_base_class (h : Store) (cp : ClassPtr) (d : List SourceFilePtr) :
    IncludeRun h (base_class_dep h cp d) d := by
  unfold base_class_dep
  simp only [Emit.seq_eq]
  refine include_run_read h _ _ d fun c _ => ?_
  cases c.base_class with
  | none => exact include_run_pure h d
  | some bp =>
    simp only
    exact include_run_read h _ _ d fun b _ => include_run_dep_type h .h_file b.symbol d

/-- The turn over a namespace of the file is a step of the include part. -/
theorem include_run_namespace (h : Store) (np : NamespacePtr) (d : List SourceFilePtr) :
    IncludeRun h (namespace_base_class_deps h np d) d := by
  unfold namespace_base_class_deps
  simp only [Emit.seq_eq]
  refine include_run_read h _ _ d fun ns _ => ?_
  split
  · exact include_run_pure h d
  · exact include_run_loop h _ (include_run_base_class h) ns.classes d

/-- The turn over a dependant type of the file is a step of the include part. -/
theorem include_run_turn (h : Store) (dep_type : SymPtr) (d : List SourceFilePtr) :
    IncludeRun h (dep_type_turn h dep_type d) d := by
  unfold dep_type_turn
  simp only [Emit.seq_eq]
  refine include_run_read h _ _ d fun sym _ => ?_
  refine include_run_read h _ _ d fun imported _ => ?_
  refine include_run_bind h _ _ d ?_ (include_run_dep_type h .c_file dep_type)
  split
  · refine include_run_read h _ _ d fun c _ => ?_
    refine include_run_read h _ _ d fun ns _ => ?_
    refine include_run_write h .h_file _ _ d (Or.inr (Or.inl ⟨c, ns, rfl, Or.inl rfl⟩)) ?_
    refine include_run_write h .h_file _ _ d
      (Or.inr (Or.inl ⟨c, ns, rfl, Or.inr (Or.inl rfl)⟩)) ?_
    refine include_run_write h .h_file _ _ d
      (Or.inr (Or.inl ⟨c, ns, rfl, Or.inr (Or.inr (Or.inl rfl))⟩)) ?_
    refine include_run_write h .h_file _ _ d
      (Or.inr (Or.inl ⟨c, ns, rfl, Or.inr (Or.inr (Or.inr (Or.inl rfl)))⟩)) ?_
    exact include_run_write h .h_file _ _ d
      (Or.inr (Or.inl ⟨c, ns, rfl, Or.inr (Or.inr (Or.inr (Or.inr rfl)))⟩))
      (include_run_pure h d)
  · split
    · exact include_run_dep_type h .h_file dep_type d
    · exact include_run_pure h d

/-- The include part of a source file is a step that starts with no file included. -/
theorem include_run_source_file (h : Store) (source_file : ValaSourceFile) :
    IncludeRun h (source_file_includes h source_file) [] := by
  unfold source_file_includes
  simp only [Emit.seq_eq]
  refine include_run_bind h _ _ [] (include_run_loop h _ (include_run_namespace h) _ []) ?_
  intro d1
  refine include_run_bind h _ _ d1 (include_run_loop h _ (include_run_turn h) _ d1) ?_
  intro d2
  exact include_run_write h .h_file _ _ d2 (Or.inr (Or.inr ⟨rfl, rfl⟩)) (include_run_pure h d2)

/-! ## Claims on the include directives of a source file -/

/-- Counterexample to C36: the source file `src/app.vala` of the fourth sample program has two
classes with the base class `GLib.Object` and lists `GLib.Object` twice among its dependant
types; the namespace `GLib` is imported, with the include file `glib-object.h`.  The include
part returns, and the line `#include <glib-object.h>` stands twice in the header and twice in
the C file. -/
theorem imported_include_counterexample :
    (source_file_includes unit_store unit_app_file).outcome = .ok [1] ∧
    (source_file_includes unit_store unit_app_file).h_text =
      "#include <glib-object.h>\n" ++ ("#include <glib-object.h>\n" ++
        ("#ifndef _TYPE_LIB_TOOL\n#define _TYPE_LIB_TOOL\ntypedef struct _LibTool LibTool;\n" ++
        "typedef struct _LibToolClass LibToolClass;\n#endif\n\n")) ∧
    (source_file_includes unit_store unit_app_file).c_text =
      "#include <src/lib.h>\n" ++ ("#include <glib-object.h>\n" ++
        "#include <glib-object.h>\n") :=
  ⟨rfl, rfl, rfl⟩

/-- C36, amended: the include part of a source file that returns has written, on the two
streams, pieces of four kinds: includes of headers of source files of the program, includes
of include files of imported namespaces, lines of type definitions and the empty line at the
end.  Over the two streams together the header of a source file of the program is included
at most once, however many of the base classes and dependant types of the file belong to it,
and the files included are the ones the run returns.  The include file of an imported
namespace is included at every call for a dependant type of the namespace, whatever has been
included before. -/
theorem includes_deduplicated (h : Store) (source_file : ValaSourceFile) :
    (∀ dep_files : List SourceFilePtr,
      (source_file_includes h source_file).outcome = .ok dep_files →
      ∃ chunks : List IncludeChunk,
        (source_file_includes h source_file).c_text = chunks_text .c_file chunks ∧
        (source_file_includes h source_file).h_text = chunks_text .h_file chunks ∧
        (chunks.filterMap fun k => k.file).Nodup ∧
        dep_files = (chunks.filterMap fun k => k.file).reverse ∧
        ∀ k ∈ chunks, k.described h) ∧
    (∀ (f : FILE) (dep_type : SymPtr) (dep_files : List SourceFilePtr) (ns : ValaNamespace)
        (name include_filename : String), dep_type_namespace h dep_type = .ok ns →
      ns.name = some name → name ≠ "" → ns.import_ = true →
      ns.include_filename = some include_filename →
      vala_code_generator_process_dep_type h f dep_type dep_files =
        (fprintf f ("#include <" ++ include_filename ++ ">\n")).bind fun _ =>
          pure dep_files) := by
  refine ⟨fun dep_files hrun => ?_, fun f dt d ns name n hns hname hne himp hinc => ?_⟩
  · obtain ⟨chunks, c1, t1, e1, n1, -, s1⟩ := include_run_source_file h source_file dep_files hrun
    exact ⟨chunks, c1, t1, n1, by rw [e1, List.append_nil]; rfl, s1⟩
  · rw [process_dep_type_imported h f dt d ns hns (by
      rw [hname]
      rintro (hx | hx)
      · cases hx
      · exact hne (Option.some.inj hx)) himp, hinc]

/-- Witness of C36: the include part of the source file `src/app.vala` of the fourth sample
program returns the one source file `src/lib.vala`, so it has written pieces that include
only this one, once. -/
theorem includes_deduplicated_witness :
    ∃ chunks : List IncludeChunk,
      (source_file_includes unit_store unit_app_file).c_text = chunks_text .c_file chunks ∧
      (source_file_includes unit_store unit_app_file).h_text = chunks_text .h_file chunks ∧
      (chunks.filterMap fun k => k.file).Nodup ∧
      [1] = (chunks.filterMap fun k => k.file).reverse ∧
      ∀ k ∈ chunks, k.described unit_store :=
  (includes_deduplicated unit_store unit_app_file).1 [1] rfl

/-! ## Lemmas on the turn over a dependant type -/

/-- The class of a dependant type that is a class, and its namespace. -/
theorem dep_type_namespace_class (h : Store) (dep_type : SymPtr) (sym : ValaSymbol)
    (ns : ValaNamespace) (hsym : h.symbol (some dep_type) = .ok sym)
    (hns : dep_type_namespace h dep_type = .ok ns) (hc : sym.type = .CLASS) :
    ∃ c : ValaClass, h.class_ sym.class_ = .ok c ∧ h.namespace_ (some c.namespace_) = .ok ns := by
  simp only [dep_type_namespace, Outcome.bind_eq, hsym, Outcome.ok_bind, hc, if_true,
    Outcome.bind_eq_ok, Outcome.pure_eq, Outcome.ok.injEq] at hns
  obtain ⟨np, ⟨c, hcl, rfl⟩, hn⟩ := hns
  exact ⟨c, hcl, hn⟩

/-- The turn over a dependant type that is an enum: a call for the header, then a call for
the C file. -/
theorem dep_type_turn_enum (h : Store) (dep_type : SymPtr) (sym : ValaSymbol)
    (d : List SourceFilePtr) (hsym : h.symbol (some dep_type) = .ok sym)
    (he : sym.type = .ENUM) :
    dep_type_turn h dep_type d =
      (vala_code_generator_process_dep_type h .h_file dep_type d).bind fun d1 =>
        vala_code_generator_process_dep_type h .c_file dep_type d1 := by
  simp only [dep_type_turn, Emit.seq_eq, hsym, Emit.run_ok_bind, he, Outcome.pure_eq,
    reduceCtorEq, if_false, false_and, if_true]

/-- The turn over a dependant type that is a struct: a call for the C file. -/
theorem dep_type_turn_struct (h : Store) (dep_type : SymPtr) (sym : ValaSymbol)
    (d : List SourceFilePtr) (hsym : h.symbol (some dep_type) = .ok sym)
    (he : sym.type = .STRUCT) :
    dep_type_turn h dep_type d = vala_code_generator_process_dep_type h .c_file dep_type d := by
  simp only [dep_type_turn, Emit.seq_eq, hsym, Emit.run_ok_bind, he, Outcome.pure_eq,
    reduceCtorEq, if_false, false_and, Emit.pure_bind]

/-- The turn over a dependant type that is a class of a namespace that is not imported: the
type definitions on the header, then a call for the C file. -/
theorem dep_type_turn_class (h : Store) (dep_type : SymPtr) (sym : ValaSymbol)
    (d : List SourceFilePtr) (c : ValaClass) (ns : ValaNamespace)
    (hsym : h.symbol (some dep_type) = .ok sym) (he : sym.type = .CLASS)
    (hc : h.class_ sym.class_ = .ok c) (hn : h.namespace_ (some c.namespace_) = .ok ns)
    (himp : ns.import_ = false) :
    dep_type_turn h dep_type d =
      (fprintf_h_file ("#ifndef _TYPE_" ++ ns.upper_case_cname ++ c.upper_case_cname ++
        "\n")).bind fun _ =>
      (fprintf_h_file ("#define _TYPE_" ++ ns.upper_case_cname ++ c.upper_case_cname ++
        "\n")).bind fun _ =>
      (fprintf_h_file ("typedef struct _" ++ c.cname ++ " " ++ c.cname ++ ";\n")).bind fun _ =>
      (fprintf_h_file ("typedef struct _" ++ c.cname ++ "Class " ++ c.cname ++
        "Class;\n")).bind fun _ =>
      (fprintf_h_file "#endif\n").bind fun _ =>
        vala_code_generator_process_dep_type h .c_file dep_type d := by
  simp only [dep_type_turn, Emit.seq_eq, Emit.bind_assoc, hsym, Emit.run_ok_bind, he,
    Outcome.bind_eq, hc, hn, Outcome.ok_bind, Outcome.pure_eq, himp, and_self, if_true,
    Emit.pure_bind]

/-! ## Lemmas on the stream of an include directive -/

/-- A dependant type whose namespace is named, not imported and owned by the source file
`F`, whose name without its last five characters is `base`.  A call of
`vala_code_generator_process_dep_type` writes the line `#include <base.h>` to its stream and
adds `F` to the files included when `F` is not among them, and writes nothing when it is.
So the turn over such a dependant type writes the line to the header if the type is an enum,
and to the C file if it is a class or a struct, in both cases only if no earlier turn has
included `F` in either stream; the turn over a class also writes the type definitions of the
class to the header.  The turn over a class of the file whose base class is such a type is a
call for the header.  A dependant type in a namespace without a name gives no include. -/
theorem include_stream (h : Store) (dep_type : SymPtr) (sym : ValaSymbol)
    (ns : ValaNamespace) (name : String) (sf : ValaSourceFile) (base : String)
    (hsym : h.symbol (some dep_type) = .ok sym)
    (hns : dep_type_namespace h dep_type = .ok ns)
    (hname : ns.name = some name) (hne : name ≠ "") (himp : ns.import_ = false)
    (hsf : h.source_files[ns.source_file]? = some sf)
    (hcut : cut_vala_extension sf.filename = .ok base) :
    (∀ (f : FILE) (d : List SourceFilePtr), ns.source_file ∉ d →
      vala_code_generator_process_dep_type h f dep_type d =
        (fprintf f ("#include <" ++ base ++ ".h>\n")).bind fun _ =>
          pure (ns.source_file :: d)) ∧
    (∀ (f : FILE) (d : List SourceFilePtr), ns.source_file ∈ d →
      vala_code_generator_process_dep_type h f dep_type d = pure d) ∧
    (sym.type = .ENUM → ∀ d : List SourceFilePtr,
      (ns.source_file ∉ d →
        (dep_type_turn h dep_type d).outcome = .ok (ns.source_file :: d) ∧
        (dep_type_turn h dep_type d).h_text = "#include <" ++ base ++ ".h>\n" ∧
        (dep_type_turn h dep_type d).c_text = "") ∧
      (ns.source_file ∈ d → dep_type_turn h dep_type d = pure d)) ∧
    (sym.type = .STRUCT → ∀ d : List SourceFilePtr,
      (ns.source_file ∉ d →
        (dep_type_turn h dep_type d).outcome = .ok (ns.source_file :: d) ∧
        (dep_type_turn h dep_type d).h_text = "" ∧
        (dep_type_turn h dep_type d).c_text = "#include <" ++ base ++ ".h>\n") ∧
      (ns.source_file ∈ d → dep_type_turn h dep_type d = pure d)) ∧
    (sym.type = .CLASS → ∃ c : ValaClass, h.class_ sym.class_ = .ok c ∧
      ∀ d : List SourceFilePtr,
        (dep_type_turn h dep_type d).h_text =
          ("#ifndef _TYPE_" ++ ns.upper_case_cname ++ c.upper_case_cname ++ "\n") ++
          (("#define _TYPE_" ++ ns.upper_case_cname ++ c.upper_case_cname ++ "\n") ++
          (("typedef struct _" ++ c.cname ++ " " ++ c.cname ++ ";\n") ++
          (("typedef struct _" ++ c.cname ++ "Class " ++ c.cname ++ "Class;\n") ++
          "#endif\n"))) ∧
        (ns.source_file ∉ d →
          (dep_type_turn h dep_type d).outcome = .ok (ns.source_file :: d) ∧
          (dep_type_turn h dep_type d).c_text = "#include <" ++ base ++ ".h>\n") ∧
        (ns.source_file ∈ d →
          (dep_type_turn h dep_type d).outcome = .ok d ∧
          (dep_type_turn h dep_type d).c_text = "")) ∧
    (∀ (cp bp : ClassPtr) (c b : ValaClass) (d : List SourceFilePtr),
      h.class_ (some cp) = .ok c → c.base_class = some bp → h.class_ (some bp) = .ok b →
      b.symbol = dep_type →
      base_class_dep h cp d = vala_code_generator_process_dep_type h .h_file dep_type d) ∧
    (∀ (f : FILE) (other : SymPtr) (ns2 : ValaNamespace) (d : List SourceFilePtr),
      dep_type_namespace h other = .ok ns2 → (ns2.name = none ∨ ns2.name = some "") →
      vala_code_generator_process_dep_type h f other d = pure d) := by
  have hnamed : ¬ (ns.name = none ∨ ns.name = some "") := by
    rw [hname]
    rintro (hx | hx)
    · cases hx
    · exact hne (Option.some.inj hx)
  have hown := fun f d =>
    process_dep_type_own h f dep_type d ns sf base hns hnamed himp hsf hcut
  have hnew : ∀ (f : FILE) (d : List SourceFilePtr), ns.source_file ∉ d →
      vala_code_generator_process_dep_type h f dep_type d =
        (fprintf f ("#include <" ++ base ++ ".h>\n")).bind fun _ =>
          pure (ns.source_file :: d) := fun f d hd => by rw [hown f d, if_neg hd]
  have hold : ∀ (f : FILE) (d : List SourceFilePtr), ns.source_file ∈ d →
      vala_code_generator_process_dep_type h f dep_type d = pure d :=
    fun f d hd => by rw [hown f d, if_pos hd]
  refine ⟨hnew, hold, fun he d => ⟨fun hd => ?_, fun hd => ?_⟩,
    fun he d => ⟨fun hd => ?_, fun hd => ?_⟩, fun he => ?_,
    fun cp bp c b d hc hb hbc hs => ?_,
    fun f other ns2 d hn2 hg => process_dep_type_global h f other d ns2 hn2 hg⟩
  · rw [dep_type_turn_enum h dep_type sym d hsym he, hnew .h_file d hd, Emit.bind_assoc]
    simp only [Emit.pure_bind, hold .c_file (ns.source_file :: d) (List.mem_cons_self _ _)]
    exact ⟨rfl, by simp [fprintf, Emit.h_text_header_bind, Emit.h_text_pure],
      by simp [fprintf, Emit.c_text_header_bind, Emit.c_text_pure]⟩
  · rw [dep_type_turn_enum h dep_type sym d hsym he, hold .h_file d hd, Emit.pure_bind,
      hold .c_file d hd]
  · rw [dep_type_turn_struct h dep_type sym d hsym he, hnew .c_file d hd]
    exact ⟨rfl, by simp [fprintf, Emit.h_text_fprintf_bind, Emit.h_text_pure],
      by simp [fprintf, Emit.c_text_fprintf_bind, Emit.c_text_pure]⟩
  · rw [dep_type_turn_struct h dep_type sym d hsym he, hold .c_file d hd]
  · obtain ⟨c, hc, hn⟩ := dep_type_namespace_class h dep_type sym ns hsym hns he
    refine ⟨c, hc, fun d => ?_⟩
    rw [dep_type_turn_class h dep_type sym d c ns hsym he hc hn himp]
    by_cases hd : ns.source_file ∈ d
    · rw [hold .c_file d hd]
      refine ⟨?_, fun hx => absurd hd hx, fun _ => ⟨rfl, ?_⟩⟩
      · simp only [Emit.h_text_header_bind, Emit.h_text_pure, String.append_empty]
      · simp only [Emit.c_text_header_bind, Emit.c_text_pure]
    · rw [hnew .c_file d hd]
      refine ⟨?_, fun _ => ⟨rfl, ?_⟩, fun hx => absurd hx hd⟩
      · simp [fprintf, Emit.h_text_header_bind, Emit.h_text_fprintf_bind, Emit.h_text_pure]
      · simp [fprintf, Emit.c_text_header_bind, Emit.c_text_fprintf_bind, Emit.c_text_pure]
  · simp only [base_class_dep, Emit.seq_eq, hc, Emit.run_ok_bind, hb, hbc, hs]

/-- The enum `Lib.Mode` of the fourth sample program: when no file is included yet, the turn
over it includes `src/lib.h` in the header. -/
theorem include_stream_witness :
    (dep_type_turn unit_store 11 []).outcome = .ok [1] ∧
    (dep_type_turn unit_store 11 []).h_text = "#include <src/lib.h>\n" ∧
    (dep_type_turn unit_store 11 []).c_text = "" :=
  ((include_stream unit_store 11 _ unit_lib "Lib" _ "src/lib" rfl rfl rfl (by decide) rfl rfl
    rfl).2.2.1 rfl []).1 (by decide)

/-! ## Claims on the stream of an include directive -/

/-- C37 (the code at the failing input): the enum `Lib.Mode` is a dependant type of the source
file `src/app.vala` of the fourth sample program, and its namespace `Lib` is named, not
imported and owned by `src/lib.vala`.  The turn over the class `Lib.Tool`, which stands before
it in the list, includes `src/lib.h` in the C file and records the file; the turn over
`Lib.Mode` calls for the header and then for the C file, both calls find the file recorded
and write nothing, and the header of `src/app.vala` has no include of `src/lib.h`.  When no
file is recorded yet, the turn over `Lib.Mode` writes the include to the header. -/
theorem enum_include_lost :
    unit_app_file.dep_types = [12, 11, 10, 10] ∧
    (∃ sym : ValaSymbol, unit_store.symbol (some 11) = .ok sym ∧ sym.type = .ENUM) ∧
    dep_type_namespace unit_store 11 = .ok unit_lib ∧
    unit_lib.name = some "Lib" ∧ unit_lib.import_ = false ∧
    unit_store.source_files[unit_lib.source_file]? =
      some { filename := "src/lib.vala", root_namespace := some 0, namespaces := [3] } ∧
    (dep_type_turn unit_store 12 []).outcome = .ok [1] ∧
    (dep_type_turn unit_store 12 []).c_text = "#include <src/lib.h>\n" ∧
    (dep_type_turn unit_store 11 [1]).outcome = .ok [1] ∧
    (dep_type_turn unit_store 11 [1]).h_text = "" ∧
    (dep_type_turn unit_store 11 [1]).c_text = "" ∧
    (source_file_includes unit_store unit_app_file).outcome = .ok [1] ∧
    (source_file_includes unit_store unit_app_file).h_text =
      "#include <glib-object.h>\n" ++ ("#include <glib-object.h>\n" ++
        ("#ifndef _TYPE_LIB_TOOL\n#define _TYPE_LIB_TOOL\ntypedef struct _LibTool LibTool;\n" ++
        "typedef struct _LibToolClass LibToolClass;\n#endif\n\n")) ∧
    (source_file_includes unit_store unit_app_file).c_text =
      "#include <src/lib.h>\n" ++ ("#include <glib-object.h>\n" ++
        "#include <glib-object.h>\n") ∧
    (dep_type_turn unit_store 11 []).outcome = .ok [1] ∧
    (dep_type_turn unit_store 11 []).h_text = "#include <src/lib.h>\n" ∧
    (dep_type_turn unit_store 11 []).c_text = "" :=
  ⟨rfl, ⟨_, rfl, rfl⟩, rfl, rfl, rfl, rfl, rfl, rfl, rfl, rfl, rfl, rfl, rfl, rfl, rfl, rfl,
    rfl⟩

/-! ## Lemmas on the scope of a body -/

/-- The removal of the bindings of a name keeps the bindings of the other names. -/
theorem lookup_filter_ne (table : GHashTable) (key name : String) (hk : name ≠ key) :
    List.lookup name (table.filter fun kv => kv.1 != key) = List.lookup name table := by
  induction table with
  | nil => rfl
  | cons kv rest ih =>
    obtain ⟨k, v⟩ := kv
    by_cases hf : k = key
    · have hnk : (name == k) = false := by
        rw [hf]
        simpa using hk
      rw [List.filter_cons_of_neg (by simp [hf]), List.lookup_cons, hnk]
      exact ih
    · rw [List.filter_cons_of_pos (by simp [hf]), List.lookup_cons, List.lookup_cons, ih]

/-- A table with a name inserted binds the names it bound. -/
theorem g_hash_table_insert_keeps (table : GHashTable) (key : String) (value : SymPtr)
    (name : String) (hn : g_hash_table_lookup table name ≠ none) :
    g_hash_table_lookup (g_hash_table_insert table key value) name ≠ none := by
  by_cases hk : name = key
  · subst hk
    rw [g_hash_table_lookup_insert]
    exact Option.some_ne_none value
  · unfold g_hash_table_lookup g_hash_table_insert at *
    have hne : (name == key) = false := by simpa using hk
    rw [List.lookup_cons, hne]
    show List.lookup name (table.filter fun kv => kv.1 != key) ≠ none
    rw [lookup_filter_ne table key name hk]
    exact hn

/-- The tables of a store bind what they bind. -/
theorem Store.tables_grow_refl (h : Store) : h.tables_grow h :=
  fun _ s hs => ⟨s, hs, fun _ hn => hn⟩

/-- Growth after growth. -/
theorem Store.tables_grow_trans (a b c : Store) (hab : a.tables_grow b)
    (hbc : b.tables_grow c) : a.tables_grow c := by
  intro p s hs
  obtain ⟨s1, h1, k1⟩ := hab p s hs
  obtain ⟨s2, h2, k2⟩ := hbc p s1 h1
  exact ⟨s2, h2, fun name hn => k2 name (k1 name hn)⟩

/-- The declaration of a local variable removes no binding. -/
theorem declare_local_variable_grows (g : ValaCodeGenerator) (h h1 : Store) (name : String)
    (type : ValaTypeReference) (hd : declare_local_variable g h name type = .ok h1) :
    h.tables_grow h1 := by
  have hlen : ∀ (p : SymPtr) (s : ValaSymbol), h.symbol (some p) = .ok s →
      p < h.symbols.length := by
    intro p s hp
    simp only [Store.symbol, Option.bind] at hp
    by_contra hn
    rw [List.getElem?_eq_none (Nat.le_of_not_lt hn)] at hp
    cases hp
  cases hg : g.sym with
  | none => simp [declare_local_variable, hg, Outcome.of_option] at hd
  | some sp =>
    cases hq : h.symbols[sp]? with
    | some scope =>
      have hs : h.symbol (some sp) = .ok scope := by
        simp only [Store.symbol, Option.bind, hq, Outcome.of_option]
      obtain ⟨h2, e1, e2, -, -, e5, -⟩ := declare_local_variable_eq g h name type sp scope hg hs
      rw [hd] at e1
      cases e1
      intro p s hp
      by_cases hps : p = sp
      · subst hps
        rw [hs] at hp
        cases hp
        exact ⟨_, e2, fun n hn => g_hash_table_insert_keeps _ _ _ n hn⟩
      · refine ⟨s, ?_, fun _ hn => hn⟩
        simp only [Store.symbol, Option.bind] at hp ⊢
        rw [e5 p hps (hlen p s hp)]
        exact hp
    | none =>
      have hge : h.symbols.length ≤ sp := by
        by_contra hn
        rw [List.getElem?_eq_getElem (Nat.lt_of_not_le hn)] at hq
        cases hq
      simp only [declare_local_variable, vala_symbol_new, hg, Outcome.of_option,
        Outcome.bind_eq, Outcome.ok_bind, Outcome.bind_eq_ok, Outcome.pure_eq] at hd
      obtain ⟨scope, -, sym, -, hh⟩ := hd
      intro p s hp
      have hpl := hlen p s hp
      refine ⟨s, ?_, fun _ hn => hn⟩
      cases hh
      simp only [Store.symbol, Option.bind] at hp ⊢
      rw [List.getElem?_set_ne (Nat.ne_of_gt hpl),
        List.getElem?_set_ne (Nat.ne_of_gt (Nat.lt_of_lt_of_le hpl hge)),
        List.getElem?_append_left hpl]
      exact hp

/-- The loop over the statements of a block removes no binding when the emitter of one
statement removes none. -/
theorem statement_list_loop_grows
    (ps : ValaStatement → Store → Emit (ValaStatement × Store))
    (hps : ∀ (s : ValaStatement) (h : Store) (r : ValaStatement × Store),
      (ps s h).outcome = .ok r → h.tables_grow r.2) :
    ∀ (l : List ValaStatement) (h : Store) (r : List ValaStatement × Store),
      (statement_list_loop ps l h).outcome = .ok r → h.tables_grow r.2 := by
  intro l
  induction l with
  | nil =>
    intro h r hr
    simp only [statement_list_loop, Emit.outcome_pure, Outcome.ok.injEq] at hr
    subst hr
    exact Store.tables_grow_refl h
  | cons s rest ih =>
    intro h r hr
    simp only [statement_list_loop, Emit.seq_eq, Emit.outcome_bind_eq_ok, Emit.outcome_pure,
      Outcome.ok.injEq] at hr
    obtain ⟨a, ha, b, hb, hr⟩ := hr
    subst hr
    exact Store.tables_grow_trans _ _ _ (hps s h a ha) (ih a.2 b hb)

/-- The statement emitter removes no binding. -/
theorem process_statement_grows (g : ValaCodeGenerator) (fuel : Nat) :
    ∀ (depth : Nat) (stmt : ValaStatement) (h : Store) (r : ValaStatement × Store),
      (vala_code_generator_process_statement g fuel depth stmt h).outcome = .ok r →
        h.tables_grow r.2 := by
  intro depth
  induction depth with
  | zero =>
    intro stmt h r hr
    simp [vala_code_generator_process_statement, Emit.outcome_run] at hr
  | succ depth ih =>
    intro stmt h r hr
    cases stmt with
    | BLOCK i ss =>
      simp only [vala_code_generator_process_statement, vala_code_generator_process_block,
        Emit.seq_eq, Emit.outcome_bind_eq_ok, Emit.outcome_pure, Outcome.ok.injEq] at hr
      obtain ⟨_, _, b, hb, _, _, hr⟩ := hr
      subst hr
      exact statement_list_loop_grows _ ih ss h b hb
    | EXPRESSION i expr =>
      simp only [vala_code_generator_process_statement,
        Emit.seq_eq, Emit.outcome_bind_eq_ok, Emit.outcome_pure, Outcome.ok.injEq] at hr
      obtain ⟨_, _, b, hb, _, _, hr⟩ := hr
      subst hr
      exact Store.tables_grow_refl h
    | WHILE i c l =>
      simp only [vala_code_generator_process_statement,
        vala_code_generator_process_while_statement,
        Emit.seq_eq, Emit.outcome_bind_eq_ok, Emit.outcome_pure, Outcome.ok.injEq] at hr
      obtain ⟨_, _, b, hb, _, _, l1, hl, hr⟩ := hr
      subst hr
      exact ih l h l1 hl
    | FOR i ini c it l =>
      simp only [vala_code_generator_process_statement,
        vala_code_generator_process_for_statement,
        Emit.seq_eq, Emit.outcome_bind_eq_ok, Emit.outcome_pure, Outcome.ok.injEq] at hr
      obtain ⟨_, _, _, _, _, _, _, _, _, _, _, _, _, _, l1, hl, hr⟩ := hr
      subst hr
      exact ih l h l1 hl
    | FOREACH i t n c l =>
      simp only [vala_code_generator_process_statement,
        vala_code_generator_process_foreach_statement,
        Emit.seq_eq, Emit.outcome_bind_eq_ok, Emit.outcome_pure, Emit.outcome_run,
        Outcome.ok.injEq] at hr
      obtain ⟨_, _, _, _, h1, hd, l1, hl, _, _, hr⟩ := hr
      subst hr
      exact Store.tables_grow_trans _ _ _ (declare_local_variable_grows g h h1 n t hd)
        (ih l h1 l1 hl)
    | IF i c t f =>
      cases f with
      | none =>
        simp only [vala_code_generator_process_statement,
          vala_code_generator_process_if_statement,
          Emit.seq_eq, Emit.outcome_bind_eq_ok, Emit.outcome_pure, Outcome.ok.injEq] at hr
        obtain ⟨_, _, _, _, _, _, t1, ht, hr⟩ := hr
        subst hr
        exact ih t h t1 ht
      | some f =>
        simp only [vala_code_generator_process_statement,
          vala_code_generator_process_if_statement,
          Emit.seq_eq, Emit.outcome_bind_eq_ok, Emit.outcome_pure, Outcome.ok.injEq] at hr
        obtain ⟨_, _, _, _, _, _, t1, ht, _, _, f1, hf, hr⟩ := hr
        subst hr
        exact Store.tables_grow_trans _ _ _ (ih t h t1 ht) (ih f t1.2 f1 hf)
    | RETURN i e =>
      simp only [vala_code_generator_process_statement,
        vala_code_generator_process_return_statement,
        Emit.seq_eq, Emit.outcome_bind_eq_ok, Emit.outcome_pure, Outcome.ok.injEq] at hr
      obtain ⟨_, _, _, _, _, _, hr⟩ := hr
      subst hr
      exact Store.tables_grow_refl h
    | VARIABLE_DECLARATION i d =>
      simp only [vala_code_generator_process_statement,
        vala_code_generator_process_variable_declaration,
        Emit.seq_eq, Emit.outcome_bind_eq_ok, Emit.outcome_pure, Emit.outcome_run,
        Outcome.ok.injEq] at hr
      obtain ⟨_, _, _, _, _, _, _, _, _, _, h1, hd, hr⟩ := hr
      subst hr
      exact declare_local_variable_grows g h h1 _ _ hd
    | OTHER i =>
      simp only [vala_code_generator_process_statement,
        Emit.seq_eq, Emit.outcome_bind_eq_ok, Emit.outcome_pure, Outcome.ok.injEq] at hr
      obtain ⟨_, _, hr⟩ := hr
      subst hr
      exact Store.tables_grow_refl h

/-! ## Claims on the scope of a body -/

/-- C38: the statement emitter uses one flat scope for a body. The generator, and with it
the scope symbol `sym`, is the same for a block and for every statement of the block: the
statement emitter hands a block to the block emitter, whose loop calls the statement emitter
of the same generator. Whenever the statement emitter returns, the symbol tables of the
store it leaves bind every name they bound before, so no entry is removed (a name declared
again is bound to the new variable). For the body `{ { int y; } return y; }` in the scope
symbol 19 of the sample store the emitter returns and writes the body, the `y` of the
`return` outside the nested block is resolved to the `int` of the declaration inside the
nested block, and the table of the scope symbol binds `y` to the new symbol 30 afterwards;
the statement `return y;` alone, in the same store, is an unresolved name. -/
theorem flat_scope (g : ValaCodeGenerator) (fuel depth : Nat) (i : StmtInfo)
    (ss : List ValaStatement) (stmt : ValaStatement) (h : Store) (r : ValaStatement × Store)
    (hr : (vala_code_generator_process_statement g fuel depth stmt h).outcome = .ok r) :
    vala_code_generator_process_statement g fuel (depth + 1) (.BLOCK i ss) h =
        vala_code_generator_process_block (vala_code_generator_process_statement g fuel depth)
          (.BLOCK i ss) h ∧
      h.tables_grow r.2 ∧
      (vala_code_generator_process_statement demo_generator 3 6 nested_body demo_store).c_text =
        "\x7b\n\x7b\n\tint y;\n\x7d\n\treturn y;\n\x7d\n" ∧
      (∃ (e : ValaExpression) (d : ValaStatement) (h1 : Store) (s : ValaSymbol),
        (vala_code_generator_process_statement demo_generator 3 6 nested_body
            demo_store).outcome = .ok (.BLOCK {} [.BLOCK {} [d], .RETURN {} (some e)], h1) ∧
          e.static_type_symbol = some 1 ∧ demo_generator.sym = some 19 ∧
          h1.symbol (some 19) = .ok s ∧ g_hash_table_lookup s.symbol_table "y" = some 30 ∧
          (h1.symbol (some 30)).bind (fun v => .ok v.typeref) =
            .ok (some { symbol := some 1, type_name := some "int" })) ∧
      (vala_code_generator_process_statement demo_generator 3 6
          (.RETURN {} (some (.SIMPLE_NAME {} "y"))) demo_store).outcome =
        .exit none (.UnresolvedSymbol "y") :=
  ⟨rfl, process_statement_grows g fuel depth stmt h r hr, rfl,
    ⟨_, _, _, _, rfl, rfl, rfl, rfl, rfl, rfl⟩, rfl⟩

/-- C38 on the body `{ { int y; } return y; }`: the emitter returns, and the tables of the
store it leaves bind every name the tables of the sample store bind. -/
theorem flat_scope_witness :
    ∃ r : ValaStatement × Store,
      (vala_code_generator_process_statement demo_generator 3 6 nested_body demo_store).outcome =
        .ok r ∧ demo_store.tables_grow r.2 := by
  have hok : (vala_code_generator_process_statement demo_generator 3 6 nested_body
      demo_store).outcome.is_ok = true := rfl
  obtain ⟨r, hr⟩ := (Outcome.is_ok_iff _).1 hok
  exact ⟨r, hr, (flat_scope demo_generator 3 6 {} [] nested_body demo_store r hr).2.1⟩

/-! ## Lemmas on the length of the walks up the base classes -/

/-- A dereference does not run out of fuel. -/
theorem Outcome.of_option_fuel {α : Type} (x : Option α) :
    Outcome.of_option x ≠ .out_of_fuel := by
  cases x <;> simp [Outcome.of_option]

/-- A sequence runs out of fuel only when one of its parts does. -/
theorem Outcome.bind_fuel {α β : Type} (x : Outcome α) (f : α → Outcome β)
    (hx : x ≠ .out_of_fuel) (hf : ∀ a, f a ≠ .out_of_fuel) : x.bind f ≠ .out_of_fuel := by
  cases x with
  | ok a => exact hf a
  | exit l d => simp [Outcome.bind]
  | fault => simp [Outcome.bind]
  | out_of_fuel => exact absurd rfl hx

/-- The test on the entry found does not run out of fuel. -/
theorem gim_returned_fuel (h : Store) (sym : Option SymPtr) :
    gim_returned h sym ≠ .out_of_fuel := by
  cases sym with
  | none => simp [gim_returned]
  | some p =>
    simp only [gim_returned]
    refine Outcome.bind_fuel _ _ (Outcome.of_option_fuel _) fun s => ?_
    split
    · exact Outcome.bind_fuel _ _ (Outcome.of_option_fuel _) fun m => by simp
    · simp

/-- The walk of `get_inherited_member` over a finite chain does not run out of a fuel of the
length of the chain, and more fuel does not change what it gives. -/
theorem gim_fuel (h : Store) (name : String) (location : Option ValaLocation) (b : Bool)
    (type : SymPtr) (chain : List SymPtr) (hc : ClassChain h type chain) :
    ∀ fuel, chain.length ≤ fuel →
      get_inherited_member h fuel type name location b ≠ .out_of_fuel ∧
      get_inherited_member h fuel type name location b =
        get_inherited_member h chain.length type name location b := by
  induction hc with
  | last type t ht hend =>
    intro fuel hf
    obtain ⟨k, rfl⟩ : ∃ k, fuel = k + 1 := ⟨fuel - 1, by simp at hf; omega⟩
    have hcont : ∀ n, gim_continue h n t name location b =
        if b then err location (.MemberNotFound name) else .ok none := by
      intro n
      rcases hend with hne | ⟨c, hc, hb⟩
      · simp [gim_continue, hne]
      · by_cases hcl : t.type = .CLASS
        · simp [gim_continue, hcl, hc, hb]
        · simp [gim_continue, hcl]
    simp only [List.length_singleton, Nat.zero_add, gim_unfold, ht, Outcome.ok_bind, hcont]
    refine ⟨Outcome.bind_fuel _ _ (gim_returned_fuel _ _) fun r => ?_, trivial⟩
    cases r <;> cases b <;> simp [err]
  | step type t c b2 bc rest ht hcl hc hb hbc hrest ih =>
    intro fuel hf
    obtain ⟨k, rfl⟩ : ∃ k, fuel = k + 1 := ⟨fuel - 1, by simp at hf; omega⟩
    have hk : rest.length ≤ k := by simpa using hf
    have hcont : ∀ n, gim_continue h n t name location b =
        get_inherited_member h n bc.symbol name location b := by
      intro n
      simp [gim_continue, hcl, hc, hb, hbc]
    simp only [List.length_cons, gim_unfold, ht, Outcome.ok_bind, hcont]
    rw [(ih k hk).2]
    refine ⟨Outcome.bind_fuel _ _ (gim_returned_fuel _ _) fun r => ?_, rfl⟩
    cases r
    · simpa using (ih rest.length (Nat.le_refl _)).1
    · simp

/-- The loop over the methods of an ancestor does not run out of fuel. -/
theorem overridable_method_loop_fuel (h : Store) (name : String) (l : List MethodPtr) :
    overridable_method_loop h name l ≠ .out_of_fuel := by
  induction l with
  | nil => simp [overridable_method_loop]
  | cons vp l ih =>
    simp only [overridable_method_loop, Outcome.bind_eq]
    refine Outcome.bind_fuel _ _ (Outcome.of_option_fuel _) fun m => ?_
    split
    · simp
    · exact ih

/-- The walk of the first pass over a finite chain does not run out of a fuel of the length
of the chain, and more fuel does not change what it gives. -/
theorem virtual_super_class_loop_fuel (h : Store) (name : String) (p : Option ClassPtr)
    (chain : List (ClassPtr × ValaClass)) (hchain : BaseClassChain h p chain) :
    ∀ fuel, chain.length ≤ fuel →
      virtual_super_class_loop h name fuel p ≠ .out_of_fuel ∧
      virtual_super_class_loop h name fuel p =
        virtual_super_class_loop h name chain.length p := by
  induction hchain with
  | root =>
    intro fuel _
    cases fuel <;> simp [virtual_super_class_loop]
  | step q c rest hc _ ih =>
    intro fuel hf
    obtain ⟨k, rfl⟩ : ∃ k, fuel = k + 1 := ⟨fuel - 1, by simp at hf; omega⟩
    have hk : rest.length ≤ k := by simpa using hf
    simp only [List.length_cons, virtual_super_class_loop, Outcome.bind_eq, hc,
      Outcome.ok_bind]
    rw [(ih k hk).2]
    refine ⟨Outcome.bind_fuel _ _ (overridable_method_loop_fuel _ _ _) fun r => ?_, rfl⟩
    cases r
    · simpa using (ih rest.length (Nat.le_refl _)).1
    · simp

/-- A symbol has one base-class chain. -/
theorem ClassChain.chain_unique (h : Store) (type : SymPtr) (c1 c2 : List SymPtr)
    (h1 : ClassChain h type c1) (h2 : ClassChain h type c2) : c1 = c2 := by
  induction h1 generalizing c2 with
  | last type t ht hend =>
    cases h2 with
    | last _ _ _ _ => rfl
    | step _ t2 c b bc rest ht2 hcl hc hb hbc hrest =>
      rw [ht] at ht2
      cases ht2
      rcases hend with hne | ⟨c0, hc0, hb0⟩
      · exact absurd hcl hne
      · rw [hc] at hc0
        cases hc0
        rw [hb] at hb0
        cases hb0
  | step type t c b bc rest ht hcl hc hb hbc hrest ih =>
    cases h2 with
    | last _ t2 ht2 hend =>
      rw [ht] at ht2
      cases ht2
      rcases hend with hne | ⟨c0, hc0, hb0⟩
      · exact absurd hcl hne
      · rw [hc] at hc0
        cases hc0
        rw [hb] at hb0
        cases hb0
    | step _ t2 c2 b2 bc2 rest2 ht2 hcl2 hc2 hb2 hbc2 hrest2 =>
      rw [ht] at ht2
      cases ht2
      rw [hc] at hc2
      cases hc2
      rw [hb] at hb2
      cases hb2
      rw [hbc] at hbc2
      cases hbc2
      rw [ih _ hrest2]

/-- Every symbol of a chain has a chain of its own, no longer than the chain. -/
theorem ClassChain.chain_of_mem (h : Store) (type : SymPtr) (chain : List SymPtr)
    (hc : ClassChain h type chain) :
    ∀ x ∈ chain, ∃ c, ClassChain h x c ∧ c.length ≤ chain.length := by
  induction hc with
  | last type t ht hend =>
    intro x hx
    simp only [List.mem_singleton] at hx
    subst hx
    exact ⟨[x], ClassChain.last x t ht hend, Nat.le_refl _⟩
  | step type t c b bc rest ht hcl hc hb hbc hrest ih =>
    intro x hx
    rcases List.mem_cons.1 hx with rfl | hx
    · exact ⟨x :: rest, ClassChain.step x t c b bc rest ht hcl hc hb hbc hrest, Nat.le_refl _⟩
    · obtain ⟨c', hc', hl⟩ := ih x hx
      exact ⟨c', hc', Nat.le_trans hl (by simp)⟩

/-- A finite base-class chain has no cycle: no symbol is twice in it. -/
theorem ClassChain.chain_nodup (h : Store) (type : SymPtr) (chain : List SymPtr)
    (hc : ClassChain h type chain) : chain.Nodup := by
  induction hc with
  | last type t ht hend => simp
  | step type t c b bc rest ht hcl hc hb hbc hrest ih =>
    refine List.nodup_cons.2 ⟨fun hx => ?_, ih⟩
    obtain ⟨c', hc', hl⟩ := ClassChain.chain_of_mem h bc.symbol rest hrest type hx
    have := ClassChain.chain_unique h type _ _ hc'
      (ClassChain.step type t c b bc rest ht hcl hc hb hbc hrest)
    rw [this] at hl
    simp at hl

/-- A class pointer has one chain of classes. -/
theorem BaseClassChain.ancestors_unique (h : Store) (p : Option ClassPtr)
    (c1 c2 : List (ClassPtr × ValaClass))
    (h1 : BaseClassChain h p c1) (h2 : BaseClassChain h p c2) : c1 = c2 := by
  induction h1 generalizing c2 with
  | root => cases h2; rfl
  | step q c rest hc hrest ih =>
    cases h2 with
    | step _ c' rest' hc' hrest' =>
      rw [hc] at hc'
      cases hc'
      rw [ih _ hrest']

/-- Every class of a chain has a chain of its own, no longer than the chain. -/
theorem BaseClassChain.ancestors_of_mem (h : Store) (p : Option ClassPtr)
    (chain : List (ClassPtr × ValaClass)) (hc : BaseClassChain h p chain) :
    ∀ x ∈ chain, ∃ c, BaseClassChain h (some x.1) c ∧ c.length ≤ chain.length := by
  induction hc with
  | root =>
    intro x hx
    cases hx
  | step q c rest hc hrest ih =>
    intro x hx
    rcases List.mem_cons.1 hx with rfl | hx
    · exact ⟨(q, c) :: rest, BaseClassChain.step q c rest hc hrest, Nat.le_refl _⟩
    · obtain ⟨c', hc', hl⟩ := ih x hx
      exact ⟨c', hc', Nat.le_trans hl (by simp)⟩

/-- A finite chain of classes has no cycle: no class is twice in it. -/
theorem BaseClassChain.ancestors_nodup (h : Store) (p : Option ClassPtr)
    (chain : List (ClassPtr × ValaClass)) (hc : BaseClassChain h p chain) :
    (chain.map Prod.fst).Nodup := by
  induction hc with
  | root => simp
  | step q c rest hc hrest ih =>
    refine List.nodup_cons.2 ⟨fun hx => ?_, ih⟩
    obtain ⟨x, hx, hq⟩ := List.mem_map.1 hx
    obtain ⟨c', hc', hl⟩ := BaseClassChain.ancestors_of_mem h c.base_class rest hrest x hx
    rw [hq] at hc'
    have := BaseClassChain.ancestors_unique h (some q) _ _ hc'
      (BaseClassChain.step q c rest hc hrest)
    rw [this] at hl
    simp at hl

/-- The instance parameter of a method of a class with a finite chain of base classes does
not run out of a fuel of the length of the chain. -/
theorem methods1_instance_parameter_fuel (h : Store) (fuel : Nat) (class_ : ValaClass)
    (method : ValaMethod) (chain : List (ClassPtr × ValaClass))
    (hchain : BaseClassChain h class_.base_class chain) (hf : chain.length ≤ fuel) :
    methods1_instance_parameter h fuel class_ method ≠ .out_of_fuel := by
  simp only [methods1_instance_parameter, Outcome.bind_eq]
  split
  · split
    · refine Outcome.bind_fuel _ _
        (virtual_super_class_loop_fuel h method.name _ chain hchain fuel hf).1 fun s => ?_
      split
      · simp [err]
      · exact Outcome.bind_fuel _ _ (Outcome.of_option_fuel _) fun v => by simp
    · simp
  · simp

/-- The walk of the first pass over a finite chain of classes whose methods are in the store
returns. -/
theorem virtual_super_class_loop_returns (h : Store) (name : String) (p : Option ClassPtr)
    (chain : List (ClassPtr × ValaClass)) (hchain : BaseClassChain h p chain) :
    ∀ fuel, chain.length ≤ fuel →
      (∀ a ∈ chain, ∀ vp ∈ a.2.methods, (h.method (some vp)).is_ok = true) →
      ∃ r, virtual_super_class_loop h name fuel p = .ok r := by
  induction hchain with
  | root =>
    intro fuel _ _
    cases fuel <;> exact ⟨none, rfl⟩
  | step q c rest hc _ ih =>
    intro fuel hf hm
    obtain ⟨k, rfl⟩ : ∃ k, fuel = k + 1 := ⟨fuel - 1, by simp at hf; omega⟩
    obtain ⟨b, hb, -⟩ := overridable_method_loop_ok h name c.methods
      (hm (q, c) (List.mem_cons_self _ _))
    simp only [virtual_super_class_loop, Outcome.bind_eq, hc, Outcome.ok_bind, hb]
    cases b
    · simpa using ih k (by simpa using hf) (fun a ha => hm a (List.mem_cons_of_mem _ ha))
    · exact ⟨some q, rfl⟩

/-! ## Claims on the termination of the walks up the base classes -/

/-- C40: `get_inherited_member` and the walk of the first pass over the ancestors of the
class of an Override method terminate when the chain of base classes is finite. One unit of
fuel is spent for each class examined. For a type symbol with the finite chain `chain`, no
symbol is twice in the chain, and with a fuel of at least the length of the chain
`get_inherited_member` does not run out of fuel and gives what it gives with a fuel of
exactly that length, so it examines each class of the chain at most once; in a well-formed
store it returns, or reports MemberNotFound. For a class with the finite chain of ancestors
`ancestors`, no class is twice in the chain, and with a fuel of at least its length the walk
of the first pass does not run out of fuel, gives what it gives with a fuel of exactly that
length, and neither does the computation of the instance parameter of a method of the class
run out of fuel; when the methods of the ancestors are in the store the walk returns. -/
theorem walks_terminate (h : Store) (type : SymPtr) (chain : List SymPtr)
    (hc : ClassChain h type chain) (class_ : ValaClass) (method : ValaMethod)
    (ancestors : List (ClassPtr × ValaClass))
    (ha : BaseClassChain h class_.base_class ancestors) (fuel : Nat) (name : String)
    (location : Option ValaLocation) (break_on_failure : Bool) :
    chain.Nodup ∧ (ancestors.map Prod.fst).Nodup ∧
      (chain.length ≤ fuel →
        get_inherited_member h fuel type name location break_on_failure ≠ .out_of_fuel ∧
        get_inherited_member h fuel type name location break_on_failure =
          get_inherited_member h chain.length type name location break_on_failure ∧
        (h.well_formed = true →
          (∃ r, get_inherited_member h fuel type name location break_on_failure = .ok r) ∨
          get_inherited_member h fuel type name location break_on_failure =
            .exit location (.MemberNotFound name))) ∧
      (ancestors.length ≤ fuel →
        virtual_super_class_loop h name fuel class_.base_class ≠ .out_of_fuel ∧
        virtual_super_class_loop h name fuel class_.base_class =
          virtual_super_class_loop h name ancestors.length class_.base_class ∧
        methods1_instance_parameter h fuel class_ method ≠ .out_of_fuel ∧
        ((∀ a ∈ ancestors, ∀ vp ∈ a.2.methods, (h.method (some vp)).is_ok = true) →
          ∃ r, virtual_super_class_loop h name fuel class_.base_class = .ok r)) := by
  refine ⟨ClassChain.chain_nodup h type chain hc, BaseClassChain.ancestors_nodup h _ ancestors ha,
    fun hf => ?_, fun hf => ?_⟩
  · have hk := gim_fuel h name location break_on_failure type chain hc fuel hf
    refine ⟨hk.1, hk.2, fun hwf => ?_⟩
    rw [gim_chain h hwf name location break_on_failure type chain hc fuel hf]
    cases h.nearest_member name chain with
    | some p => exact Or.inl ⟨some p, rfl⟩
    | none =>
      cases break_on_failure
      · exact Or.inl ⟨none, rfl⟩
      · exact Or.inr rfl
  · have hk := virtual_super_class_loop_fuel h name _ ancestors ha fuel hf
    exact ⟨hk.1, hk.2, methods1_instance_parameter_fuel h fuel class_ method ancestors ha hf,
      virtual_super_class_loop_returns h name _ ancestors ha fuel hf⟩

/-- C40 in the sample program: the lookup of `f` from `Derived`, whose chain is `Derived`,
`Base`, ends with a fuel of 2, and the walk over the ancestors of `Derived`, the one class
`Base`, ends with a fuel of 1. -/
theorem walks_terminate_witness :
    get_inherited_member (sample_store []) 2 6 "f" none true ≠ .out_of_fuel ∧
      virtual_super_class_loop (sample_store []) "f" 1 (some 0) ≠ .out_of_fuel :=
  ⟨((walks_terminate (sample_store []) 6 [6, 5] (sample_chain [])
      { name := "Derived", symbol := 6, namespace_ := 0, base_class := some 0 }
      { name := "f", modifiers := { OVERRIDE := true } } [(0, _)]
      (BaseClassChain.step 0 _ [] rfl BaseClassChain.root) 2 "f" none true).2.2.1
        (by decide)).1,
    ((walks_terminate (sample_store []) 6 [6, 5] (sample_chain [])
      { name := "Derived", symbol := 6, namespace_ := 0, base_class := some 0 }
      { name := "f", modifiers := { OVERRIDE := true } } [(0, _)]
      (BaseClassChain.step 0 _ [] rfl BaseClassChain.root) 1 "f" none true).2.2.2
        (by decide)).1⟩

end Vala
